import Mathlib

/-!
# helm-optimize-resources: recommendation resolution

A shallow embedding of the Go sources of the `helm optimize` plugin
(`helm-optimize-resources.go`, `densify/densify.go`, `ssm/ssm.go`,
`support/support.go`, `support/densify/densify.go`) and theorems about the
recommendation resolution pipeline, the approval flow and the adapter
initialization.

Conventions of the embedding

* A Go map is an association list; the value of a key is its first binding.
  A nil map is `none` where the code can tell nil from empty (the
  `map[string]map[string]string` specs), and the empty list elsewhere.
* A Go `error` is `Option String`: `none` is `nil`, `some msg` is an error
  with that message.
* Package-level variables live in `State`, together with the trace of the
  external calls made so far (HTTP requests, executed commands, lines read
  from standard input).  Console output is not modelled.
* The outside world is a `World`: it answers each external call, given the
  calls made before it, and supplies the JSON/YAML codec and the `float64`
  primitives of the Go standard library.
* A run either returns (`Exec.ret`) or aborts on a run-time panic
  (`Exec.panic`): a failed type assertion, an assignment into a nil map.
* A loop that waits for the user runs on fuel: `none` means that it has not
  ended within the given number of rounds.
-/

namespace HelmOptimize

/-! ## Data model -/

/-- Decoded JSON or YAML value: what `json.Unmarshal` stores in an
`interface{}`.  `F` is the carrier of `float64`. -/
inductive JVal (F : Type) where
  | null
  | bool (b : Bool)
  | num (x : F)
  | str (s : String)
  | arr (xs : List (JVal F))
  | obj (kvs : List (String × JVal F))

/-- Go map with string keys, as an association list. -/
abbrev GoMap (α : Type) := List (String × α)

/-- Go `error` value. -/
abbrev GoError := Option String

/-- Non-nil `map[string]string`. -/
abbrev StrMap := GoMap String

/-- Non-nil `map[string]map[string]string`; an inner `none` is a nil inner map. -/
abbrev ResourceSpec := GoMap (Option StrMap)

/-- Map index `m[k]` with the comma-ok result. -/
def mapLookup {α : Type} (m : GoMap α) (k : String) : Option α :=
  match m with
  | [] => none
  | (k', v) :: rest => if k' = k then some v else mapLookup rest k

/-- Map assignment `m[k] = v` on a non-nil map. -/
def mapSet {α : Type} (m : GoMap α) (k : String) (v : α) : GoMap α :=
  match m with
  | [] => [(k, v)]
  | (k', v') :: rest => if k' = k then (k, v) :: rest else (k', v') :: mapSet rest k v

/-- Index `spec[k]` of a possibly nil `map[string]map[string]string`. -/
def specGet (spec : Option ResourceSpec) (k : String) : Option StrMap :=
  match spec with
  | none => none
  | some m => (mapLookup m k).join

/-- Index `inner[k]` of a possibly nil `map[string]string`: the zero value
`""` when the map is nil or the key is absent. -/
def strGet (inner : Option StrMap) (k : String) : String :=
  match inner with
  | none => ""
  | some m => (mapLookup m k).getD ""

/-- Leaf read `spec[k1][k2]`. -/
def specLeaf (spec : Option ResourceSpec) (k1 k2 : String) : String :=
  strGet (specGet spec k1) k2

/-- Leaf assignment `spec[k1][k2] = v`; `none` when `spec[k1]` is a nil map
(Go panics: assignment to entry in nil map). -/
def specSetLeaf (spec : Option ResourceSpec) (k1 k2 v : String) : Option (Option ResourceSpec) :=
  match spec with
  | none => none
  | some m =>
    match mapLookup m k1 with
    | some (some inner) => some (some (mapSet m k1 (some (mapSet inner k2 v))))
    | _ => none

/-- A spec stored in an `interface{}` slot (`container["resources"] = insight`). -/
def specToJVal {F : Type} (spec : Option ResourceSpec) : JVal F :=
  match spec with
  | none => .null
  | some m => .obj (m.map fun kv =>
      (kv.1, match kv.2 with
        | none => JVal.null
        | some inner => JVal.obj (inner.map fun e => (e.1, JVal.str e.2))))

/-! ## External world, program state, runs -/

/-- An external call made by the program. -/
inductive Call where
  | http (method endpoint authStr : String) (body : Option String)
  | exec (command : List String)
  | scanln
  deriving DecidableEq, Repr

/-- Answer of the network to `support.HTTPRequest`. -/
inductive HttpAnswer where
  /-- status 200 with this body -/
  | ok (body : String)
  /-- transport failure, or a status other than 200 -/
  | failed (msg : String)
  /-- `http.NewRequest` rejected the method or URL: the nil request is dereferenced -/
  | badRequest
  deriving DecidableEq, Repr

/-- The outside world and the standard-library primitives the code relies on. -/
structure World (F : Type) where
  /-- answer to an HTTP request, given the calls made so far -/
  httpDo : List Call → String → String → String → Option String → HttpAnswer
  /-- standard output, standard error and exit error of a command, given the calls made so far -/
  execRun : List Call → List String → String × String × GoError
  /-- line typed by the user at a `fmt.Scanln`, given the calls made so far -/
  readLine : List Call → String := fun _ => ""
  /-- syntax phase of `json.Unmarshal`: `none` for text that is not JSON -/
  jsonParse : String → Option (JVal F)
  /-- syntax phase of `yaml.Unmarshal` -/
  yamlParse : String → Option (JVal F) := fun _ => none
  /-- encoder `json.Marshal` on a `map[string]map[string]string`; it cannot fail -/
  marshalSpec : Option (GoMap (Option (GoMap String))) → String := fun _ => ""
  /-- comparison `x > 0` on `float64` -/
  gtZero : F → Bool
  /-- conversion `strconv.FormatFloat(x, 'f', -1, 64)` -/
  formatFloat : F → String
  /-- conversion `strconv.FormatFloat(x, 'E', -1, 64)` -/
  formatFloatE : F → String

/-- Package-level variables of the program and the trace of external calls. -/
structure State where
  trace : List Call := []
  /-- main: `adapter` -/
  adapter : String := ""
  /-- main: `remoteCluster` -/
  remoteCluster : String := ""
  /-- main: `namespace` -/
  nspace : String := ""
  /-- main: `KubectlBin` -/
  KubectlBin : String := "kubectl"
  /-- densify: `densifyURL` -/
  densifyURL : String := ""
  /-- densify: `densifyUser` -/
  densifyUser : String := ""
  /-- densify: `densifyPass` -/
  densifyPass : String := ""
  /-- densify: `analysisId` -/
  analysisId : String := ""
  /-- ssm: `prefix` -/
  ssmPrefix : String := ""
  /-- ssm: `profile` -/
  profile : String := ""
  /-- ssm: `region` -/
  region : String := ""
  deriving DecidableEq, Repr

/-- Outcome of running a function from a state. -/
inductive Exec (α : Type) where
  /-- the function returned `a`, leaving state `s` -/
  | ret (a : α) (s : State)
  /-- the program aborted on a run-time panic in state `s` -/
  | panic (s : State)

/-- Calls made between a start state and an end state. -/
def newCalls (s s1 : State) : List Call := s1.trace.drop s.trace.length

/-- End state of a run. -/
def Exec.final {α : Type} : Exec α → State
  | .ret _ s => s
  | .panic s => s

variable {F : Type}

/-! ## package support -/

namespace support

/-- Function `support.HTTPRequest`. -/
def HTTPRequest (w : World F) (method endpoint authStr : String) (body : Option String)
    (s : State) : Exec (String × GoError) :=
  let s1 := { s with trace := s.trace ++ [Call.http method endpoint authStr body] }
  match w.httpDo s.trace method endpoint authStr body with
  | .ok resp => .ret (resp, none) s1
  | .failed msg => .ret ("", some msg) s1
  | .badRequest => .panic s

/-- Function `support.ExecuteSingleCommand`. -/
def ExecuteSingleCommand (w : World F) (command : List String) (s : State) :
    (String × String × GoError) × State :=
  match command with
  | [] => (("", "", some "no command submitted"), s)
  | _ :: _ => (w.execRun s.trace command, { s with trace := s.trace ++ [Call.exec command] })

/-- Function `support.InMap`. -/
def InMap (inputMap : GoMap (JVal F)) (keys : List String) : Bool :=
  match keys with
  | [] => true
  | key :: rest =>
    match mapLookup inputMap key with
    | none => false
    | some _ => InMap inputMap rest

/-- Function `support.CheckMap`; `none` when a type assertion panics. -/
def CheckMap (inputMap : GoMap (JVal F)) (list : List String) : Option String :=
  match list with
  | [] => some ""
  | key :: rest =>
    match mapLookup inputMap key with
    | none => some ""
    | some v =>
      match rest with
      | [] =>
        match v with
        | .str str => some str
        | _ => none
      | _ :: _ =>
        match v with
        | .obj inner => CheckMap inner rest
        | _ => none

end support

/-! ## Typed decoding (`json.Unmarshal` into a typed target)

A value of the wrong JSON type leaves the zero value of the target and the
decoding error is dropped by every caller in this repository. -/

/-- Decoding into `[]interface{}`. -/
def decodeSlice (v : Option (JVal F)) : List (JVal F) :=
  match v with
  | some (.arr xs) => xs
  | _ => []

/-- Decoding into `map[string]interface{}` (nil reads as empty). -/
def decodeMap (v : Option (JVal F)) : GoMap (JVal F) :=
  match v with
  | some (.obj m) => m
  | _ => []

/-- Decoding into `[]map[string]interface{}`. -/
def decodeSliceOfMaps (v : Option (JVal F)) : List (GoMap (JVal F)) :=
  match v with
  | some (.arr xs) => xs.map fun x => decodeMap (some x)
  | _ => []

/-- Decoding one value into `string`. -/
def decodeString (v : JVal F) : String :=
  match v with
  | .str s => s
  | _ => ""

/-- Decoding one value into `map[string]string`. -/
def decodeStrMap (v : JVal F) : Option StrMap :=
  match v with
  | .obj m => some (m.map fun kv => (kv.1, decodeString kv.2))
  | _ => none

/-- Decoding into `map[string]map[string]string`. -/
def decodeSpec (v : Option (JVal F)) : Option ResourceSpec :=
  match v with
  | some (.obj m) => some (m.map fun kv => (kv.1, decodeStrMap kv.2))
  | _ => none

/-! ## package densify -/

namespace densify

/-- Constant `analysisEP`. -/
def analysisEP : String := "/CIRBA/api/v2/analysis/containers/kubernetes"

/-- Constant `systemsEP`. -/
def systemsEP : String := "/CIRBA/api/v2/systems"

/-- Loop of `lookupInsight` over the analyses: the `analysisId` of the first
analysis whose `analysisName` equals `cluster`.  `none`: a type assertion
panicked; `some none`: no analysis has that name. -/
def lookupInsight_find (analyses : List (JVal F)) (cluster : String) : Option (Option String) :=
  match analyses with
  | [] => some none
  | analysis :: rest =>
    match analysis with
    | .obj m =>
      match mapLookup m "analysisName" with
      | some (.str name) =>
        if name = cluster then
          match mapLookup m "analysisId" with
          | some (.str id) => some (some id)
          | _ => none
        else lookupInsight_find rest cluster
      | _ => none
    | _ => none

/-- First block of `lookupInsight`: `if analysisId == "" { ... }`.  The
result is the error of the early return, or `none` when execution goes on. -/
def lookupInsight_locate (w : World F) (cluster : String) (s : State) : Exec GoError :=
  if s.analysisId = "" then
    match support.HTTPRequest w "GET" (s.densifyURL ++ analysisEP)
        (s.densifyUser ++ ":" ++ s.densifyPass) none s with
    | .panic s1 => .panic s1
    | .ret (_, some _) s1 => .ret (some "unable to load analysis") s1
    | .ret (resp, none) s1 =>
      match lookupInsight_find (decodeSlice (w.jsonParse resp)) cluster with
      | none => .panic s1
      | some none => .ret (some "unable to load analysis") s1
      | some (some id) => .ret none { s1 with analysisId := id }
  else .ret none s

/-- Function `densify.lookupInsight`. -/
def lookupInsight (w : World F) (cluster nspace objType objName containerName : String)
    (s : State) : Exec (GoMap (JVal F) × GoError) :=
  match lookupInsight_locate w cluster s with
  | .panic s1 => .panic s1
  | .ret (some e) s1 => .ret ([], some e) s1
  | .ret none s1 =>
    match support.HTTPRequest w "GET"
        (s1.densifyURL ++ analysisEP ++ "/" ++ s1.analysisId ++ "/results?cluster=" ++ cluster
          ++ "&namespace=" ++ nspace ++ "&container=" ++ containerName
          ++ "&podService=" ++ objName ++ "&controllerType=" ++ objType)
        (s1.densifyUser ++ ":" ++ s1.densifyPass) none s1 with
    | .panic s2 => .panic s2
    | .ret (_, some e) s2 => .ret ([], some e) s2
    | .ret (resp, none) s2 =>
      match decodeSliceOfMaps (w.jsonParse resp) with
      | [insight] => .ret (insight, none) s2
      | _ => .ret ([], some "unable to locate insight") s2

/-- Loop of `getAttribute` over the attributes.  `none`: a type assertion
panicked; `some none`: no attribute has the identifier. -/
def getAttribute_find (vals : List (JVal F)) (attrID : String) : Option (Option String) :=
  match vals with
  | [] => some none
  | val :: rest =>
    match val with
    | .obj m =>
      match mapLookup m "id" with
      | some (.str id) =>
        if id = attrID then
          match mapLookup m "value" with
          | some (.str v) => some (some v)
          | _ => none
        else getAttribute_find rest attrID
      | _ => getAttribute_find rest attrID
    | _ => none

/-- Function `densify.getAttribute`. -/
def getAttribute (w : World F) (entityID attrID : String) (s : State) :
    Exec (String × GoError) :=
  match support.HTTPRequest w "GET" (s.densifyURL ++ systemsEP ++ "/" ++ entityID)
      (s.densifyUser ++ ":" ++ s.densifyPass) none s with
  | .panic s1 => .panic s1
  | .ret (_, some _) s1 => .ret ("", some ("error locating attribute[" ++ attrID ++ "]")) s1
  | .ret (resp, none) s1 =>
    match mapLookup (decodeMap (w.jsonParse resp)) "attributes" with
    | some (.arr vals) =>
      match getAttribute_find vals attrID with
      | none => .panic s1
      | some (some v) => .ret (v, none) s1
      | some none => .ret ("", some ("error locating attribute[" ++ attrID ++ "]")) s1
    | _ => .panic s1

/-- Conjunct `insight[key].(float64) > 0`; `none` when the type assertion panics. -/
def fieldPositive (w : World F) (insight : GoMap (JVal F)) (key : String) : Option Bool :=
  match mapLookup insight key with
  | some (.num x) => some (w.gtZero x)
  | _ => none

/-- Chain `insight[k1].(float64) > 0 && insight[k2].(float64) > 0 && ...`,
evaluated left to right with short circuit. -/
def allPositive (w : World F) (insight : GoMap (JVal F)) (keys : List String) : Option Bool :=
  match keys with
  | [] => some true
  | key :: rest =>
    match fieldPositive w insight key with
    | none => none
    | some false => some false
    | some true => allPositive w insight rest

/-- Condition `support.InMap(insight, keys) && insight[k1].(float64) > 0 && ...`. -/
def quadrupleValid (w : World F) (insight : GoMap (JVal F)) (keys : List String) : Option Bool :=
  if support.InMap insight keys then allPositive w insight keys else some false

/-- Expression `strconv.FormatFloat(insight[key].(float64), 'f', -1, 64) + suffix`. -/
def fieldText (w : World F) (insight : GoMap (JVal F)) (key suffix : String) : Option String :=
  match mapLookup insight key with
  | some (.num x) => some (w.formatFloat x ++ suffix)
  | _ => none

/-- The four assignments of a branch of `GetInsight` into the fresh
`insightObj`; `none` when one of them panics. -/
def GetInsight_fill (w : World F) (insight : GoMap (JVal F))
    (cpuLimit memLimit cpuRequest memRequest : String) : Option (Option ResourceSpec) :=
  let insightObj : Option ResourceSpec := some (mapSet (mapSet [] "limits" (some [])) "requests" (some []))
  match fieldText w insight cpuLimit "m", fieldText w insight memLimit "Mi",
      fieldText w insight cpuRequest "m", fieldText w insight memRequest "Mi" with
  | some a, some b, some c, some d =>
    match specSetLeaf insightObj "limits" "cpu" a with
    | none => none
    | some o1 =>
      match specSetLeaf o1 "limits" "memory" b with
      | none => none
      | some o2 =>
        match specSetLeaf o2 "requests" "cpu" c with
        | none => none
        | some o3 => specSetLeaf o3 "requests" "memory" d
  | _, _, _, _ => none

/-- The `if / else if / else` of `GetInsight`, once `approvalSetting` is known. -/
def GetInsight_select (w : World F) (insight : GoMap (JVal F)) (approvalSetting : String)
    (s : State) : Exec (Option ResourceSpec × String × GoError) :=
  match (if approvalSetting ≠ "Not Approved" then
      quadrupleValid w insight
        ["recommendedCpuLimit", "recommendedMemLimit", "recommendedCpuRequest", "recommendedMemRequest"]
    else some false) with
  | none => .panic s
  | some true =>
    match GetInsight_fill w insight
        "recommendedCpuLimit" "recommendedMemLimit" "recommendedCpuRequest" "recommendedMemRequest" with
    | none => .panic s
    | some insightObj => .ret (insightObj, "Approved", none) s
  | some false =>
    match (if approvalSetting = "Not Approved" then
        quadrupleValid w insight
          ["currentCpuLimit", "currentMemLimit", "currentCpuRequest", "currentMemRequest"]
      else some false) with
    | none => .panic s
    | some true =>
      match GetInsight_fill w insight
          "currentCpuLimit" "currentMemLimit" "currentCpuRequest" "currentMemRequest" with
      | none => .panic s
      | some insightObj => .ret (insightObj, approvalSetting, none) s
    | some false => .ret (none, "", some "invalid resource specs received from repository") s

/-- Function `densify.GetInsight`. -/
def GetInsight (w : World F) (cluster nspace objType objName containerName : String)
    (s : State) : Exec (Option ResourceSpec × String × GoError) :=
  match lookupInsight w cluster nspace objType objName containerName s with
  | .panic s1 => .panic s1
  | .ret (_, some _) s1 => .ret (none, "", some "unable to locate resource spec") s1
  | .ret (insight, none) s1 =>
    match mapLookup insight "entityId" with
    | some (.str entityId) =>
      match getAttribute w entityId "attr_ApprovalSetting" s1 with
      | .panic s2 => .panic s2
      | .ret (_, some _) s2 => GetInsight_select w insight "Not Approved" s2
      | .ret (approvalSetting, none) s2 => GetInsight_select w insight approvalSetting s2
    | _ => .panic s1

end densify

/-! ## package strconv (Go standard library) -/

namespace strconv

/-- Value of a run of decimal digits, most significant first; `none` when a
character is not one of `0` to `9`. -/
def digitsValue (cs : List Char) (acc : Nat) : Option Nat :=
  match cs with
  | [] => some acc
  | c :: rest => if c.isDigit then digitsValue rest (acc * 10 + (c.toNat - 48)) else none

/-- Digits of `Atoi` after the optional sign: at least one digit, and the
signed value must fit the 64-bit `int`. -/
def atoiBody (cs : List Char) (neg : Bool) : Option Int :=
  match cs with
  | [] => none
  | _ :: _ =>
    match digitsValue cs 0 with
    | none => none
    | some n =>
      if neg then (if n ≤ 2 ^ 63 then some (-(n : Int)) else none)
      else (if n < 2 ^ 63 then some (n : Int) else none)

/-- Function `strconv.Atoi` (64-bit `int`): `none` when it returns an error. -/
def Atoi (s : String) : Option Int :=
  match s.data with
  | [] => none
  | '-' :: rest => atoiBody rest true
  | '+' :: rest => atoiBody rest false
  | c :: rest => atoiBody (c :: rest) false

end strconv

/-! ## package ssm -/

namespace ssm

/-- Decoding into `map[string]map[string]interface{}` (nil reads as empty). -/
def decodeMapOfMaps (v : Option (JVal F)) : GoMap (GoMap (JVal F)) :=
  match v with
  | some (.obj m) => m.map fun kv => (kv.1, decodeMap (some kv.2))
  | _ => []

/-- Decoding into `[]map[string]string`. -/
def decodeSliceOfStrMaps (v : Option (JVal F)) : List (Option StrMap) :=
  match v with
  | some (.arr xs) => xs.map decodeStrMap
  | _ => []

/-- Function `ssm.getParameterValue`. -/
def getParameterValue (w : World F) (ssmKey : String) (s : State) :
    Exec (String × String × GoError) :=
  match support.ExecuteSingleCommand w
      ["aws", "ssm", "get-parameter", "--with-decryption", "--name", ssmKey,
        "--profile", s.profile, "--region", s.region] s with
  | ((_, _, some _), s1) => .ret ("", "", some "could not locate resource spec") s1
  | ((insight, _, none), s1) =>
    let parameter := (mapLookup (decodeMapOfMaps (w.jsonParse insight)) "Parameter").getD []
    match mapLookup parameter "Value", mapLookup parameter "Version" with
    | some (.str value), some (.num version) => .ret (value, w.formatFloatE version, none) s1
    | _, _ => .panic s1

/-- Loop of `getParameterLabel` over the parameter history.  `none`: a type
assertion panicked; `some none`: the loop ended without returning. -/
def getParameterLabel_find (w : World F) (history : List (GoMap (JVal F))) (version : String) :
    Option (Option String) :=
  match history with
  | [] => some none
  | val :: rest =>
    match mapLookup val "Version" with
    | some (.num v) =>
      if w.formatFloatE v = version then
        match mapLookup val "Labels" with
        | some (.arr [label]) =>
          match label with
          | .str l =>
            if l = "NotApproved" then some (some "Not Approved")
            else if l = "Approved" then some (some "Approved")
            else getParameterLabel_find w rest version
          | _ => none
        | some (.arr _) => getParameterLabel_find w rest version
        | _ => none
      else getParameterLabel_find w rest version
    | _ => none

/-- Function `ssm.getParameterLabel`. -/
def getParameterLabel (w : World F) (ssmKey version : String) (s : State) :
    Exec (String × GoError) :=
  match support.ExecuteSingleCommand w
      ["aws", "ssm", "get-parameter-history", "--with-decryption", "--name", ssmKey,
        "--profile", s.profile, "--region", s.region, "--query", "Parameters"] s with
  | ((_, _, some _), s1) => .ret ("", some "unable to read approval setting") s1
  | ((paramHistory, _, none), s1) =>
    match getParameterLabel_find w (decodeSliceOfMaps (w.jsonParse paramHistory)) version with
    | none => .panic s1
    | some (some label) => .ret (label, none) s1
    | some none => .ret ("", some "unable to read parameter label") s1

/-- One validation of `GetInsight`: `strconv.Atoi(leaf)` fails or gives a value below 1. -/
def leafInvalid (leaf : String) : Bool :=
  match strconv.Atoi leaf with
  | none => true
  | some n => decide (n < 1)

/-- The four suffixing assignments of `GetInsight`; `none` when one of them
writes into a nil map. -/
def GetInsight_suffix (parsedInsight : Option ResourceSpec) : Option (Option ResourceSpec) :=
  match specSetLeaf parsedInsight "limits" "cpu" (specLeaf parsedInsight "limits" "cpu" ++ "m") with
  | none => none
  | some p1 =>
    match specSetLeaf p1 "limits" "memory" (specLeaf p1 "limits" "memory" ++ "Mi") with
    | none => none
    | some p2 =>
      match specSetLeaf p2 "requests" "cpu" (specLeaf p2 "requests" "cpu" ++ "m") with
      | none => none
      | some p3 => specSetLeaf p3 "requests" "memory" (specLeaf p3 "requests" "memory" ++ "Mi")

/-- Function `ssm.GetInsight`. -/
def GetInsight (w : World F) (cluster nspace objType objName containerName : String)
    (s : State) : Exec (Option ResourceSpec × String × GoError) :=
  let ssmKey := s.ssmPrefix ++ "/" ++ cluster ++ "/" ++ nspace ++ "/" ++ objType ++ "/" ++ objName
    ++ "/" ++ containerName ++ "/resourceSpec"
  match getParameterValue w ssmKey s with
  | .panic s1 => .panic s1
  | .ret (_, _, some _) s1 => .ret (none, "", some "could not locate resource spec") s1
  | .ret (insight, insightVersion, none) s1 =>
    let parsedInsight := decodeSpec (w.jsonParse insight)
    if leafInvalid (specLeaf parsedInsight "limits" "cpu") then
      .ret (none, "", some "invalid resource specs received from repository") s1
    else if leafInvalid (specLeaf parsedInsight "limits" "memory") then
      .ret (none, "", some "invalid resource specs received from repository") s1
    else if leafInvalid (specLeaf parsedInsight "requests" "cpu") then
      .ret (none, "", some "invalid resource specs received from repository") s1
    else if leafInvalid (specLeaf parsedInsight "requests" "memory") then
      .ret (none, "", some "invalid resource specs received from repository") s1
    else
      match GetInsight_suffix parsedInsight with
      | none => .panic s1
      | some suffixed =>
        match getParameterLabel w ssmKey insightVersion s1 with
        | .panic s2 => .panic s2
        | .ret (_, some _) s2 => .ret (none, "", some "unable to read approval setting") s2
        | .ret (approvalSetting, none) s2 => .ret (suffixed, approvalSetting, none) s2

/-- Body of the loop of `UpdateApprovalSetting` over the tags: the chain of
`if val["Key"] == ...` on one tag.  `none` when an assignment panics. -/
def UpdateApprovalSetting_tag (val : Option StrMap)
    (settings : Option ResourceSpec × Option ResourceSpec) :
    Option (Option ResourceSpec × Option ResourceSpec) :=
  let currentSettings := settings.1
  let recommendedSettings := settings.2
  if strGet val "Key" = "currentCpuLimit" then
    (specSetLeaf currentSettings "limits" "cpu" (strGet val "Value")).map fun c => (c, recommendedSettings)
  else if strGet val "Key" = "currentMemLimit" then
    (specSetLeaf currentSettings "limits" "memory" (strGet val "Value")).map fun c => (c, recommendedSettings)
  else if strGet val "Key" = "currentCpuRequest" then
    (specSetLeaf currentSettings "requests" "cpu" (strGet val "Value")).map fun c => (c, recommendedSettings)
  else if strGet val "Key" = "currentMemRequest" then
    (specSetLeaf currentSettings "requests" "memory" (strGet val "Value")).map fun c => (c, recommendedSettings)
  else if strGet val "Key" = "recommendedCpuLimit" then
    (specSetLeaf recommendedSettings "limits" "cpu" (strGet val "Value")).map fun r => (currentSettings, r)
  else if strGet val "Key" = "recommendedMemLimit" then
    (specSetLeaf recommendedSettings "limits" "memory" (strGet val "Value")).map fun r => (currentSettings, r)
  else if strGet val "Key" = "recommendedCpuRequest" then
    (specSetLeaf recommendedSettings "requests" "cpu" (strGet val "Value")).map fun r => (currentSettings, r)
  else if strGet val "Key" = "recommendedMemRequest" then
    (specSetLeaf recommendedSettings "requests" "memory" (strGet val "Value")).map fun r => (currentSettings, r)
  else some settings

/-- Loop of `UpdateApprovalSetting` over the tags. -/
def UpdateApprovalSetting_tags (tagMap : List (Option StrMap))
    (settings : Option ResourceSpec × Option ResourceSpec) :
    Option (Option ResourceSpec × Option ResourceSpec) :=
  match tagMap with
  | [] => some settings
  | val :: rest =>
    match UpdateApprovalSetting_tag val settings with
    | none => none
    | some settings1 => UpdateApprovalSetting_tags rest settings1

/-- The two commands of a branch of `UpdateApprovalSetting`: overwrite the
parameter, then label the new version when the overwrite succeeded.  The
result is `(err1, err2)`. -/
def UpdateApprovalSetting_put (w : World F) (ssmKey value label : String) (s : State) :
    (GoError × GoError) × State :=
  match support.ExecuteSingleCommand w
      ["aws", "ssm", "put-parameter", "--name", ssmKey, "--type", "String", "--value", value,
        "--overwrite", "--profile", s.profile, "--region", s.region] s with
  | ((_, _, some e1), s1) => ((some e1, none), s1)
  | ((_, _, none), s1) =>
    match support.ExecuteSingleCommand w
        ["aws", "ssm", "label-parameter-version", "--name", ssmKey, "--labels", label,
          "--profile", s1.profile, "--region", s1.region] s1 with
    | ((_, _, err2), s2) => ((none, err2), s2)

/-- Function `ssm.UpdateApprovalSetting`. -/
def UpdateApprovalSetting (w : World F) (approved : Bool) (cluster nspace objType objName containerName : String)
    (s : State) : Exec GoError :=
  let ssmKey := s.ssmPrefix ++ "/" ++ cluster ++ "/" ++ nspace ++ "/" ++ objType ++ "/" ++ objName
    ++ "/" ++ containerName ++ "/resourceSpec"
  match support.ExecuteSingleCommand w
      ["aws", "ssm", "list-tags-for-resource", "--resource-type", "Parameter",
        "--resource-id", ssmKey, "--profile", s.profile, "--region", s.region,
        "--query", "TagList"] s with
  | ((_, _, some _), s1) => .ret (some "unable to update approval setting") s1
  | ((resp, _, none), s1) =>
    let fresh : Option ResourceSpec := some (mapSet (mapSet [] "limits" (some [])) "requests" (some []))
    match UpdateApprovalSetting_tags (decodeSliceOfStrMaps (w.jsonParse resp)) (fresh, fresh) with
    | none => .panic s1
    | some (currentSettings, recommendedSettings) =>
      match (if approved = true then
          UpdateApprovalSetting_put w ssmKey (w.marshalSpec recommendedSettings) "Approved" s1
        else
          UpdateApprovalSetting_put w ssmKey (w.marshalSpec currentSettings) "NotApproved" s1) with
      | ((none, none), s2) => .ret none s2
      | (_, s2) => .ret (some "unable to update approval setting") s2

/-- Function `ssm.GetApprovalSetting`. -/
def GetApprovalSetting (w : World F) (cluster nspace objType objName containerName : String)
    (s : State) : Exec (String × GoError) :=
  let ssmKey := s.ssmPrefix ++ "/" ++ cluster ++ "/" ++ nspace ++ "/" ++ objType ++ "/" ++ objName
    ++ "/" ++ containerName ++ "/resourceSpec"
  match getParameterValue w ssmKey s with
  | .panic s1 => .panic s1
  | .ret (_, _, some _) s1 => .ret ("", some "unable to read approval setting") s1
  | .ret (_, insightVersion, none) s1 =>
    match getParameterLabel w ssmKey insightVersion s1 with
    | .panic s2 => .panic s2
    | .ret (_, some _) s2 => .ret ("", some "unable to read approval setting") s2
    | .ret (approvalSetting, none) s2 => .ret (approvalSetting, none) s2

end ssm

/-! ## package main -/

/-- Variable `objTypeContainerPath`. -/
def objTypeContainerPath : GoMap String :=
  [("Pod", "{.spec.containers}"),
   ("CronJob", "{.spec.jobTemplate.spec.template.spec.containers}"),
   ("DaemonSet", "{.spec.template.spec.containers}"),
   ("Job", "{.spec.template.spec.containers}"),
   ("ReplicaSet", "{.spec.template.spec.containers}"),
   ("ReplicationController", "{.spec.template.spec.containers}"),
   ("StatefulSet", "{.spec.template.spec.containers}"),
   ("Deployment", "{.spec.template.spec.containers}")]

/-- Function `getInsight` of package main. -/
def getInsight (w : World F) (cluster nspace objType objName containerName : String)
    (s : State) : Exec (Option ResourceSpec × String × GoError) :=
  match (if s.adapter = "Densify" then
      densify.GetInsight w cluster nspace objType objName containerName s
    else if s.adapter = "Parameter Store" then
      ssm.GetInsight w cluster nspace objType objName containerName s
    else .ret (none, "", none) s) with
  | .panic s1 => .panic s1
  | .ret (_, _, some e) s1 => .ret (none, "Not Approved", some e) s1
  | .ret (insight, approvalSetting, none) s1 => .ret (insight, approvalSetting, none) s1

/-- Loop of `extractResourceSpecFromK8S` over the container definitions.
`none`: a type assertion panicked; `some none`: the loop ended (or broke)
without returning; `some (some spec)`: the function returned `spec`.
`json.Marshal(v)` yields the text `{}` exactly for the empty map. -/
def extractResourceSpecFromK8S_find (containerDefs : List (GoMap (JVal F)))
    (containerName : String) : Option (Option (Option ResourceSpec)) :=
  match containerDefs with
  | [] => some none
  | containerDef :: rest =>
    match mapLookup containerDef "name" with
    | some (.str name) =>
      if containerName = name then
        match mapLookup containerDef "resources" with
        | none => some none
        | some (.obj []) => some none
        | some resources => some (some (decodeSpec (some resources)))
      else extractResourceSpecFromK8S_find rest containerName
    | _ => none

/-- Function `extractResourceSpecFromK8S`. -/
def extractResourceSpecFromK8S (w : World F)
    (cluster objNamespace objType objName containerName : String) (s : State) :
    Exec (Option ResourceSpec × GoError) :=
  let jsonPath := (mapLookup objTypeContainerPath objType).getD ""
  match support.ExecuteSingleCommand w
      [s.KubectlBin, "get", objType, objName, "-o=jsonpath=" ++ jsonPath,
        "--cluster=" ++ cluster, "--namespace=" ++ objNamespace] s with
  | ((_, stdErr, some _), s1) => .ret (none, some stdErr) s1
  | ((stdOut, _, none), s1) =>
    match extractResourceSpecFromK8S_find (decodeSliceOfMaps (w.jsonParse stdOut)) containerName with
    | none => .panic s1
    | some (some parsedInsight) => .ret (parsedInsight, none) s1
    | some none => .ret (none, some "could not locate resource spec") s1

/-- Body of the container loop of `processTemplates` (one iteration): the
container entry as it stands after the iteration.  The last source, the
chart's own `resources` block, is only printed, so nothing is assigned. -/
def processTemplates_container (w : World F) (objNamespace objType objName : String)
    (container : JVal F) (s : State) : Exec (JVal F) :=
  match container with
  | .obj c =>
    match support.CheckMap c ["name"] with
    | none => .panic s
    | some containerName =>
      if containerName = "" then .ret container s
      else
        match getInsight w s.remoteCluster objNamespace objType objName containerName s with
        | .panic s1 => .panic s1
        | .ret (insight, _, none) s1 => .ret (.obj (mapSet c "resources" (specToJVal insight))) s1
        | .ret (_, _, some _) s1 =>
          match extractResourceSpecFromK8S w s1.remoteCluster objNamespace objType objName
              containerName s1 with
          | .panic s2 => .panic s2
          | .ret (insight, none) s2 => .ret (.obj (mapSet c "resources" (specToJVal insight))) s2
          | .ret (_, some _) s2 => .ret container s2
  | _ => .panic s

/-- Container loop of `processTemplates`: the container list after the loop. -/
def processTemplates_containers (w : World F) (objNamespace objType objName : String)
    (containers : List (JVal F)) (s : State) : Exec (List (JVal F)) :=
  match containers with
  | [] => .ret [] s
  | container :: rest =>
    match processTemplates_container w objNamespace objType objName container s with
    | .panic s1 => .panic s1
    | .ret container1 s1 =>
      match processTemplates_containers w objNamespace objType objName rest s1 with
      | .panic s2 => .panic s2
      | .ret rest1 s2 => .ret (container1 :: rest1) s2

/-- Result of `validateManifest` when it returns no error: the five values
it returns. -/
structure Classified (F : Type) where
  objType : String
  objName : String
  objNamespace : String
  containers : List (JVal F)
  manifestMap : GoMap (JVal F)

/-- Decoding by `yaml.Unmarshal` into `map[string]interface{}`: `none` when
it returns an error (text that is not YAML, or a document that is a sequence
or a scalar); the empty document leaves the nil map. -/
def decodeManifest (v : Option (JVal F)) : Option (GoMap (JVal F)) :=
  match v with
  | some (.obj m) => some m
  | some .null => some []
  | _ => none

/-- Path of the container list that the `switch objType` of
`validateManifest` follows. -/
def containerPath (objType : String) : List String :=
  if objType = "Pod" then ["spec", "containers"]
  else if objType = "CronJob" then
    ["spec", "jobTemplate", "spec", "template", "spec", "containers"]
  else ["spec", "template", "spec", "containers"]

/-- Chain of type assertions
`m[k1].(map[string]interface{})[k2]. ... [kn].([]interface{})` along a path;
`none` when one of the assertions panics. -/
def containersAt (m : GoMap (JVal F)) (path : List String) : Option (List (JVal F)) :=
  match path with
  | [] => none
  | [key] =>
    match mapLookup m key with
    | some (.arr xs) => some xs
    | _ => none
  | key :: rest =>
    match mapLookup m key with
    | some (.obj inner) => containersAt inner rest
    | _ => none

/-- Function `validateManifest`.  `none`: a type assertion panicked;
`some (.error msg)`: it returned the error `msg`. -/
def validateManifest (w : World F) (manifest : String) (s : State) :
    Option (Except String (Classified F)) :=
  match decodeManifest (w.yamlParse manifest) with
  | none => some (.error "unable to unmarshal manifest")
  | some manifestMap =>
    match support.CheckMap manifestMap ["kind"] with
    | none => none
    | some objType =>
      if objType = "" then some (.error "manifest does not contain valid k8s objType")
      else
        match support.CheckMap manifestMap ["metadata", "name"] with
        | none => none
        | some objName =>
          if objName = "" then some (.error "manifest does not contain valid k8s objName")
          else
            match support.CheckMap manifestMap ["metadata", "namespace"] with
            | none => none
            | some found =>
              match mapLookup objTypeContainerPath objType with
              | none => some (.error "manifest contains objType that\x27s not supported")
              | some _ =>
                match support.CheckMap manifestMap ["metadata", "annotations", "helm.sh/hook"] with
                | none => none
                | some val =>
                  if "test".data.isPrefixOf val.data then
                    some (.error "manifest is for helm test pod")
                  else
                    match containersAt manifestMap (containerPath objType) with
                    | none => none
                    | some containers =>
                      some (.ok { objType := objType, objName := objName,
                                  objNamespace := if found = "" then s.nspace else found,
                                  containers := containers, manifestMap := manifestMap })

/-- The document after the container loop: the container entries are
mutated in place, so the document holds the new list at the path of the
container list and nothing else is touched. -/
def setContainers (m : GoMap (JVal F)) (path : List String) (containers : List (JVal F)) :
    GoMap (JVal F) :=
  match path with
  | [] => m
  | [key] => mapSet m key (.arr containers)
  | key :: rest =>
    match mapLookup m key with
    | some (.obj inner) => mapSet m key (.obj (setContainers inner rest containers))
    | _ => m

/-- Body of the file loop of `processTemplates` for one template file
(lines 534 to 588): the document handed to `yaml.Marshal`, or `none` when the
file is skipped. -/
def processTemplates_manifest (w : World F) (manifest : String) (s : State) :
    Exec (Option (GoMap (JVal F))) :=
  match validateManifest w manifest s with
  | none => .panic s
  | some (.error _) => .ret none s
  | some (.ok cl) =>
    match processTemplates_containers w cl.objNamespace cl.objType cl.objName cl.containers s with
    | .panic s1 => .panic s1
    | .ret containers1 s1 =>
      .ret (some (setContainers cl.manifestMap (containerPath cl.objType) containers1)) s1

namespace densify

/-- Body that `UpdateApprovalSetting` sends with `approved == true`. -/
def approveBody : String :=
  "[\x7b\"name\": \"Approval Setting\", \"value\": \"Approve Specific Change\"\x7d]"

/-- Body that `UpdateApprovalSetting` sends with `approved == false`. -/
def notApprovedBody : String :=
  "[\x7b\"name\": \"Approval Setting\", \"value\": \"Not Approved\"\x7d]"

/-- Function `densify.UpdateApprovalSetting`. -/
def UpdateApprovalSetting (w : World F) (approved : Bool)
    (cluster nspace objType objName containerName : String) (s : State) : Exec GoError :=
  match lookupInsight w cluster nspace objType objName containerName s with
  | .panic s1 => .panic s1
  | .ret (_, some _) s1 => .ret (some "unable to update approval setting") s1
  | .ret (insight, none) s1 =>
    match mapLookup insight "entityId" with
    | some (.str entityId) =>
      match support.HTTPRequest w "PUT"
          (s1.densifyURL ++ systemsEP ++ "/" ++ entityId ++ "/attributes")
          (s1.densifyUser ++ ":" ++ s1.densifyPass)
          (some (if approved = true then approveBody else notApprovedBody)) s1 with
      | .panic s2 => .panic s2
      | .ret (_, err) s2 => .ret err s2
    | _ => .panic s1

/-- Function `densify.GetApprovalSetting`. -/
def GetApprovalSetting (w : World F) (cluster nspace objType objName containerName : String)
    (s : State) : Exec (String × GoError) :=
  match lookupInsight w cluster nspace objType objName containerName s with
  | .panic s1 => .panic s1
  | .ret (_, some _) s1 => .ret ("", some "unable to get approval setting") s1
  | .ret (insight, none) s1 =>
    match mapLookup insight "entityId" with
    | some (.str entityId) =>
      match getAttribute w entityId "attr_ApprovalSetting" s1 with
      | .panic s2 => .panic s2
      | .ret (_, some _) s2 => .ret ("Not Approved", none) s2
      | .ret (approvalSetting, none) s2 =>
        .ret (if approvalSetting ≠ "Not Approved" then "Approved" else approvalSetting, none) s2
    | _ => .panic s1

end densify

/-- Function `updateApprovalSetting` of package main. -/
def updateApprovalSetting (w : World F) (approved : Bool)
    (cluster nspace objType objName containerName : String) (s : State) : Exec GoError :=
  if s.adapter = "Densify" then
    densify.UpdateApprovalSetting w approved cluster nspace objType objName containerName s
  else if s.adapter = "Parameter Store" then
    ssm.UpdateApprovalSetting w approved cluster nspace objType objName containerName s
  else .ret none s

/-- Function `getApprovalSetting` of package main. -/
def getApprovalSetting (w : World F) (cluster nspace objType objName containerName : String)
    (s : State) : Exec (String × GoError) :=
  if s.adapter = "Densify" then
    densify.GetApprovalSetting w cluster nspace objType objName containerName s
  else if s.adapter = "Parameter Store" then
    ssm.GetApprovalSetting w cluster nspace objType objName containerName s
  else .ret ("", none) s

namespace fmt

/-- Call `fmt.Scanln(&v)` on a variable `v` that holds the empty string: the
value of `v` afterwards, empty when the user only presses return. -/
def Scanln (w : World F) (s : State) : String × State :=
  (w.readLine s.trace, { s with trace := s.trace ++ [Call.scanln] })

end fmt

/-- Body of the container loop of the approval flow of
`processPluginSwitches` (one iteration, lines 225 to 250); the printed texts
are left out. -/
def processPluginSwitches_container (w : World F) (objNamespace objType objName : String)
    (container : JVal F) (s : State) : Exec Unit :=
  match container with
  | .obj c =>
    match mapLookup c "name" with
    | some (.str containerName) =>
      match getApprovalSetting w s.remoteCluster objNamespace objType objName containerName s with
      | .panic s1 => .panic s1
      | .ret (_, some _) s1 => .ret () s1
      | .ret (approvalSetting, none) s1 =>
        match fmt.Scanln w s1 with
        | (approval, s2) =>
          if approvalSetting = "Not Approved" then
            if approval = "y" ∨ approval = "" then
              match updateApprovalSetting w true s2.remoteCluster objNamespace objType objName
                  containerName s2 with
              | .panic s3 => .panic s3
              | .ret _ s3 => .ret () s3
            else .ret () s2
          else
            if approval = "y" ∨ approval = "" then
              match updateApprovalSetting w false s2.remoteCluster objNamespace objType objName
                  containerName s2 with
              | .panic s3 => .panic s3
              | .ret _ s3 => .ret () s3
            else .ret () s2
    | _ => .panic s
  | _ => .panic s

/-- Container loop of the approval flow of `processPluginSwitches`. -/
def processPluginSwitches_containers (w : World F) (objNamespace objType objName : String)
    (containers : List (JVal F)) (s : State) : Exec Unit :=
  match containers with
  | [] => .ret () s
  | container :: rest =>
    match processPluginSwitches_container w objNamespace objType objName container s with
    | .panic s1 => .panic s1
    | .ret _ s1 => processPluginSwitches_containers w objNamespace objType objName rest s1

/-- Manifest loop of the approval flow of `processPluginSwitches` over the
pieces of the rendered chart (`strings.Split(stdOut, "---")`). -/
def processPluginSwitches_manifests (w : World F) (manifests : List String) (s : State) :
    Exec Unit :=
  match manifests with
  | [] => .ret () s
  | manifest :: rest =>
    match validateManifest w manifest s with
    | none => .panic s
    | some (.error _) => processPluginSwitches_manifests w rest s
    | some (.ok cl) =>
      match processPluginSwitches_containers w cl.objNamespace cl.objType cl.objName
          cl.containers s with
      | .panic s1 => .panic s1
      | .ret _ s1 => processPluginSwitches_manifests w rest s1

/-! ## package support/densify (adapter with the analysis cache) -/

namespace support.densify

/-- Type `Insight`: the fields that `GetInsight` reads. -/
structure Insight where
  Container : String
  Cluster : String
  ControllerType : String
  PodService : String
  Namespace : String
  RecommendedCPULimit : Int
  RecommendedMemRequest : Int
  RecommendedMemLimit : Int
  RecommendedCPURequest : Int
  deriving DecidableEq, Repr

/-- Package-level variables of `support/densify` and the trace of external calls. -/
structure Globals where
  trace : List Call := []
  densifyURL : String := ""
  densifyUser : String := ""
  densifyPass : String := ""
  /-- variable `insightCache`, an allocated map -/
  insightCache : GoMap (List Insight) := []
  deriving DecidableEq, Repr

/-- Outcome of running a function of `support/densify`. -/
inductive Run (α : Type) where
  /-- the function returned `a`, leaving the variables `g` -/
  | ret (a : α) (g : Globals)
  /-- the program aborted on a run-time panic -/
  | panic (g : Globals)

/-- Variables at the end of a run. -/
def Run.final {α : Type} : Run α → Globals
  | .ret _ g => g
  | .panic g => g

/-- Constant `analysisEP`. -/
def analysisEP : String := "/CIRBA/api/v2/analysis/containers/kubernetes"

/-- Function `getRequest`; the body that comes with a status other than 200
is dropped by every caller and is left out. -/
def getRequest (w : World F) (endpoint : String) (g : Globals) : Run (String × GoError) :=
  let g1 := { g with trace := g.trace ++
    [Call.http "GET" (g.densifyURL ++ endpoint) (g.densifyUser ++ ":" ++ g.densifyPass) none] }
  match w.httpDo g.trace "GET" (g.densifyURL ++ endpoint)
      (g.densifyUser ++ ":" ++ g.densifyPass) none with
  | .ok resp => .ret (resp, none) g1
  | .failed msg => .ret ("", some msg) g1
  | .badRequest => .panic g

/-- Loop of `GetInsight` over the analyses.  The result is the error of an
early return, if any, and the flag `found`; `unmarshal` is `json.Unmarshal`
into a `[]Insight`. -/
def GetInsight_analyses (w : World F) (unmarshal : String → List Insight)
    (analyses : List (JVal F)) (cluster : String) (g : Globals) : Run (GoError × Bool) :=
  match analyses with
  | [] => .ret (none, false) g
  | analysis :: rest =>
    match analysis with
    | .obj m =>
      match mapLookup m "analysisName" with
      | some (.str name) =>
        if name = cluster then
          match mapLookup m "analysisId" with
          | some (.str id) =>
            match getRequest w (analysisEP ++ "/" ++ id ++ "/results") g with
            | .panic g1 => .panic g1
            | .ret (_, some e) g1 => .ret (some e, false) g1
            | .ret (resp, none) g1 =>
              .ret (none, true)
                { g1 with insightCache := mapSet g1.insightCache cluster (unmarshal resp) }
          | _ => .panic g
        else GetInsight_analyses w unmarshal rest cluster g
      | _ => .panic g
    | _ => .panic g

/-- First block of `GetInsight`: `if _, ok := insightCache[cluster]; !ok`.
The result is the error of the early return, or `none` when execution goes on. -/
def GetInsight_populate (w : World F) (unmarshal : String → List Insight) (cluster : String)
    (g : Globals) : Run GoError :=
  match mapLookup g.insightCache cluster with
  | some _ => .ret none g
  | none =>
    match getRequest w analysisEP g with
    | .panic g1 => .panic g1
    | .ret (_, some e) g1 => .ret (some e) g1
    | .ret (resp, none) g1 =>
      match GetInsight_analyses w unmarshal (decodeSlice (w.jsonParse resp)) cluster g1 with
      | .panic g2 => .panic g2
      | .ret (some e, _) g2 => .ret (some e) g2
      | .ret (none, true) g2 => .ret none g2
      | .ret (none, false) g2 => .ret (some "unable to locate insight") g2

/-- Loop of `GetInsight` over the cached insights of the cluster: the text
returned for the first insight of the key whose four recommended values are
positive. -/
def GetInsight_match (insights : List Insight)
    (cluster nspace objType objName containerName : String) : Option String :=
  match insights with
  | [] => none
  | insight :: rest =>
    if insight.Cluster = cluster ∧ insight.Namespace = nspace ∧ insight.ControllerType = objType
        ∧ insight.PodService = objName ∧ insight.Container = containerName
        ∧ insight.RecommendedCPULimit > 0 ∧ insight.RecommendedCPURequest > 0
        ∧ insight.RecommendedMemLimit > 0 ∧ insight.RecommendedMemRequest > 0 then
      some ("\x7b\"limits\":\x7b\"cpu\":\"" ++ toString insight.RecommendedCPULimit
        ++ "m\",\"memory\":\"" ++ toString insight.RecommendedMemLimit
        ++ "Mi\"\x7d,\"requests\":\x7b\"cpu\":\"" ++ toString insight.RecommendedCPURequest
        ++ "m\",\"memory\":\"" ++ toString insight.RecommendedMemRequest ++ "Mi\"\x7d\x7d")
    else GetInsight_match rest cluster nspace objType objName containerName

/-- Function `GetInsight` of `support/densify`. -/
def GetInsight (w : World F) (unmarshal : String → List Insight)
    (cluster nspace objType objName containerName : String) (g : Globals) :
    Run (String × GoError) :=
  match GetInsight_populate w unmarshal cluster g with
  | .panic g1 => .panic g1
  | .ret (some e) g1 => .ret ("", some e) g1
  | .ret none g1 =>
    match GetInsight_match ((mapLookup g1.insightCache cluster).getD [])
        cluster nspace objType objName containerName with
    | some text => .ret (text, none) g1
    | none => .ret ("", some "unable to locate insight") g1

end support.densify

/-! ## Adapter initialization -/

/-- What `initializeAdapter` relies on besides `World` and `State`: variables
of package support, a library function, and the parts of the two `Initialize`
functions whose bodies are not embedded (the theorems hold for every
behaviour of them; `none` stands for a call that does not return). -/
structure Setup where
  /-- support: `KubectlBin` -/
  KubectlBin : String := "kubectl"
  /-- support: `secretNamespace` -/
  secretNamespace : String := ""
  /-- conversion `base64.StdEncoding.DecodeString` followed by `string(...)`, the error dropped -/
  base64Decode : String → String
  /-- function `densify.Initialize` -/
  densifyInitialize : State → Option (Exec GoError)
  /-- lines 62 to 89 of `ssm.Initialize`: the profile loop, the region loop and `storeSecrets` -/
  ssmConfigure : State → Option (Exec GoError)

namespace support

/-- Function `support.RetrieveSecrets`: nil (`none`) when the command fails. -/
def RetrieveSecrets (w : World F) (env : Setup) (secretName : String) (s : State) :
    Option StrMap × State :=
  match ExecuteSingleCommand w
      [env.KubectlBin, "get", "secret", secretName, "--namespace", env.secretNamespace,
        "-o", "jsonpath={.data}"] s with
  | ((_, _, some _), s1) => (none, s1)
  | ((stdOut, _, none), s1) =>
    let secretsMapEncoded : StrMap :=
      match w.jsonParse stdOut with
      | some v => (decodeStrMap v).getD []
      | none => []
    (some (secretsMapEncoded.map fun kv => (kv.1, env.base64Decode kv.2)), s1)

end support

namespace ssm

/-- Whether `regexp.MatchString("^/{0,1}(aws|ssm)", pfx)` finds a match: after
at most one leading `/` the text goes on with `aws` or `ssm`. -/
def matchesReserved (pfx : String) : Bool :=
  let rest := match pfx.data with
    | '/' :: r => r
    | cs => cs
  "aws".data.isPrefixOf rest || "ssm".data.isPrefixOf rest

/-- Character class `[a-zA-Z0-9_.-]`. -/
def pathChar (c : Char) : Bool :=
  c.isAlphanum || c = '_' || c = '.' || c = '-'

/-- Rest of a match of `(/{1}[a-zA-Z0-9_.-]+)*$` after a `/`; `inSegment`
tells that the current segment already has a character. -/
def matchesSegments (inSegment : Bool) : List Char → Bool
  | [] => inSegment
  | c :: rest =>
    if pathChar c then matchesSegments true rest
    else if c = '/' ∧ inSegment = true then matchesSegments false rest
    else false

/-- Whether `regexp.MatchString("^(/{1}[a-zA-Z0-9_.-]+)*$", pfx)` finds a match. -/
def matchesPath (pfx : String) : Bool :=
  match pfx.data with
  | [] => true
  | '/' :: rest => matchesSegments false rest
  | _ => false

/-- Checks of the prefix loop of `Initialize` (lines 48 to 58) on the value
of `prefix`: `true` when the loop is left by `break`, `false` when a message
is printed and the loop goes on. -/
def Initialize_accepts (pfx : String) : Bool :=
  if pfx ≠ "" then
    if matchesReserved pfx = true then false
    else if matchesPath pfx = false then false
    else true
  else true

/-- Prefix loop of `Initialize`.  `fmt.Scanln(&prefix)` stores the text typed
by the user and leaves `prefix` as it is on an empty line.  `none`: the loop
has not ended within `fuel` iterations. -/
def Initialize_prefix (w : World F) (fuel : Nat) (s : State) : Option State :=
  match fuel with
  | 0 => none
  | fuel + 1 =>
    let line := w.readLine s.trace
    let s1 := { s with trace := s.trace ++ [Call.scanln],
                       ssmPrefix := if line = "" then s.ssmPrefix else line }
    if Initialize_accepts s1.ssmPrefix = true then some s1
    else Initialize_prefix w fuel s1

/-- Function `ssm.Initialize`; the loops are run for at most `fuel` iterations. -/
def Initialize (w : World F) (env : Setup) (fuel : Nat) (s : State) : Option (Exec GoError) :=
  match support.ExecuteSingleCommand w ["aws", "--version"] s with
  | ((_, _, some _), s1) =>
    some (.ret (some "aws-cli is not available - please install before trying again") s1)
  | ((_, _, none), s1) =>
    match support.RetrieveSecrets w env "helm-optimize-plugin" s1 with
    | (storedSecrets, s2) =>
      if storedSecrets.isSome = true ∧ strGet storedSecrets "adapter" = "Parameter Store"
          ∧ (storedSecrets.bind fun m => mapLookup m "region").isSome = true then
        some (.ret none { s2 with region := strGet storedSecrets "region",
                                  ssmPrefix := strGet storedSecrets "prefix",
                                  profile := strGet storedSecrets "profile" })
      else
        match Initialize_prefix w fuel s2 with
        | none => none
        | some s3 => env.ssmConfigure s3

end ssm

/-- Function `initializeAdapter`; `none`: it has not returned within `fuel`
rounds. -/
def initializeAdapter (w : World F) (env : Setup) (fuel : Nat) (s : State) :
    Option (Exec GoError) :=
  match fuel with
  | 0 => none
  | fuel + 1 =>
    let s1 : State :=
      if s.adapter = "" then
        match support.RetrieveSecrets w env "helm-optimize-plugin" s with
        | (secrets, s0) =>
          match secrets.bind fun m => mapLookup m "adapter" with
          | some val => { s0 with adapter := val }
          | none => { s0 with adapter := "Densify" }
      else s
    match (if s1.adapter = "Densify" then env.densifyInitialize s1
        else if s1.adapter = "Parameter Store" then ssm.Initialize w env fuel s1
        else some (.ret none s1)) with
    | none => none
    | some (.panic s2) => some (.panic s2)
    | some (.ret none s2) => some (.ret none s2)
    | some (.ret (some e) s2) =>
      match fmt.Scanln w s2 with
      | (tryAgain, s3) =>
        if tryAgain = "y" then initializeAdapter w env fuel s3
        else some (.ret (some e) s3)

/-! ## Properties

Predicates in which the theorems are stated. -/

/-- Field `key` of the record is present and holds a number `> 0`. -/
def FieldPositive (w : World F) (insight : GoMap (JVal F)) (key : String) : Prop :=
  ∃ x, mapLookup insight key = some (.num x) ∧ w.gtZero x = true

/-- Field `key` of the record, when present, holds a number. -/
def FieldTyped (insight : GoMap (JVal F)) (key : String) : Prop :=
  mapLookup insight key = none ∨ ∃ x : F, mapLookup insight key = some (.num x)

/-- The recommended quadruple of an insight record. -/
def recommendedKeys : List String :=
  ["recommendedCpuLimit", "recommendedMemLimit", "recommendedCpuRequest", "recommendedMemRequest"]

/-- The current quadruple of an insight record. -/
def currentKeys : List String :=
  ["currentCpuLimit", "currentMemLimit", "currentCpuRequest", "currentMemRequest"]

/-- The spec whose leaves are the formatted values of four fields of the
record that are present and `> 0`. -/
def SpecFromFields (w : World F) (insight : GoMap (JVal F))
    (cpuLimit memLimit cpuRequest memRequest : String) (spec : Option ResourceSpec) : Prop :=
  ∃ a b c d : F,
    mapLookup insight cpuLimit = some (.num a) ∧ w.gtZero a = true ∧
    mapLookup insight memLimit = some (.num b) ∧ w.gtZero b = true ∧
    mapLookup insight cpuRequest = some (.num c) ∧ w.gtZero c = true ∧
    mapLookup insight memRequest = some (.num d) ∧ w.gtZero d = true ∧
    spec = some [("limits", some [("cpu", w.formatFloat a ++ "m"),
                                  ("memory", w.formatFloat b ++ "Mi")]),
                 ("requests", some [("cpu", w.formatFloat c ++ "m"),
                                    ("memory", w.formatFloat d ++ "Mi")])]

/-- Parameter name of a recommendation key, following the layout of the
specification: prefix/cluster/namespace/objectType/objectName/containerName/resourceSpec. -/
def parameterName (pfx cluster nspace objType objName containerName : String) : String :=
  pfx ++ "/" ++ cluster ++ "/" ++ nspace ++ "/" ++ objType ++ "/" ++ objName ++ "/"
    ++ containerName ++ "/resourceSpec"

/-- The four leaves of a resource spec. -/
def leafPaths : List (String × String) :=
  [("limits", "cpu"), ("limits", "memory"), ("requests", "cpu"), ("requests", "memory")]

/-- Leaf `k1.k2` is absent from the spec: the spec is nil, `k1` is absent or
nil, or `k2` is absent from `spec[k1]`. -/
def LeafAbsent (spec : Option ResourceSpec) (k1 k2 : String) : Prop :=
  (specGet spec k1).bind (fun inner => mapLookup inner k2) = none

/-- Text of a decimal integer: an optional sign followed by one or more
decimal digits. -/
def IsDecimalInteger (t : String) : Prop :=
  ∃ sign digits : List Char,
    (sign = [] ∨ sign = ['+'] ∨ sign = ['-']) ∧ digits ≠ [] ∧
    (∀ c ∈ digits, c.isDigit = true) ∧ t.data = sign ++ digits

/-- Leaf `spec[k1][k2]` with its presence: `none` when the spec is nil, `k1`
is absent or nil, or `k2` is absent from `spec[k1]`. -/
def leafLookup (spec : Option ResourceSpec) (k1 k2 : String) : Option String :=
  (specGet spec k1).bind (fun inner => mapLookup inner k2)

/-- The keys of the map are exactly those of the list. -/
def ExactKeys {α : Type} (m : GoMap α) (keys : List String) : Prop :=
  ∀ k, (mapLookup m k).isSome = true ↔ k ∈ keys

/-- A positive number followed by the suffix: the number is either a
`float64` that is `> 0`, formatted, or a text that `strconv.Atoi` parses to an
integer `≥ 1`. -/
def PositiveQuantity (w : World F) (suffix leaf : String) : Prop :=
  (∃ x, w.gtZero x = true ∧ leaf = w.formatFloat x ++ suffix) ∨
  (∃ t n, strconv.Atoi t = some n ∧ 1 ≤ n ∧ leaf = t ++ suffix)

/-- Produced shape of the specification: exactly the keys `limits` and
`requests`, each holding exactly the keys `cpu` and `memory`, every cpu value
a positive number followed by `m` and every memory value a positive number
followed by `Mi`. -/
def ProducedShape (w : World F) (spec : Option ResourceSpec) : Prop :=
  ∃ m limits requests,
    spec = some m ∧ ExactKeys m ["limits", "requests"] ∧
    mapLookup m "limits" = some (some limits) ∧
    mapLookup m "requests" = some (some requests) ∧
    ExactKeys limits ["cpu", "memory"] ∧ ExactKeys requests ["cpu", "memory"] ∧
    PositiveQuantity w "m" (strGet (some limits) "cpu") ∧
    PositiveQuantity w "Mi" (strGet (some limits) "memory") ∧
    PositiveQuantity w "m" (strGet (some requests) "cpu") ∧
    PositiveQuantity w "Mi" (strGet (some requests) "memory")

/-- Suffix that `ssm.GetInsight` appends to a leaf: `m` for cpu, `Mi` for memory. -/
def leafSuffix (k2 : String) : String := if k2 = "cpu" then "m" else "Mi"

/-- Parameter addressed by an `aws ssm` command line: the argument that
follows the first `--name` or `--resource-id`. -/
def addressedParameter : List String → Option String
  | [] => none
  | [_] => none
  | flag :: value :: rest =>
    if flag = "--name" ∨ flag = "--resource-id" then some value
    else addressedParameter (value :: rest)

/-- Every call of the list is a command that addresses the parameter `name`. -/
def AddressOnly (name : String) (calls : List Call) : Prop :=
  ∀ c ∈ calls, ∃ command, c = Call.exec command ∧ addressedParameter command = some name

/-- The state after one more external call. -/
def State.pushCall (s : State) (c : Call) : State := { s with trace := s.trace ++ [c] }

/-- Result of a run transformed by `f`; a panic stays a panic. -/
def Exec.map {α β : Type} (f : α → β) : Exec α → Exec β
  | .ret a s => .ret (f a) s
  | .panic s => .panic s

/-- The call is an HTTP request. -/
def IsHttp (c : Call) : Prop := ∃ method endpoint authStr body, c = Call.http method endpoint authStr body

/-- The call is an `aws ssm` command. -/
def IsAwsSsm (c : Call) : Prop := ∃ rest, c = Call.exec ("aws" :: "ssm" :: rest)

/-- The call is a call to a recommendation backend. -/
def IsBackendCall (c : Call) : Prop := IsHttp c ∨ IsAwsSsm c

/-- The call is a query of the live cluster: a command `<kubectl> get ...`. -/
def IsClusterQuery (c : Call) : Prop := ∃ bin rest, c = Call.exec (bin :: "get" :: rest)

/-- The trace of `s1` is the trace of `s` followed by calls that all satisfy `P`. -/
def Extends (P : Call → Prop) (s s1 : State) : Prop :=
  ∃ calls, s1.trace = s.trace ++ calls ∧ ∀ c ∈ calls, P c

/-- All four leaves of the spec are present and each is a positive number
followed by its suffix (`m` for cpu, `Mi` for memory). -/
def FourLeaves (w : World F) (spec : Option ResourceSpec) : Prop :=
  ∀ p ∈ leafPaths, ∃ leaf,
    leafLookup spec p.1 p.2 = some leaf ∧ PositiveQuantity w (leafSuffix p.2) leaf

/-- The eight supported workload kinds. -/
def supportedKinds : List String :=
  ["Pod", "CronJob", "DaemonSet", "Job", "ReplicaSet", "ReplicationController",
   "StatefulSet", "Deployment"]

/-- The text starts with `test`. -/
def StartsWithTest (t : String) : Prop := "test".data.isPrefixOf t.data = true

/-- Field `k` of a container entry. -/
def fieldOf (v : JVal F) (k : String) : Option (JVal F) :=
  match v with
  | .obj o => mapLookup o k
  | _ => none

/-- The entry `c1` is the container entry `c`, or `c` with its `resources`
key assigned, the latter only for a container with a non-empty name. -/
def ResourcesOnly (c c1 : JVal F) : Prop :=
  ∃ o, c = .obj o ∧
    (c1 = c ∨
      ∃ name v, support.CheckMap o ["name"] = some name ∧ name ≠ "" ∧
        c1 = .obj (mapSet o "resources" v))

/-- Value of the tag `key` in a tag list: the `Value` of the last tag whose
`Key` is `key`, if there is one. -/
def tagValue (tags : List (Option StrMap)) (key : String) : Option String :=
  match tags with
  | [] => none
  | tag :: rest =>
    match tagValue rest key with
    | some v => some v
    | none => if strGet tag "Key" = key then some (strGet tag "Value") else none

/-- Leaf `k1.k2` of the object
`{limits:{cpu: tag cpuLimit, memory: tag memLimit}, requests:{cpu: tag cpuRequest, memory: tag memRequest}}`
built from a tag list; a leaf whose tag is missing is absent. -/
def leafFromTags (tags : List (Option StrMap)) (cpuLimit memLimit cpuRequest memRequest : String)
    (k1 k2 : String) : Option String :=
  if k1 = "limits" ∧ k2 = "cpu" then tagValue tags cpuLimit
  else if k1 = "limits" ∧ k2 = "memory" then tagValue tags memLimit
  else if k1 = "requests" ∧ k2 = "cpu" then tagValue tags cpuRequest
  else if k1 = "requests" ∧ k2 = "memory" then tagValue tags memRequest
  else none

/-- The spec has non-nil `limits` and `requests` maps. -/
def HasSections (spec : Option ResourceSpec) : Prop :=
  ∃ m l r, spec = some m ∧ mapLookup m "limits" = some (some l) ∧
    mapLookup m "requests" = some (some r)

/-- The fresh settings object of `UpdateApprovalSetting`, with empty
`limits` and `requests`. -/
def freshSettings : Option ResourceSpec :=
  some (mapSet (mapSet [] "limits" (some [])) "requests" (some []))

/-- Command `aws ssm list-tags-for-resource` of `UpdateApprovalSetting`. -/
def listTagsCommand (ssmKey : String) (s : State) : List String :=
  ["aws", "ssm", "list-tags-for-resource", "--resource-type", "Parameter",
   "--resource-id", ssmKey, "--profile", s.profile, "--region", s.region, "--query", "TagList"]

/-- Command `aws ssm put-parameter` of `UpdateApprovalSetting`. -/
def putParameterCommand (ssmKey value : String) (s : State) : List String :=
  ["aws", "ssm", "put-parameter", "--name", ssmKey, "--type", "String", "--value", value,
   "--overwrite", "--profile", s.profile, "--region", s.region]

/-- Command `aws ssm label-parameter-version` of `UpdateApprovalSetting`. -/
def labelCommand (ssmKey label : String) (s : State) : List String :=
  ["aws", "ssm", "label-parameter-version", "--name", ssmKey, "--labels", label,
   "--profile", s.profile, "--region", s.region]
/-- Answer of the world to the tag listing of `UpdateApprovalSetting`. -/
def listResult (w : World F) (name : String) (s : State) : String × String × GoError :=
  w.execRun s.trace (listTagsCommand name s)

/-- Answer of the world to the parameter overwrite that follows the listing. -/
def putResult (w : World F) (name value : String) (s : State) : String × String × GoError :=
  w.execRun (s.trace ++ [.exec (listTagsCommand name s)]) (putParameterCommand name value s)

/-- Answer of the world to the labelling that follows the overwrite. -/
def labelResult (w : World F) (name value label : String) (s : State) :
    String × String × GoError :=
  w.execRun (s.trace ++ [.exec (listTagsCommand name s),
    .exec (putParameterCommand name value s)]) (labelCommand name label s)

/-- The call is an `aws ssm label-parameter-version` command. -/
def IsLabelCall (c : Call) : Prop :=
  ∃ rest, c = Call.exec ("aws" :: "ssm" :: "label-parameter-version" :: rest)

/-- The call is an HTTP request with the method `GET`. -/
def IsGet (c : Call) : Prop := ∃ endpoint authStr body, c = Call.http "GET" endpoint authStr body

/-- The listing request of `lookupInsight`. -/
def listingRequest (s : State) : Call :=
  .http "GET" (s.densifyURL ++ densify.analysisEP) (s.densifyUser ++ ":" ++ s.densifyPass) none

/-- Address of the insight request for a key against the analysis `id`. -/
def insightURL (s : State) (id cluster nspace objType objName containerName : String) : String :=
  s.densifyURL ++ densify.analysisEP ++ "/" ++ id ++ "/results?cluster=" ++ cluster
    ++ "&namespace=" ++ nspace ++ "&container=" ++ containerName
    ++ "&podService=" ++ objName ++ "&controllerType=" ++ objType

/-- The insight request for a key against the analysis `id`. -/
def insightRequest (s : State) (id cluster nspace objType objName containerName : String) : Call :=
  .http "GET" (insightURL s id cluster nspace objType objName containerName)
    (s.densifyUser ++ ":" ++ s.densifyPass) none

/-- The analysis is an object whose `analysisName` is a string other than `cluster`. -/
def NamedOtherwise (cluster : String) (analysis : JVal F) : Prop :=
  ∃ m name, analysis = .obj m ∧ mapLookup m "analysisName" = some (.str name) ∧ name ≠ cluster

/-- The first analysis of the listing whose `analysisName` equals `cluster`
has the `analysisId` `id`. -/
def FirstNamed (analyses : List (JVal F)) (cluster id : String) : Prop :=
  ∃ before m after, analyses = before ++ .obj m :: after ∧
    (∀ a ∈ before, NamedOtherwise cluster a) ∧
    mapLookup m "analysisName" = some (.str cluster) ∧
    mapLookup m "analysisId" = some (.str id)

/-- The text holds no "/". -/
def NoSlash (t : String) : Prop := '/' ∉ t.data

/-- The history entry has a numeric version other than `v0`, as far as the
formatting of `getParameterLabel` tells versions apart. -/
def OtherVersion (w : World F) (v0 : F) (val : GoMap (JVal F)) : Prop :=
  ∃ v, mapLookup val "Version" = some (.num v) ∧ w.formatFloatE v ≠ w.formatFloatE v0

/-- Labels carried by version `v0` in the parameter history: `some labels`
when the history has one entry of version `v0`, with these labels, and `none`
when it has no entry of that version. -/
def VersionLabels (w : World F) (v0 : F) (history : List (GoMap (JVal F))) :
    Option (List String) → Prop
  | none => ∀ val ∈ history, OtherVersion w v0 val
  | some labels => ∃ before entry after, history = before ++ entry :: after ∧
      (∀ val ∈ before, OtherVersion w v0 val) ∧ (∀ val ∈ after, OtherVersion w v0 val) ∧
      mapLookup entry "Version" = some (.num v0) ∧
      mapLookup entry "Labels" = some (.arr (labels.map JVal.str))

/-- Approval state told by the labels of the fetched version: "Approved" for
the single label `Approved`, "Not Approved" for the single label
`NotApproved`, nothing otherwise. -/
def approvalOfLabels (found : Option (List String)) : Option String :=
  if found = some ["Approved"] then some "Approved"
  else if found = some ["NotApproved"] then some "Not Approved"
  else none

/-- Command `aws ssm get-parameter-history` of `getParameterLabel`. -/
def historyCommand (ssmKey : String) (s : State) : List String :=
  ["aws", "ssm", "get-parameter-history", "--with-decryption", "--name", ssmKey,
   "--profile", s.profile, "--region", s.region, "--query", "Parameters"]

/-- The container definition has a name other than `containerName`. -/
def NamedOther (containerName : String) (d : GoMap (JVal F)) : Prop :=
  ∃ name, mapLookup d "name" = some (.str name) ∧ containerName ≠ name

/-- The definition `d` is the first one of the list whose name is `containerName`. -/
def FirstContainer (containerDefs : List (GoMap (JVal F))) (containerName : String)
    (d : GoMap (JVal F)) : Prop :=
  ∃ before after, containerDefs = before ++ d :: after ∧
    (∀ b ∈ before, NamedOther containerName b) ∧
    mapLookup d "name" = some (.str containerName)

/-- The live cluster query of `extractResourceSpecFromK8S`. -/
def clusterQuery (s : State) (cluster objNamespace objType objName : String) : List String :=
  [s.KubectlBin, "get", objType, objName,
   "-o=jsonpath=" ++ (mapLookup objTypeContainerPath objType).getD "",
   "--cluster=" ++ cluster, "--namespace=" ++ objNamespace]

/-- The call reads from a backend or from the live cluster: an HTTP `GET`,
an `aws ssm get-parameter`, `get-parameter-history` or
`list-tags-for-resource` command, or a `<kubectl> get` command. -/
def IsRead (c : Call) : Prop :=
  IsGet c ∨
  (∃ rest, c = Call.exec ("aws" :: "ssm" :: "get-parameter" :: rest)) ∨
  (∃ rest, c = Call.exec ("aws" :: "ssm" :: "get-parameter-history" :: rest)) ∨
  (∃ rest, c = Call.exec ("aws" :: "ssm" :: "list-tags-for-resource" :: rest)) ∨
  IsClusterQuery c

/-- The call is not a prompt of the user. -/
def NotPrompt (c : Call) : Prop := c ≠ Call.scanln

/-- The call writes: it is neither a read nor a prompt of the user. -/
def IsWrite (c : Call) : Prop := ¬ IsRead c ∧ c ≠ Call.scanln

/-- The call is one of the calls by which the adapters update the approval
state: an HTTP `PUT`, an `aws ssm put-parameter` or an
`aws ssm label-parameter-version` command. -/
def IsUpdate (c : Call) : Prop :=
  (∃ endpoint authStr body, c = Call.http "PUT" endpoint authStr body) ∨
  (∃ rest, c = Call.exec ("aws" :: "ssm" :: "put-parameter" :: rest)) ∨
  IsLabelCall c

/-- Every write among `calls`, made after the calls `base`, comes after a
prompt of the user: the last prompt before the write was answered "y" or by
the empty line. -/
def ConfirmedWrites (w : World F) (base calls : List Call) : Prop :=
  ∀ pre c post, calls = pre ++ c :: post → IsWrite c →
    ∃ pre1 pre2, pre = pre1 ++ Call.scanln :: pre2 ∧
      (w.readLine (base ++ pre1) = "y" ∨ w.readLine (base ++ pre1) = "") ∧
      ∀ x ∈ pre2, x ≠ Call.scanln

/-- The request `getRequest(endpoint)` of `support/densify`. -/
def cachedRequest (g : support.densify.Globals) (endpoint : String) : Call :=
  .http "GET" (g.densifyURL ++ endpoint) (g.densifyUser ++ ":" ++ g.densifyPass) none

/-- The text begins with `aws` or `ssm` in any letter case, after at most one
leading `/`. -/
def reservedAnyCase (pfx : String) : Bool :=
  let rest := match pfx.data with
    | '/' :: r => r
    | cs => cs
  decide ((rest.take 3).map Char.toLower = "aws".data) ||
    decide ((rest.take 3).map Char.toLower = "ssm".data)

/-- Attribute value that the Densify adapter writes for `approved`. -/
def writtenValue (approved : Bool) : String :=
  if approved = true then "Approve Specific Change" else "Not Approved"

/-- Label that the Parameter Store adapter writes for `approved`. -/
def writtenLabel (approved : Bool) : String :=
  if approved = true then "Approved" else "NotApproved"

/-- Approval state that stands for `approved`. -/
def stateOf (approved : Bool) : String :=
  if approved = true then "Approved" else "Not Approved"

/-- Body of an attribute update: the array with the single object of name
"Approval Setting" and the given value. -/
def attributeBody (value : String) : String :=
  "[\x7b\"name\": \"Approval Setting\", \"value\": \"" ++ value ++ "\"\x7d]"

/-- Object that holds `containers` at the end of the path. -/
def nestAt (path : List String) (containers : List (JVal F)) : GoMap (JVal F) :=
  match path with
  | [] => []
  | [key] => [(key, .arr containers)]
  | key :: rest => [(key, .obj (nestAt rest containers))]

/-- Smallest document of a kind: the kind, a name, and `containers` at the
path `path`. -/
def documentOf (kind name : String) (path : List String) (containers : List (JVal F)) :
    GoMap (JVal F) :=
  [("kind", .str kind), ("metadata", .obj [("name", .str name)])] ++ nestAt path containers

/-- JSONPath text of a dotted path: the path between "{." and "}". -/
def jsonPathOf (path : List String) : String :=
  "\x7b." ++ String.intercalate "." path ++ "\x7d"

/-- The container list of a document of the given kind, in the words of the
specification: the list at `spec.containers` for a Pod, at
`spec.jobTemplate.spec.template.spec.containers` for a CronJob and at
`spec.template.spec.containers` for another kind, every key before the last
leading to a mapping. -/
def ContainersOf (m : GoMap (JVal F)) (kind : String) (containers : List (JVal F)) : Prop :=
  if kind = "Pod" then
    ∃ spec, mapLookup m "spec" = some (.obj spec) ∧
      mapLookup spec "containers" = some (.arr containers)
  else if kind = "CronJob" then
    ∃ spec jobTemplate jobSpec template podSpec,
      mapLookup m "spec" = some (.obj spec) ∧
      mapLookup spec "jobTemplate" = some (.obj jobTemplate) ∧
      mapLookup jobTemplate "spec" = some (.obj jobSpec) ∧
      mapLookup jobSpec "template" = some (.obj template) ∧
      mapLookup template "spec" = some (.obj podSpec) ∧
      mapLookup podSpec "containers" = some (.arr containers)
  else
    ∃ spec template podSpec,
      mapLookup m "spec" = some (.obj spec) ∧
      mapLookup spec "template" = some (.obj template) ∧
      mapLookup template "spec" = some (.obj podSpec) ∧
      mapLookup podSpec "containers" = some (.arr containers)

/-- The key is absent from the mapping or holds a text. -/
def AbsentOrText (m : GoMap (JVal F)) (key : String) : Prop :=
  mapLookup m key = none ∨ ∃ t, mapLookup m key = some (.str t)

/-- The annotations of a metadata mapping are absent, or a mapping in which
`helm.sh/hook` is absent or a text that does not start with `test`. -/
def HookAllows (metadata : GoMap (JVal F)) : Prop :=
  mapLookup metadata "annotations" = none ∨
  ∃ annotations, mapLookup metadata "annotations" = some (.obj annotations) ∧
    (mapLookup annotations "helm.sh/hook" = none ∨
      ∃ hook, mapLookup annotations "helm.sh/hook" = some (.str hook) ∧ ¬ StartsWithTest hook)

/-- Namespace that `validateManifest` returns for a metadata mapping: its
`namespace` when this is a non-empty text, the caller-resolved namespace when
it is absent or the empty text. -/
def NamespaceOf (metadata : GoMap (JVal F)) (resolved objNamespace : String) : Prop :=
  (∃ ns, mapLookup metadata "namespace" = some (.str ns) ∧ ns ≠ "" ∧ objNamespace = ns) ∨
  ((mapLookup metadata "namespace" = none ∨ mapLookup metadata "namespace" = some (.str "")) ∧
    objNamespace = resolved)

/-- Conditions under which a parsed document `m` is accepted with the
classification `cl`, in terms of the document alone. -/
def AcceptedAs (m : GoMap (JVal F)) (resolved : String) (cl : Classified F) : Prop :=
  mapLookup m "kind" = some (.str cl.objType) ∧ cl.objType ∈ supportedKinds ∧
  (∃ metadata, mapLookup m "metadata" = some (.obj metadata) ∧
    mapLookup metadata "name" = some (.str cl.objName) ∧ cl.objName ≠ "" ∧
    NamespaceOf metadata resolved cl.objNamespace ∧
    HookAllows metadata) ∧
  ContainersOf m cl.objType cl.containers ∧
  cl.manifestMap = m

/-- Leaf `k1.k2` of a JSON value read as a map of maps of text: the text
stored at `v[k1][k2]`; the empty text when the value stored there is not a
text; nothing when `v` is not an object, `v[k1]` is absent or not an object,
or `k2` is absent from `v[k1]`. -/
def blockLeaf (v : JVal F) (k1 k2 : String) : Option String :=
  match v with
  | .obj m =>
    match mapLookup m k1 with
    | some (.obj inner) =>
      match mapLookup inner k2 with
      | some (.str t) => some t
      | some _ => some ""
      | none => none
    | _ => none
  | _ => none

/-- Section `k1` of a JSON value read as a map of maps of text: absent when
`v` is not an object or has no key `k1`; present and nil when `v[k1]` is not
an object; present with the keys of `v[k1]` otherwise. -/
def blockSection (v : JVal F) (k1 : String) : Option (Option (List String)) :=
  match v with
  | .obj m =>
    match mapLookup m k1 with
    | some (.obj inner) => some (some (inner.map fun kv => kv.1))
    | some _ => some none
    | none => none
  | _ => none

/-- Section `k1` of a spec with its presence: absent when the spec is nil or
has no key `k1`; present and nil when `spec[k1]` is a nil map; present with
its keys otherwise. -/
def sectionKeys (spec : Option ResourceSpec) (k1 : String) : Option (Option (List String)) :=
  match spec with
  | none => none
  | some m => (mapLookup m k1).map fun inner => inner.map fun sm => sm.map fun kv => kv.1

/-- The chain `InMap(insight, keys) && insight[k1].(float64) > 0 && ...`
aborts: every key of the quadruple is present, and the first field that is
not a number `> 0` is not a number at all (null, a text, ...), so that the
type assertion `.(float64)` on it fails. -/
def ChainAborts (w : World F) (insight : GoMap (JVal F)) (keys : List String) : Prop :=
  (∀ k ∈ keys, ∃ v, mapLookup insight k = some v) ∧
  ∃ before key after, keys = before ++ key :: after ∧
    (∀ b ∈ before, FieldPositive w insight b) ∧
    ∀ x : F, mapLookup insight key ≠ some (.num x)

/-- The attribute list cannot be read for `attrID`: going through the list,
before any attribute with this identifier and a text value is found, an
element that is not an object is met, or an attribute with this identifier
whose value is not a text. -/
def AttributeUnreadable (vals : List (JVal F)) (attrID : String) : Prop :=
  ∃ before x after, vals = before ++ x :: after ∧
    (∀ b ∈ before, ∃ m, b = .obj m ∧ mapLookup m "id" ≠ some (.str attrID)) ∧
    ((∀ m, x ≠ .obj m) ∨
     ∃ m, x = .obj m ∧ mapLookup m "id" = some (.str attrID) ∧
       ∀ t, mapLookup m "value" ≠ some (.str t))

/-- Request of `getAttribute` for the attributes of the entity. -/
def attributeRequest (s : State) (entityId : String) : Call :=
  .http "GET" (s.densifyURL ++ densify.systemsEP ++ "/" ++ entityId)
    (s.densifyUser ++ ":" ++ s.densifyPass) none

/-! ## Scenarios

Concrete worlds and states at which the theorems are instantiated. -/

/-- Scenario: a Densify backend with one analysis `a1` named `prod`, whose
insight for the key (prod, payments, Deployment, api, web) is the record
`record` with entity `e1`, and whose attribute `attr_ApprovalSetting` of `e1`
has the value `approvalValue`.  Response bodies are named by short tokens and
`jsonParse` gives their decoded content. -/
def demoDensify (approvalValue : String) (record : GoMap (JVal Int)) : World Int where
  httpDo := fun _ _ endpoint _ _ =>
    if endpoint = "https://d.example/CIRBA/api/v2/analysis/containers/kubernetes" then .ok "analyses"
    else if endpoint = "https://d.example/CIRBA/api/v2/analysis/containers/kubernetes/a1/results?cluster=prod&namespace=payments&container=web&podService=api&controllerType=Deployment" then .ok "insights"
    else if endpoint = "https://d.example/CIRBA/api/v2/systems/e1" then .ok "system"
    else .failed "not found"
  execRun := fun _ _ => ("", "", some "exit status 1")
  jsonParse := fun text =>
    if text = "analyses" then
      some (.arr [.obj [("analysisName", .str "prod"), ("analysisId", .str "a1")]])
    else if text = "insights" then some (.arr [.obj (("entityId", .str "e1") :: record)])
    else if text = "system" then
      some (.obj [("attributes", .arr [.obj [("id", .str "attr_ApprovalSetting"),
        ("value", .str approvalValue)]])])
    else none
  gtZero := fun x => decide (0 < x)
  formatFloat := fun x => toString x
  formatFloatE := fun x => toString x

/-- Scenario: program state configured for the Densify adapter. -/
def demoDensifyState : State :=
  { adapter := "Densify", remoteCluster := "prod", nspace := "payments",
    densifyURL := "https://d.example", densifyUser := "user", densifyPass := "pass" }

/-- Scenario: record with the recommended quadruple 500/512/250/256. -/
def demoRecommended : GoMap (JVal Int) :=
  [("recommendedCpuLimit", .num 500), ("recommendedMemLimit", .num 512),
   ("recommendedCpuRequest", .num 250), ("recommendedMemRequest", .num 256)]

/-- Scenario: record with the current quadruple 400/384/200/192 only. -/
def demoCurrent : GoMap (JVal Int) :=
  [("currentCpuLimit", .num 400), ("currentMemLimit", .num 384),
   ("currentCpuRequest", .num 200), ("currentMemRequest", .num 192)]

/-- Scenario: state after the two requests of `lookupInsight`. -/
def demoDensifyState1 : State :=
  { demoDensifyState with
    analysisId := "a1"
    trace := [.http "GET" "https://d.example/CIRBA/api/v2/analysis/containers/kubernetes" "user:pass" none,
      .http "GET" "https://d.example/CIRBA/api/v2/analysis/containers/kubernetes/a1/results?cluster=prod&namespace=payments&container=web&podService=api&controllerType=Deployment" "user:pass" none] }

/-- Scenario: state after the request of `getAttribute`. -/
def demoDensifyState2 : State :=
  { demoDensifyState1 with
    trace := demoDensifyState1.trace ++ [.http "GET" "https://d.example/CIRBA/api/v2/systems/e1" "user:pass" none] }

/-- Scenario: record whose recommended cpu limit is 0 and which has no
current field. -/
def demoZeroLimit : GoMap (JVal Int) :=
  [("recommendedCpuLimit", .num 0), ("recommendedMemLimit", .num 512),
   ("recommendedCpuRequest", .num 250), ("recommendedMemRequest", .num 256)]

/-- Scenario: a Parameter Store holding, under the name
`/opt/prod/payments/Deployment/api/web/resourceSpec`, version 3 of a
parameter whose value decodes to `stored` and whose version 3 carries the
labels `labels`.  Command outputs are named by short tokens and `jsonParse`
gives their decoded content. -/
def demoSsm (stored : Option (JVal Int)) (labels : List (JVal Int)) : World Int where
  httpDo := fun _ _ _ _ _ => .failed "not found"
  execRun := fun _ command =>
    if command = ["aws", "ssm", "get-parameter", "--with-decryption", "--name",
        "/opt/prod/payments/Deployment/api/web/resourceSpec",
        "--profile", "default", "--region", "us-east-1"] then ("parameter", "", none)
    else if command = ["aws", "ssm", "get-parameter-history", "--with-decryption", "--name",
        "/opt/prod/payments/Deployment/api/web/resourceSpec",
        "--profile", "default", "--region", "us-east-1", "--query", "Parameters"] then
      ("history", "", none)
    else ("", "not found", some "exit status 254")
  jsonParse := fun text =>
    if text = "parameter" then
      some (.obj [("Parameter", .obj [("Value", .str "value"), ("Version", .num 3)])])
    else if text = "value" then stored
    else if text = "history" then
      some (.arr [.obj [("Version", .num 3), ("Labels", .arr labels)]])
    else none
  gtZero := fun x => decide (0 < x)
  formatFloat := fun x => toString x
  formatFloatE := fun x => toString x

/-- Scenario: program state configured for the Parameter Store adapter. -/
def demoSsmState : State :=
  { adapter := "Parameter Store", remoteCluster := "prod", nspace := "payments",
    ssmPrefix := "/opt", profile := "default", region := "us-east-1" }

/-- Scenario: state after the command of `getParameterValue`. -/
def demoSsmState1 : State :=
  { demoSsmState with
    trace := [.exec ["aws", "ssm", "get-parameter", "--with-decryption", "--name",
      "/opt/prod/payments/Deployment/api/web/resourceSpec",
      "--profile", "default", "--region", "us-east-1"]] }

/-- Scenario: state after the command of `getParameterLabel`. -/
def demoSsmState2 : State :=
  { demoSsmState1 with
    trace := demoSsmState1.trace ++
      [.exec ["aws", "ssm", "get-parameter-history", "--with-decryption", "--name",
        "/opt/prod/payments/Deployment/api/web/resourceSpec",
        "--profile", "default", "--region", "us-east-1", "--query", "Parameters"]] }

/-- Scenario: stored value with the four leaves 500/512/250/256. -/
def demoStored : JVal Int :=
  .obj [("limits", .obj [("cpu", .str "500"), ("memory", .str "512")]),
        ("requests", .obj [("cpu", .str "250"), ("memory", .str "256")])]

/-- Scenario: stored value whose `requests.cpu` is the text `0`. -/
def demoStoredZero : JVal Int :=
  .obj [("limits", .obj [("cpu", .str "500"), ("memory", .str "512")]),
        ("requests", .obj [("cpu", .str "0"), ("memory", .str "256")])]

/-- Scenario: stored value with a fifth leaf `limits.ephemeral-storage`. -/
def demoStoredExtra : JVal Int :=
  .obj [("limits", .obj [("cpu", .str "500"), ("memory", .str "512"),
                         ("ephemeral-storage", .str "2Gi")]),
        ("requests", .obj [("cpu", .str "250"), ("memory", .str "256")])]

/-- Scenario: the Densify backend is unreachable, and the live cluster
`prod` runs the Deployment `api` of namespace `payments` with one container
`web` whose `resources` block is `resources`.  Any other cluster query fails. -/
def demoCluster (resources : JVal Int) : World Int where
  httpDo := fun _ _ _ _ _ => .failed "connection refused"
  execRun := fun _ command =>
    if command = ["kubectl", "get", "Deployment", "api",
        "-o=jsonpath={.spec.template.spec.containers}", "--cluster=prod",
        "--namespace=payments"] then ("containers", "", none)
    else ("", "Error from server (NotFound)", some "exit status 1")
  jsonParse := fun text =>
    if text = "containers" then
      some (.arr [.obj [("name", .str "web"), ("image", .str "nginx"), ("resources", resources)]])
    else none
  gtZero := fun x => decide (0 < x)
  formatFloat := fun x => toString x
  formatFloatE := fun x => toString x

/-- Scenario: a chart container `web` with its own `resources` block. -/
def demoContainer : GoMap (JVal Int) :=
  [("name", .str "web"), ("image", .str "nginx"),
   ("resources", .obj [("limits", .obj [("cpu", .str "1"), ("memory", .str "1Gi")])])]

/-- Scenario: a chart container without a name. -/
def demoUnnamed : JVal Int := .obj [("image", .str "busybox")]

/-- Scenario: state after the failed listing request to the Densify backend. -/
def demoUnreachable1 : State :=
  { demoDensifyState with
    trace := [.http "GET" "https://d.example/CIRBA/api/v2/analysis/containers/kubernetes"
      "user:pass" none] }

/-- Scenario: state after the cluster query for the Deployment `api`. -/
def demoUnreachable2 : State :=
  { demoUnreachable1 with
    trace := demoUnreachable1.trace ++ [.exec ["kubectl", "get", "Deployment", "api",
      "-o=jsonpath={.spec.template.spec.containers}", "--cluster=prod",
      "--namespace=payments"]] }

/-- Scenario: state after the cluster query for the Deployment `worker`. -/
def demoUnreachable3 : State :=
  { demoUnreachable1 with
    trace := demoUnreachable1.trace ++ [.exec ["kubectl", "get", "Deployment", "worker",
      "-o=jsonpath={.spec.template.spec.containers}", "--cluster=prod",
      "--namespace=payments"]] }

/-- Scenario: a complete `resources` block read from the cluster. -/
def demoClusterResources : JVal Int :=
  .obj [("limits", .obj [("cpu", .str "200m"), ("memory", .str "128Mi")]),
        ("requests", .obj [("cpu", .str "100m"), ("memory", .str "64Mi")])]

/-- Scenario: a `resources` block of the cluster that only limits the cpu. -/
def demoClusterPartial : JVal Int :=
  .obj [("limits", .obj [("cpu", .str "200m")])]

/-- Scenario: program state whose stored adapter name is neither
"Densify" nor "Parameter Store". -/
def demoOtherAdapterState : State :=
  { adapter := "Other", remoteCluster := "prod", nspace := "payments" }

/-- Scenario: record whose recommended cpu limit is the text `500` instead
of a number. -/
def demoTextLimit : GoMap (JVal Int) :=
  [("recommendedCpuLimit", .str "500"), ("recommendedMemLimit", .num 512),
   ("recommendedCpuRequest", .num 250), ("recommendedMemRequest", .num 256)]

/-- Scenario: the Densify backend of `demoDensify` recommending
500/512/250/256, with a codec that reads every template file as the
document `doc`. -/
def demoChart (doc : Option (JVal Int)) : World Int :=
  { demoDensify "Approve Specific Change" demoRecommended with yamlParse := fun _ => doc }

/-- Scenario: a Pod named `api` with one container at `spec.containers`. -/
def demoPod : GoMap (JVal Int) :=
  [("apiVersion", .str "v1"), ("kind", .str "Pod"),
   ("metadata", .obj [("name", .str "api")]),
   ("spec", .obj [("containers", .arr [.obj demoContainer])])]

/-- Scenario: a Deployment named `api` in namespace `shop` whose hook
annotation is `test-success`. -/
def demoTestHook : GoMap (JVal Int) :=
  [("kind", .str "Deployment"),
   ("metadata", .obj [("name", .str "api"), ("namespace", .str "shop"),
     ("annotations", .obj [("helm.sh/hook", .str "test-success")])]),
   ("spec", .obj [("template", .obj [("spec", .obj [("containers", .arr [.obj demoContainer])])])])]

/-- Scenario: a Deployment named `api` that has no `spec.template`. -/
def demoNoTemplate : GoMap (JVal Int) :=
  [("kind", .str "Deployment"), ("metadata", .obj [("name", .str "api")]),
   ("spec", .obj [("replicas", .num 2)])]

/-- Scenario: a document whose `kind` is a number. -/
def demoKindNumber : GoMap (JVal Int) :=
  [("kind", .num 5), ("metadata", .obj [("name", .str "api")])]

/-- Scenario: a document whose `metadata` is a text. -/
def demoMetadataText : GoMap (JVal Int) :=
  [("kind", .str "Deployment"), ("metadata", .str "api")]

/-- Scenario: a Deployment named `api` with an init container, the
container `web` and an unnamed container. -/
def demoDeployment : GoMap (JVal Int) :=
  [("apiVersion", .str "apps/v1"), ("kind", .str "Deployment"),
   ("metadata", .obj [("name", .str "api"), ("labels", .obj [("app", .str "shop")])]),
   ("spec", .obj [("replicas", .num 2),
     ("template", .obj [("spec", .obj [
       ("initContainers", .arr [.obj [("name", .str "init"),
         ("resources", .obj [("limits", .obj [("cpu", .str "1")])])]]),
       ("containers", .arr [.obj demoContainer, demoUnnamed])])])])]

/-- Scenario: the Deployment of `demoDeployment` after the container loop,
with the backend spec assigned to the container `web`. -/
def demoDeploymentResolved : GoMap (JVal Int) :=
  [("apiVersion", .str "apps/v1"), ("kind", .str "Deployment"),
   ("metadata", .obj [("name", .str "api"), ("labels", .obj [("app", .str "shop")])]),
   ("spec", .obj [("replicas", .num 2),
     ("template", .obj [("spec", .obj [
       ("initContainers", .arr [.obj [("name", .str "init"),
         ("resources", .obj [("limits", .obj [("cpu", .str "1")])])]]),
       ("containers", .arr [.obj [("name", .str "web"), ("image", .str "nginx"),
         ("resources", .obj [("limits", .obj [("cpu", .str "500m"), ("memory", .str "512Mi")]),
           ("requests", .obj [("cpu", .str "250m"), ("memory", .str "256Mi")])])],
         demoUnnamed])])])])]

/-- Scenario: encoder used by the scenarios: it joins the leaves of a spec
as `section.key=value;`, in the order of the map. -/
def demoMarshal (spec : Option ResourceSpec) : String :=
  match spec with
  | none => "null"
  | some m =>
    String.join (m.map fun kv =>
      match kv.2 with
      | none => kv.1 ++ "=null;"
      | some inner => String.join (inner.map fun e => kv.1 ++ "." ++ e.1 ++ "=" ++ e.2 ++ ";"))

/-- Scenario: a Parameter Store whose parameter
`/opt/prod/payments/Deployment/api/web/resourceSpec` carries the tags `tags`;
the overwrite succeeds and the labelling ends with the error `labelError`. -/
def demoTagged (tags : List (JVal Int)) (labelError : GoError) : World Int where
  httpDo := fun _ _ _ _ _ => .failed "not found"
  execRun := fun _ command =>
    if command = ["aws", "ssm", "list-tags-for-resource", "--resource-type", "Parameter",
        "--resource-id", "/opt/prod/payments/Deployment/api/web/resourceSpec",
        "--profile", "default", "--region", "us-east-1", "--query", "TagList"] then
      ("tags", "", none)
    else if command.take 3 = ["aws", "ssm", "put-parameter"] then ("", "", none)
    else if command.take 3 = ["aws", "ssm", "label-parameter-version"] then ("", "", labelError)
    else ("", "not found", some "exit status 254")
  jsonParse := fun text => if text = "tags" then some (.arr tags) else none
  marshalSpec := demoMarshal
  gtZero := fun x => decide (0 < x)
  formatFloat := fun x => toString x
  formatFloatE := fun x => toString x

/-- Scenario: the eight tags of a parameter, and a tag with another key. -/
def demoTags : List (JVal Int) :=
  [.obj [("Key", .str "currentCpuLimit"), ("Value", .str "400")],
   .obj [("Key", .str "currentMemLimit"), ("Value", .str "384")],
   .obj [("Key", .str "currentCpuRequest"), ("Value", .str "200")],
   .obj [("Key", .str "currentMemRequest"), ("Value", .str "192")],
   .obj [("Key", .str "owner"), ("Value", .str "team-shop")],
   .obj [("Key", .str "recommendedCpuLimit"), ("Value", .str "500")],
   .obj [("Key", .str "recommendedMemLimit"), ("Value", .str "512")],
   .obj [("Key", .str "recommendedCpuRequest"), ("Value", .str "250")],
   .obj [("Key", .str "recommendedMemRequest"), ("Value", .str "256")]]

/-- Scenario: a Densify backend with two analyses, `a1` named `prod` and `a2`
named `staging`; each holds one insight for the key
(payments, Deployment, api, web) of its own cluster. -/
def demoTwoClusters : World Int where
  httpDo := fun _ _ endpoint _ _ =>
    if endpoint = "https://d.example/CIRBA/api/v2/analysis/containers/kubernetes" then .ok "analyses"
    else if endpoint = "https://d.example/CIRBA/api/v2/analysis/containers/kubernetes/a1/results?cluster=prod&namespace=payments&container=web&podService=api&controllerType=Deployment" then .ok "insights1"
    else if endpoint = "https://d.example/CIRBA/api/v2/analysis/containers/kubernetes/a2/results?cluster=staging&namespace=payments&container=web&podService=api&controllerType=Deployment" then .ok "insights2"
    else .failed "not found"
  execRun := fun _ _ => ("", "", some "exit status 1")
  jsonParse := fun text =>
    if text = "analyses" then
      some (.arr [.obj [("analysisName", .str "prod"), ("analysisId", .str "a1")],
        .obj [("analysisName", .str "staging"), ("analysisId", .str "a2")]])
    else if text = "insights1" then some (.arr [.obj [("entityId", .str "e1")]])
    else if text = "insights2" then some (.arr [.obj [("entityId", .str "e2")]])
    else none
  gtZero := fun x => decide (0 < x)
  formatFloat := fun x => toString x
  formatFloatE := fun x => toString x

/-- Scenario: the listing of `demoTwoClusters`. -/
def demoTwoAnalyses : List (JVal Int) :=
  [.obj [("analysisName", .str "prod"), ("analysisId", .str "a1")],
   .obj [("analysisName", .str "staging"), ("analysisId", .str "a2")]]

/-- Scenario: a Parameter Store whose parameter
`/opt/prod/payments/Deployment/api/web/resourceSpec` is at version 3 with the
value 500/512/250/256, and whose history holds version 2 labelled `Approved`,
version 3 with the labels `labels`, and version 4 labelled `Approved`. -/
def demoHistory (labels : List String) : World Int where
  httpDo := fun _ _ _ _ _ => .failed "not found"
  execRun := fun _ command =>
    if command = ["aws", "ssm", "get-parameter", "--with-decryption", "--name",
        "/opt/prod/payments/Deployment/api/web/resourceSpec",
        "--profile", "default", "--region", "us-east-1"] then ("parameter", "", none)
    else if command = ["aws", "ssm", "get-parameter-history", "--with-decryption", "--name",
        "/opt/prod/payments/Deployment/api/web/resourceSpec",
        "--profile", "default", "--region", "us-east-1", "--query", "Parameters"] then
      ("history", "", none)
    else ("", "not found", some "exit status 254")
  jsonParse := fun text =>
    if text = "parameter" then
      some (.obj [("Parameter", .obj [("Value", .str "value"), ("Version", .num 3)])])
    else if text = "value" then some demoStored
    else if text = "history" then
      some (.arr [.obj [("Version", .num 2), ("Labels", .arr [.str "Approved"])],
        .obj [("Version", .num 3), ("Labels", .arr (labels.map JVal.str))],
        .obj [("Version", .num 4), ("Labels", .arr [.str "Approved"])]])
    else none
  gtZero := fun x => decide (0 < x)
  formatFloat := fun x => toString x
  formatFloatE := fun x => toString x

/-- Scenario: the live cluster `prod` runs the Deployment `api` of namespace
`payments` with a container `sidecar` and two containers named `web`, the
first with a complete `resources` block and the second with a partial one.
Any other cluster query fails. -/
def demoLiveCluster : World Int where
  httpDo := fun _ _ _ _ _ => .failed "connection refused"
  execRun := fun _ command =>
    if command = ["kubectl", "get", "Deployment", "api",
        "-o=jsonpath={.spec.template.spec.containers}", "--cluster=prod",
        "--namespace=payments"] then ("containers", "", none)
    else ("", "Error from server (NotFound)", some "exit status 1")
  jsonParse := fun text =>
    if text = "containers" then
      some (.arr [.obj [("name", .str "sidecar"), ("resources", .obj [])],
        .obj [("name", .str "web"), ("resources", demoClusterResources)],
        .obj [("name", .str "web"), ("resources", demoClusterPartial)]])
    else none
  gtZero := fun x => decide (0 < x)
  formatFloat := fun x => toString x
  formatFloatE := fun x => toString x

/-- Scenario: a Deployment named `api` with the single container `web`. -/
def demoSingle : GoMap (JVal Int) :=
  [("apiVersion", .str "apps/v1"), ("kind", .str "Deployment"),
   ("metadata", .obj [("name", .str "api")]),
   ("spec", .obj [("template", .obj [("spec", .obj [
     ("containers", .arr [.obj demoContainer])])])])]

/-- Scenario: the backend of `demoChart` with a user who answers every
prompt by `reply`. -/
def demoReply (reply : String) : World Int :=
  { demoChart (some (.obj demoSingle)) with readLine := fun _ => reply }

/-- Scenario: a Densify backend whose listing names `prod` (analysis `a1`)
and `staging` (analysis `a2`); the results of `a1` are served and the request
for the results of `a2` fails. -/
def demoCached : World Int where
  httpDo := fun _ _ endpoint _ _ =>
    if endpoint = "https://d.example/CIRBA/api/v2/analysis/containers/kubernetes" then .ok "analyses"
    else if endpoint = "https://d.example/CIRBA/api/v2/analysis/containers/kubernetes/a1/results" then .ok "insights1"
    else .failed "timeout"
  execRun := fun _ _ => ("", "", some "exit status 1")
  jsonParse := fun text =>
    if text = "analyses" then
      some (.arr [.obj [("analysisName", .str "prod"), ("analysisId", .str "a1")],
        .obj [("analysisName", .str "staging"), ("analysisId", .str "a2")]])
    else none
  gtZero := fun x => decide (0 < x)
  formatFloat := fun x => toString x
  formatFloatE := fun x => toString x

/-- Scenario: the insight of the container `web` of the Deployment `api`. -/
def demoInsight : support.densify.Insight :=
  { Container := "web", Cluster := "prod", ControllerType := "Deployment", PodService := "api",
    Namespace := "payments", RecommendedCPULimit := 500, RecommendedMemRequest := 256,
    RecommendedMemLimit := 512, RecommendedCPURequest := 250 }

/-- Scenario: decoding of the results of analysis `a1` into `[]Insight`. -/
def demoUnmarshal (text : String) : List support.densify.Insight :=
  if text = "insights1" then [demoInsight] else []

/-- Scenario: variables of `support/densify` before the first call. -/
def demoCachedGlobals : support.densify.Globals :=
  { densifyURL := "https://d.example", densifyUser := "user", densifyPass := "pass" }

/-- Scenario: variables of `support/densify` after the first call for `prod`. -/
def demoCachedGlobals1 : support.densify.Globals :=
  { demoCachedGlobals with
    trace := [.http "GET" "https://d.example/CIRBA/api/v2/analysis/containers/kubernetes"
        "user:pass" none,
      .http "GET" "https://d.example/CIRBA/api/v2/analysis/containers/kubernetes/a1/results"
        "user:pass" none]
    insightCache := [("prod", [demoInsight])] }

/-- Scenario: a user who types `line` at every prompt; no command succeeds. -/
def demoTyping (line : String) : World Int where
  httpDo := fun _ _ _ _ _ => .failed "not found"
  execRun := fun _ _ => ("", "", some "exit status 1")
  readLine := fun _ => line
  jsonParse := fun _ => none
  gtZero := fun x => decide (0 < x)
  formatFloat := fun x => toString x
  formatFloatE := fun x => toString x
/-- Scenario: the parts of the initializers that are not embedded succeed at
once, and base64 texts are decoded by a table. -/
def demoSetup : Setup where
  base64Decode := fun t => if t = "T3RoZXI=" then "Other" else t
  densifyInitialize := fun s => some (.ret none s)
  ssmConfigure := fun s => some (.ret none s)

/-- Scenario: the `aws` command is missing and the user answers "y" to the
first two prompts and "n" afterwards. -/
def demoRetry : World Int where
  httpDo := fun _ _ _ _ _ => .failed "not found"
  execRun := fun _ _ => ("", "", some "executable file not found")
  readLine := fun trace => if (trace.filter fun c => c = Call.scanln).length < 2 then "y" else "n"
  jsonParse := fun _ => none
  gtZero := fun x => decide (0 < x)
  formatFloat := fun x => toString x
  formatFloatE := fun x => toString x

/-- Scenario: the stored secret of the plugin names the adapter `Other`. -/
def demoSecret : World Int where
  httpDo := fun _ _ _ _ _ => .failed "not found"
  execRun := fun _ command =>
    if command = ["kubectl", "get", "secret", "helm-optimize-plugin", "--namespace", "",
        "-o", "jsonpath={.data}"] then ("secret", "", none)
    else ("", "", some "exit status 1")
  jsonParse := fun text =>
    if text = "secret" then some (.obj [("adapter", .str "T3RoZXI=")]) else none
  gtZero := fun x => decide (0 < x)
  formatFloat := fun x => toString x
  formatFloatE := fun x => toString x
/-- Scenario: program state before an adapter is selected. -/
def demoFreshState : State :=
  { remoteCluster := "prod", nspace := "payments" }

/-- Scenario: a CronJob named `nightly` in namespace `batch` with one
container `job`. -/
def demoCronJob : GoMap (JVal Int) :=
  [("apiVersion", .str "batch/v1"), ("kind", .str "CronJob"),
   ("metadata", .obj [("name", .str "nightly"), ("namespace", .str "batch")]),
   ("spec", .obj [("schedule", .str "0 3 * * *"),
     ("jobTemplate", .obj [("spec", .obj [("template", .obj [("spec", .obj [
       ("restartPolicy", .str "Never"),
       ("containers", .arr [.obj [("name", .str "job"), ("image", .str "busybox")]])])])])])])]

/-- Scenario: a Pod named `api` whose `metadata.annotations` is null, as a
chart template renders an empty annotations block. -/
def demoAnnotationsNull : GoMap (JVal Int) :=
  [("apiVersion", .str "v1"), ("kind", .str "Pod"),
   ("metadata", .obj [("name", .str "api"), ("annotations", .null)]),
   ("spec", .obj [("containers", .arr [.obj demoContainer])])]

/-- Scenario: stored value with a fifth leaf `limits.ephemeral-storage` that
is a number, and a top-level key `note` whose value is a text. -/
def demoStoredMixed : JVal Int :=
  .obj [("limits", .obj [("cpu", .str "500"), ("memory", .str "512"),
                         ("ephemeral-storage", .num 2)]),
        ("requests", .obj [("cpu", .str "250"), ("memory", .str "256")]),
        ("note", .str "tuned")]

/-- Scenario: record whose recommended memory limit is null, with the three
other recommended fields positive and no current field. -/
def demoNullLimit : GoMap (JVal Int) :=
  [("recommendedCpuLimit", .num 500), ("recommendedMemLimit", .null),
   ("recommendedCpuRequest", .num 250), ("recommendedMemRequest", .num 256)]

/-- Scenario: the Densify backend of `demoDensify` with the record
`demoRecommended`, whose answer to the attribute request of entity `e1`
decodes to `answer` (`none`: the body is not JSON). -/
def demoSystemAnswer (answer : Option (JVal Int)) : World Int where
  httpDo := fun _ _ endpoint _ _ =>
    if endpoint = "https://d.example/CIRBA/api/v2/analysis/containers/kubernetes" then .ok "analyses"
    else if endpoint = "https://d.example/CIRBA/api/v2/analysis/containers/kubernetes/a1/results?cluster=prod&namespace=payments&container=web&podService=api&controllerType=Deployment" then .ok "insights"
    else if endpoint = "https://d.example/CIRBA/api/v2/systems/e1" then .ok "system"
    else .failed "not found"
  execRun := fun _ _ => ("", "", some "exit status 1")
  jsonParse := fun text =>
    if text = "analyses" then
      some (.arr [.obj [("analysisName", .str "prod"), ("analysisId", .str "a1")]])
    else if text = "insights" then some (.arr [.obj (("entityId", .str "e1") :: demoRecommended)])
    else if text = "system" then answer
    else none
  gtZero := fun x => decide (0 < x)
  formatFloat := fun x => toString x
  formatFloatE := fun x => toString x

/-! ## Lemmas -/

theorem mapLookup_mapSet_self {α : Type} (m : GoMap α) (k : String) (v : α) :
    mapLookup (mapSet m k v) k = some v := by
  induction m with
  | nil => simp [mapSet, mapLookup]
  | cons hd tl ih =>
    obtain ⟨k', v'⟩ := hd
    by_cases h : k' = k <;> simp [mapSet, mapLookup, h, ih]

theorem mapLookup_mapSet_ne {α : Type} (m : GoMap α) (k k2 : String) (v : α) (hne : k ≠ k2) :
    mapLookup (mapSet m k v) k2 = mapLookup m k2 := by
  induction m with
  | nil => simp [mapSet, mapLookup, hne]
  | cons hd tl ih =>
    obtain ⟨k', v'⟩ := hd
    by_cases h : k' = k
    · subst h; simp [mapSet, mapLookup, hne]
    · by_cases h2 : k' = k2
      · subst h2; simp [mapSet, mapLookup, h]
      · simp [mapSet, mapLookup, h, h2, ih]

theorem fieldPositive_true_iff (w : World F) (insight : GoMap (JVal F)) (key : String) :
    densify.fieldPositive w insight key = some true ↔ FieldPositive w insight key := by
  unfold densify.fieldPositive FieldPositive
  constructor
  · intro h
    split at h
    · rename_i x hx
      exact ⟨x, hx, by simpa using h⟩
    · simp at h
  · rintro ⟨x, hx, hp⟩
    simp [hx, hp]

theorem allPositive_true_iff (w : World F) (insight : GoMap (JVal F)) (keys : List String) :
    densify.allPositive w insight keys = some true ↔ ∀ k ∈ keys, FieldPositive w insight k := by
  induction keys with
  | nil => simp [densify.allPositive]
  | cons key rest ih =>
    unfold densify.allPositive
    constructor
    · intro h
      split at h
      · simp at h
      · simp at h
      · rename_i hk
        intro k hmem
        rcases List.mem_cons.mp hmem with rfl | hmem
        · exact (fieldPositive_true_iff w insight _).mp hk
        · exact ih.mp h k hmem
    · intro h
      have hk := (fieldPositive_true_iff w insight key).mpr (h key (List.mem_cons_self _ _))
      simp only [hk]
      exact ih.mpr fun k hmem => h k (List.mem_cons_of_mem _ hmem)

theorem InMap_of_present (insight : GoMap (JVal F)) (keys : List String)
    (h : ∀ k ∈ keys, ∃ v, mapLookup insight k = some v) : support.InMap insight keys = true := by
  induction keys with
  | nil => simp [support.InMap]
  | cons key rest ih =>
    obtain ⟨v, hv⟩ := h key (List.mem_cons_self _ _)
    simp only [support.InMap, hv]
    exact ih fun k hmem => h k (List.mem_cons_of_mem _ hmem)

theorem quadrupleValid_true_iff (w : World F) (insight : GoMap (JVal F)) (keys : List String) :
    densify.quadrupleValid w insight keys = some true ↔ ∀ k ∈ keys, FieldPositive w insight k := by
  unfold densify.quadrupleValid
  constructor
  · intro h
    split at h
    · exact (allPositive_true_iff w insight keys).mp h
    · simp at h
  · intro h
    have hin : support.InMap insight keys = true :=
      InMap_of_present insight keys fun k hk => by
        obtain ⟨x, hx, _⟩ := h k hk
        exact ⟨_, hx⟩
    simp only [hin, if_true]
    exact (allPositive_true_iff w insight keys).mpr h

theorem allPositive_typed (w : World F) (insight : GoMap (JVal F)) (keys : List String)
    (hin : support.InMap insight keys = true) (htyped : ∀ k ∈ keys, FieldTyped insight k) :
    densify.allPositive w insight keys ≠ none := by
  induction keys with
  | nil => simp [densify.allPositive]
  | cons key rest ih =>
    unfold support.InMap at hin
    rcases htyped key (List.mem_cons_self _ _) with hnone | ⟨x, hx⟩
    · simp [hnone] at hin
    · simp only [hx] at hin
      unfold densify.allPositive densify.fieldPositive
      simp only [hx]
      cases hg : w.gtZero x
      · simp
      · simpa using ih hin fun k hmem => htyped k (List.mem_cons_of_mem _ hmem)

theorem quadrupleValid_typed (w : World F) (insight : GoMap (JVal F)) (keys : List String)
    (htyped : ∀ k ∈ keys, FieldTyped insight k)
    (hnot : ¬ ∀ k ∈ keys, FieldPositive w insight k) :
    densify.quadrupleValid w insight keys = some false := by
  have h1 : densify.quadrupleValid w insight keys ≠ some true :=
    fun h => hnot ((quadrupleValid_true_iff w insight keys).mp h)
  have h2 : densify.quadrupleValid w insight keys ≠ none := by
    unfold densify.quadrupleValid
    by_cases hin : support.InMap insight keys = true
    · simp only [hin, if_true]
      exact allPositive_typed w insight keys hin htyped
    · simp [hin]
  cases h : densify.quadrupleValid w insight keys with
  | none => exact absurd h h2
  | some b =>
    cases b
    · rfl
    · exact absurd h h1

theorem GetInsight_fill_of_valid (w : World F) (insight : GoMap (JVal F))
    (k1 k2 k3 k4 : String)
    (h : densify.quadrupleValid w insight [k1, k2, k3, k4] = some true) :
    ∃ spec, densify.GetInsight_fill w insight k1 k2 k3 k4 = some spec ∧
      SpecFromFields w insight k1 k2 k3 k4 spec := by
  have hall := (quadrupleValid_true_iff w insight _).mp h
  obtain ⟨a, ha, pa⟩ := hall k1 (by simp)
  obtain ⟨b, hb, pb⟩ := hall k2 (by simp)
  obtain ⟨c, hc, pc⟩ := hall k3 (by simp)
  obtain ⟨d, hd, pd⟩ := hall k4 (by simp)
  refine ⟨_, ?_, a, b, c, d, ha, pa, hb, pb, hc, pc, hd, pd, rfl⟩
  simp [densify.GetInsight_fill, densify.fieldText, ha, hb, hc, hd, specSetLeaf, mapSet, mapLookup]

theorem GetInsight_select_success (w : World F) (insight : GoMap (JVal F))
    (approvalSetting : String) (s s1 : State) (spec : Option ResourceSpec) (st : String)
    (h : densify.GetInsight_select w insight approvalSetting s = .ret (spec, st, none) s1) :
    s1 = s ∧
    ((approvalSetting ≠ "Not Approved" ∧ st = "Approved" ∧
        SpecFromFields w insight "recommendedCpuLimit" "recommendedMemLimit"
          "recommendedCpuRequest" "recommendedMemRequest" spec) ∨
     (approvalSetting = "Not Approved" ∧ st = "Not Approved" ∧
        SpecFromFields w insight "currentCpuLimit" "currentMemLimit"
          "currentCpuRequest" "currentMemRequest" spec)) := by
  unfold densify.GetInsight_select at h
  by_cases ha : approvalSetting = "Not Approved"
  · simp only [ha, ne_eq, not_true_eq_false, if_false, if_true] at h
    split at h
    · simp at h
    · rename_i hq
      obtain ⟨spec1, hfill, hspec⟩ := GetInsight_fill_of_valid w insight _ _ _ _ hq
      simp only [hfill] at h
      injection h with h1 h2
      simp only [Prod.mk.injEq] at h1
      obtain ⟨rfl, rfl, -⟩ := h1
      exact ⟨h2.symm, Or.inr ⟨ha, rfl, hspec⟩⟩
    · simp at h
  · simp only [ha, ne_eq, not_false_eq_true, if_true, if_false] at h
    split at h
    · simp at h
    · rename_i hq
      obtain ⟨spec1, hfill, hspec⟩ := GetInsight_fill_of_valid w insight _ _ _ _ hq
      simp only [hfill] at h
      injection h with h1 h2
      simp only [Prod.mk.injEq] at h1
      obtain ⟨rfl, rfl, -⟩ := h1
      exact ⟨h2.symm, Or.inl ⟨ha, rfl, hspec⟩⟩
    · simp at h

theorem densify_GetInsight_success (w : World F)
    (cluster nspace objType objName containerName : String) (s s2 : State)
    (spec : Option ResourceSpec) (st : String)
    (h : densify.GetInsight w cluster nspace objType objName containerName s
      = .ret (spec, st, none) s2) :
    ∃ insight s1 approvalSetting,
      densify.lookupInsight w cluster nspace objType objName containerName s
        = .ret (insight, none) s1 ∧
      densify.GetInsight_select w insight approvalSetting s2 = .ret (spec, st, none) s2 := by
  unfold densify.GetInsight at h
  split at h
  · simp at h
  · simp at h
  · rename_i insight s1 hlook
    split at h
    · split at h
      · simp at h
      · have h' := h
        obtain ⟨rfl, -⟩ := GetInsight_select_success w insight _ _ _ _ _ h
        exact ⟨insight, s1, _, hlook, h'⟩
      · have h' := h
        obtain ⟨rfl, -⟩ := GetInsight_select_success w insight _ _ _ _ _ h
        exact ⟨insight, s1, _, hlook, h'⟩
    · simp at h

theorem GetInsight_select_invalid (w : World F) (insight : GoMap (JVal F))
    (approvalSetting : String) (s : State)
    (htr : ∀ k ∈ recommendedKeys, FieldTyped insight k)
    (htc : ∀ k ∈ currentKeys, FieldTyped insight k)
    (hr : ¬ ∀ k ∈ recommendedKeys, FieldPositive w insight k)
    (hc : ¬ ∀ k ∈ currentKeys, FieldPositive w insight k) :
    densify.GetInsight_select w insight approvalSetting s
      = .ret (none, "", some "invalid resource specs received from repository") s := by
  have h1 := quadrupleValid_typed w insight recommendedKeys htr hr
  have h2 := quadrupleValid_typed w insight currentKeys htc hc
  unfold recommendedKeys at h1
  unfold currentKeys at h2
  unfold densify.GetInsight_select
  by_cases ha : approvalSetting = "Not Approved"
  · simp [ha, h2]
  · simp [ha, h1]

theorem digitsValue_some (cs : List Char) (acc n : Nat)
    (h : strconv.digitsValue cs acc = some n) : ∀ c ∈ cs, c.isDigit = true := by
  induction cs generalizing acc with
  | nil => simp
  | cons c rest ih =>
    unfold strconv.digitsValue at h
    by_cases hc : c.isDigit = true
    · simp only [hc, if_true] at h
      intro c' hc'
      rcases List.mem_cons.mp hc' with rfl | hmem
      · exact hc
      · exact ih _ h c' hmem
    · simp [hc] at h

theorem atoiBody_some (cs : List Char) (neg : Bool) (n : Int)
    (h : strconv.atoiBody cs neg = some n) : cs ≠ [] ∧ ∀ c ∈ cs, c.isDigit = true := by
  unfold strconv.atoiBody at h
  split at h
  · simp at h
  · rename_i c rest
    split at h
    · simp at h
    · rename_i m hm
      exact ⟨by simp, digitsValue_some _ _ _ hm⟩

theorem Atoi_some_isDecimalInteger (t : String) (n : Int) (h : strconv.Atoi t = some n) :
    IsDecimalInteger t := by
  unfold strconv.Atoi at h
  split at h
  · simp at h
  · rename_i rest hd
    obtain ⟨hne, hall⟩ := atoiBody_some _ _ _ h
    exact ⟨['-'], rest, Or.inr (Or.inr rfl), hne, hall, by simp [hd]⟩
  · rename_i rest hd
    obtain ⟨hne, hall⟩ := atoiBody_some _ _ _ h
    exact ⟨['+'], rest, Or.inr (Or.inl rfl), hne, hall, by simp [hd]⟩
  · rename_i c rest _ _ hd
    obtain ⟨hne, hall⟩ := atoiBody_some _ _ _ h
    exact ⟨[], c :: rest, Or.inl rfl, hne, hall, by simp [hd]⟩

theorem specLeaf_of_absent (spec : Option ResourceSpec) (k1 k2 : String)
    (h : LeafAbsent spec k1 k2) : specLeaf spec k1 k2 = "" := by
  unfold LeafAbsent at h
  unfold specLeaf strGet
  cases hg : specGet spec k1 with
  | none => rfl
  | some inner =>
    simp only [hg, Option.bind] at h
    simp [h]

theorem Atoi_empty : strconv.Atoi "" = none := by decide

theorem leafInvalid_false_iff (leaf : String) :
    ssm.leafInvalid leaf = false ↔ ∃ n, strconv.Atoi leaf = some n ∧ 1 ≤ n := by
  unfold ssm.leafInvalid
  cases h : strconv.Atoi leaf with
  | none => simp
  | some n => simp

theorem ssm_GetInsight_success (w : World F)
    (cluster nspace objType objName containerName : String) (s s2 : State)
    (spec : Option ResourceSpec) (st : String)
    (h : ssm.GetInsight w cluster nspace objType objName containerName s
      = .ret (spec, st, none) s2) :
    ∃ insight version s1,
      ssm.getParameterValue w
          (parameterName s.ssmPrefix cluster nspace objType objName containerName) s
        = .ret (insight, version, none) s1 ∧
      (∀ p ∈ leafPaths,
        ssm.leafInvalid (specLeaf (decodeSpec (w.jsonParse insight)) p.1 p.2) = false) ∧
      ssm.GetInsight_suffix (decodeSpec (w.jsonParse insight)) = some spec ∧
      ssm.getParameterLabel w
          (parameterName s.ssmPrefix cluster nspace objType objName containerName) version s1
        = .ret (st, none) s2 := by
  unfold ssm.GetInsight at h
  simp only at h
  split at h
  · simp at h
  · simp at h
  · rename_i insight version s1 hval
    refine ⟨insight, version, s1, hval, ?_⟩
    by_cases h1 : ssm.leafInvalid (specLeaf (decodeSpec (w.jsonParse insight)) "limits" "cpu") = true
    · simp [h1] at h
    by_cases h2 : ssm.leafInvalid (specLeaf (decodeSpec (w.jsonParse insight)) "limits" "memory") = true
    · simp [h1, h2] at h
    by_cases h3 : ssm.leafInvalid (specLeaf (decodeSpec (w.jsonParse insight)) "requests" "cpu") = true
    · simp [h1, h2, h3] at h
    by_cases h4 : ssm.leafInvalid (specLeaf (decodeSpec (w.jsonParse insight)) "requests" "memory") = true
    · simp [h1, h2, h3, h4] at h
    have e1 := Bool.eq_false_iff.mpr h1
    have e2 := Bool.eq_false_iff.mpr h2
    have e3 := Bool.eq_false_iff.mpr h3
    have e4 := Bool.eq_false_iff.mpr h4
    simp only [e1, e2, e3, e4, Bool.false_eq_true, if_false] at h
    unfold parameterName
    refine ⟨?_, ?_⟩
    · intro p hp
      simp only [leafPaths, List.mem_cons, List.mem_singleton, List.not_mem_nil, or_false] at hp
      rcases hp with rfl | rfl | rfl | rfl <;> simp_all
    · split at h
      · simp at h
      · rename_i suffixed hsuf
        split at h
        · simp at h
        · simp at h
        · rename_i appr s2' hlab
          injection h with h1 h2
          simp only [Prod.mk.injEq] at h1
          obtain ⟨rfl, rfl, -⟩ := h1
          subst h2
          exact ⟨hsuf, hlab⟩

theorem ssm_GetInsight_invalid (w : World F)
    (cluster nspace objType objName containerName : String) (s s1 : State)
    (insight version : String)
    (hval : ssm.getParameterValue w
        (parameterName s.ssmPrefix cluster nspace objType objName containerName) s
      = .ret (insight, version, none) s1)
    (hbad : ∃ p ∈ leafPaths,
      ssm.leafInvalid (specLeaf (decodeSpec (w.jsonParse insight)) p.1 p.2) = true) :
    ssm.GetInsight w cluster nspace objType objName containerName s
      = .ret (none, "", some "invalid resource specs received from repository") s1 := by
  unfold parameterName at hval
  unfold ssm.GetInsight
  simp only [hval]
  obtain ⟨p, hp, hinv⟩ := hbad
  simp only [leafPaths, List.mem_cons, List.mem_singleton, List.not_mem_nil, or_false] at hp
  by_cases h1 : ssm.leafInvalid (specLeaf (decodeSpec (w.jsonParse insight)) "limits" "cpu") = true
  · simp [h1]
  by_cases h2 : ssm.leafInvalid (specLeaf (decodeSpec (w.jsonParse insight)) "limits" "memory") = true
  · simp [h1, h2]
  by_cases h3 : ssm.leafInvalid (specLeaf (decodeSpec (w.jsonParse insight)) "requests" "cpu") = true
  · simp [h1, h2, h3]
  by_cases h4 : ssm.leafInvalid (specLeaf (decodeSpec (w.jsonParse insight)) "requests" "memory") = true
  · simp [h1, h2, h3, h4]
  rcases hp with rfl | rfl | rfl | rfl <;> simp_all

theorem leafLookup_specSetLeaf (spec spec1 : Option ResourceSpec) (k1 k2 v : String)
    (h : specSetLeaf spec k1 k2 v = some spec1) (a b : String) :
    leafLookup spec1 a b = if a = k1 ∧ b = k2 then some v else leafLookup spec a b := by
  unfold specSetLeaf at h
  cases spec with
  | none => simp at h
  | some m =>
    simp only at h
    split at h
    · rename_i inner hin
      injection h with h
      subst h
      unfold leafLookup specGet
      by_cases ha : a = k1
      · subst ha
        simp only [mapLookup_mapSet_self, hin, Option.join, Option.bind, true_and]
        by_cases hb : b = k2
        · subst hb
          simp [mapLookup_mapSet_self]
        · have hb' : k2 ≠ b := fun e => hb e.symm
          simp [hb, mapLookup_mapSet_ne _ _ _ _ hb']
      · have ha' : k1 ≠ a := fun e => ha e.symm
        simp [ha, mapLookup_mapSet_ne _ _ _ _ ha']
    · simp at h

theorem specLeaf_eq_leafLookup (spec : Option ResourceSpec) (k1 k2 : String) :
    specLeaf spec k1 k2 = (leafLookup spec k1 k2).getD "" := by
  unfold specLeaf leafLookup strGet
  cases specGet spec k1 <;> simp

theorem leafLookup_of_valid (spec : Option ResourceSpec) (k1 k2 : String)
    (h : ssm.leafInvalid (specLeaf spec k1 k2) = false) :
    leafLookup spec k1 k2 = some (specLeaf spec k1 k2) := by
  have hs := specLeaf_eq_leafLookup spec k1 k2
  cases hl : leafLookup spec k1 k2 with
  | none =>
    rw [hl] at hs
    simp only [Option.getD] at hs
    rw [hs] at h
    exact absurd h (by decide)
  | some t =>
    rw [hl] at hs
    simp only [Option.getD] at hs
    rw [hs]

theorem GetInsight_suffix_leaves (parsed spec : Option ResourceSpec)
    (h : ssm.GetInsight_suffix parsed = some spec) (a b : String) :
    leafLookup spec a b =
      if (a, b) ∈ leafPaths then some (specLeaf parsed a b ++ leafSuffix b)
      else leafLookup parsed a b := by
  unfold ssm.GetInsight_suffix at h
  split at h
  · simp at h
  · rename_i p1 h1
    split at h
    · simp at h
    · rename_i p2 h2
      split at h
      · simp at h
      · rename_i p3 h3
        have l1 := leafLookup_specSetLeaf _ _ _ _ _ h1
        have l2 := leafLookup_specSetLeaf _ _ _ _ _ h2
        have l3 := leafLookup_specSetLeaf _ _ _ _ _ h3
        have l4 := leafLookup_specSetLeaf _ _ _ _ _ h
        have e2 : specLeaf p1 "limits" "memory" = specLeaf parsed "limits" "memory" := by
          rw [specLeaf_eq_leafLookup, specLeaf_eq_leafLookup, l1]; simp
        have e3 : specLeaf p2 "requests" "cpu" = specLeaf parsed "requests" "cpu" := by
          rw [specLeaf_eq_leafLookup, specLeaf_eq_leafLookup, l2, l1]; simp
        have e4 : specLeaf p3 "requests" "memory" = specLeaf parsed "requests" "memory" := by
          rw [specLeaf_eq_leafLookup, specLeaf_eq_leafLookup, l3, l2, l1]; simp
        rw [l4, l3, l2, l1, e2, e3, e4]
        simp only [leafPaths, List.mem_cons, List.mem_singleton, Prod.mk.injEq,
          List.not_mem_nil, or_false]
        by_cases c4 : a = "requests" ∧ b = "memory"
        · obtain ⟨rfl, rfl⟩ := c4; simp [leafSuffix]
        by_cases c3 : a = "requests" ∧ b = "cpu"
        · obtain ⟨rfl, rfl⟩ := c3; simp [leafSuffix]
        by_cases c2 : a = "limits" ∧ b = "memory"
        · obtain ⟨rfl, rfl⟩ := c2; simp [leafSuffix]
        by_cases c1 : a = "limits" ∧ b = "cpu"
        · obtain ⟨rfl, rfl⟩ := c1; simp [leafSuffix]
        simp [c1, c2, c3, c4]

theorem ExactKeys_pair {α : Type} (a b : String) (x y : α) :
    ExactKeys [(a, x), (b, y)] [a, b] := by
  intro k
  unfold mapLookup mapLookup mapLookup
  by_cases h1 : a = k
  · simp [h1]
  · by_cases h2 : b = k
    · simp [h1, h2]
    · have h1' : ¬ k = a := fun e => h1 e.symm
      have h2' : ¬ k = b := fun e => h2 e.symm
      simp [h1, h2, h1', h2']

theorem ProducedShape_of_fields (w : World F) (insight : GoMap (JVal F))
    (k1 k2 k3 k4 : String) (spec : Option ResourceSpec)
    (h : SpecFromFields w insight k1 k2 k3 k4 spec) : ProducedShape w spec := by
  obtain ⟨a, b, c, d, -, pa, -, pb, -, pc, -, pd, rfl⟩ := h
  refine ⟨_, _, _, rfl, ExactKeys_pair _ _ _ _, rfl, rfl, ExactKeys_pair _ _ _ _,
    ExactKeys_pair _ _ _ _, ?_, ?_, ?_, ?_⟩
  · exact Or.inl ⟨a, pa, rfl⟩
  · exact Or.inl ⟨b, pb, rfl⟩
  · exact Or.inl ⟨c, pc, rfl⟩
  · exact Or.inl ⟨d, pd, rfl⟩

theorem getParameterValue_final (w : World F) (ssmKey : String) (s : State) :
    (ssm.getParameterValue w ssmKey s).final =
      s.pushCall (.exec ["aws", "ssm", "get-parameter", "--with-decryption", "--name", ssmKey,
        "--profile", s.profile, "--region", s.region]) := by
  unfold ssm.getParameterValue support.ExecuteSingleCommand
  rcases h : w.execRun s.trace ["aws", "ssm", "get-parameter", "--with-decryption", "--name",
    ssmKey, "--profile", s.profile, "--region", s.region] with ⟨out, err, e⟩
  cases e with
  | some e => rfl
  | none =>
    simp only
    split <;> rfl

theorem getParameterLabel_final (w : World F) (ssmKey version : String) (s : State) :
    (ssm.getParameterLabel w ssmKey version s).final =
      s.pushCall (.exec ["aws", "ssm", "get-parameter-history", "--with-decryption", "--name",
        ssmKey, "--profile", s.profile, "--region", s.region, "--query", "Parameters"]) := by
  unfold ssm.getParameterLabel support.ExecuteSingleCommand
  rcases h : w.execRun s.trace ["aws", "ssm", "get-parameter-history", "--with-decryption",
    "--name", ssmKey, "--profile", s.profile, "--region", s.region, "--query", "Parameters"]
    with ⟨out, err, e⟩
  cases e with
  | some e => rfl
  | none =>
    simp only
    split <;> rfl

theorem newCalls_pushCall (s : State) (c : Call) : newCalls s (s.pushCall c) = [c] := by
  simp [newCalls, State.pushCall]

theorem newCalls_pushCall_two (s : State) (c d : Call) :
    newCalls s ((s.pushCall c).pushCall d) = [c, d] := by
  simp [newCalls, State.pushCall]

theorem ssm_read_final (w : World F) (ssmKey : String) (s : State) {α : Type}
    (r : Exec α)
    (h : r.final = (ssm.getParameterValue w ssmKey s).final ∨
      ∃ version, r.final = (ssm.getParameterLabel w ssmKey version
        (ssm.getParameterValue w ssmKey s).final).final) :
    newCalls s r.final ≠ [] ∧ AddressOnly ssmKey (newCalls s r.final) := by
  rcases h with h | ⟨version, h⟩
  · rw [h, getParameterValue_final, newCalls_pushCall]
    simp [AddressOnly, addressedParameter]
  · rw [h, getParameterLabel_final, getParameterValue_final, newCalls_pushCall_two]
    simp [AddressOnly, addressedParameter]

theorem ssm_GetInsight_final_cases (w : World F)
    (cluster nspace objType objName containerName : String) (s : State) :
    (ssm.GetInsight w cluster nspace objType objName containerName s).final =
      (ssm.getParameterValue w
        (parameterName s.ssmPrefix cluster nspace objType objName containerName) s).final ∨
    ∃ version,
      (ssm.GetInsight w cluster nspace objType objName containerName s).final =
        (ssm.getParameterLabel w
          (parameterName s.ssmPrefix cluster nspace objType objName containerName) version
          (ssm.getParameterValue w
            (parameterName s.ssmPrefix cluster nspace objType objName containerName)
            s).final).final := by
  unfold ssm.GetInsight parameterName
  simp only
  generalize s.ssmPrefix ++ "/" ++ cluster ++ "/" ++ nspace ++ "/"
    ++ objType ++ "/" ++ objName ++ "/" ++ containerName ++ "/resourceSpec" = key
  cases hv : ssm.getParameterValue w key s with
  | panic s1 => exact Or.inl rfl
  | ret r s1 =>
    obtain ⟨insight, version, e⟩ := r
    cases e with
    | some e => exact Or.inl rfl
    | none =>
      simp only
      split
      · exact Or.inl rfl
      split
      · exact Or.inl rfl
      split
      · exact Or.inl rfl
      split
      · exact Or.inl rfl
      split
      · exact Or.inl rfl
      · refine Or.inr ⟨version, ?_⟩
        simp only [Exec.final]
        generalize ssm.getParameterLabel w key version s1 = lab
        cases lab with
        | panic s2 => rfl
        | ret r s2 =>
          obtain ⟨a, e⟩ := r
          cases e <;> rfl

theorem ssm_GetInsight_calls (w : World F)
    (cluster nspace objType objName containerName : String) (s : State) :
    newCalls s (ssm.GetInsight w cluster nspace objType objName containerName s).final ≠ [] ∧
    AddressOnly (parameterName s.ssmPrefix cluster nspace objType objName containerName)
      (newCalls s (ssm.GetInsight w cluster nspace objType objName containerName s).final) :=
  ssm_read_final w _ s _
    (ssm_GetInsight_final_cases w cluster nspace objType objName containerName s)

theorem ssm_GetApprovalSetting_calls (w : World F)
    (cluster nspace objType objName containerName : String) (s : State) :
    newCalls s (ssm.GetApprovalSetting w cluster nspace objType objName containerName s).final
      ≠ [] ∧
    AddressOnly (parameterName s.ssmPrefix cluster nspace objType objName containerName)
      (newCalls s
        (ssm.GetApprovalSetting w cluster nspace objType objName containerName s).final) := by
  apply ssm_read_final w
  unfold ssm.GetApprovalSetting parameterName
  simp only
  generalize s.ssmPrefix ++ "/" ++ cluster ++ "/" ++ nspace ++ "/"
    ++ objType ++ "/" ++ objName ++ "/" ++ containerName ++ "/resourceSpec" = key
  cases hv : ssm.getParameterValue w key s with
  | panic s1 => exact Or.inl rfl
  | ret r s1 =>
    obtain ⟨insight, version, e⟩ := r
    cases e with
    | some e => exact Or.inl rfl
    | none =>
      refine Or.inr ⟨version, ?_⟩
      simp only [Exec.final]
      generalize ssm.getParameterLabel w key version s1 = lab
      cases lab with
      | panic s2 => rfl
      | ret r s2 =>
        obtain ⟨a, e⟩ := r
        cases e <;> rfl
theorem UpdateApprovalSetting_put_state (w : World F) (ssmKey value label : String) (s : State) :
    (ssm.UpdateApprovalSetting_put w ssmKey value label s).2 =
      s.pushCall (.exec ["aws", "ssm", "put-parameter", "--name", ssmKey, "--type", "String",
        "--value", value, "--overwrite", "--profile", s.profile, "--region", s.region]) ∨
    (ssm.UpdateApprovalSetting_put w ssmKey value label s).2 =
      (s.pushCall (.exec ["aws", "ssm", "put-parameter", "--name", ssmKey, "--type", "String",
        "--value", value, "--overwrite", "--profile", s.profile, "--region", s.region])).pushCall
        (.exec ["aws", "ssm", "label-parameter-version", "--name", ssmKey, "--labels", label,
          "--profile", s.profile, "--region", s.region]) := by
  unfold ssm.UpdateApprovalSetting_put support.ExecuteSingleCommand
  rcases w.execRun s.trace ["aws", "ssm", "put-parameter", "--name", ssmKey, "--type", "String",
    "--value", value, "--overwrite", "--profile", s.profile, "--region", s.region]
    with ⟨out, err, e⟩
  cases e with
  | some e => exact Or.inl rfl
  | none => exact Or.inr rfl

theorem newCalls_pushCall_three (s : State) (c d e : Call) :
    newCalls s (((s.pushCall c).pushCall d).pushCall e) = [c, d, e] := by
  simp [newCalls, State.pushCall]

theorem ssm_UpdateApprovalSetting_calls (w : World F) (approved : Bool)
    (cluster nspace objType objName containerName : String) (s : State) :
    newCalls s
      (ssm.UpdateApprovalSetting w approved cluster nspace objType objName containerName s).final
      ≠ [] ∧
    AddressOnly (parameterName s.ssmPrefix cluster nspace objType objName containerName)
      (newCalls s
        (ssm.UpdateApprovalSetting w approved cluster nspace objType objName containerName
          s).final) := by
  unfold ssm.UpdateApprovalSetting parameterName support.ExecuteSingleCommand
  simp only
  generalize s.ssmPrefix ++ "/" ++ cluster ++ "/" ++ nspace ++ "/"
    ++ objType ++ "/" ++ objName ++ "/" ++ containerName ++ "/resourceSpec" = key
  rcases w.execRun s.trace ["aws", "ssm", "list-tags-for-resource", "--resource-type",
    "Parameter", "--resource-id", key, "--profile", s.profile, "--region", s.region,
    "--query", "TagList"] with ⟨resp, err, e⟩
  have one : ∀ c : Call, (∃ command, c = Call.exec command ∧ addressedParameter command = some key) →
      ∀ s1 : State, s1 = s.pushCall c → newCalls s s1 ≠ [] ∧ AddressOnly key (newCalls s s1) := by
    rintro c hc s1 rfl
    rw [newCalls_pushCall]
    simpa [AddressOnly] using hc
  cases e with
  | some e =>
    exact one _ ⟨_, rfl, by simp [addressedParameter]⟩ _ rfl
  | none =>
    simp only
    split
    · exact one _ ⟨_, rfl, by simp [addressedParameter]⟩ _ rfl
    · rename_i currentSettings recommendedSettings _
      have hput : ∀ value label (r : Exec GoError),
          r.final = (ssm.UpdateApprovalSetting_put w key value label
            (s.pushCall (.exec ["aws", "ssm", "list-tags-for-resource", "--resource-type",
              "Parameter", "--resource-id", key, "--profile", s.profile, "--region", s.region,
              "--query", "TagList"]))).2 →
          newCalls s r.final ≠ [] ∧ AddressOnly key (newCalls s r.final) := by
        intro value label r hr
        rcases UpdateApprovalSetting_put_state w key value label
          (s.pushCall (.exec ["aws", "ssm", "list-tags-for-resource", "--resource-type",
            "Parameter", "--resource-id", key, "--profile", s.profile, "--region", s.region,
            "--query", "TagList"])) with h | h
        · rw [hr, h, newCalls_pushCall_two]
          simp [AddressOnly, addressedParameter]
        · rw [hr, h, newCalls_pushCall_three]
          simp [AddressOnly, addressedParameter]
      cases approved with
      | true =>
        apply hput (w.marshalSpec recommendedSettings) "Approved"
        simp only [if_true]
        split <;> simp_all [Exec.final, State.pushCall]
      | false =>
        apply hput (w.marshalSpec currentSettings) "NotApproved"
        simp only [Bool.false_eq_true, if_false]
        split <;> simp_all [Exec.final, State.pushCall]

theorem Extends.refl (P : Call → Prop) (s : State) : Extends P s s :=
  ⟨[], by simp, by simp⟩

theorem Extends.trans {P : Call → Prop} {s s1 s2 : State}
    (h1 : Extends P s s1) (h2 : Extends P s1 s2) : Extends P s s2 := by
  obtain ⟨c1, e1, p1⟩ := h1
  obtain ⟨c2, e2, p2⟩ := h2
  refine ⟨c1 ++ c2, by rw [e2, e1, List.append_assoc], ?_⟩
  intro c hc
  rcases List.mem_append.mp hc with h | h
  · exact p1 c h
  · exact p2 c h

theorem Extends.mono {P Q : Call → Prop} {s s1 : State} (hPQ : ∀ c, P c → Q c)
    (h : Extends P s s1) : Extends Q s s1 := by
  obtain ⟨calls, e, p⟩ := h
  exact ⟨calls, e, fun c hc => hPQ c (p c hc)⟩

theorem Extends.newCalls {P : Call → Prop} {s s1 : State} (h : Extends P s s1) :
    ∀ c ∈ newCalls s s1, P c := by
  obtain ⟨calls, e, p⟩ := h
  unfold HelmOptimize.newCalls
  rw [e, List.drop_left]
  exact p

theorem Extends.of_trace_eq {P : Call → Prop} {s s1 s2 : State} (h : Extends P s s1)
    (e : s2.trace = s1.trace) : Extends P s s2 := by
  obtain ⟨calls, e1, p⟩ := h
  exact ⟨calls, by rw [e, e1], p⟩

theorem HTTPRequest_extends (w : World F) (method endpoint authStr : String)
    (body : Option String) (s : State) :
    Extends IsHttp s (support.HTTPRequest w method endpoint authStr body s).final := by
  unfold support.HTTPRequest
  simp only
  split
  · exact ⟨[_], rfl, by simp [IsHttp]⟩
  · exact ⟨[_], rfl, by simp [IsHttp]⟩
  · exact Extends.refl _ _

theorem lookupInsight_locate_extends (w : World F) (cluster : String) (s : State) :
    Extends IsHttp s (densify.lookupInsight_locate w cluster s).final := by
  unfold densify.lookupInsight_locate
  split
  · have h := HTTPRequest_extends w "GET" (s.densifyURL ++ densify.analysisEP)
      (s.densifyUser ++ ":" ++ s.densifyPass) none s
    generalize support.HTTPRequest w "GET" (s.densifyURL ++ densify.analysisEP)
      (s.densifyUser ++ ":" ++ s.densifyPass) none s = r at h
    cases r with
    | panic s1 => exact h
    | ret a s1 =>
      obtain ⟨resp, e⟩ := a
      cases e with
      | some e => exact h
      | none =>
        simp only
        split
        · exact h
        · exact h
        · exact Extends.of_trace_eq h rfl
  · exact Extends.refl _ _

theorem lookupInsight_extends (w : World F)
    (cluster nspace objType objName containerName : String) (s : State) :
    Extends IsHttp s
      (densify.lookupInsight w cluster nspace objType objName containerName s).final := by
  unfold densify.lookupInsight
  have h := lookupInsight_locate_extends w cluster s
  generalize densify.lookupInsight_locate w cluster s = r at h
  cases r with
  | panic s1 => exact h
  | ret a s1 =>
    cases a with
    | some e => exact h
    | none =>
      simp only
      have h2 := HTTPRequest_extends w "GET"
        (s1.densifyURL ++ densify.analysisEP ++ "/" ++ s1.analysisId ++ "/results?cluster="
          ++ cluster ++ "&namespace=" ++ nspace ++ "&container=" ++ containerName
          ++ "&podService=" ++ objName ++ "&controllerType=" ++ objType)
        (s1.densifyUser ++ ":" ++ s1.densifyPass) none s1
      generalize support.HTTPRequest w "GET"
        (s1.densifyURL ++ densify.analysisEP ++ "/" ++ s1.analysisId ++ "/results?cluster="
          ++ cluster ++ "&namespace=" ++ nspace ++ "&container=" ++ containerName
          ++ "&podService=" ++ objName ++ "&controllerType=" ++ objType)
        (s1.densifyUser ++ ":" ++ s1.densifyPass) none s1 = r2 at h2
      cases r2 with
      | panic s2 => exact h.trans h2
      | ret a s2 =>
        obtain ⟨resp, e⟩ := a
        cases e with
        | some e => exact h.trans h2
        | none =>
          simp only
          split
          · exact h.trans h2
          · exact h.trans h2

theorem getAttribute_extends (w : World F) (entityID attrID : String) (s : State) :
    Extends IsHttp s (densify.getAttribute w entityID attrID s).final := by
  unfold densify.getAttribute
  have h := HTTPRequest_extends w "GET" (s.densifyURL ++ densify.systemsEP ++ "/" ++ entityID)
    (s.densifyUser ++ ":" ++ s.densifyPass) none s
  generalize support.HTTPRequest w "GET" (s.densifyURL ++ densify.systemsEP ++ "/" ++ entityID)
    (s.densifyUser ++ ":" ++ s.densifyPass) none s = r at h
  cases r with
  | panic s1 => exact h
  | ret a s1 =>
    obtain ⟨resp, e⟩ := a
    cases e with
    | some e => exact h
    | none =>
      simp only
      split
      · split
        · exact h
        · exact h
        · exact h
      · exact h

theorem GetInsight_select_final (w : World F) (insight : GoMap (JVal F))
    (approvalSetting : String) (s : State) :
    (densify.GetInsight_select w insight approvalSetting s).final = s := by
  unfold densify.GetInsight_select
  repeat' split
  all_goals rfl

theorem densify_GetInsight_extends (w : World F)
    (cluster nspace objType objName containerName : String) (s : State) :
    Extends IsHttp s
      (densify.GetInsight w cluster nspace objType objName containerName s).final := by
  unfold densify.GetInsight
  have h := lookupInsight_extends w cluster nspace objType objName containerName s
  generalize densify.lookupInsight w cluster nspace objType objName containerName s = r at h
  cases r with
  | panic s1 => exact h
  | ret a s1 =>
    obtain ⟨insight, e⟩ := a
    cases e with
    | some e => exact h
    | none =>
      simp only
      split
      · rename_i entityId _
        have h2 := getAttribute_extends w entityId "attr_ApprovalSetting" s1
        generalize densify.getAttribute w entityId "attr_ApprovalSetting" s1 = r2 at h2
        cases r2 with
        | panic s2 => exact h.trans h2
        | ret a s2 =>
          obtain ⟨v, e⟩ := a
          cases e with
          | some e =>
            simp only
            rw [GetInsight_select_final]
            exact h.trans h2
          | none =>
            simp only
            rw [GetInsight_select_final]
            exact h.trans h2
      · exact h
theorem ssm_GetInsight_extends (w : World F)
    (cluster nspace objType objName containerName : String) (s : State) :
    Extends IsAwsSsm s
      (ssm.GetInsight w cluster nspace objType objName containerName s).final := by
  rcases ssm_GetInsight_final_cases w cluster nspace objType objName containerName s
    with h | ⟨version, h⟩
  · rw [h, getParameterValue_final]
    exact ⟨[_], rfl, by simp [IsAwsSsm]⟩
  · rw [h, getParameterLabel_final, getParameterValue_final]
    refine ⟨[.exec ["aws", "ssm", "get-parameter", "--with-decryption", "--name",
        parameterName s.ssmPrefix cluster nspace objType objName containerName,
        "--profile", s.profile, "--region", s.region],
      .exec ["aws", "ssm", "get-parameter-history", "--with-decryption", "--name",
        parameterName s.ssmPrefix cluster nspace objType objName containerName,
        "--profile", s.profile, "--region", s.region, "--query", "Parameters"]], ?_, ?_⟩
    · simp [State.pushCall]
    · simp [IsAwsSsm]

theorem getInsight_extends (w : World F)
    (cluster nspace objType objName containerName : String) (s : State) :
    Extends IsBackendCall s
      (getInsight w cluster nspace objType objName containerName s).final := by
  unfold getInsight
  by_cases hd : s.adapter = "Densify"
  · simp only [hd, if_true]
    have h := densify_GetInsight_extends w cluster nspace objType objName containerName s
    generalize densify.GetInsight w cluster nspace objType objName containerName s = r at h
    have h' : Extends IsBackendCall s r.final := h.mono fun c hc => Or.inl hc
    cases r with
    | panic s1 => exact h'
    | ret a s1 =>
      obtain ⟨i, st, e⟩ := a
      cases e <;> exact h'
  · by_cases hp : s.adapter = "Parameter Store"
    · simp only [hd, hp, if_true, if_false]
      have h := ssm_GetInsight_extends w cluster nspace objType objName containerName s
      generalize ssm.GetInsight w cluster nspace objType objName containerName s = r at h
      have h' : Extends IsBackendCall s r.final := h.mono fun c hc => Or.inr hc
      cases r with
      | panic s1 => exact h'
      | ret a s1 =>
        obtain ⟨i, st, e⟩ := a
        cases e <;> exact h'
    · simp only [hd, hp, if_false]
      exact Extends.refl _ _

theorem not_clusterQuery_of_backendCall (c : Call) (h : IsBackendCall c) :
    ¬ IsClusterQuery c := by
  rintro ⟨bin, rest, rfl⟩
  rcases h with ⟨m, e, a, b, h⟩ | ⟨r, h⟩
  · simp at h
  · simp at h

theorem processTemplates_containers_append (w : World F) (objNamespace objType objName : String)
    (pre post : List (JVal F)) (s s1 : State) (pre1 : List (JVal F))
    (hpre : processTemplates_containers w objNamespace objType objName pre s = .ret pre1 s1) :
    processTemplates_containers w objNamespace objType objName (pre ++ post) s =
      (processTemplates_containers w objNamespace objType objName post s1).map
        (fun post1 => pre1 ++ post1) := by
  induction pre generalizing s pre1 with
  | nil =>
    unfold processTemplates_containers at hpre
    injection hpre with h1 h2
    subst h1 h2
    simp only [List.nil_append]
    cases processTemplates_containers w objNamespace objType objName post s <;> rfl
  | cons c rest ih =>
    unfold processTemplates_containers at hpre
    simp only [List.cons_append]
    rw [processTemplates_containers]
    cases hc : processTemplates_container w objNamespace objType objName c s with
    | panic sx => simp [hc] at hpre
    | ret c1 sx =>
      simp only [hc] at hpre
      cases hr : processTemplates_containers w objNamespace objType objName rest sx with
      | panic sy => simp [hr] at hpre
      | ret rest1 sy =>
        simp only [hr] at hpre
        injection hpre with h1 h2
        subst h1 h2
        simp only
        rw [ih sx rest1 hr]
        cases processTemplates_containers w objNamespace objType objName post sy <;> rfl

theorem processTemplates_containers_at (w : World F) (objNamespace objType objName : String)
    (pre post : List (JVal F)) (container container1 : JVal F) (s s1 s2 : State)
    (pre1 : List (JVal F))
    (hpre : processTemplates_containers w objNamespace objType objName pre s = .ret pre1 s1)
    (hstep : processTemplates_container w objNamespace objType objName container s1
      = .ret container1 s2) :
    processTemplates_containers w objNamespace objType objName (pre ++ container :: post) s =
      (processTemplates_containers w objNamespace objType objName post s2).map
        (fun post1 => pre1 ++ container1 :: post1) := by
  rw [processTemplates_containers_append w objNamespace objType objName pre _ s s1 pre1 hpre]
  rw [processTemplates_containers]
  simp only [hstep]
  cases processTemplates_containers w objNamespace objType objName post s2 <;> rfl

theorem FourLeaves_of_fields (w : World F) (insight : GoMap (JVal F))
    (k1 k2 k3 k4 : String) (spec : Option ResourceSpec)
    (h : SpecFromFields w insight k1 k2 k3 k4 spec) : FourLeaves w spec := by
  obtain ⟨a, b, c, d, -, pa, -, pb, -, pc, -, pd, rfl⟩ := h
  intro p hp
  simp only [leafPaths, List.mem_cons, List.mem_singleton, List.not_mem_nil, or_false] at hp
  rcases hp with rfl | rfl | rfl | rfl
  · exact ⟨_, rfl, Or.inl ⟨a, pa, rfl⟩⟩
  · exact ⟨_, rfl, Or.inl ⟨b, pb, rfl⟩⟩
  · exact ⟨_, rfl, Or.inl ⟨c, pc, rfl⟩⟩
  · exact ⟨_, rfl, Or.inl ⟨d, pd, rfl⟩⟩

theorem FourLeaves_of_densify (w : World F)
    (cluster nspace objType objName containerName : String) (s s2 : State)
    (spec : Option ResourceSpec) (st : String)
    (h : densify.GetInsight w cluster nspace objType objName containerName s
      = .ret (spec, st, none) s2) : FourLeaves w spec := by
  obtain ⟨insight, s1, appr, -, hsel⟩ :=
    densify_GetInsight_success w cluster nspace objType objName containerName s s2 spec st h
  obtain ⟨-, hcase⟩ := GetInsight_select_success w insight appr s2 s2 spec st hsel
  rcases hcase with ⟨-, -, hs⟩ | ⟨-, -, hs⟩
  · exact FourLeaves_of_fields w insight _ _ _ _ spec hs
  · exact FourLeaves_of_fields w insight _ _ _ _ spec hs

theorem FourLeaves_of_ssm (w : World F)
    (cluster nspace objType objName containerName : String) (s s2 : State)
    (spec : Option ResourceSpec) (st : String)
    (h : ssm.GetInsight w cluster nspace objType objName containerName s
      = .ret (spec, st, none) s2) : FourLeaves w spec := by
  obtain ⟨insight, version, s1, -, hleaves, hsuf, -⟩ :=
    ssm_GetInsight_success w cluster nspace objType objName containerName s s2 spec st h
  intro p hp
  obtain ⟨n, hn, hpos⟩ := (leafInvalid_false_iff _).mp (hleaves p hp)
  refine ⟨specLeaf (decodeSpec (w.jsonParse insight)) p.1 p.2 ++ leafSuffix p.2, ?_,
    Or.inr ⟨_, n, hn, hpos, rfl⟩⟩
  rw [GetInsight_suffix_leaves _ _ hsuf p.1 p.2]
  simp [hp]

theorem getInsight_success (w : World F)
    (cluster nspace objType objName containerName : String) (s s1 : State)
    (insight : Option ResourceSpec) (approval : String)
    (h : getInsight w cluster nspace objType objName containerName s
      = .ret (insight, approval, none) s1) :
    (s.adapter = "Densify" →
      densify.GetInsight w cluster nspace objType objName containerName s
        = .ret (insight, approval, none) s1) ∧
    (s.adapter = "Parameter Store" →
      ssm.GetInsight w cluster nspace objType objName containerName s
        = .ret (insight, approval, none) s1) := by
  unfold getInsight at h
  constructor
  · intro hd
    simp only [hd, if_true] at h
    generalize densify.GetInsight w cluster nspace objType objName containerName s = r at h
    cases r with
    | panic sx => simp at h
    | ret a sx =>
      obtain ⟨i, st, e⟩ := a
      cases e with
      | some e => simp at h
      | none => simpa using h
  · intro hp
    have hd : ¬ s.adapter = "Densify" := by rw [hp]; decide
    simp only [hd, hp, if_true, if_false] at h
    generalize ssm.GetInsight w cluster nspace objType objName containerName s = r at h
    cases r with
    | panic sx => simp at h
    | ret a sx =>
      obtain ⟨i, st, e⟩ := a
      cases e with
      | some e => simp at h
      | none => simpa using h

theorem extractResourceSpecFromK8S_find_some (containerDefs : List (GoMap (JVal F)))
    (containerName : String) (spec : Option ResourceSpec)
    (h : extractResourceSpecFromK8S_find containerDefs containerName = some (some spec)) :
    ∃ containerDef ∈ containerDefs, ∃ resources,
      mapLookup containerDef "name" = some (.str containerName) ∧
      mapLookup containerDef "resources" = some resources ∧
      resources ≠ .obj [] ∧ spec = decodeSpec (some resources) := by
  induction containerDefs with
  | nil => simp [extractResourceSpecFromK8S_find] at h
  | cons d rest ih =>
    unfold extractResourceSpecFromK8S_find at h
    split at h
    · rename_i name hn
      by_cases hc : containerName = name
      · subst hc
        simp only [if_true] at h
        split at h
        · simp at h
        · simp at h
        · rename_i resources hne hres
          injection h with h
          injection h with h
          exact ⟨d, List.mem_cons_self _ _, resources, hn, hres, hne, h.symm⟩
      · simp only [hc, if_false] at h
        obtain ⟨cd, hmem, hrest⟩ := ih h
        exact ⟨cd, List.mem_cons_of_mem _ hmem, hrest⟩
    · simp at h

theorem extractResourceSpecFromK8S_success (w : World F)
    (cluster objNamespace objType objName containerName : String) (s s1 : State)
    (insight : Option ResourceSpec)
    (h : extractResourceSpecFromK8S w cluster objNamespace objType objName containerName s
      = .ret (insight, none) s1) :
    ∃ containerDef resources,
      mapLookup containerDef "name" = some (JVal.str containerName : JVal F) ∧
      mapLookup containerDef "resources" = some resources ∧
      resources ≠ .obj [] ∧ insight = decodeSpec (some resources) := by
  unfold extractResourceSpecFromK8S support.ExecuteSingleCommand at h
  simp only at h
  split at h
  · simp at h
  · rename_i stdOut _ _ _
    split at h
    · simp at h
    · rename_i parsed hfind
      injection h with h1 h2
      simp only [Prod.mk.injEq, and_true] at h1
      subst h1
      obtain ⟨cd, -, resources, hrest⟩ :=
        extractResourceSpecFromK8S_find_some _ containerName parsed hfind
      exact ⟨cd, resources, hrest⟩
    · simp at h

/-- A present field that holds a text instead of a number is outside
`FieldTyped`: the type assertion `.(float64)` fails and the run aborts. -/
theorem densify_GetInsight_text_field :
    ¬ FieldTyped (("entityId", JVal.str "e1") :: demoTextLimit) "recommendedCpuLimit" ∧
    densify.GetInsight (demoDensify "Approve Specific Change" demoTextLimit)
        "prod" "payments" "Deployment" "api" "web" demoDensifyState =
      .panic demoDensifyState2 := by
  refine ⟨?_, rfl⟩
  rintro (h | ⟨x, h⟩)
  · simp [demoTextLimit, mapLookup] at h
  · simp [demoTextLimit, mapLookup] at h

theorem supported_iff (kind : String) :
    (∃ p, mapLookup objTypeContainerPath kind = some p) ↔ kind ∈ supportedKinds := by
  unfold objTypeContainerPath supportedKinds
  simp only [mapLookup, List.mem_cons, List.mem_singleton, List.not_mem_nil, or_false]
  constructor
  · rintro ⟨p, hp⟩
    by_cases h1 : "Pod" = kind
    · exact Or.inl h1.symm
    by_cases h2 : "CronJob" = kind
    · exact Or.inr (Or.inl h2.symm)
    by_cases h3 : "DaemonSet" = kind
    · exact Or.inr (Or.inr (Or.inl h3.symm))
    by_cases h4 : "Job" = kind
    · exact Or.inr (Or.inr (Or.inr (Or.inl h4.symm)))
    by_cases h5 : "ReplicaSet" = kind
    · exact Or.inr (Or.inr (Or.inr (Or.inr (Or.inl h5.symm))))
    by_cases h6 : "ReplicationController" = kind
    · exact Or.inr (Or.inr (Or.inr (Or.inr (Or.inr (Or.inl h6.symm)))))
    by_cases h7 : "StatefulSet" = kind
    · exact Or.inr (Or.inr (Or.inr (Or.inr (Or.inr (Or.inr (Or.inl h7.symm))))))
    by_cases h8 : "Deployment" = kind
    · exact Or.inr (Or.inr (Or.inr (Or.inr (Or.inr (Or.inr (Or.inr h8.symm))))))
    simp [h1, h2, h3, h4, h5, h6, h7, h8] at hp
  · rintro (h | h | h | h | h | h | h | h) <;> subst h <;> simp

theorem validateManifest_ok_iff (w : World F) (manifest : String) (s : State)
    (m : GoMap (JVal F)) (hparse : decodeManifest (w.yamlParse manifest) = some m)
    (cl : Classified F) :
    validateManifest w manifest s = some (.ok cl) ↔
      ∃ found hook,
        support.CheckMap m ["kind"] = some cl.objType ∧ cl.objType ∈ supportedKinds ∧
        support.CheckMap m ["metadata", "name"] = some cl.objName ∧ cl.objName ≠ "" ∧
        support.CheckMap m ["metadata", "namespace"] = some found ∧
        cl.objNamespace = (if found = "" then s.nspace else found) ∧
        support.CheckMap m ["metadata", "annotations", "helm.sh/hook"] = some hook ∧
        ¬ StartsWithTest hook ∧
        containersAt m (containerPath cl.objType) = some cl.containers ∧
        cl.manifestMap = m := by
  unfold validateManifest
  simp only [hparse]
  constructor
  · intro h
    split at h
    · simp at h
    · rename_i objType hkind
      by_cases hk : objType = ""
      · simp [hk] at h
      simp only [hk, if_false] at h
      split at h
      · simp at h
      · rename_i objName hname
        by_cases hn : objName = ""
        · simp [hn] at h
        simp only [hn, if_false] at h
        split at h
        · simp at h
        · rename_i found hfound
          split at h
          · simp at h
          · rename_i p hp
            split at h
            · simp at h
            · rename_i hook hhook
              by_cases ht : "test".data.isPrefixOf hook.data = true
              · simp [ht] at h
              have ht' := Bool.eq_false_iff.mpr ht
              simp only [ht', Bool.false_eq_true, if_false] at h
              split at h
              · simp at h
              · rename_i containers hc
                injection h with h
                injection h with h
                subst h
                exact ⟨found, hook, hkind, (supported_iff _).mp ⟨p, hp⟩, hname, hn, hfound, rfl,
                  hhook, ht, hc, rfl⟩
  · rintro ⟨found, hook, hkind, hsup, hname, hn, hfound, hns, hhook, ht, hc, hm⟩
    obtain ⟨p, hp⟩ := (supported_iff _).mpr hsup
    have hk : cl.objType ≠ "" := by
      intro h
      rw [h] at hsup
      simp [supportedKinds] at hsup
    have ht' : "test".data.isPrefixOf hook.data = false := Bool.eq_false_iff.mpr ht
    simp only [hkind, hk, hname, hn, hfound, hp, hhook, ht', hc, if_false, Bool.false_eq_true]
    cases cl
    simp_all
theorem CheckMap_two (m : GoMap (JVal F)) (k1 k2 v : String)
    (h : support.CheckMap m [k1, k2] = some v) (hv : v ≠ "") :
    ∃ inner, mapLookup m k1 = some (.obj inner) ∧ mapLookup inner k2 = some (.str v) := by
  unfold support.CheckMap at h
  split at h
  · exact absurd (Option.some.inj h).symm hv
  · rename_i x hx
    simp only at h
    split at h
    · rename_i inner
      unfold support.CheckMap at h
      split at h
      · exact absurd (Option.some.inj h).symm hv
      · rename_i y hy
        simp only at h
        split at h
        · rename_i str
          injection h with h
          subst h
          exact ⟨inner, hx, hy⟩
        · simp at h
    · simp at h

theorem CheckMap_two_empty (m : GoMap (JVal F)) (k1 k2 : String)
    (h : support.CheckMap m [k1, k2] = some "") :
    mapLookup m k1 = none ∨
    ∃ inner, mapLookup m k1 = some (.obj inner) ∧
      (mapLookup inner k2 = none ∨ mapLookup inner k2 = some (.str "")) := by
  unfold support.CheckMap at h
  split at h
  · rename_i hx
    exact Or.inl hx
  · rename_i x hx
    simp only at h
    split at h
    · rename_i inner
      unfold support.CheckMap at h
      split at h
      · rename_i hy
        exact Or.inr ⟨inner, hx, Or.inl hy⟩
      · rename_i y hy
        simp only at h
        split at h
        · rename_i str
          injection h with h
          subst h
          exact Or.inr ⟨inner, hx, Or.inr hy⟩
        · simp at h
    · simp at h

theorem mapSet_of_lookup {α : Type} (m : GoMap α) (k : String) (v : α)
    (h : mapLookup m k = some v) : mapSet m k v = m := by
  induction m with
  | nil => simp [mapLookup] at h
  | cons hd tl ih =>
    obtain ⟨k', v'⟩ := hd
    unfold mapLookup at h
    unfold mapSet
    by_cases hk : k' = k
    · simp only [hk, if_true] at h
      injection h with h
      subst h
      simp [hk]
    · simp only [hk, if_false] at h
      simp [hk, ih h]

theorem mapSet_mapSet {α : Type} (m : GoMap α) (k : String) (a b : α) :
    mapSet (mapSet m k a) k b = mapSet m k b := by
  induction m with
  | nil => simp [mapSet]
  | cons hd tl ih =>
    obtain ⟨k', v'⟩ := hd
    by_cases hk : k' = k
    · simp [mapSet, hk]
    · simp [mapSet, hk, ih]

theorem setContainers_frame (path : List String) (m : GoMap (JVal F))
    (xs ys : List (JVal F)) (h : containersAt m path = some xs) :
    containersAt (setContainers m path ys) path = some ys ∧
    setContainers (setContainers m path ys) path xs = m := by
  induction path generalizing m with
  | nil => simp [containersAt] at h
  | cons key rest ih =>
    cases rest with
    | nil =>
      unfold containersAt at h
      split at h
      · rename_i zs hz
        injection h with h
        subst h
        constructor
        · simp [setContainers, containersAt, mapLookup_mapSet_self]
        · simp only [setContainers, mapSet_mapSet]
          exact mapSet_of_lookup m key _ hz
      · simp at h
    | cons key2 rest2 =>
      unfold containersAt at h
      split at h
      · rename_i inner hi
        obtain ⟨h1, h2⟩ := ih inner h
        constructor
        · simp [setContainers, containersAt, hi, mapLookup_mapSet_self, h1]
        · simp [setContainers, hi, mapLookup_mapSet_self, mapSet_mapSet, h2,
            mapSet_of_lookup m key _ hi]
      · simp at h

theorem processTemplates_container_frame (w : World F) (objNamespace objType objName : String)
    (c c1 : JVal F) (s s1 : State)
    (h : processTemplates_container w objNamespace objType objName c s = .ret c1 s1) :
    ResourcesOnly c c1 := by
  unfold processTemplates_container at h
  split at h
  · rename_i o
    refine ⟨o, rfl, ?_⟩
    split at h
    · simp at h
    · rename_i containerName hname
      by_cases hn : containerName = ""
      · simp only [hn, if_true] at h
        injection h with h
        exact Or.inl h.symm
      · simp only [hn, if_false] at h
        split at h
        · simp at h
        · injection h with h
          exact Or.inr ⟨containerName, _, hname, hn, h.symm⟩
        · split at h
          · simp at h
          · injection h with h
            exact Or.inr ⟨containerName, _, hname, hn, h.symm⟩
          · injection h with h
            exact Or.inl h.symm
  · simp at h

theorem ResourcesOnly.other_keys {c c1 : JVal F} (h : ResourcesOnly c c1) (k : String)
    (hk : k ≠ "resources") : fieldOf c1 k = fieldOf c k := by
  obtain ⟨o, rfl, h | ⟨name, v, -, -, h⟩⟩ := h
  · rw [h]
  · rw [h]
    simp only [fieldOf]
    exact mapLookup_mapSet_ne o "resources" k v (fun e => hk e.symm)

theorem processTemplates_containers_frame (w : World F) (objNamespace objType objName : String)
    (containers containers1 : List (JVal F)) (s s1 : State)
    (h : processTemplates_containers w objNamespace objType objName containers s
      = .ret containers1 s1) :
    List.Forall₂ (fun c c1 => ResourcesOnly c c1 ∧
      ∀ k, k ≠ "resources" → fieldOf c1 k = fieldOf c k) containers containers1 := by
  induction containers generalizing s containers1 with
  | nil =>
    unfold processTemplates_containers at h
    injection h with h
    subst h
    exact List.Forall₂.nil
  | cons c rest ih =>
    unfold processTemplates_containers at h
    cases hc : processTemplates_container w objNamespace objType objName c s with
    | panic sx => simp [hc] at h
    | ret c1 sx =>
      simp only [hc] at h
      cases hr : processTemplates_containers w objNamespace objType objName rest sx with
      | panic sy => simp [hr] at h
      | ret rest1 sy =>
        simp only [hr] at h
        injection h with ha hb
        subst ha hb
        have hf := processTemplates_container_frame w objNamespace objType objName c c1 s sx hc
        exact List.Forall₂.cons ⟨hf, fun k hk => hf.other_keys k hk⟩ (ih rest1 sx hr)

theorem HasSections_fresh : HasSections freshSettings :=
  ⟨_, [], [], rfl, rfl, rfl⟩

theorem specSetLeaf_sections (spec : Option ResourceSpec) (k1 k2 v : String)
    (h : HasSections spec) (hk : k1 = "limits" ∨ k1 = "requests") :
    ∃ spec1, specSetLeaf spec k1 k2 v = some spec1 ∧ HasSections spec1 := by
  obtain ⟨m, l, r, rfl, hl, hr⟩ := h
  rcases hk with rfl | rfl
  · refine ⟨some (mapSet m "limits" (some (mapSet l k2 v))), by simp [specSetLeaf, hl],
      _, _, r, rfl, mapLookup_mapSet_self _ _ _, ?_⟩
    rw [mapLookup_mapSet_ne _ _ _ _ (by decide)]
    exact hr
  · refine ⟨some (mapSet m "requests" (some (mapSet r k2 v))), by simp [specSetLeaf, hr],
      _, l, _, rfl, ?_, mapLookup_mapSet_self _ _ _⟩
    rw [mapLookup_mapSet_ne _ _ _ _ (by decide)]
    exact hl

theorem leafLookup_fresh (k1 k2 : String) : leafLookup freshSettings k1 k2 = none := by
  unfold leafLookup freshSettings specGet
  simp only [mapSet, mapLookup]
  by_cases h1 : "limits" = k1
  · simp [h1.symm, mapLookup]
  · by_cases h2 : "requests" = k1
    · simp [h2.symm, mapLookup]
    · simp [h1, h2]
theorem UpdateApprovalSetting_tag_spec (val : Option StrMap) (c r : Option ResourceSpec)
    (hc : HasSections c) (hr : HasSections r) :
    ∃ c1 r1, ssm.UpdateApprovalSetting_tag val (c, r) = some (c1, r1) ∧
      HasSections c1 ∧ HasSections r1 ∧
      (∀ k1 k2, leafLookup c1 k1 k2 =
        match leafFromTags [val] "currentCpuLimit" "currentMemLimit" "currentCpuRequest"
            "currentMemRequest" k1 k2 with
        | some v => some v
        | none => leafLookup c k1 k2) ∧
      (∀ k1 k2, leafLookup r1 k1 k2 =
        match leafFromTags [val] "recommendedCpuLimit" "recommendedMemLimit"
            "recommendedCpuRequest" "recommendedMemRequest" k1 k2 with
        | some v => some v
        | none => leafLookup r k1 k2) := by
  have key : ∀ (spec : Option ResourceSpec) (k1 k2 v : String), HasSections spec →
      (k1 = "limits" ∨ k1 = "requests") →
      ∃ spec1, specSetLeaf spec k1 k2 v = some spec1 ∧ HasSections spec1 ∧
        ∀ a b, leafLookup spec1 a b = if a = k1 ∧ b = k2 then some v else leafLookup spec a b := by
    intro spec k1 k2 v hs hk
    obtain ⟨spec1, h1, h2⟩ := specSetLeaf_sections spec k1 k2 v hs hk
    exact ⟨spec1, h1, h2, leafLookup_specSetLeaf spec spec1 k1 k2 v h1⟩
  unfold ssm.UpdateApprovalSetting_tag
  simp only
  by_cases h1 : strGet val "Key" = "currentCpuLimit"
  · obtain ⟨x, hx, hs, hl⟩ := key c "limits" "cpu" (strGet val "Value") hc (Or.inl rfl)
    refine ⟨x, r, by simp [h1, hx], hs, hr, ?_, ?_⟩
    · intro a b
      rw [hl]
      by_cases hab : a = "limits" ∧ b = "cpu"
      · simp [hab, leafFromTags, tagValue, h1]
      · simp [hab, leafFromTags, tagValue, h1]
    · intro a b
      simp [leafFromTags, tagValue, h1]
  by_cases h2 : strGet val "Key" = "currentMemLimit"
  · obtain ⟨x, hx, hs, hl⟩ := key c "limits" "memory" (strGet val "Value") hc (Or.inl rfl)
    refine ⟨x, r, by simp [h2, hx], hs, hr, ?_, ?_⟩
    · intro a b
      rw [hl]
      by_cases hab : a = "limits" ∧ b = "memory"
      · simp [hab, leafFromTags, tagValue, h2]
      · simp [hab, leafFromTags, tagValue, h2]
    · intro a b
      simp [leafFromTags, tagValue, h2]
  by_cases h3 : strGet val "Key" = "currentCpuRequest"
  · obtain ⟨x, hx, hs, hl⟩ := key c "requests" "cpu" (strGet val "Value") hc (Or.inr rfl)
    refine ⟨x, r, by simp [h3, hx], hs, hr, ?_, ?_⟩
    · intro a b
      rw [hl]
      by_cases hab : a = "requests" ∧ b = "cpu"
      · simp [hab, leafFromTags, tagValue, h3]
      · simp [hab, leafFromTags, tagValue, h3]
    · intro a b
      simp [leafFromTags, tagValue, h3]
  by_cases h4 : strGet val "Key" = "currentMemRequest"
  · obtain ⟨x, hx, hs, hl⟩ := key c "requests" "memory" (strGet val "Value") hc (Or.inr rfl)
    refine ⟨x, r, by simp [h4, hx], hs, hr, ?_, ?_⟩
    · intro a b
      rw [hl]
      by_cases hab : a = "requests" ∧ b = "memory"
      · simp [hab, leafFromTags, tagValue, h4]
      · simp [hab, leafFromTags, tagValue, h4]
    · intro a b
      simp [leafFromTags, tagValue, h4]
  by_cases h5 : strGet val "Key" = "recommendedCpuLimit"
  · obtain ⟨x, hx, hs, hl⟩ := key r "limits" "cpu" (strGet val "Value") hr (Or.inl rfl)
    refine ⟨c, x, by simp [h5, hx], hc, hs, ?_, ?_⟩
    · intro a b
      simp [leafFromTags, tagValue, h5]
    · intro a b
      rw [hl]
      by_cases hab : a = "limits" ∧ b = "cpu"
      · simp [hab, leafFromTags, tagValue, h5]
      · simp [hab, leafFromTags, tagValue, h5]
  by_cases h6 : strGet val "Key" = "recommendedMemLimit"
  · obtain ⟨x, hx, hs, hl⟩ := key r "limits" "memory" (strGet val "Value") hr (Or.inl rfl)
    refine ⟨c, x, by simp [h6, hx], hc, hs, ?_, ?_⟩
    · intro a b
      simp [leafFromTags, tagValue, h6]
    · intro a b
      rw [hl]
      by_cases hab : a = "limits" ∧ b = "memory"
      · simp [hab, leafFromTags, tagValue, h6]
      · simp [hab, leafFromTags, tagValue, h6]
  by_cases h7 : strGet val "Key" = "recommendedCpuRequest"
  · obtain ⟨x, hx, hs, hl⟩ := key r "requests" "cpu" (strGet val "Value") hr (Or.inr rfl)
    refine ⟨c, x, by simp [h7, hx], hc, hs, ?_, ?_⟩
    · intro a b
      simp [leafFromTags, tagValue, h7]
    · intro a b
      rw [hl]
      by_cases hab : a = "requests" ∧ b = "cpu"
      · simp [hab, leafFromTags, tagValue, h7]
      · simp [hab, leafFromTags, tagValue, h7]
  by_cases h8 : strGet val "Key" = "recommendedMemRequest"
  · obtain ⟨x, hx, hs, hl⟩ := key r "requests" "memory" (strGet val "Value") hr (Or.inr rfl)
    refine ⟨c, x, by simp [h8, hx], hc, hs, ?_, ?_⟩
    · intro a b
      simp [leafFromTags, tagValue, h8]
    · intro a b
      rw [hl]
      by_cases hab : a = "requests" ∧ b = "memory"
      · simp [hab, leafFromTags, tagValue, h8]
      · simp [hab, leafFromTags, tagValue, h8]
  refine ⟨c, r, by simp [h1, h2, h3, h4, h5, h6, h7, h8], hc, hr, ?_, ?_⟩
  · intro a b
    simp [leafFromTags, tagValue, h1, h2, h3, h4]
  · intro a b
    simp [leafFromTags, tagValue, h5, h6, h7, h8]
theorem leafFromTags_cons (tag : Option StrMap) (rest : List (Option StrMap))
    (a b c d k1 k2 : String) :
    leafFromTags (tag :: rest) a b c d k1 k2 =
      match leafFromTags rest a b c d k1 k2 with
      | some v => some v
      | none => leafFromTags [tag] a b c d k1 k2 := by
  unfold leafFromTags
  by_cases h1 : k1 = "limits" ∧ k2 = "cpu"
  · simp only [h1, and_self, if_true]
    cases h : tagValue rest a <;> simp [tagValue, h]
  by_cases h2 : k1 = "limits" ∧ k2 = "memory"
  · simp only [h1, h2, and_self, if_true, if_false]
    cases h : tagValue rest b <;> simp [tagValue, h]
  by_cases h3 : k1 = "requests" ∧ k2 = "cpu"
  · simp only [h1, h2, h3, and_self, if_true, if_false]
    cases h : tagValue rest c <;> simp [tagValue, h]
  by_cases h4 : k1 = "requests" ∧ k2 = "memory"
  · simp only [h1, h2, h3, h4, and_self, if_true, if_false]
    cases h : tagValue rest d <;> simp [tagValue, h]
  simp [h1, h2, h3, h4]

theorem leafFromTags_nil (a b c d k1 k2 : String) : leafFromTags [] a b c d k1 k2 = none := by
  unfold leafFromTags
  simp [tagValue]

theorem UpdateApprovalSetting_tags_spec (tags : List (Option StrMap))
    (c r : Option ResourceSpec) (hc : HasSections c) (hr : HasSections r) :
    ∃ c1 r1, ssm.UpdateApprovalSetting_tags tags (c, r) = some (c1, r1) ∧
      HasSections c1 ∧ HasSections r1 ∧
      (∀ k1 k2, leafLookup c1 k1 k2 =
        match leafFromTags tags "currentCpuLimit" "currentMemLimit" "currentCpuRequest"
            "currentMemRequest" k1 k2 with
        | some v => some v
        | none => leafLookup c k1 k2) ∧
      (∀ k1 k2, leafLookup r1 k1 k2 =
        match leafFromTags tags "recommendedCpuLimit" "recommendedMemLimit"
            "recommendedCpuRequest" "recommendedMemRequest" k1 k2 with
        | some v => some v
        | none => leafLookup r k1 k2) := by
  induction tags generalizing c r with
  | nil =>
    exact ⟨c, r, rfl, hc, hr, fun k1 k2 => by simp [leafFromTags_nil],
      fun k1 k2 => by simp [leafFromTags_nil]⟩
  | cons tag rest ih =>
    obtain ⟨c1, r1, hstep, hc1, hr1, lc, lr⟩ := UpdateApprovalSetting_tag_spec tag c r hc hr
    obtain ⟨c2, r2, hrest, hc2, hr2, lc2, lr2⟩ := ih c1 r1 hc1 hr1
    refine ⟨c2, r2, by simp [ssm.UpdateApprovalSetting_tags, hstep, hrest], hc2, hr2, ?_, ?_⟩
    · intro k1 k2
      rw [lc2, leafFromTags_cons, lc]
      cases leafFromTags rest "currentCpuLimit" "currentMemLimit" "currentCpuRequest"
        "currentMemRequest" k1 k2 <;> rfl
    · intro k1 k2
      rw [lr2, leafFromTags_cons, lr]
      cases leafFromTags rest "recommendedCpuLimit" "recommendedMemLimit"
        "recommendedCpuRequest" "recommendedMemRequest" k1 k2 <;> rfl

theorem UpdateApprovalSetting_tags_fresh (tags : List (Option StrMap)) :
    ∃ cur rec, ssm.UpdateApprovalSetting_tags tags (freshSettings, freshSettings)
        = some (cur, rec) ∧
      HasSections cur ∧ HasSections rec ∧
      (∀ k1 k2, leafLookup cur k1 k2 =
        leafFromTags tags "currentCpuLimit" "currentMemLimit" "currentCpuRequest"
          "currentMemRequest" k1 k2) ∧
      (∀ k1 k2, leafLookup rec k1 k2 =
        leafFromTags tags "recommendedCpuLimit" "recommendedMemLimit"
          "recommendedCpuRequest" "recommendedMemRequest" k1 k2) := by
  obtain ⟨c1, r1, h, hc, hr, lc, lr⟩ :=
    UpdateApprovalSetting_tags_spec tags freshSettings freshSettings HasSections_fresh
      HasSections_fresh
  refine ⟨c1, r1, h, hc, hr, ?_, ?_⟩
  · intro k1 k2
    rw [lc, leafLookup_fresh]
    cases leafFromTags tags "currentCpuLimit" "currentMemLimit" "currentCpuRequest"
      "currentMemRequest" k1 k2 <;> rfl
  · intro k1 k2
    rw [lr, leafLookup_fresh]
    cases leafFromTags tags "recommendedCpuLimit" "recommendedMemLimit"
      "recommendedCpuRequest" "recommendedMemRequest" k1 k2 <;> rfl

theorem tagValue_filter (tags : List (Option StrMap)) (key : String) :
    tagValue (tags.filter fun tag => decide (strGet tag "Key" = key)) key = tagValue tags key := by
  induction tags with
  | nil => rfl
  | cons tag rest ih =>
    by_cases h : strGet tag "Key" = key
    · simp [List.filter, h, tagValue, ih]
    · simp only [List.filter, h, decide_False, tagValue, ih, if_false]
      cases tagValue rest key <;> rfl

theorem UpdateApprovalSetting_run (w : World F) (approved : Bool)
    (cluster nspace objType objName containerName : String) (s : State) :
    ssm.UpdateApprovalSetting w approved cluster nspace objType objName containerName s =
      match w.execRun s.trace
          (listTagsCommand (parameterName s.ssmPrefix cluster nspace objType objName
            containerName) s) with
      | (_, _, some _) =>
        .ret (some "unable to update approval setting")
          (s.pushCall (.exec (listTagsCommand (parameterName s.ssmPrefix cluster nspace objType
            objName containerName) s)))
      | (resp, _, none) =>
        match ssm.UpdateApprovalSetting_tags (ssm.decodeSliceOfStrMaps (w.jsonParse resp))
            (freshSettings, freshSettings) with
        | none =>
          .panic (s.pushCall (.exec (listTagsCommand (parameterName s.ssmPrefix cluster nspace
            objType objName containerName) s)))
        | some (cur, rec) =>
          match ssm.UpdateApprovalSetting_put w
              (parameterName s.ssmPrefix cluster nspace objType objName containerName)
              (w.marshalSpec (if approved = true then rec else cur))
              (if approved = true then "Approved" else "NotApproved")
              (s.pushCall (.exec (listTagsCommand (parameterName s.ssmPrefix cluster nspace
                objType objName containerName) s))) with
          | ((none, none), s2) => .ret none s2
          | (_, s2) => .ret (some "unable to update approval setting") s2 := by
  unfold ssm.UpdateApprovalSetting support.ExecuteSingleCommand parameterName listTagsCommand
    freshSettings State.pushCall
  simp only
  rcases w.execRun s.trace ["aws", "ssm", "list-tags-for-resource", "--resource-type",
    "Parameter", "--resource-id", s.ssmPrefix ++ "/" ++ cluster ++ "/" ++ nspace ++ "/"
      ++ objType ++ "/" ++ objName ++ "/" ++ containerName ++ "/resourceSpec",
    "--profile", s.profile, "--region", s.region, "--query", "TagList"] with ⟨resp, err, e⟩
  cases e with
  | some e => rfl
  | none =>
    simp only
    split
    · rfl
    · cases approved <;> simp
theorem UpdateApprovalSetting_put_run (w : World F) (name value label : String) (s : State) :
    ssm.UpdateApprovalSetting_put w name value label
        (s.pushCall (.exec (listTagsCommand name s))) =
      match putResult w name value s with
      | (_, _, some e1) =>
        ((some e1, none),
          (s.pushCall (.exec (listTagsCommand name s))).pushCall
            (.exec (putParameterCommand name value s)))
      | (_, _, none) =>
        ((none, (labelResult w name value label s).2.2),
          ((s.pushCall (.exec (listTagsCommand name s))).pushCall
            (.exec (putParameterCommand name value s))).pushCall
            (.exec (labelCommand name label s))) := by
  unfold ssm.UpdateApprovalSetting_put support.ExecuteSingleCommand putResult labelResult
    putParameterCommand labelCommand listTagsCommand State.pushCall
  simp only
  rcases w.execRun (s.trace ++ [Call.exec ["aws", "ssm", "list-tags-for-resource",
    "--resource-type", "Parameter", "--resource-id", name, "--profile", s.profile, "--region",
    s.region, "--query", "TagList"]]) ["aws", "ssm", "put-parameter", "--name", name, "--type",
    "String", "--value", value, "--overwrite", "--profile", s.profile, "--region", s.region]
    with ⟨out, err, e⟩
  cases e with
  | some e => rfl
  | none => simp

theorem HTTPRequest_get_extends (w : World F) (endpoint authStr : String)
    (body : Option String) (s : State) :
    Extends IsGet s (support.HTTPRequest w "GET" endpoint authStr body s).final := by
  unfold support.HTTPRequest
  simp only
  split
  · exact ⟨[_], rfl, by simp [IsGet]⟩
  · exact ⟨[_], rfl, by simp [IsGet]⟩
  · exact Extends.refl _ _

theorem lookupInsight_locate_get (w : World F) (cluster : String) (s : State) :
    Extends IsGet s (densify.lookupInsight_locate w cluster s).final := by
  unfold densify.lookupInsight_locate
  split
  · have h := HTTPRequest_get_extends w (s.densifyURL ++ densify.analysisEP)
      (s.densifyUser ++ ":" ++ s.densifyPass) none s
    generalize support.HTTPRequest w "GET" (s.densifyURL ++ densify.analysisEP)
      (s.densifyUser ++ ":" ++ s.densifyPass) none s = r at h
    cases r with
    | panic s1 => exact h
    | ret a s1 =>
      obtain ⟨resp, e⟩ := a
      cases e with
      | some e => exact h
      | none =>
        simp only
        split
        · exact h
        · exact h
        · exact Extends.of_trace_eq h rfl
  · exact Extends.refl _ _

theorem lookupInsight_get (w : World F)
    (cluster nspace objType objName containerName : String) (s : State) :
    Extends IsGet s
      (densify.lookupInsight w cluster nspace objType objName containerName s).final := by
  unfold densify.lookupInsight
  have h := lookupInsight_locate_get w cluster s
  generalize densify.lookupInsight_locate w cluster s = r at h
  cases r with
  | panic s1 => exact h
  | ret a s1 =>
    cases a with
    | some e => exact h
    | none =>
      simp only
      have h2 := HTTPRequest_get_extends w
        (s1.densifyURL ++ densify.analysisEP ++ "/" ++ s1.analysisId ++ "/results?cluster="
          ++ cluster ++ "&namespace=" ++ nspace ++ "&container=" ++ containerName
          ++ "&podService=" ++ objName ++ "&controllerType=" ++ objType)
        (s1.densifyUser ++ ":" ++ s1.densifyPass) none s1
      generalize support.HTTPRequest w "GET"
        (s1.densifyURL ++ densify.analysisEP ++ "/" ++ s1.analysisId ++ "/results?cluster="
          ++ cluster ++ "&namespace=" ++ nspace ++ "&container=" ++ containerName
          ++ "&podService=" ++ objName ++ "&controllerType=" ++ objType)
        (s1.densifyUser ++ ":" ++ s1.densifyPass) none s1 = r2 at h2
      cases r2 with
      | panic s2 => exact h.trans h2
      | ret a s2 =>
        obtain ⟨resp, e⟩ := a
        cases e with
        | some e => exact h.trans h2
        | none =>
          simp only
          split
          · exact h.trans h2
          · exact h.trans h2

theorem lookupInsight_find_first (analyses : List (JVal F)) (cluster id : String)
    (h : FirstNamed analyses cluster id) :
    densify.lookupInsight_find analyses cluster = some (some id) := by
  obtain ⟨before, m, after, hsplit, hbefore, hname, hid⟩ := h
  subst hsplit
  induction before with
  | nil => simp [densify.lookupInsight_find, hname, hid]
  | cons a rest ih =>
    obtain ⟨m1, name, ha, hn, hne⟩ := hbefore a (List.mem_cons_self _ _)
    subst ha
    simp only [List.cons_append, densify.lookupInsight_find, hn, if_neg hne]
    exact ih (fun b hb => hbefore b (List.mem_cons_of_mem _ hb))

theorem lookupInsight_find_none (analyses : List (JVal F)) (cluster : String)
    (h : ∀ a ∈ analyses, NamedOtherwise cluster a) :
    densify.lookupInsight_find analyses cluster = some none := by
  induction analyses with
  | nil => rfl
  | cons a rest ih =>
    obtain ⟨m1, name, ha, hn, hne⟩ := h a (List.mem_cons_self _ _)
    subst ha
    simp only [densify.lookupInsight_find, hn, if_neg hne]
    exact ih (fun b hb => h b (List.mem_cons_of_mem _ hb))

theorem lookupInsight_request_calls (w : World F) (url authStr : String) (s : State)
    (hreq : w.httpDo s.trace "GET" url authStr none ≠ .badRequest) :
    ∃ r, support.HTTPRequest w "GET" url authStr none s
      = .ret r { s with trace := s.trace ++ [Call.http "GET" url authStr none] } := by
  unfold support.HTTPRequest
  cases hans : w.httpDo s.trace "GET" url authStr none with
  | ok body => exact ⟨_, rfl⟩
  | failed msg => exact ⟨_, rfl⟩
  | badRequest => exact absurd hans hreq

theorem lookupInsight_after_locate (w : World F)
    (cluster nspace objType objName containerName : String) (s s1 : State)
    (hlocate : densify.lookupInsight_locate w cluster s = .ret none s1)
    (hreq : w.httpDo s1.trace "GET"
      (insightURL s1 s1.analysisId cluster nspace objType objName containerName)
      (s1.densifyUser ++ ":" ++ s1.densifyPass) none ≠ .badRequest) :
    (densify.lookupInsight w cluster nspace objType objName containerName s).final
      = { s1 with trace := s1.trace ++
          [insightRequest s1 s1.analysisId cluster nspace objType objName containerName] } := by
  obtain ⟨r, hr⟩ := lookupInsight_request_calls w _ _ s1 hreq
  unfold insightURL at hr
  unfold densify.lookupInsight
  simp only [hlocate, hr]
  obtain ⟨resp, e⟩ := r
  cases e with
  | some e => rfl
  | none =>
    simp only
    split <;> rfl

theorem split_at_first {α : Type} (c : α) :
    ∀ (xs xs1 ys ys1 : List α), c ∉ xs → c ∉ xs1 → xs ++ c :: ys = xs1 ++ c :: ys1 →
      xs = xs1 ∧ ys = ys1 := by
  intro xs
  induction xs with
  | nil =>
    intro xs1 ys ys1 _ h1 h
    cases xs1 with
    | nil =>
      simp only [List.nil_append, List.cons.injEq, true_and] at h
      exact ⟨rfl, h⟩
    | cons a rest =>
      simp only [List.nil_append, List.cons_append, List.cons.injEq] at h
      exact absurd (h.1 ▸ List.mem_cons_self _ _) h1
  | cons x rest ih =>
    intro xs1 ys ys1 h0 h1 h
    cases xs1 with
    | nil =>
      simp only [List.nil_append, List.cons_append, List.cons.injEq] at h
      exact absurd (h.1 ▸ List.mem_cons_self _ _) h0
    | cons a rest1 =>
      simp only [List.cons_append, List.cons.injEq] at h
      obtain ⟨hrest, hys⟩ := ih rest1 ys ys1
        (fun hm => h0 (List.mem_cons_of_mem _ hm)) (fun hm => h1 (List.mem_cons_of_mem _ hm)) h.2
      exact ⟨by rw [h.1, hrest], hys⟩

theorem split_at_last {α : Type} (c : α) (xs xs1 ys ys1 : List α)
    (h0 : c ∉ ys) (h1 : c ∉ ys1) (h : xs ++ c :: ys = xs1 ++ c :: ys1) :
    xs = xs1 ∧ ys = ys1 := by
  have hr := congrArg List.reverse h
  simp only [List.reverse_append, List.reverse_cons, List.append_assoc, List.singleton_append]
    at hr
  obtain ⟨hy, hx⟩ := split_at_first c ys.reverse ys1.reverse xs.reverse xs1.reverse
    (by simpa using h0) (by simpa using h1) hr
  exact ⟨List.reverse_injective hx, List.reverse_injective hy⟩

theorem parameterName_data (pfx cluster nspace objType objName containerName : String) :
    (parameterName pfx cluster nspace objType objName containerName).data =
      (((((pfx.data ++ '/' :: cluster.data) ++ '/' :: nspace.data) ++ '/' :: objType.data)
        ++ '/' :: objName.data) ++ '/' :: containerName.data) ++ "/resourceSpec".data := by
  have hslash : "/".data = ['/'] := rfl
  simp only [parameterName, String.data_append, hslash, List.append_assoc, List.singleton_append,
    List.cons_append, List.nil_append]

theorem parameterName_injective (pfx c n t o k c1 n1 t1 o1 k1 : String)
    (hn : NoSlash n) (ht : NoSlash t) (ho : NoSlash o) (hk : NoSlash k)
    (hn1 : NoSlash n1) (ht1 : NoSlash t1) (ho1 : NoSlash o1) (hk1 : NoSlash k1)
    (h : parameterName pfx c n t o k = parameterName pfx c1 n1 t1 o1 k1) :
    c = c1 ∧ n = n1 ∧ t = t1 ∧ o = o1 ∧ k = k1 := by
  have hd := congrArg String.data h
  rw [parameterName_data, parameterName_data] at hd
  obtain ⟨hd4, ek⟩ := split_at_last _ _ _ _ _ hk hk1 (List.append_cancel_right hd)
  obtain ⟨hd3, eo⟩ := split_at_last _ _ _ _ _ ho ho1 hd4
  obtain ⟨hd2, et⟩ := split_at_last _ _ _ _ _ ht ht1 hd3
  obtain ⟨hd1, en⟩ := split_at_last _ _ _ _ _ hn hn1 hd2
  have ec : c.data = c1.data := by
    have := List.append_cancel_left hd1
    simpa using this
  exact ⟨String.ext ec, String.ext en, String.ext et, String.ext eo, String.ext ek⟩

theorem getParameterLabel_find_other (w : World F) (v0 : F) (history : List (GoMap (JVal F)))
    (h : ∀ val ∈ history, OtherVersion w v0 val) :
    ssm.getParameterLabel_find w history (w.formatFloatE v0) = some none := by
  induction history with
  | nil => rfl
  | cons val rest ih =>
    obtain ⟨v, hv, hne⟩ := h val (List.mem_cons_self _ _)
    unfold ssm.getParameterLabel_find
    simp only [hv, if_neg hne]
    exact ih (fun b hb => h b (List.mem_cons_of_mem _ hb))

theorem getParameterLabel_find_labels (w : World F) (v0 : F) (history : List (GoMap (JVal F)))
    (found : Option (List String)) (h : VersionLabels w v0 history found) :
    ssm.getParameterLabel_find w history (w.formatFloatE v0) = some (approvalOfLabels found) := by
  cases found with
  | none => exact getParameterLabel_find_other w v0 history h
  | some labels =>
    obtain ⟨before, entry, after, hsplit, hbefore, hafter, hversion, hlabels⟩ := h
    subst hsplit
    induction before with
    | nil =>
      have hrest := getParameterLabel_find_other w v0 after hafter
      unfold ssm.getParameterLabel_find
      simp only [List.nil_append, hversion, if_true, hlabels]
      match labels with
      | [] => simpa [approvalOfLabels] using hrest
      | [l] =>
        by_cases h1 : l = "NotApproved"
        · subst h1
          simp [approvalOfLabels]
        · by_cases h2 : l = "Approved"
          · subst h2
            simp [approvalOfLabels]
          · simpa [approvalOfLabels, h1, h2] using hrest
      | l1 :: l2 :: more => simpa [approvalOfLabels] using hrest
    | cons val rest ih =>
      obtain ⟨v, hv, hne⟩ := hbefore val (List.mem_cons_self _ _)
      unfold ssm.getParameterLabel_find
      simp only [List.cons_append, hv, if_neg hne]
      exact ih (fun b hb => hbefore b (List.mem_cons_of_mem _ hb))

theorem getParameterLabel_labels (w : World F) (ssmKey : String) (v0 : F) (s : State)
    (out err : String) (found : Option (List String))
    (hhist : w.execRun s.trace (historyCommand ssmKey s) = (out, err, none))
    (hfound : VersionLabels w v0 (decodeSliceOfMaps (w.jsonParse out)) found) :
    ssm.getParameterLabel w ssmKey (w.formatFloatE v0) s =
      .ret (match approvalOfLabels found with
            | some st => (st, none)
            | none => ("", some "unable to read parameter label"))
        (s.pushCall (.exec (historyCommand ssmKey s))) := by
  unfold historyCommand at hhist
  unfold ssm.getParameterLabel support.ExecuteSingleCommand
  simp only [hhist, getParameterLabel_find_labels w v0 _ found hfound]
  cases approvalOfLabels found <;> rfl

theorem HasSections_of_valid (parsed : Option ResourceSpec)
    (hvalid : ∀ p ∈ leafPaths, ssm.leafInvalid (specLeaf parsed p.1 p.2) = false) :
    HasSections parsed := by
  have h1 := leafLookup_of_valid parsed "limits" "cpu" (hvalid ("limits", "cpu") (by simp [leafPaths]))
  have h2 := leafLookup_of_valid parsed "requests" "cpu"
    (hvalid ("requests", "cpu") (by simp [leafPaths]))
  unfold leafLookup specGet at h1 h2
  cases parsed with
  | none => simp at h1
  | some m =>
    simp only at h1 h2
    cases hl : mapLookup m "limits" with
    | none => simp [hl] at h1
    | some l =>
      cases l with
      | none => simp [hl] at h1
      | some l =>
        cases hr : mapLookup m "requests" with
        | none => simp [hr] at h2
        | some r =>
          cases r with
          | none => simp [hr] at h2
          | some r => exact ⟨m, l, r, rfl, hl, hr⟩

theorem GetInsight_suffix_of_valid (parsed : Option ResourceSpec)
    (hvalid : ∀ p ∈ leafPaths, ssm.leafInvalid (specLeaf parsed p.1 p.2) = false) :
    ∃ spec, ssm.GetInsight_suffix parsed = some spec := by
  have h0 := HasSections_of_valid parsed hvalid
  unfold ssm.GetInsight_suffix
  obtain ⟨p1, e1, s1⟩ := specSetLeaf_sections parsed "limits" "cpu"
    (specLeaf parsed "limits" "cpu" ++ "m") h0 (Or.inl rfl)
  simp only [e1]
  obtain ⟨p2, e2, s2⟩ := specSetLeaf_sections p1 "limits" "memory"
    (specLeaf p1 "limits" "memory" ++ "Mi") s1 (Or.inl rfl)
  simp only [e2]
  obtain ⟨p3, e3, s3⟩ := specSetLeaf_sections p2 "requests" "cpu"
    (specLeaf p2 "requests" "cpu" ++ "m") s2 (Or.inr rfl)
  simp only [e3]
  obtain ⟨p4, e4, _⟩ := specSetLeaf_sections p3 "requests" "memory"
    (specLeaf p3 "requests" "memory" ++ "Mi") s3 (Or.inr rfl)
  exact ⟨p4, e4⟩

theorem extractResourceSpecFromK8S_find_other (containerDefs : List (GoMap (JVal F)))
    (containerName : String) (h : ∀ d ∈ containerDefs, NamedOther containerName d) :
    extractResourceSpecFromK8S_find containerDefs containerName = some none := by
  induction containerDefs with
  | nil => rfl
  | cons d rest ih =>
    obtain ⟨name, hn, hne⟩ := h d (List.mem_cons_self _ _)
    unfold extractResourceSpecFromK8S_find
    simp only [hn, if_neg hne]
    exact ih (fun b hb => h b (List.mem_cons_of_mem _ hb))

theorem extractResourceSpecFromK8S_find_first (containerDefs : List (GoMap (JVal F)))
    (containerName : String) (d : GoMap (JVal F))
    (h : FirstContainer containerDefs containerName d) :
    extractResourceSpecFromK8S_find containerDefs containerName =
      match mapLookup d "resources" with
      | none => some none
      | some (.obj []) => some none
      | some resources => some (some (decodeSpec (some resources))) := by
  obtain ⟨before, after, hsplit, hbefore, hname⟩ := h
  subst hsplit
  induction before with
  | nil =>
    unfold extractResourceSpecFromK8S_find
    simp only [List.nil_append, hname, if_true]
  | cons b rest ih =>
    obtain ⟨name, hn, hne⟩ := hbefore b (List.mem_cons_self _ _)
    unfold extractResourceSpecFromK8S_find
    simp only [List.cons_append, hn, if_neg hne]
    exact ih (fun x hx => hbefore x (List.mem_cons_of_mem _ hx))

theorem extractResourceSpecFromK8S_find_success (containerDefs : List (GoMap (JVal F)))
    (containerName : String) (spec : Option ResourceSpec)
    (h : extractResourceSpecFromK8S_find containerDefs containerName = some (some spec)) :
    ∃ d resources, FirstContainer containerDefs containerName d ∧
      mapLookup d "resources" = some resources ∧
      resources ≠ .obj [] ∧ spec = decodeSpec (some resources) := by
  induction containerDefs with
  | nil => simp [extractResourceSpecFromK8S_find] at h
  | cons d rest ih =>
    unfold extractResourceSpecFromK8S_find at h
    split at h
    · rename_i name hn
      by_cases hc : containerName = name
      · subst hc
        simp only [if_true] at h
        split at h
        · simp at h
        · simp at h
        · rename_i resources hne hres
          injection h with h
          injection h with h
          exact ⟨d, resources, ⟨[], rest, rfl, by simp, hn⟩, hres, hne, h.symm⟩
      · simp only [hc, if_false] at h
        obtain ⟨d1, resources, ⟨before, after, hsplit, hbefore, hname⟩, hrest⟩ := ih h
        refine ⟨d1, resources, ⟨d :: before, after, by rw [hsplit]; rfl, ?_, hname⟩, hrest⟩
        intro b hb
        rcases List.mem_cons.mp hb with rfl | hb
        · exact ⟨name, hn, hc⟩
        · exact hbefore b hb
    · simp at h

theorem IsUpdate.isWrite (c : Call) (h : IsUpdate c) : IsWrite c := by
  rcases h with ⟨e, a, b, rfl⟩ | ⟨rest, rfl⟩ | ⟨rest, rfl⟩
  · refine ⟨?_, by simp⟩
    rintro (⟨e1, a1, b1, h⟩ | ⟨r, h⟩ | ⟨r, h⟩ | ⟨r, h⟩ | ⟨bin, r, h⟩) <;> simp at h
  · refine ⟨?_, by simp⟩
    rintro (⟨e1, a1, b1, h⟩ | ⟨r, h⟩ | ⟨r, h⟩ | ⟨r, h⟩ | ⟨bin, r, h⟩) <;> simp at h
  · refine ⟨?_, by simp⟩
    rintro (⟨e1, a1, b1, h⟩ | ⟨r, h⟩ | ⟨r, h⟩ | ⟨r, h⟩ | ⟨bin, r, h⟩) <;> simp at h

theorem ConfirmedWrites.of_reads (w : World F) (base calls : List Call)
    (h : ∀ c ∈ calls, IsRead c) : ConfirmedWrites w base calls := by
  intro pre c post hsplit hwrite
  exact absurd (h c (by rw [hsplit]; simp)) hwrite.1

theorem ConfirmedWrites.append (w : World F) (base calls1 calls2 : List Call)
    (h1 : ConfirmedWrites w base calls1) (h2 : ConfirmedWrites w (base ++ calls1) calls2) :
    ConfirmedWrites w base (calls1 ++ calls2) := by
  intro pre c post hsplit hwrite
  rcases List.append_eq_append_iff.mp hsplit with ⟨a, ha1, ha2⟩ | ⟨a, ha1, ha2⟩
  · -- pre = calls1 ++ a, calls2 = a ++ c :: post
    obtain ⟨pre1, pre2, hp, hreply, hno⟩ := h2 a c post ha2 hwrite
    refine ⟨calls1 ++ pre1, pre2, ?_, ?_, hno⟩
    · rw [ha1, hp, List.append_assoc]
    · rw [← List.append_assoc]
      exact hreply
  · -- calls1 = pre ++ a, c :: post = a ++ calls2
    cases a with
    | nil =>
      simp only [List.nil_append] at ha2
      simp only [List.append_nil] at ha1
      obtain ⟨pre1, pre2, hp, hreply, hno⟩ := h2 [] c post (by simpa using ha2.symm) hwrite
      simp at hp
    | cons x rest =>
      simp only [List.cons_append, List.cons.injEq] at ha2
      obtain ⟨hx, hpost⟩ := ha2
      subst hx
      exact h1 pre c rest ha1 hwrite

theorem ConfirmedWrites.of_prompt (w : World F) (base reads upd : List Call)
    (hreads : ∀ c ∈ reads, IsRead c) (hupd : ∀ c ∈ upd, NotPrompt c)
    (hreply : upd ≠ [] → w.readLine (base ++ reads) = "y" ∨ w.readLine (base ++ reads) = "") :
    ConfirmedWrites w base (reads ++ Call.scanln :: upd) := by
  intro pre c post hsplit hwrite
  rcases List.append_eq_append_iff.mp hsplit with ⟨a, ha1, ha2⟩ | ⟨a, ha1, ha2⟩
  · -- pre = reads ++ a, scanln :: upd = a ++ c :: post
    cases a with
    | nil =>
      simp only [List.nil_append, List.cons.injEq] at ha2
      exact absurd ha2.1.symm hwrite.2
    | cons x rest =>
      simp only [List.cons_append, List.cons.injEq] at ha2
      obtain ⟨hx, hu⟩ := ha2
      subst hx
      refine ⟨reads, rest, ha1, hreply (by rw [hu]; simp), ?_⟩
      intro y hy
      exact hupd y (by rw [hu]; simp [hy])
  · -- reads = pre ++ a, c :: post = a ++ scanln :: upd
    cases a with
    | nil =>
      simp only [List.nil_append, List.cons.injEq] at ha2
      exact absurd ha2.1 hwrite.2
    | cons x rest =>
      simp only [List.cons_append, List.cons.injEq] at ha2
      obtain ⟨hx, _⟩ := ha2
      subst hx
      exact absurd (hreads c (by rw [ha1]; simp)) hwrite.1
theorem Extends.pushCall {P : Call → Prop} (s : State) (c : Call) (h : P c) :
    Extends P s (s.pushCall c) :=
  ⟨[c], rfl, by simpa using h⟩

theorem IsGet.isRead (c : Call) (h : IsGet c) : IsRead c := Or.inl h

theorem getAttribute_get (w : World F) (entityID attrID : String) (s : State) :
    Extends IsGet s (densify.getAttribute w entityID attrID s).final := by
  unfold densify.getAttribute
  have h := HTTPRequest_get_extends w (s.densifyURL ++ densify.systemsEP ++ "/" ++ entityID)
    (s.densifyUser ++ ":" ++ s.densifyPass) none s
  generalize support.HTTPRequest w "GET" (s.densifyURL ++ densify.systemsEP ++ "/" ++ entityID)
    (s.densifyUser ++ ":" ++ s.densifyPass) none s = r at h
  cases r with
  | panic s1 => exact h
  | ret a s1 =>
    obtain ⟨resp, e⟩ := a
    cases e with
    | some e => exact h
    | none =>
      simp only
      split
      · split
        · exact h
        · exact h
        · exact h
      · exact h

theorem densify_GetInsight_get (w : World F)
    (cluster nspace objType objName containerName : String) (s : State) :
    Extends IsGet s
      (densify.GetInsight w cluster nspace objType objName containerName s).final := by
  unfold densify.GetInsight
  have h := lookupInsight_get w cluster nspace objType objName containerName s
  generalize densify.lookupInsight w cluster nspace objType objName containerName s = r at h
  cases r with
  | panic s1 => exact h
  | ret a s1 =>
    obtain ⟨insight, e⟩ := a
    cases e with
    | some e => exact h
    | none =>
      simp only
      split
      · rename_i entityId _
        have h2 := getAttribute_get w entityId "attr_ApprovalSetting" s1
        generalize densify.getAttribute w entityId "attr_ApprovalSetting" s1 = r2 at h2
        cases r2 with
        | panic s2 => exact h.trans h2
        | ret a s2 =>
          obtain ⟨v, e⟩ := a
          cases e with
          | some e =>
            simp only
            rw [GetInsight_select_final]
            exact h.trans h2
          | none =>
            simp only
            rw [GetInsight_select_final]
            exact h.trans h2
      · exact h

theorem densify_GetApprovalSetting_get (w : World F)
    (cluster nspace objType objName containerName : String) (s : State) :
    Extends IsGet s
      (densify.GetApprovalSetting w cluster nspace objType objName containerName s).final := by
  unfold densify.GetApprovalSetting
  have h := lookupInsight_get w cluster nspace objType objName containerName s
  generalize densify.lookupInsight w cluster nspace objType objName containerName s = r at h
  cases r with
  | panic s1 => exact h
  | ret a s1 =>
    obtain ⟨insight, e⟩ := a
    cases e with
    | some e => exact h
    | none =>
      simp only
      split
      · rename_i entityId _
        have h2 := getAttribute_get w entityId "attr_ApprovalSetting" s1
        generalize densify.getAttribute w entityId "attr_ApprovalSetting" s1 = r2 at h2
        cases r2 with
        | panic s2 => exact h.trans h2
        | ret a s2 =>
          obtain ⟨v, e⟩ := a
          cases e with
          | some e => exact h.trans h2
          | none => exact h.trans h2
      · exact h

theorem ssm_read_extends (w : World F) (ssmKey : String) (s : State) {α : Type}
    (r : Exec α)
    (h : r.final = (ssm.getParameterValue w ssmKey s).final ∨
      ∃ version, r.final = (ssm.getParameterLabel w ssmKey version
        (ssm.getParameterValue w ssmKey s).final).final) :
    Extends IsRead s r.final := by
  rcases h with h | ⟨version, h⟩
  · rw [h, getParameterValue_final]
    exact Extends.pushCall _ _ (Or.inr (Or.inl ⟨_, rfl⟩))
  · rw [h, getParameterLabel_final, getParameterValue_final]
    exact (Extends.pushCall _ _ (Or.inr (Or.inl ⟨_, rfl⟩))).trans
      (Extends.pushCall _ _ (Or.inr (Or.inr (Or.inl ⟨_, rfl⟩))))

theorem ssm_GetApprovalSetting_final_cases (w : World F)
    (cluster nspace objType objName containerName : String) (s : State) :
    (ssm.GetApprovalSetting w cluster nspace objType objName containerName s).final =
      (ssm.getParameterValue w
        (parameterName s.ssmPrefix cluster nspace objType objName containerName) s).final ∨
    ∃ version,
      (ssm.GetApprovalSetting w cluster nspace objType objName containerName s).final =
        (ssm.getParameterLabel w
          (parameterName s.ssmPrefix cluster nspace objType objName containerName) version
          (ssm.getParameterValue w
            (parameterName s.ssmPrefix cluster nspace objType objName containerName)
            s).final).final := by
  unfold ssm.GetApprovalSetting parameterName
  simp only
  generalize s.ssmPrefix ++ "/" ++ cluster ++ "/" ++ nspace ++ "/"
    ++ objType ++ "/" ++ objName ++ "/" ++ containerName ++ "/resourceSpec" = key
  cases hv : ssm.getParameterValue w key s with
  | panic s1 => exact Or.inl rfl
  | ret r s1 =>
    obtain ⟨insight, version, e⟩ := r
    cases e with
    | some e => exact Or.inl rfl
    | none =>
      refine Or.inr ⟨version, ?_⟩
      simp only [Exec.final]
      generalize ssm.getParameterLabel w key version s1 = lab
      cases lab with
      | panic s2 => rfl
      | ret r s2 =>
        obtain ⟨a, e⟩ := r
        cases e <;> rfl

theorem extractResourceSpecFromK8S_final (w : World F)
    (cluster objNamespace objType objName containerName : String) (s : State) :
    (extractResourceSpecFromK8S w cluster objNamespace objType objName containerName s).final
      = s.pushCall (.exec (clusterQuery s cluster objNamespace objType objName)) := by
  unfold extractResourceSpecFromK8S support.ExecuteSingleCommand clusterQuery
  simp only
  rcases w.execRun s.trace [s.KubectlBin, "get", objType, objName,
    "-o=jsonpath=" ++ (mapLookup objTypeContainerPath objType).getD "",
    "--cluster=" ++ cluster, "--namespace=" ++ objNamespace] with ⟨out, err, e⟩
  cases e with
  | some e => rfl
  | none =>
    simp only
    split <;> rfl

theorem getInsight_read (w : World F)
    (cluster nspace objType objName containerName : String) (s : State) :
    Extends IsRead s (getInsight w cluster nspace objType objName containerName s).final := by
  unfold getInsight
  by_cases hd : s.adapter = "Densify"
  · simp only [hd, if_true]
    have h := (densify_GetInsight_get w cluster nspace objType objName containerName s).mono
      IsGet.isRead
    generalize densify.GetInsight w cluster nspace objType objName containerName s = r at h
    cases r with
    | panic s1 => exact h
    | ret a s1 =>
      obtain ⟨i, st, e⟩ := a
      cases e <;> exact h
  · by_cases hp : s.adapter = "Parameter Store"
    · simp only [hd, hp, if_true, if_false]
      have h := ssm_read_extends w _ s _
        (ssm_GetInsight_final_cases w cluster nspace objType objName containerName s)
      generalize ssm.GetInsight w cluster nspace objType objName containerName s = r at h
      cases r with
      | panic s1 => exact h
      | ret a s1 =>
        obtain ⟨i, st, e⟩ := a
        cases e <;> exact h
    · simp only [hd, hp, if_false]
      exact Extends.refl _ _

theorem getApprovalSetting_read (w : World F)
    (cluster nspace objType objName containerName : String) (s : State) :
    Extends IsRead s
      (getApprovalSetting w cluster nspace objType objName containerName s).final := by
  unfold getApprovalSetting
  by_cases hd : s.adapter = "Densify"
  · simp only [hd, if_true]
    exact (densify_GetApprovalSetting_get w cluster nspace objType objName containerName s).mono
      IsGet.isRead
  · by_cases hp : s.adapter = "Parameter Store"
    · simp only [hd, hp, if_true, if_false]
      exact ssm_read_extends w _ s _
        (ssm_GetApprovalSetting_final_cases w cluster nspace objType objName containerName s)
    · simp only [hd, hp, if_false]
      exact Extends.refl _ _

theorem processTemplates_container_read (w : World F) (objNamespace objType objName : String)
    (container : JVal F) (s : State) :
    Extends IsRead s
      (processTemplates_container w objNamespace objType objName container s).final := by
  unfold processTemplates_container
  split
  · split
    · exact Extends.refl _ _
    · rename_i containerName _
      split
      · exact Extends.refl _ _
      · have h := getInsight_read w s.remoteCluster objNamespace objType objName containerName s
        generalize getInsight w s.remoteCluster objNamespace objType objName containerName s
          = r at h
        cases r with
        | panic s1 => exact h
        | ret a s1 =>
          obtain ⟨insight, st, e⟩ := a
          cases e with
          | none => exact h
          | some e =>
            simp only
            have h2 : Extends IsRead s1 (extractResourceSpecFromK8S w s1.remoteCluster
                objNamespace objType objName containerName s1).final := by
              rw [extractResourceSpecFromK8S_final]
              exact Extends.pushCall _ _ (Or.inr (Or.inr (Or.inr (Or.inr ⟨_, _, rfl⟩))))
            generalize extractResourceSpecFromK8S w s1.remoteCluster objNamespace objType objName
              containerName s1 = r2 at h2
            cases r2 with
            | panic s2 => exact h.trans h2
            | ret a s2 =>
              obtain ⟨i2, e2⟩ := a
              cases e2 <;> exact h.trans h2
  · exact Extends.refl _ _

theorem processTemplates_containers_read (w : World F) (objNamespace objType objName : String)
    (containers : List (JVal F)) (s : State) :
    Extends IsRead s
      (processTemplates_containers w objNamespace objType objName containers s).final := by
  induction containers generalizing s with
  | nil => exact Extends.refl _ _
  | cons container rest ih =>
    unfold processTemplates_containers
    have h := processTemplates_container_read w objNamespace objType objName container s
    generalize processTemplates_container w objNamespace objType objName container s = r at h
    cases r with
    | panic s1 => exact h
    | ret c1 s1 =>
      simp only
      have h2 := ih s1
      generalize processTemplates_containers w objNamespace objType objName rest s1 = r2 at h2
      cases r2 with
      | panic s2 => exact h.trans h2
      | ret rest1 s2 => exact h.trans h2

theorem processTemplates_manifest_read (w : World F) (manifest : String) (s : State) :
    Extends IsRead s (processTemplates_manifest w manifest s).final := by
  unfold processTemplates_manifest
  split
  · exact Extends.refl _ _
  · exact Extends.refl _ _
  · rename_i cl _
    have h := processTemplates_containers_read w cl.objNamespace cl.objType cl.objName
      cl.containers s
    generalize processTemplates_containers w cl.objNamespace cl.objType cl.objName
      cl.containers s = r at h
    cases r with
    | panic s1 => exact h
    | ret c1 s1 => exact h
theorem IsHttp.notPrompt (c : Call) (h : IsHttp c) : NotPrompt c := by
  obtain ⟨m, e, a, b, rfl⟩ := h
  simp [NotPrompt]

theorem densify_UpdateApprovalSetting_notPrompt (w : World F) (approved : Bool)
    (cluster nspace objType objName containerName : String) (s : State) :
    Extends NotPrompt s
      (densify.UpdateApprovalSetting w approved cluster nspace objType objName containerName
        s).final := by
  unfold densify.UpdateApprovalSetting
  have h := (lookupInsight_extends w cluster nspace objType objName containerName s).mono
    IsHttp.notPrompt
  generalize densify.lookupInsight w cluster nspace objType objName containerName s = r at h
  cases r with
  | panic s1 => exact h
  | ret a s1 =>
    obtain ⟨insight, e⟩ := a
    cases e with
    | some e => exact h
    | none =>
      simp only
      split
      · rename_i entityId _
        have h2 := (HTTPRequest_extends w "PUT"
          (s1.densifyURL ++ densify.systemsEP ++ "/" ++ entityId ++ "/attributes")
          (s1.densifyUser ++ ":" ++ s1.densifyPass)
          (some (if approved = true then densify.approveBody else densify.notApprovedBody))
          s1).mono IsHttp.notPrompt
        generalize support.HTTPRequest w "PUT"
          (s1.densifyURL ++ densify.systemsEP ++ "/" ++ entityId ++ "/attributes")
          (s1.densifyUser ++ ":" ++ s1.densifyPass)
          (some (if approved = true then densify.approveBody else densify.notApprovedBody))
          s1 = r2 at h2
        cases r2 with
        | panic s2 => exact h.trans h2
        | ret a s2 =>
          obtain ⟨resp, e⟩ := a
          exact h.trans h2
      · exact h

theorem ssm_UpdateApprovalSetting_notPrompt (w : World F) (approved : Bool)
    (cluster nspace objType objName containerName : String) (s : State) :
    Extends NotPrompt s
      (ssm.UpdateApprovalSetting w approved cluster nspace objType objName containerName
        s).final := by
  have hput : ∀ key value label (s1 : State),
      Extends NotPrompt s1 (ssm.UpdateApprovalSetting_put w key value label s1).2 := by
    intro key value label s1
    rcases UpdateApprovalSetting_put_state w key value label s1 with h | h
    · rw [h]
      exact Extends.pushCall _ _ (by simp [NotPrompt])
    · rw [h]
      exact (Extends.pushCall _ _ (by simp [NotPrompt])).trans
        (Extends.pushCall _ _ (by simp [NotPrompt]))
  unfold ssm.UpdateApprovalSetting support.ExecuteSingleCommand
  simp only
  generalize s.ssmPrefix ++ "/" ++ cluster ++ "/" ++ nspace ++ "/"
    ++ objType ++ "/" ++ objName ++ "/" ++ containerName ++ "/resourceSpec" = key
  have h1 : Extends NotPrompt s { s with trace := s.trace ++ [Call.exec ["aws", "ssm",
      "list-tags-for-resource", "--resource-type", "Parameter", "--resource-id", key,
      "--profile", s.profile, "--region", s.region, "--query", "TagList"]] } :=
    ⟨[_], rfl, by simp [NotPrompt]⟩
  rcases w.execRun s.trace ["aws", "ssm", "list-tags-for-resource", "--resource-type",
    "Parameter", "--resource-id", key, "--profile", s.profile, "--region", s.region,
    "--query", "TagList"] with ⟨resp, err, e⟩
  cases e with
  | some e => exact h1
  | none =>
    simp only
    split
    · exact h1
    · rename_i cur rec _
      by_cases ha : approved = true
      · simp only [ha, if_true]
        have h2 := hput key (w.marshalSpec rec) "Approved" { s with trace := s.trace ++
          [Call.exec ["aws", "ssm", "list-tags-for-resource", "--resource-type", "Parameter",
            "--resource-id", key, "--profile", s.profile, "--region", s.region,
            "--query", "TagList"]] }
        generalize ssm.UpdateApprovalSetting_put w key (w.marshalSpec rec) "Approved"
          { s with trace := s.trace ++ [Call.exec ["aws", "ssm", "list-tags-for-resource",
            "--resource-type", "Parameter", "--resource-id", key, "--profile", s.profile,
            "--region", s.region, "--query", "TagList"]] } = r at h2
        obtain ⟨⟨e1, e2⟩, s2⟩ := r
        have h3 := h1.trans h2
        cases e1 <;> cases e2 <;> exact h3
      · simp only [ha, if_false, Bool.false_eq_true]
        have h2 := hput key (w.marshalSpec cur) "NotApproved" { s with trace := s.trace ++
          [Call.exec ["aws", "ssm", "list-tags-for-resource", "--resource-type", "Parameter",
            "--resource-id", key, "--profile", s.profile, "--region", s.region,
            "--query", "TagList"]] }
        generalize ssm.UpdateApprovalSetting_put w key (w.marshalSpec cur) "NotApproved"
          { s with trace := s.trace ++ [Call.exec ["aws", "ssm", "list-tags-for-resource",
            "--resource-type", "Parameter", "--resource-id", key, "--profile", s.profile,
            "--region", s.region, "--query", "TagList"]] } = r at h2
        obtain ⟨⟨e1, e2⟩, s2⟩ := r
        have h3 := h1.trans h2
        cases e1 <;> cases e2 <;> exact h3

theorem updateApprovalSetting_notPrompt (w : World F) (approved : Bool)
    (cluster nspace objType objName containerName : String) (s : State) :
    Extends NotPrompt s
      (updateApprovalSetting w approved cluster nspace objType objName containerName
        s).final := by
  unfold updateApprovalSetting
  by_cases hd : s.adapter = "Densify"
  · simp only [hd, if_true]
    exact densify_UpdateApprovalSetting_notPrompt w approved cluster nspace objType objName
      containerName s
  · by_cases hp : s.adapter = "Parameter Store"
    · simp only [hd, hp, if_true, if_false]
      exact ssm_UpdateApprovalSetting_notPrompt w approved cluster nspace objType objName
        containerName s
    · simp only [hd, hp, if_false]
      exact Extends.refl _ _
theorem processPluginSwitches_container_run (w : World F) (objNamespace objType objName : String)
    (c : GoMap (JVal F)) (containerName : String) (s : State)
    (hname : mapLookup c "name" = some (.str containerName)) :
    processPluginSwitches_container w objNamespace objType objName (.obj c) s =
      match getApprovalSetting w s.remoteCluster objNamespace objType objName containerName s with
      | .panic s1 => .panic s1
      | .ret (_, some _) s1 => .ret () s1
      | .ret (approvalSetting, none) s1 =>
        if w.readLine s1.trace = "y" ∨ w.readLine s1.trace = "" then
          (updateApprovalSetting w (decide (approvalSetting = "Not Approved")) s1.remoteCluster
            objNamespace objType objName containerName (s1.pushCall Call.scanln)).map
            (fun _ => ())
        else .ret () (s1.pushCall Call.scanln) := by
  unfold processPluginSwitches_container
  simp only [hname]
  cases getApprovalSetting w s.remoteCluster objNamespace objType objName containerName s with
  | panic s1 => rfl
  | ret a s1 =>
    obtain ⟨st, e⟩ := a
    cases e with
    | some e => rfl
    | none =>
      simp only [fmt.Scanln, State.pushCall]
      by_cases hst : st = "Not Approved"
      · by_cases hr : w.readLine s1.trace = "y" ∨ w.readLine s1.trace = ""
        · simp only [hst, hr, if_true, decide_True]
          cases updateApprovalSetting w true s1.remoteCluster objNamespace objType objName
            containerName { s1 with trace := s1.trace ++ [Call.scanln] } <;> rfl
        · simp only [hst, hr, if_true, if_false]
      · by_cases hr : w.readLine s1.trace = "y" ∨ w.readLine s1.trace = ""
        · simp only [hst, hr, if_true, if_false, decide_False]
          cases updateApprovalSetting w false s1.remoteCluster objNamespace objType objName
            containerName { s1 with trace := s1.trace ++ [Call.scanln] } <;> rfl
        · simp only [hst, hr, if_false]

theorem processPluginSwitches_container_confirmed (w : World F)
    (objNamespace objType objName : String) (container : JVal F) (s : State) :
    ∃ calls,
      (processPluginSwitches_container w objNamespace objType objName container s).final.trace
        = s.trace ++ calls ∧
      ConfirmedWrites w s.trace calls := by
  have hnone : ∃ calls, s.trace = s.trace ++ calls ∧ ConfirmedWrites w s.trace calls :=
    ⟨[], by simp, ConfirmedWrites.of_reads w _ _ (by simp)⟩
  cases container with
  | obj c =>
    cases hname : mapLookup c "name" with
    | none => simpa [processPluginSwitches_container, hname, Exec.final] using hnone
    | some v =>
      cases v with
      | str containerName =>
        rw [processPluginSwitches_container_run w objNamespace objType objName c containerName s
          hname]
        have h := getApprovalSetting_read w s.remoteCluster objNamespace objType objName
          containerName s
        generalize getApprovalSetting w s.remoteCluster objNamespace objType objName
          containerName s = r at h
        cases r with
        | panic s1 =>
          obtain ⟨reads, e, p⟩ := h
          exact ⟨reads, e, ConfirmedWrites.of_reads w _ _ p⟩
        | ret a s1 =>
          obtain ⟨st, e⟩ := a
          obtain ⟨reads, etrace, p⟩ := h
          simp only [Exec.final] at etrace
          cases e with
          | some e => exact ⟨reads, etrace, ConfirmedWrites.of_reads w _ _ p⟩
          | none =>
            simp only
            by_cases hr : w.readLine s1.trace = "y" ∨ w.readLine s1.trace = ""
            · simp only [hr, if_true]
              have h2 := updateApprovalSetting_notPrompt w (decide (st = "Not Approved"))
                s1.remoteCluster objNamespace objType objName containerName
                (s1.pushCall Call.scanln)
              generalize updateApprovalSetting w (decide (st = "Not Approved"))
                s1.remoteCluster objNamespace objType objName containerName
                (s1.pushCall Call.scanln) = r2 at h2
              obtain ⟨upd, e2, p2⟩ := h2
              have hfinal : (r2.map (fun _ => ())).final = r2.final := by
                cases r2 <;> rfl
              rw [hfinal]
              refine ⟨reads ++ Call.scanln :: upd, ?_, ?_⟩
              · rw [e2]
                simp [State.pushCall, etrace]
              · refine ConfirmedWrites.of_prompt w _ _ _ p p2 ?_
                intro _
                rw [← etrace]
                exact hr
            · simp only [hr, if_false]
              refine ⟨reads ++ Call.scanln :: [], ?_, ?_⟩
              · simp [Exec.final, State.pushCall, etrace]
              · exact ConfirmedWrites.of_prompt w _ _ _ p (by simp) (by simp)
      | _ => simpa [processPluginSwitches_container, hname, Exec.final] using hnone
  | _ => simpa [processPluginSwitches_container, Exec.final] using hnone

theorem processPluginSwitches_containers_confirmed (w : World F)
    (objNamespace objType objName : String) (containers : List (JVal F)) (s : State) :
    ∃ calls,
      (processPluginSwitches_containers w objNamespace objType objName containers s).final.trace
        = s.trace ++ calls ∧
      ConfirmedWrites w s.trace calls := by
  induction containers generalizing s with
  | nil => exact ⟨[], by simp [processPluginSwitches_containers, Exec.final],
      ConfirmedWrites.of_reads w _ _ (by simp)⟩
  | cons container rest ih =>
    unfold processPluginSwitches_containers
    have h := processPluginSwitches_container_confirmed w objNamespace objType objName
      container s
    generalize processPluginSwitches_container w objNamespace objType objName container s
      = r at h
    cases r with
    | panic s1 => exact h
    | ret u s1 =>
      obtain ⟨calls1, e1, p1⟩ := h
      simp only [Exec.final] at e1
      obtain ⟨calls2, e2, p2⟩ := ih s1
      simp only
      refine ⟨calls1 ++ calls2, by rw [e2, e1, List.append_assoc], ?_⟩
      rw [e1] at p2
      exact ConfirmedWrites.append w _ _ _ p1 p2

theorem processPluginSwitches_manifests_confirmed (w : World F) (manifests : List String)
    (s : State) :
    ∃ calls,
      (processPluginSwitches_manifests w manifests s).final.trace = s.trace ++ calls ∧
      ConfirmedWrites w s.trace calls := by
  induction manifests generalizing s with
  | nil => exact ⟨[], by simp [processPluginSwitches_manifests, Exec.final],
      ConfirmedWrites.of_reads w _ _ (by simp)⟩
  | cons manifest rest ih =>
    unfold processPluginSwitches_manifests
    split
    · exact ⟨[], by simp [Exec.final], ConfirmedWrites.of_reads w _ _ (by simp)⟩
    · exact ih s
    · rename_i cl _
      have h := processPluginSwitches_containers_confirmed w cl.objNamespace cl.objType
        cl.objName cl.containers s
      generalize processPluginSwitches_containers w cl.objNamespace cl.objType cl.objName
        cl.containers s = r at h
      cases r with
      | panic s1 => exact h
      | ret u s1 =>
        obtain ⟨calls1, e1, p1⟩ := h
        simp only [Exec.final] at e1
        obtain ⟨calls2, e2, p2⟩ := ih s1
        simp only
        refine ⟨calls1 ++ calls2, by rw [e2, e1, List.append_assoc], ?_⟩
        rw [e1] at p2
        exact ConfirmedWrites.append w _ _ _ p1 p2

theorem getRequest_cache (w : World F) (endpoint : String) (g : support.densify.Globals) :
    (support.densify.getRequest w endpoint g).final.insightCache = g.insightCache := by
  unfold support.densify.getRequest
  simp only
  split <;> rfl

theorem GetInsight_analyses_cache (w : World F)
    (unmarshal : String → List support.densify.Insight) (analyses : List (JVal F))
    (cluster : String) (g : support.densify.Globals) :
    (support.densify.GetInsight_analyses w unmarshal analyses cluster g).final.insightCache
        = g.insightCache ∨
    ∃ insights,
      (support.densify.GetInsight_analyses w unmarshal analyses cluster g).final.insightCache
        = mapSet g.insightCache cluster insights := by
  induction analyses with
  | nil => exact Or.inl rfl
  | cons analysis rest ih =>
    unfold support.densify.GetInsight_analyses
    split
    · split
      · split
        · split
          · rename_i id _
            have h := getRequest_cache w (support.densify.analysisEP ++ "/" ++ id ++ "/results") g
            generalize support.densify.getRequest w
              (support.densify.analysisEP ++ "/" ++ id ++ "/results") g = r at h
            cases r with
            | panic g1 => exact Or.inl h
            | ret a g1 =>
              obtain ⟨resp, e⟩ := a
              cases e with
              | some e => exact Or.inl h
              | none =>
                refine Or.inr ⟨unmarshal resp, ?_⟩
                simp only [support.densify.Run.final] at h ⊢
                rw [h]
          · exact Or.inl rfl
        · exact ih
      · exact Or.inl rfl
    · exact Or.inl rfl

theorem GetInsight_populate_cache (w : World F)
    (unmarshal : String → List support.densify.Insight) (cluster : String)
    (g : support.densify.Globals) :
    (support.densify.GetInsight_populate w unmarshal cluster g).final.insightCache
        = g.insightCache ∨
    (mapLookup g.insightCache cluster = none ∧ ∃ insights,
      (support.densify.GetInsight_populate w unmarshal cluster g).final.insightCache
        = mapSet g.insightCache cluster insights) := by
  unfold support.densify.GetInsight_populate
  cases hc : mapLookup g.insightCache cluster with
  | some entry => exact Or.inl rfl
  | none =>
    simp only
    have h := getRequest_cache w support.densify.analysisEP g
    generalize support.densify.getRequest w support.densify.analysisEP g = r at h
    cases r with
    | panic g1 => exact Or.inl h
    | ret a g1 =>
      obtain ⟨resp, e⟩ := a
      cases e with
      | some e => exact Or.inl h
      | none =>
        simp only [support.densify.Run.final] at h
        simp only
        have h2 := GetInsight_analyses_cache w unmarshal (decodeSlice (w.jsonParse resp))
          cluster g1
        generalize support.densify.GetInsight_analyses w unmarshal
          (decodeSlice (w.jsonParse resp)) cluster g1 = r2 at h2
        rw [h] at h2
        cases r2 with
        | panic g2 =>
          rcases h2 with h2 | ⟨insights, h2⟩
          · exact Or.inl h2
          · exact Or.inr ⟨trivial, insights, h2⟩
        | ret b g2 =>
          obtain ⟨e2, found⟩ := b
          have h3 : g2.insightCache = g.insightCache ∨
              (True ∧ ∃ insights, g2.insightCache = mapSet g.insightCache cluster insights) := by
            rcases h2 with h2 | ⟨insights, h2⟩
            · exact Or.inl h2
            · exact Or.inr ⟨trivial, insights, h2⟩
          cases e2 with
          | some e2 => exact h3
          | none => cases found <;> exact h3

theorem GetInsight_final (w : World F) (unmarshal : String → List support.densify.Insight)
    (cluster nspace objType objName containerName : String) (g : support.densify.Globals) :
    (support.densify.GetInsight w unmarshal cluster nspace objType objName containerName
      g).final = (support.densify.GetInsight_populate w unmarshal cluster g).final := by
  unfold support.densify.GetInsight
  cases support.densify.GetInsight_populate w unmarshal cluster g with
  | panic g1 => rfl
  | ret e g1 =>
    cases e with
    | some e => rfl
    | none =>
      simp only
      split <;> rfl

theorem GetInsight_analyses_other (w : World F)
    (unmarshal : String → List support.densify.Insight) (analyses : List (JVal F))
    (cluster : String) (g : support.densify.Globals)
    (h : ∀ a ∈ analyses, NamedOtherwise cluster a) :
    support.densify.GetInsight_analyses w unmarshal analyses cluster g = .ret (none, false) g := by
  induction analyses with
  | nil => rfl
  | cons a rest ih =>
    obtain ⟨m, name, ha, hn, hne⟩ := h a (List.mem_cons_self _ _)
    subst ha
    unfold support.densify.GetInsight_analyses
    simp only [hn, if_neg hne]
    exact ih (fun b hb => h b (List.mem_cons_of_mem _ hb))

theorem GetInsight_analyses_first (w : World F)
    (unmarshal : String → List support.densify.Insight) (analyses : List (JVal F))
    (cluster id : String) (g : support.densify.Globals)
    (h : FirstNamed analyses cluster id) :
    support.densify.GetInsight_analyses w unmarshal analyses cluster g =
      match support.densify.getRequest w (support.densify.analysisEP ++ "/" ++ id ++ "/results")
          g with
      | .panic g1 => .panic g1
      | .ret (_, some e) g1 => .ret (some e, false) g1
      | .ret (resp, none) g1 =>
        .ret (none, true)
          { g1 with insightCache := mapSet g1.insightCache cluster (unmarshal resp) } := by
  obtain ⟨before, m, after, hsplit, hbefore, hname, hid⟩ := h
  subst hsplit
  induction before with
  | nil =>
    unfold support.densify.GetInsight_analyses
    simp only [List.nil_append, hname, if_true, hid]
  | cons a rest ih =>
    obtain ⟨m1, name, ha, hn, hne⟩ := hbefore a (List.mem_cons_self _ _)
    subst ha
    unfold support.densify.GetInsight_analyses
    simp only [List.cons_append, hn, if_neg hne]
    exact ih (fun b hb => hbefore b (List.mem_cons_of_mem _ hb))

theorem Initialize_missing_aws (w : World F) (env : Setup) (fuel : Nat) (s : State)
    (haws : (w.execRun s.trace ["aws", "--version"]).2.2 ≠ none) :
    ssm.Initialize w env fuel s =
      some (.ret (some "aws-cli is not available - please install before trying again")
        (s.pushCall (.exec ["aws", "--version"]))) := by
  unfold ssm.Initialize support.ExecuteSingleCommand
  rcases hrun : w.execRun s.trace ["aws", "--version"] with ⟨out, err, e⟩
  rw [hrun] at haws
  cases e with
  | none => exact absurd rfl haws
  | some e => rfl

theorem initializeAdapter_step (w : World F) (env : Setup) (fuel : Nat) (s : State)
    (hadapter : s.adapter ≠ "") :
    initializeAdapter w env (fuel + 1) s =
      match (if s.adapter = "Densify" then env.densifyInitialize s
          else if s.adapter = "Parameter Store" then ssm.Initialize w env fuel s
          else some (.ret none s)) with
      | none => none
      | some (.panic s2) => some (.panic s2)
      | some (.ret none s2) => some (.ret none s2)
      | some (.ret (some e) s2) =>
        if w.readLine s2.trace = "y" then initializeAdapter w env fuel (s2.pushCall Call.scanln)
        else some (.ret (some e) (s2.pushCall Call.scanln)) := by
  rw [initializeAdapter]
  simp only [hadapter, if_false, fmt.Scanln, State.pushCall]

theorem initializeAdapter_never_returns (w : World F) (env : Setup)
    (haws : ∀ trace, (w.execRun trace ["aws", "--version"]).2.2 ≠ none)
    (hyes : ∀ trace, w.readLine trace = "y") (fuel : Nat) (s : State)
    (hadapter : s.adapter = "Parameter Store") :
    initializeAdapter w env fuel s = none := by
  induction fuel generalizing s with
  | zero => rfl
  | succ fuel ih =>
    rw [initializeAdapter_step w env fuel s (by rw [hadapter]; decide)]
    have hd : ¬ s.adapter = "Densify" := by rw [hadapter]; decide
    simp only [hd, hadapter, if_true, if_false, Initialize_missing_aws w env fuel s (haws _),
      hyes]
    exact ih _ hadapter

theorem densify_UpdateApprovalSetting_final (w : World F) (approved : Bool)
    (cluster nspace objType objName containerName : String) (s s1 : State)
    (insight : GoMap (JVal F)) (entityId : String)
    (hfound : densify.lookupInsight w cluster nspace objType objName containerName s
      = .ret (insight, none) s1)
    (hentity : mapLookup insight "entityId" = some (.str entityId))
    (hreq : w.httpDo s1.trace "PUT"
      (s1.densifyURL ++ densify.systemsEP ++ "/" ++ entityId ++ "/attributes")
      (s1.densifyUser ++ ":" ++ s1.densifyPass)
      (some (if approved = true then densify.approveBody else densify.notApprovedBody))
      ≠ .badRequest) :
    (densify.UpdateApprovalSetting w approved cluster nspace objType objName containerName
      s).final =
      s1.pushCall (.http "PUT"
        (s1.densifyURL ++ densify.systemsEP ++ "/" ++ entityId ++ "/attributes")
        (s1.densifyUser ++ ":" ++ s1.densifyPass)
        (some (if approved = true then densify.approveBody else densify.notApprovedBody))) := by
  unfold densify.UpdateApprovalSetting
  simp only [hfound, hentity]
  unfold support.HTTPRequest
  simp only
  cases hans : w.httpDo s1.trace "PUT"
    (s1.densifyURL ++ densify.systemsEP ++ "/" ++ entityId ++ "/attributes")
    (s1.densifyUser ++ ":" ++ s1.densifyPass)
    (some (if approved = true then densify.approveBody else densify.notApprovedBody)) with
  | ok body => rfl
  | failed msg => rfl
  | badRequest => exact absurd hans hreq

theorem attributeBody_written (approved : Bool) :
    (if approved = true then densify.approveBody else densify.notApprovedBody)
      = attributeBody (writtenValue approved) := by
  cases approved <;> decide

theorem approvalOfLabels_written (approved : Bool) :
    approvalOfLabels (some [writtenLabel approved]) = some (stateOf approved) := by
  cases approved <;> decide

theorem objTypeContainerPath_eq (kind : String) (h : kind ∈ supportedKinds) :
    mapLookup objTypeContainerPath kind = some (jsonPathOf (containerPath kind)) := by
  simp only [supportedKinds, List.mem_cons, List.mem_singleton, List.not_mem_nil, or_false] at h
  rcases h with rfl | rfl | rfl | rfl | rfl | rfl | rfl | rfl <;> decide

theorem validateManifest_documentOf (w : World F) (manifest : String) (s : State)
    (kind : String) (containers : List (JVal F)) (h : kind ∈ supportedKinds)
    (hparse : w.yamlParse manifest
      = some (.obj (documentOf kind "app" (containerPath kind) containers))) :
    validateManifest w manifest s =
      some (.ok { objType := kind, objName := "app", objNamespace := s.nspace,
                  containers := containers,
                  manifestMap := documentOf kind "app" (containerPath kind) containers }) := by
  simp only [supportedKinds, List.mem_cons, List.mem_singleton, List.not_mem_nil, or_false] at h
  unfold validateManifest
  rw [hparse]
  rcases h with rfl | rfl | rfl | rfl | rfl | rfl | rfl | rfl <;> rfl

theorem CheckMap_one_iff (m : GoMap (JVal F)) (key v : String) :
    support.CheckMap m [key] = some v ↔
      (mapLookup m key = none ∧ v = "") ∨ mapLookup m key = some (.str v) := by
  unfold support.CheckMap
  cases h : mapLookup m key with
  | none => simp [eq_comm]
  | some x => cases x <;> simp

theorem CheckMap_cons_iff (m : GoMap (JVal F)) (key key2 : String) (rest : List String)
    (v : String) :
    support.CheckMap m (key :: key2 :: rest) = some v ↔
      (mapLookup m key = none ∧ v = "") ∨
      ∃ inner, mapLookup m key = some (.obj inner) ∧
        support.CheckMap inner (key2 :: rest) = some v := by
  rw [support.CheckMap]
  cases h : mapLookup m key with
  | none => simp [eq_comm]
  | some x => cases x <;> simp

theorem containersAt_iff (m : GoMap (JVal F)) (kind : String) (containers : List (JVal F)) :
    containersAt m (containerPath kind) = some containers ↔ ContainersOf m kind containers := by
  unfold containerPath ContainersOf
  by_cases hp : kind = "Pod"
  · simp only [hp, if_true]
    simp only [containersAt]
    constructor
    · intro h
      split at h
      · rename_i spec hs
        split at h
        · rename_i xs hx
          injection h with h
          subst h
          exact ⟨spec, hs, hx⟩
        · simp at h
      · simp at h
    · rintro ⟨spec, hs, hx⟩
      simp [hs, hx]
  · by_cases hc : kind = "CronJob"
    · simp only [hc, if_true]
      have hne : ¬ "CronJob" = "Pod" := by decide
      simp only [hne, if_false]
      simp only [containersAt]
      constructor
      · intro h
        split at h
        · rename_i a ha
          split at h
          · rename_i b hb
            split at h
            · rename_i c1 hc1
              split at h
              · rename_i d hd
                split at h
                · rename_i e he
                  split at h
                  · rename_i xs hx
                    injection h with h
                    subst h
                    exact ⟨a, b, c1, d, e, ha, hb, hc1, hd, he, hx⟩
                  · simp at h
                · simp at h
              · simp at h
            · simp at h
          · simp at h
        · simp at h
      · rintro ⟨a, b, c1, d, e, ha, hb, hc1, hd, he, hx⟩
        simp [ha, hb, hc1, hd, he, hx]
    · simp only [hp, hc, if_false]
      simp only [containersAt]
      constructor
      · intro h
        split at h
        · rename_i a ha
          split at h
          · rename_i b hb
            split at h
            · rename_i c1 hc1
              split at h
              · rename_i xs hx
                injection h with h
                subst h
                exact ⟨a, b, c1, ha, hb, hc1, hx⟩
              · simp at h
            · simp at h
          · simp at h
        · simp at h
      · rintro ⟨a, b, c1, ha, hb, hc1, hx⟩
        simp [ha, hb, hc1, hx]
theorem validateManifest_accepted_iff (w : World F) (manifest : String) (s : State)
    (m : GoMap (JVal F)) (hparse : decodeManifest (w.yamlParse manifest) = some m)
    (cl : Classified F) :
    validateManifest w manifest s = some (.ok cl) ↔ AcceptedAs m s.nspace cl := by
  rw [validateManifest_ok_iff w manifest s m hparse cl]
  unfold AcceptedAs
  constructor
  · rintro ⟨found, hook, hkind, hsup, hname, hn, hfound, hns, hhook, htest, hcont, hm⟩
    have hkind1 : mapLookup m "kind" = some (.str cl.objType) := by
      rcases (CheckMap_one_iff m "kind" cl.objType).mp hkind with ⟨-, h0⟩ | h
      · rw [h0] at hsup
        exact absurd hsup (by decide)
      · exact h
    obtain ⟨metadata, hmeta, hname1⟩ : ∃ metadata, mapLookup m "metadata" = some (.obj metadata) ∧
        mapLookup metadata "name" = some (.str cl.objName) := by
      rcases (CheckMap_cons_iff m "metadata" "name" [] cl.objName).mp hname with ⟨-, h0⟩ | h
      · exact absurd h0 hn
      · obtain ⟨inner, hi, hc⟩ := h
        rcases (CheckMap_one_iff inner "name" cl.objName).mp hc with ⟨-, h0⟩ | h
        · exact absurd h0 hn
        · exact ⟨inner, hi, h⟩
    refine ⟨hkind1, hsup, ⟨metadata, hmeta, hname1, hn, ?_, ?_⟩,
      (containersAt_iff m cl.objType cl.containers).mp hcont, hm⟩
    · rcases (CheckMap_cons_iff m "metadata" "namespace" [] found).mp hfound with
        ⟨h, -⟩ | ⟨inner, hi, hc⟩
      · rw [h] at hmeta
        exact absurd hmeta (by simp)
      · rw [hi] at hmeta
        injection hmeta with hmeta
        injection hmeta with hmeta
        subst hmeta
        rcases (CheckMap_one_iff inner "namespace" found).mp hc with ⟨h, h0⟩ | h
        · subst h0
          exact Or.inr ⟨Or.inl h, by simpa using hns⟩
        · by_cases hf : found = ""
          · subst hf
            exact Or.inr ⟨Or.inr h, by simpa using hns⟩
          · exact Or.inl ⟨found, h, hf, by simpa [hf] using hns⟩
    · rcases (CheckMap_cons_iff m "metadata" "annotations" ["helm.sh/hook"] hook).mp hhook with
        ⟨h, -⟩ | ⟨inner, hi, hc⟩
      · rw [h] at hmeta
        exact absurd hmeta (by simp)
      · rw [hi] at hmeta
        injection hmeta with hmeta
        injection hmeta with hmeta
        subst hmeta
        rcases (CheckMap_cons_iff inner "annotations" "helm.sh/hook" [] hook).mp hc with
          ⟨h, -⟩ | ⟨ann, ha, hc2⟩
        · exact Or.inl h
        · refine Or.inr ⟨ann, ha, ?_⟩
          rcases (CheckMap_one_iff ann "helm.sh/hook" hook).mp hc2 with ⟨h, -⟩ | h
          · exact Or.inl h
          · exact Or.inr ⟨hook, h, htest⟩
  · rintro ⟨hkind, hsup, ⟨metadata, hmeta, hname, hn, hns, hhook⟩, hcont, hm⟩
    obtain ⟨found, hfound, hnsv⟩ : ∃ found,
        support.CheckMap m ["metadata", "namespace"] = some found ∧
        cl.objNamespace = (if found = "" then s.nspace else found) := by
      rcases hns with ⟨ns, h, hne, he⟩ | ⟨h | h, he⟩
      · exact ⟨ns, (CheckMap_cons_iff m _ _ _ _).mpr (Or.inr ⟨metadata, hmeta,
          (CheckMap_one_iff _ _ _).mpr (Or.inr h)⟩), by simpa [hne] using he⟩
      · exact ⟨"", (CheckMap_cons_iff m _ _ _ _).mpr (Or.inr ⟨metadata, hmeta,
          (CheckMap_one_iff _ _ _).mpr (Or.inl ⟨h, rfl⟩)⟩), by simpa using he⟩
      · exact ⟨"", (CheckMap_cons_iff m _ _ _ _).mpr (Or.inr ⟨metadata, hmeta,
          (CheckMap_one_iff _ _ _).mpr (Or.inr h)⟩), by simpa using he⟩
    obtain ⟨hook, hhookv, htest⟩ : ∃ hook,
        support.CheckMap m ["metadata", "annotations", "helm.sh/hook"] = some hook ∧
        ¬ StartsWithTest hook := by
      rcases hhook with h | ⟨ann, ha, h | ⟨hook, h, ht⟩⟩
      · exact ⟨"", (CheckMap_cons_iff m _ _ _ _).mpr (Or.inr ⟨metadata, hmeta,
          (CheckMap_cons_iff _ _ _ _ _).mpr (Or.inl ⟨h, rfl⟩)⟩), by simp [StartsWithTest]⟩
      · exact ⟨"", (CheckMap_cons_iff m _ _ _ _).mpr (Or.inr ⟨metadata, hmeta,
          (CheckMap_cons_iff _ _ _ _ _).mpr (Or.inr ⟨ann, ha,
            (CheckMap_one_iff _ _ _).mpr (Or.inl ⟨h, rfl⟩)⟩)⟩), by simp [StartsWithTest]⟩
      · exact ⟨hook, (CheckMap_cons_iff m _ _ _ _).mpr (Or.inr ⟨metadata, hmeta,
          (CheckMap_cons_iff _ _ _ _ _).mpr (Or.inr ⟨ann, ha,
            (CheckMap_one_iff _ _ _).mpr (Or.inr h)⟩)⟩), ht⟩
    exact ⟨found, hook, (CheckMap_one_iff _ _ _).mpr (Or.inr hkind), hsup,
      (CheckMap_cons_iff m _ _ _ _).mpr (Or.inr ⟨metadata, hmeta,
        (CheckMap_one_iff _ _ _).mpr (Or.inr hname)⟩), hn, hfound, hnsv, hhookv, htest,
      (containersAt_iff m cl.objType cl.containers).mpr hcont, hm⟩

theorem mapLookup_map_value {α β : Type} (f : α → β) (m : GoMap α) (k : String) :
    mapLookup (m.map fun kv => (kv.1, f kv.2)) k = (mapLookup m k).map f := by
  induction m with
  | nil => rfl
  | cons hd tl ih =>
    obtain ⟨k', v'⟩ := hd
    by_cases h : k' = k <;> simp [mapLookup, h, ih]

theorem leafLookup_decodeSpec (v : JVal F) (k1 k2 : String) :
    leafLookup (decodeSpec (some v)) k1 k2 = blockLeaf v k1 k2 := by
  cases v with
  | obj m =>
    simp only [decodeSpec, leafLookup, specGet, blockLeaf, mapLookup_map_value]
    cases h1 : mapLookup m k1 with
    | none => rfl
    | some x =>
      cases x with
      | obj inner =>
        simp only [Option.map_some', Option.join, decodeStrMap, Option.bind_some, id]
        show mapLookup (inner.map fun kv => (kv.1, decodeString kv.2)) k2 = _
        rw [mapLookup_map_value]
        cases h2 : mapLookup inner k2 with
        | none => rfl
        | some y => cases y <;> rfl
      | _ => rfl
  | _ => rfl

theorem specSection_decodeSpec (v : JVal F) (k1 : String) :
    (match decodeSpec (some v) with
      | none => none
      | some spec => (mapLookup spec k1).map fun inner => inner.map fun m => m.map fun kv => kv.1)
      = blockSection v k1 := by
  cases v with
  | obj m =>
    simp only [decodeSpec, blockSection, mapLookup_map_value]
    cases h1 : mapLookup m k1 with
    | none => rfl
    | some x =>
      cases x with
      | obj inner =>
        simp only [Option.map_some', decodeStrMap, List.map_map]
        rfl
      | _ => rfl
  | _ => rfl

theorem decodeSpec_eq_none_iff (v : JVal F) :
    decodeSpec (some v) = none ↔ ∀ m, v ≠ .obj m := by
  cases v <;> simp [decodeSpec]

theorem extractResourceSpecFromK8S_success_first (w : World F)
    (cluster objNamespace objType objName containerName : String) (s s1 : State)
    (spec : Option ResourceSpec)
    (h : extractResourceSpecFromK8S w cluster objNamespace objType objName containerName s
        = .ret (spec, none) s1) :
    ∃ out err d resources,
      w.execRun s.trace (clusterQuery s cluster objNamespace objType objName)
        = (out, err, none) ∧
      FirstContainer (decodeSliceOfMaps (w.jsonParse out)) containerName d ∧
      mapLookup d "resources" = some resources ∧ resources ≠ .obj [] ∧
      spec = decodeSpec (some resources) := by
  unfold clusterQuery
  unfold extractResourceSpecFromK8S support.ExecuteSingleCommand at h
  simp only at h
  split at h
  · simp at h
  · rename_i stdOut stdErr s2 hrun
    split at h
    · simp at h
    · rename_i parsed hfind
      injection h with h1 h2
      simp only [Prod.mk.injEq, and_true] at h1
      subst h1
      obtain ⟨d, resources, hfirst, hrest⟩ :=
        extractResourceSpecFromK8S_find_success _ containerName parsed hfind
      injection hrun with hrun1 hrun2
      exact ⟨stdOut, stdErr, d, resources, hrun1, hfirst, hrest⟩
    · simp at h

theorem sectionKeys_decodeSpec (v : JVal F) (k1 : String) :
    sectionKeys (decodeSpec (some v)) k1 = blockSection v k1 := by
  rw [← specSection_decodeSpec]
  rfl

theorem blockLeaf_specToJVal (spec : Option ResourceSpec) (k1 k2 : String) :
    blockLeaf (specToJVal spec : JVal F) k1 k2 = leafLookup spec k1 k2 := by
  cases spec with
  | none => rfl
  | some m =>
    simp only [specToJVal, blockLeaf, leafLookup, specGet]
    show (match mapLookup (m.map fun kv => (kv.1, (match kv.2 with
        | none => JVal.null
        | some inner => JVal.obj (inner.map fun e => (e.1, JVal.str e.2)) : JVal F))) k1 with
      | some (.obj inner) =>
        (match mapLookup inner k2 with
          | some (.str t) => some t
          | some _ => some ""
          | none => none)
      | _ => none) = _
    have hmap : mapLookup (m.map fun kv => (kv.1, (match kv.2 with
        | none => JVal.null
        | some inner => JVal.obj (inner.map fun e => (e.1, JVal.str e.2)) : JVal F))) k1
        = (mapLookup m k1).map fun x => (match x with
        | none => JVal.null
        | some inner => JVal.obj (inner.map fun e => (e.1, JVal.str e.2)) : JVal F) :=
      mapLookup_map_value (fun (x : Option StrMap) => (match x with
        | none => JVal.null
        | some inner => JVal.obj (inner.map fun e => (e.1, JVal.str e.2)) : JVal F)) m k1
    rw [hmap]
    cases h1 : mapLookup m k1 with
    | none => rfl
    | some x =>
      cases x with
      | none => rfl
      | some inner =>
        simp only [Option.map_some', Option.join, Option.bind_some]
        have h := mapLookup_map_value (fun t => (JVal.str t : JVal F)) inner k2
        rw [h]
        cases h2 : mapLookup inner k2 <;> simp [h2]

theorem mapSet_keys_of_present {α : Type} (m : GoMap α) (k : String) (v x : α)
    (h : mapLookup m k = some x) :
    (mapSet m k v).map (fun kv => kv.1) = m.map (fun kv => kv.1) := by
  induction m with
  | nil => simp [mapLookup] at h
  | cons hd tl ih =>
    obtain ⟨k', v'⟩ := hd
    by_cases hk : k' = k
    · subst hk
      simp [mapSet]
    · simp only [mapLookup, hk, if_false] at h
      simp [mapSet, hk, ih h]

theorem sectionKeys_specSetLeaf (spec spec1 : Option ResourceSpec) (k1 k2 v t : String)
    (h : specSetLeaf spec k1 k2 v = some spec1) (hpresent : leafLookup spec k1 k2 = some t)
    (a : String) : sectionKeys spec1 a = sectionKeys spec a := by
  unfold specSetLeaf at h
  cases spec with
  | none => simp at h
  | some m =>
    simp only at h
    split at h
    · rename_i inner hin
      injection h with h
      subst h
      have hk2 : mapLookup inner k2 = some t := by
        simpa [leafLookup, specGet, hin] using hpresent
      unfold sectionKeys
      by_cases ha : a = k1
      · subst ha
        simp only [mapLookup_mapSet_self, hin, Option.map_some',
          mapSet_keys_of_present inner k2 v t hk2]
      · have ha' : k1 ≠ a := fun e => ha e.symm
        simp only [mapLookup_mapSet_ne _ _ _ _ ha']
    · simp at h

theorem GetInsight_suffix_sections (parsed spec : Option ResourceSpec)
    (h : ssm.GetInsight_suffix parsed = some spec)
    (hpresent : ∀ p ∈ leafPaths, ∃ t, leafLookup parsed p.1 p.2 = some t) (a : String) :
    sectionKeys spec a = sectionKeys parsed a := by
  unfold ssm.GetInsight_suffix at h
  split at h
  · simp at h
  · rename_i p1 h1
    split at h
    · simp at h
    · rename_i p2 h2
      split at h
      · simp at h
      · rename_i p3 h3
        have l1 := leafLookup_specSetLeaf _ _ _ _ _ h1
        have l2 := leafLookup_specSetLeaf _ _ _ _ _ h2
        have l3 := leafLookup_specSetLeaf _ _ _ _ _ h3
        obtain ⟨t1, ht1⟩ := hpresent ("limits", "cpu") (by simp [leafPaths])
        obtain ⟨t2, ht2⟩ := hpresent ("limits", "memory") (by simp [leafPaths])
        obtain ⟨t3, ht3⟩ := hpresent ("requests", "cpu") (by simp [leafPaths])
        obtain ⟨t4, ht4⟩ := hpresent ("requests", "memory") (by simp [leafPaths])
        have q2 : leafLookup p1 "limits" "memory" = some t2 := by
          rw [l1]; simpa using ht2
        have q3 : leafLookup p2 "requests" "cpu" = some t3 := by
          rw [l2, l1]; simpa using ht3
        have q4 : leafLookup p3 "requests" "memory" = some t4 := by
          rw [l3, l2, l1]; simpa using ht4
        rw [sectionKeys_specSetLeaf _ _ _ _ _ _ h q4, sectionKeys_specSetLeaf _ _ _ _ _ _ h3 q3,
          sectionKeys_specSetLeaf _ _ _ _ _ _ h2 q2, sectionKeys_specSetLeaf _ _ _ _ _ _ h1 ht1]

theorem blockLeaf_text (stored : GoMap (JVal F)) (k1 k2 t : String)
    (h : blockLeaf (.obj stored) k1 k2 = some t) (hne : t ≠ "") :
    ∃ sect, mapLookup stored k1 = some (.obj sect) ∧ mapLookup sect k2 = some (.str t) := by
  unfold blockLeaf at h
  simp only at h
  split at h
  · rename_i inner hin
    split at h
    · rename_i t1 ht1
      injection h with h
      subst h
      exact ⟨inner, hin, ht1⟩
    · injection h with h
      exact absurd h.symm hne
    · simp at h
  · simp at h

theorem ssm_GetInsight_stored (w : World F)
    (cluster nspace objType objName containerName : String) (s s2 : State)
    (spec : Option ResourceSpec) (st : String)
    (h : ssm.GetInsight w cluster nspace objType objName containerName s
      = .ret (spec, st, none) s2) :
    ∃ insight version s1 stored,
      ssm.getParameterValue w
          (parameterName s.ssmPrefix cluster nspace objType objName containerName) s
        = .ret (insight, version, none) s1 ∧
      w.jsonParse insight = some (.obj stored) ∧
      (∀ p ∈ leafPaths, ∃ sect t n,
        mapLookup stored p.1 = some (.obj sect) ∧ mapLookup sect p.2 = some (.str t) ∧
        strconv.Atoi t = some n ∧ 1 ≤ n ∧
        leafLookup spec p.1 p.2 = some (t ++ leafSuffix p.2)) ∧
      (∀ k1 k2, (k1, k2) ∉ leafPaths →
        leafLookup spec k1 k2 = blockLeaf (.obj stored) k1 k2) ∧
      (∀ k1, sectionKeys spec k1 = blockSection (.obj stored) k1) := by
  obtain ⟨insight, version, s1, hval, hleaves, hsuf, -⟩ :=
    ssm_GetInsight_success w cluster nspace objType objName containerName s s2 spec st h
  have hfirst := leafLookup_of_valid _ _ _ (hleaves ("limits", "cpu") (by simp [leafPaths]))
  obtain ⟨stored, hstored⟩ : ∃ stored, w.jsonParse insight = some (.obj stored) := by
    cases hp : w.jsonParse insight with
    | none => rw [hp] at hfirst; simp [decodeSpec, leafLookup, specGet] at hfirst
    | some v =>
      cases v with
      | obj m => exact ⟨m, rfl⟩
      | _ => rw [hp] at hfirst; simp [decodeSpec, leafLookup, specGet] at hfirst
  rw [hstored] at hleaves hsuf
  refine ⟨insight, version, s1, stored, hval, hstored, ?_, ?_, ?_⟩
  · intro p hp
    obtain ⟨n, hn, hpos⟩ := (leafInvalid_false_iff _).mp (hleaves p hp)
    have hl := leafLookup_of_valid _ _ _ (hleaves p hp)
    rw [leafLookup_decodeSpec] at hl
    have hne : specLeaf (decodeSpec (some (JVal.obj stored))) p.1 p.2 ≠ "" := by
      intro he
      rw [he] at hn
      simp [strconv.Atoi] at hn
    obtain ⟨sect, hs1, hs2⟩ := blockLeaf_text stored p.1 p.2 _ hl hne
    refine ⟨sect, _, n, hs1, hs2, hn, hpos, ?_⟩
    rw [GetInsight_suffix_leaves _ _ hsuf p.1 p.2]
    simp [hp]
  · intro k1 k2 hk
    rw [GetInsight_suffix_leaves _ _ hsuf k1 k2]
    simp only [hk, if_false]
    exact leafLookup_decodeSpec _ k1 k2
  · intro k1
    rw [GetInsight_suffix_sections _ _ hsuf ?_ k1]
    · exact sectionKeys_decodeSpec _ k1
    · intro p hp
      exact ⟨_, leafLookup_of_valid _ _ _ (hleaves p hp)⟩

theorem InMap_true_iff (insight : GoMap (JVal F)) (keys : List String) :
    support.InMap insight keys = true ↔ ∀ k ∈ keys, ∃ v, mapLookup insight k = some v := by
  induction keys with
  | nil => simp [support.InMap]
  | cons key rest ih =>
    unfold support.InMap
    cases hk : mapLookup insight key with
    | none =>
      simp only [Bool.false_eq_true, false_iff]
      intro h
      obtain ⟨v, hv⟩ := h key (List.mem_cons_self _ _)
      rw [hk] at hv
      exact absurd hv (by simp)
    | some v =>
      simp only [ih]
      constructor
      · intro h k hmem
        rcases List.mem_cons.mp hmem with rfl | hmem
        · exact ⟨v, hk⟩
        · exact h k hmem
      · intro h k hmem
        exact h k (List.mem_cons_of_mem _ hmem)

theorem fieldPositive_none_iff (w : World F) (insight : GoMap (JVal F)) (key : String) :
    densify.fieldPositive w insight key = none ↔ ∀ x : F, mapLookup insight key ≠ some (.num x) := by
  unfold densify.fieldPositive
  constructor
  · intro h x hx
    rw [hx] at h
    simp at h
  · intro h
    split
    · rename_i x hx
      exact absurd hx (h x)
    · rfl

theorem allPositive_none_iff (w : World F) (insight : GoMap (JVal F)) (keys : List String) :
    densify.allPositive w insight keys = none ↔
      ∃ before key after, keys = before ++ key :: after ∧
        (∀ b ∈ before, FieldPositive w insight b) ∧
        ∀ x : F, mapLookup insight key ≠ some (.num x) := by
  induction keys with
  | nil =>
    simp [densify.allPositive]
  | cons key rest ih =>
    unfold densify.allPositive
    cases hk : densify.fieldPositive w insight key with
    | none =>
      simp only [true_iff]
      exact ⟨[], key, rest, rfl, by simp, (fieldPositive_none_iff w insight key).mp hk⟩
    | some b =>
      cases b with
      | false =>
        simp only [false_iff, reduceCtorEq]
        rintro ⟨before, k, after, hsplit, hbefore, hnot⟩
        cases before with
        | nil =>
          simp only [List.nil_append, List.cons.injEq] at hsplit
          obtain ⟨rfl, -⟩ := hsplit
          have := (fieldPositive_none_iff w insight key).mpr hnot
          rw [hk] at this
          exact absurd this (by simp)
        | cons b0 bs =>
          simp only [List.cons_append, List.cons.injEq] at hsplit
          obtain ⟨rfl, -⟩ := hsplit
          have := (fieldPositive_true_iff w insight key).mpr (hbefore key (List.mem_cons_self _ _))
          rw [hk] at this
          exact absurd this (by simp)
      | true =>
        simp only [ih]
        constructor
        · rintro ⟨before, k, after, hsplit, hbefore, hnot⟩
          refine ⟨key :: before, k, after, by rw [hsplit]; rfl, ?_, hnot⟩
          intro b hb
          rcases List.mem_cons.mp hb with rfl | hb
          · exact (fieldPositive_true_iff w insight _).mp hk
          · exact hbefore b hb
        · rintro ⟨before, k, after, hsplit, hbefore, hnot⟩
          cases before with
          | nil =>
            simp only [List.nil_append, List.cons.injEq] at hsplit
            obtain ⟨rfl, -⟩ := hsplit
            have := (fieldPositive_none_iff w insight key).mpr hnot
            rw [hk] at this
            exact absurd this (by simp)
          | cons b0 bs =>
            simp only [List.cons_append, List.cons.injEq] at hsplit
            obtain ⟨rfl, hrest⟩ := hsplit
            exact ⟨bs, k, after, hrest, fun b hb => hbefore b (List.mem_cons_of_mem _ hb), hnot⟩

theorem quadrupleValid_none_iff (w : World F) (insight : GoMap (JVal F)) (keys : List String) :
    densify.quadrupleValid w insight keys = none ↔ ChainAborts w insight keys := by
  unfold densify.quadrupleValid ChainAborts
  by_cases hin : support.InMap insight keys = true
  · simp only [hin, if_true, allPositive_none_iff]
    constructor
    · intro h
      exact ⟨(InMap_true_iff insight keys).mp hin, h⟩
    · intro h
      exact h.2
  · simp only [hin, Bool.false_eq_true, if_false, reduceCtorEq, false_iff]
    intro h
    exact hin ((InMap_true_iff insight keys).mpr h.1)

theorem quadrupleValid_false_of (w : World F) (insight : GoMap (JVal F)) (keys : List String)
    (hnot : ¬ ∀ k ∈ keys, FieldPositive w insight k) (hno : ¬ ChainAborts w insight keys) :
    densify.quadrupleValid w insight keys = some false := by
  cases h : densify.quadrupleValid w insight keys with
  | none => exact absurd ((quadrupleValid_none_iff w insight keys).mp h) hno
  | some b =>
    cases b
    · rfl
    · exact absurd ((quadrupleValid_true_iff w insight keys).mp h) hnot

theorem ChainAborts_not_positive (w : World F) (insight : GoMap (JVal F)) (keys : List String)
    (h : ChainAborts w insight keys) : ¬ ∀ k ∈ keys, FieldPositive w insight k := by
  intro hall
  obtain ⟨-, before, key, after, hsplit, -, hnot⟩ := h
  obtain ⟨x, hx, -⟩ := hall key (by rw [hsplit]; simp)
  exact hnot x hx

theorem ChainAborts_not_typed (w : World F) (insight : GoMap (JVal F)) (keys : List String)
    (h : ChainAborts w insight keys) : ¬ ∀ k ∈ keys, FieldTyped insight k := by
  intro hall
  obtain ⟨hpresent, before, key, after, hsplit, -, hnot⟩ := h
  have hmem : key ∈ keys := by rw [hsplit]; simp
  rcases hall key hmem with hnone | ⟨x, hx⟩
  · obtain ⟨v, hv⟩ := hpresent key hmem
    rw [hnone] at hv
    exact absurd hv (by simp)
  · exact hnot x hx

theorem GetInsight_select_recommended (w : World F) (insight : GoMap (JVal F))
    (approvalSetting : String) (s : State) (ha : approvalSetting ≠ "Not Approved") :
    (¬ (∀ k ∈ recommendedKeys, FieldPositive w insight k) →
      ¬ ChainAborts w insight recommendedKeys →
      densify.GetInsight_select w insight approvalSetting s
        = .ret (none, "", some "invalid resource specs received from repository") s) ∧
    (ChainAborts w insight recommendedKeys →
      densify.GetInsight_select w insight approvalSetting s = .panic s) := by
  constructor
  · intro hnot hno
    have hq := quadrupleValid_false_of w insight recommendedKeys hnot hno
    unfold recommendedKeys at hq
    unfold densify.GetInsight_select
    simp [ha, hq]
  · intro habort
    have hq := (quadrupleValid_none_iff w insight recommendedKeys).mpr habort
    unfold recommendedKeys at hq
    unfold densify.GetInsight_select
    simp [ha, hq]

theorem GetInsight_select_current (w : World F) (insight : GoMap (JVal F)) (s : State) :
    (¬ (∀ k ∈ currentKeys, FieldPositive w insight k) →
      ¬ ChainAborts w insight currentKeys →
      densify.GetInsight_select w insight "Not Approved" s
        = .ret (none, "", some "invalid resource specs received from repository") s) ∧
    (ChainAborts w insight currentKeys →
      densify.GetInsight_select w insight "Not Approved" s = .panic s) := by
  constructor
  · intro hnot hno
    have hq := quadrupleValid_false_of w insight currentKeys hnot hno
    unfold currentKeys at hq
    unfold densify.GetInsight_select
    simp [hq]
  · intro habort
    have hq := (quadrupleValid_none_iff w insight currentKeys).mpr habort
    unfold currentKeys at hq
    unfold densify.GetInsight_select
    simp [hq]

theorem getAttribute_find_unreadable (vals : List (JVal F)) (attrID : String)
    (h : AttributeUnreadable vals attrID) : densify.getAttribute_find vals attrID = none := by
  obtain ⟨before, x, after, hsplit, hbefore, hx⟩ := h
  subst hsplit
  induction before with
  | nil =>
    simp only [List.nil_append]
    unfold densify.getAttribute_find
    rcases hx with hx | ⟨m, rfl, hid, hval⟩
    · cases x with
      | obj m => exact absurd rfl (hx m)
      | _ => rfl
    · simp only [hid, if_true]
  | cons b rest ih =>
    obtain ⟨m, rfl, hid⟩ := hbefore b (List.mem_cons_self _ _)
    have ih1 := ih fun y hy => hbefore y (List.mem_cons_of_mem _ hy)
    simp only [List.cons_append]
    unfold densify.getAttribute_find
    simp only
    split
    · rename_i id hidv
      have hne : ¬ id = attrID := by
        intro e
        subst e
        exact hid hidv
      simp only [hne, if_false]
      exact ih1
    · exact ih1

theorem getAttribute_panic (w : World F) (entityId attrID resp : String) (s : State)
    (hresp : w.httpDo s.trace "GET" (s.densifyURL ++ densify.systemsEP ++ "/" ++ entityId)
      (s.densifyUser ++ ":" ++ s.densifyPass) none = .ok resp) :
    ((∀ vals, mapLookup (decodeMap (w.jsonParse resp)) "attributes" ≠ some (.arr vals)) →
      densify.getAttribute w entityId attrID s
        = .panic (s.pushCall (attributeRequest s entityId))) ∧
    (∀ vals, mapLookup (decodeMap (w.jsonParse resp)) "attributes" = some (.arr vals) →
      AttributeUnreadable vals attrID →
      densify.getAttribute w entityId attrID s
        = .panic (s.pushCall (attributeRequest s entityId))) := by
  constructor
  · intro hno
    unfold densify.getAttribute support.HTTPRequest
    simp only [hresp]
    rfl
  · intro vals hvals hun
    unfold densify.getAttribute support.HTTPRequest
    simp only [hresp, hvals, getAttribute_find_unreadable vals attrID hun]
    rfl

theorem extractResourceSpecFromK8S_find_abort (before : List (GoMap (JVal F)))
    (d : GoMap (JVal F)) (after : List (GoMap (JVal F))) (containerName : String)
    (hbefore : ∀ b ∈ before, NamedOther containerName b)
    (hname : ∀ t, mapLookup d "name" ≠ some (.str t)) :
    extractResourceSpecFromK8S_find (before ++ d :: after) containerName = none := by
  induction before with
  | nil =>
    simp only [List.nil_append]
    unfold extractResourceSpecFromK8S_find
    split
    · rename_i name hn
      exact absurd hn (hname name)
    · rfl
  | cons b rest ih =>
    obtain ⟨name, hn, hne⟩ := hbefore b (List.mem_cons_self _ _)
    unfold extractResourceSpecFromK8S_find
    simp only [List.cons_append, hn, if_neg hne]
    exact ih (fun x hx => hbefore x (List.mem_cons_of_mem _ hx))

/-! ## Theorems -/

/-- C1: approved branch of `densify.GetInsight`.  When the insight record is
found, its approval attribute is read and is a string other than
"Not Approved", and the four recommended fields are present and `> 0`,
`GetInsight` returns no error, the state "Approved" and the spec whose
leaves are the recommended values suffixed "m" (cpu) and "Mi" (memory). -/
theorem densify_GetInsight_approved (w : World F)
    (cluster nspace objType objName containerName : String)
    (s s1 s2 : State) (insight : GoMap (JVal F)) (entityId approval : String)
    (cpuLimit memLimit cpuRequest memRequest : F)
    (hfound : densify.lookupInsight w cluster nspace objType objName containerName s
      = .ret (insight, none) s1)
    (hentity : mapLookup insight "entityId" = some (.str entityId))
    (hattr : densify.getAttribute w entityId "attr_ApprovalSetting" s1 = .ret (approval, none) s2)
    (happroval : approval ≠ "Not Approved")
    (hcl : mapLookup insight "recommendedCpuLimit" = some (.num cpuLimit))
    (hml : mapLookup insight "recommendedMemLimit" = some (.num memLimit))
    (hcr : mapLookup insight "recommendedCpuRequest" = some (.num cpuRequest))
    (hmr : mapLookup insight "recommendedMemRequest" = some (.num memRequest))
    (pcl : w.gtZero cpuLimit = true) (pml : w.gtZero memLimit = true)
    (pcr : w.gtZero cpuRequest = true) (pmr : w.gtZero memRequest = true) :
    densify.GetInsight w cluster nspace objType objName containerName s =
      .ret (some [("limits", some [("cpu", w.formatFloat cpuLimit ++ "m"),
                                   ("memory", w.formatFloat memLimit ++ "Mi")]),
                  ("requests", some [("cpu", w.formatFloat cpuRequest ++ "m"),
                                     ("memory", w.formatFloat memRequest ++ "Mi")])],
            "Approved", none) s2 := by
  simp [densify.GetInsight, hfound, hentity, hattr, densify.GetInsight_select, happroval,
    densify.quadrupleValid, support.InMap, densify.allPositive, densify.fieldPositive,
    hcl, hml, hcr, hmr, pcl, pml, pcr, pmr, densify.GetInsight_fill, densify.fieldText,
    specSetLeaf, mapSet, mapLookup]

/-- Witness for C1: the record 500/512/250/256 with the attribute value
"Approve Specific Change" gives 500m/512Mi/250m/256Mi and state "Approved". -/
theorem densify_GetInsight_approved_witness :
    densify.GetInsight (demoDensify "Approve Specific Change" demoRecommended)
        "prod" "payments" "Deployment" "api" "web" demoDensifyState =
      .ret (some [("limits", some [("cpu", "500m"), ("memory", "512Mi")]),
                  ("requests", some [("cpu", "250m"), ("memory", "256Mi")])],
            "Approved", none) demoDensifyState2 :=
  densify_GetInsight_approved (demoDensify "Approve Specific Change" demoRecommended)
    "prod" "payments" "Deployment" "api" "web" demoDensifyState demoDensifyState1 demoDensifyState2
    (("entityId", .str "e1") :: demoRecommended) "e1" "Approve Specific Change" 500 512 250 256
    rfl rfl rfl (by decide) rfl rfl rfl rfl rfl rfl rfl rfl

/-- C2, counterexample: the approval attribute is "Approve Specific Change",
no recommended field is present, the four current fields are present and
`> 0`; `GetInsight` does not return the current spec but the validation
error. -/
theorem densify_GetInsight_current_counterexample :
    mapLookup (("entityId", JVal.str "e1") :: demoCurrent) "recommendedCpuLimit" = none ∧
    (∀ k ∈ currentKeys,
      FieldPositive (demoDensify "Approve Specific Change" demoCurrent)
        (("entityId", JVal.str "e1") :: demoCurrent) k) ∧
    densify.lookupInsight (demoDensify "Approve Specific Change" demoCurrent)
        "prod" "payments" "Deployment" "api" "web" demoDensifyState =
      .ret (("entityId", JVal.str "e1") :: demoCurrent, none) demoDensifyState1 ∧
    densify.getAttribute (demoDensify "Approve Specific Change" demoCurrent)
        "e1" "attr_ApprovalSetting" demoDensifyState1 =
      .ret ("Approve Specific Change", none) demoDensifyState2 ∧
    densify.GetInsight (demoDensify "Approve Specific Change" demoCurrent)
        "prod" "payments" "Deployment" "api" "web" demoDensifyState =
      .ret (none, "", some "invalid resource specs received from repository")
        demoDensifyState2 := by
  refine ⟨rfl, ?_, rfl, rfl, rfl⟩
  intro k hk
  simp only [currentKeys, List.mem_cons, List.mem_singleton, List.not_mem_nil, or_false] at hk
  rcases hk with rfl | rfl | rfl | rfl
  · exact ⟨400, rfl, rfl⟩
  · exact ⟨384, rfl, rfl⟩
  · exact ⟨200, rfl, rfl⟩
  · exact ⟨192, rfl, rfl⟩

/-- C2, amended: for a found record whose `entityId` is a text and whose
attribute request returns, the fallback to the current spec is taken only
when the approval attribute is read as "Not Approved" or the read returns an
error (the request failed or the attribute is not listed): then, with the
four current fields present and `> 0`, `GetInsight` returns no error, the
state "Not Approved" and the spec built from the current values.  When the
attribute is read with another value and the recommended quadruple is not
fully present and positive, `GetInsight` returns the validation error,
whatever the current fields are (so when a recommended field is missing, and
when every recommended field that is present is a number), except when the
four recommended fields are all present and the first of them that is not a
number `> 0` is not a number at all: then the run aborts at the type
assertion.  The run also aborts when `entityId` is not a text and when
`getAttribute` aborts. -/
theorem densify_GetInsight_current (w : World F)
    (cluster nspace objType objName containerName : String)
    (s s1 : State) (insight : GoMap (JVal F))
    (hfound : densify.lookupInsight w cluster nspace objType objName containerName s
      = .ret (insight, none) s1) :
    ((∀ t, mapLookup insight "entityId" ≠ some (.str t)) →
      densify.GetInsight w cluster nspace objType objName containerName s = .panic s1) ∧
    (∀ entityId, mapLookup insight "entityId" = some (.str entityId) →
      (∀ s2, densify.getAttribute w entityId "attr_ApprovalSetting" s1 = .panic s2 →
        densify.GetInsight w cluster nspace objType objName containerName s = .panic s2) ∧
      (∀ attr s2, densify.getAttribute w entityId "attr_ApprovalSetting" s1 = .ret attr s2 →
        ((attr.2 ≠ none ∨ attr.1 = "Not Approved") →
          ∀ cpuLimit memLimit cpuRequest memRequest : F,
          mapLookup insight "currentCpuLimit" = some (.num cpuLimit) →
          w.gtZero cpuLimit = true →
          mapLookup insight "currentMemLimit" = some (.num memLimit) →
          w.gtZero memLimit = true →
          mapLookup insight "currentCpuRequest" = some (.num cpuRequest) →
          w.gtZero cpuRequest = true →
          mapLookup insight "currentMemRequest" = some (.num memRequest) →
          w.gtZero memRequest = true →
          densify.GetInsight w cluster nspace objType objName containerName s =
            .ret (some [("limits", some [("cpu", w.formatFloat cpuLimit ++ "m"),
                                         ("memory", w.formatFloat memLimit ++ "Mi")]),
                        ("requests", some [("cpu", w.formatFloat cpuRequest ++ "m"),
                                           ("memory", w.formatFloat memRequest ++ "Mi")])],
                  "Not Approved", none) s2) ∧
        ((attr.2 = none ∧ attr.1 ≠ "Not Approved") →
          (¬ ∀ k ∈ recommendedKeys, FieldPositive w insight k) →
          (¬ ChainAborts w insight recommendedKeys →
            densify.GetInsight w cluster nspace objType objName containerName s =
              .ret (none, "", some "invalid resource specs received from repository") s2) ∧
          ((∃ k ∈ recommendedKeys, mapLookup insight k = none) →
            densify.GetInsight w cluster nspace objType objName containerName s =
              .ret (none, "", some "invalid resource specs received from repository") s2) ∧
          ((∀ k ∈ recommendedKeys, FieldTyped insight k) →
            densify.GetInsight w cluster nspace objType objName containerName s =
              .ret (none, "", some "invalid resource specs received from repository") s2) ∧
          (ChainAborts w insight recommendedKeys →
            densify.GetInsight w cluster nspace objType objName containerName s
              = .panic s2)))) := by
  refine ⟨?_, ?_⟩
  · intro hno
    unfold densify.GetInsight
    simp only [hfound]
  · intro entityId hentity
    refine ⟨?_, ?_⟩
    · intro s2 hattr
      unfold densify.GetInsight
      simp only [hfound, hentity, hattr]
    · intro attr s2 hattr
      obtain ⟨v, e⟩ := attr
      constructor
      · intro hna a b c d ha pa hb pb hc pc hd pd
        have hsel : densify.GetInsight_select w insight "Not Approved" s2 =
            .ret (some [("limits", some [("cpu", w.formatFloat a ++ "m"),
                                         ("memory", w.formatFloat b ++ "Mi")]),
                        ("requests", some [("cpu", w.formatFloat c ++ "m"),
                                           ("memory", w.formatFloat d ++ "Mi")])],
                  "Not Approved", none) s2 := by
          simp [densify.GetInsight_select, densify.quadrupleValid, support.InMap,
            densify.allPositive, densify.fieldPositive, ha, hb, hc, hd, pa, pb, pc, pd,
            densify.GetInsight_fill, densify.fieldText, specSetLeaf, mapSet, mapLookup]
        unfold densify.GetInsight
        simp only [hfound, hentity, hattr]
        cases e with
        | some e => exact hsel
        | none =>
          rcases hna with h | h
          · exact absurd rfl h
          · simp only at h
            subst h
            exact hsel
      · rintro ⟨he, hv⟩ hnot
        simp only at he hv
        subst he
        have hget : densify.GetInsight w cluster nspace objType objName containerName s
            = densify.GetInsight_select w insight v s2 := by
          unfold densify.GetInsight
          simp only [hfound, hentity, hattr]
        obtain ⟨herr, hpanic⟩ := GetInsight_select_recommended w insight v s2 hv
        refine ⟨?_, ?_, ?_, ?_⟩
        · intro hno
          rw [hget]
          exact herr hnot hno
        · rintro ⟨k, hk, hnone⟩
          rw [hget]
          refine herr hnot ?_
          intro habort
          obtain ⟨x, hx⟩ := habort.1 k hk
          rw [hnone] at hx
          exact absurd hx (by simp)
        · intro htyped
          rw [hget]
          exact herr hnot fun habort => ChainAborts_not_typed w insight _ habort htyped
        · intro habort
          rw [hget]
          exact hpanic habort

/-- Witness for C2 (amended): with the attribute "Not Approved" the current
quadruple 400/384/200/192 is returned; with "Approve Specific Change" and no
recommended field the validation error is returned; with "Approved" and a
null recommended memory limit the run aborts. -/
theorem densify_GetInsight_current_witness :
    densify.GetInsight (demoDensify "Not Approved" demoCurrent)
        "prod" "payments" "Deployment" "api" "web" demoDensifyState =
      .ret (some [("limits", some [("cpu", "400m"), ("memory", "384Mi")]),
                  ("requests", some [("cpu", "200m"), ("memory", "192Mi")])],
            "Not Approved", none) demoDensifyState2 ∧
    densify.GetInsight (demoDensify "Approve Specific Change" demoCurrent)
        "prod" "payments" "Deployment" "api" "web" demoDensifyState =
      .ret (none, "", some "invalid resource specs received from repository")
        demoDensifyState2 ∧
    densify.GetInsight (demoDensify "Approved" demoNullLimit)
        "prod" "payments" "Deployment" "api" "web" demoDensifyState =
      .panic demoDensifyState2 :=
  ⟨(((densify_GetInsight_current (demoDensify "Not Approved" demoCurrent)
      "prod" "payments" "Deployment" "api" "web" demoDensifyState demoDensifyState1
      (("entityId", .str "e1") :: demoCurrent) rfl).2 "e1" rfl).2 ("Not Approved", none)
      demoDensifyState2 rfl).1 (Or.inr rfl) 400 384 200 192 rfl rfl rfl rfl rfl rfl rfl rfl,
   ((((densify_GetInsight_current (demoDensify "Approve Specific Change" demoCurrent)
      "prod" "payments" "Deployment" "api" "web" demoDensifyState demoDensifyState1
      (("entityId", .str "e1") :: demoCurrent) rfl).2 "e1" rfl).2
      ("Approve Specific Change", none) demoDensifyState2 rfl).2 ⟨rfl, by decide⟩
      (fun h => by
        obtain ⟨x, hx, -⟩ := h "recommendedCpuLimit" (by simp [recommendedKeys])
        exact absurd hx (by simp [demoCurrent, mapLookup]))).2.1
      ⟨"recommendedCpuLimit", by simp [recommendedKeys], rfl⟩,
   ((((densify_GetInsight_current (demoDensify "Approved" demoNullLimit)
      "prod" "payments" "Deployment" "api" "web" demoDensifyState demoDensifyState1
      (("entityId", .str "e1") :: demoNullLimit) rfl).2 "e1" rfl).2
      ("Approved", none) demoDensifyState2 rfl).2 ⟨rfl, by decide⟩
      (fun h => by
        obtain ⟨x, hx, -⟩ := h "recommendedMemLimit" (by simp [recommendedKeys])
        exact absurd hx (by simp [demoNullLimit, mapLookup]))).2.2.2
      ⟨fun k hk => by
        simp only [recommendedKeys, List.mem_cons, List.mem_singleton, List.not_mem_nil,
          or_false] at hk
        rcases hk with rfl | rfl | rfl | rfl
        · exact ⟨_, rfl⟩
        · exact ⟨_, rfl⟩
        · exact ⟨_, rfl⟩
        · exact ⟨_, rfl⟩,
       ["recommendedCpuLimit"], "recommendedMemLimit",
       ["recommendedCpuRequest", "recommendedMemRequest"], rfl,
       fun b hb => by
         rw [List.mem_singleton] at hb
         subst hb
         exact ⟨500, rfl, rfl⟩,
       fun x hx => by simp [demoNullLimit, mapLookup] at hx⟩⟩

/-- C3, failing input: the found record holds `recommendedMemLimit: null`
beside three positive recommended fields, has no current field, and the
approval attribute is "Approved".  Neither quadruple is fully present and
positive, yet `GetInsight` does not return the validation error: the
unchecked type assertion `.(float64)` on the null field aborts the run.

In general: whenever `GetInsight` succeeds, the four leaves of the returned
spec are the formatted values of four fields of the found record (the
recommended or the current quadruple) that are present and `> 0`.  For a
found record in which neither quadruple is fully present and positive (the
`entityId` being a text and the attribute request returning), `GetInsight`
either returns a nil spec and the error "invalid resource specs received
from repository" or aborts; it returns the error when every field that is
present holds a number; and it aborts exactly when all four fields of the
quadruple it consults (the recommended one when the attribute is read with a
value other than "Not Approved", the current one otherwise) are present and
the first of them that is not a number `> 0` is not a number.  The run also
aborts when the `entityId` of the found record is not a text and when
`getAttribute` aborts. -/
theorem densify_GetInsight_validation (w : World F)
    (cluster nspace objType objName containerName : String) (s : State) :
    (∀ spec st s2,
      densify.GetInsight w cluster nspace objType objName containerName s
        = .ret (spec, st, none) s2 →
      ∃ insight s1,
        densify.lookupInsight w cluster nspace objType objName containerName s
          = .ret (insight, none) s1 ∧
        (SpecFromFields w insight "recommendedCpuLimit" "recommendedMemLimit"
            "recommendedCpuRequest" "recommendedMemRequest" spec ∨
         SpecFromFields w insight "currentCpuLimit" "currentMemLimit"
            "currentCpuRequest" "currentMemRequest" spec)) ∧
    (∀ insight s1 entityId attr s2,
      densify.lookupInsight w cluster nspace objType objName containerName s
        = .ret (insight, none) s1 →
      mapLookup insight "entityId" = some (.str entityId) →
      densify.getAttribute w entityId "attr_ApprovalSetting" s1 = .ret attr s2 →
      (¬ ∀ k ∈ recommendedKeys, FieldPositive w insight k) →
      (¬ ∀ k ∈ currentKeys, FieldPositive w insight k) →
      ((∀ k ∈ recommendedKeys, FieldTyped insight k) →
        (∀ k ∈ currentKeys, FieldTyped insight k) →
        densify.GetInsight w cluster nspace objType objName containerName s
          = .ret (none, "", some "invalid resource specs received from repository") s2) ∧
      (densify.GetInsight w cluster nspace objType objName containerName s
          = .ret (none, "", some "invalid resource specs received from repository") s2 ∨
        densify.GetInsight w cluster nspace objType objName containerName s = .panic s2) ∧
      (densify.GetInsight w cluster nspace objType objName containerName s = .panic s2 ↔
        (attr.2 = none ∧ attr.1 ≠ "Not Approved" ∧ ChainAborts w insight recommendedKeys) ∨
        ((attr.2 ≠ none ∨ attr.1 = "Not Approved") ∧ ChainAborts w insight currentKeys))) ∧
    (∀ insight s1,
      densify.lookupInsight w cluster nspace objType objName containerName s
        = .ret (insight, none) s1 →
      ((∀ t, mapLookup insight "entityId" ≠ some (.str t)) →
        densify.GetInsight w cluster nspace objType objName containerName s = .panic s1) ∧
      (∀ entityId s2, mapLookup insight "entityId" = some (.str entityId) →
        densify.getAttribute w entityId "attr_ApprovalSetting" s1 = .panic s2 →
        densify.GetInsight w cluster nspace objType objName containerName s = .panic s2)) := by
  refine ⟨?_, ?_, ?_⟩
  · intro spec st s2 h
    obtain ⟨insight, s1, appr, hlook, hsel⟩ :=
      densify_GetInsight_success w cluster nspace objType objName containerName s s2 spec st h
    obtain ⟨-, hcase⟩ := GetInsight_select_success w insight appr s2 s2 spec st hsel
    refine ⟨insight, s1, hlook, ?_⟩
    rcases hcase with ⟨-, -, hs⟩ | ⟨-, -, hs⟩
    · exact Or.inl hs
    · exact Or.inr hs
  · intro insight s1 entityId attr s2 hlook hent hattr hr hc
    obtain ⟨v, e⟩ := attr
    have hcur := GetInsight_select_current w insight s2
    have hfail : ∀ approval, (approval = "Not Approved" ∨ (e = none ∧ approval = v)) →
        densify.GetInsight w cluster nspace objType objName containerName s
          = densify.GetInsight_select w insight approval s2 →
        (approval ≠ "Not Approved" → e = none ∧ v ≠ "Not Approved") →
        (approval = "Not Approved" → e ≠ none ∨ v = "Not Approved") →
        ((∀ k ∈ recommendedKeys, FieldTyped insight k) →
          (∀ k ∈ currentKeys, FieldTyped insight k) →
          densify.GetInsight w cluster nspace objType objName containerName s
            = .ret (none, "", some "invalid resource specs received from repository") s2) ∧
        (densify.GetInsight w cluster nspace objType objName containerName s
            = .ret (none, "", some "invalid resource specs received from repository") s2 ∨
          densify.GetInsight w cluster nspace objType objName containerName s = .panic s2) ∧
        (densify.GetInsight w cluster nspace objType objName containerName s = .panic s2 ↔
          (e = none ∧ v ≠ "Not Approved" ∧ ChainAborts w insight recommendedKeys) ∨
          ((e ≠ none ∨ v = "Not Approved") ∧ ChainAborts w insight currentKeys)) := by
      intro approval _ hget hrec hna
      refine ⟨fun htr htc => ?_, ?_, ?_⟩
      · rw [hget]
        exact GetInsight_select_invalid w insight approval s2 htr htc hr hc
      · rw [hget]
        by_cases ha : approval = "Not Approved"
        · subst ha
          by_cases hab : ChainAborts w insight currentKeys
          · exact Or.inr (hcur.2 hab)
          · exact Or.inl (hcur.1 hc hab)
        · obtain ⟨herr, hpanic⟩ := GetInsight_select_recommended w insight approval s2 ha
          by_cases hab : ChainAborts w insight recommendedKeys
          · exact Or.inr (hpanic hab)
          · exact Or.inl (herr hr hab)
      · rw [hget]
        by_cases ha : approval = "Not Approved"
        · subst ha
          have hside := hna rfl
          constructor
          · intro hp
            refine Or.inr ⟨hside, ?_⟩
            by_contra hab
            rw [hcur.1 hc hab] at hp
            exact absurd hp (by simp)
          · rintro (⟨he, hv, -⟩ | ⟨-, hab⟩)
            · rcases hside with h1 | h1
              · exact absurd he h1
              · exact absurd h1 hv
            · exact hcur.2 hab
        · obtain ⟨herr, hpanic⟩ := GetInsight_select_recommended w insight approval s2 ha
          obtain ⟨he, hv⟩ := hrec ha
          constructor
          · intro hp
            refine Or.inl ⟨he, hv, ?_⟩
            by_contra hab
            rw [herr hr hab] at hp
            exact absurd hp (by simp)
          · rintro (⟨-, -, hab⟩ | ⟨hside, -⟩)
            · exact hpanic hab
            · rcases hside with h1 | h1
              · exact absurd he h1
              · exact absurd h1 hv
    cases e with
    | some e =>
      refine hfail "Not Approved" (Or.inl rfl) ?_ (fun h => absurd rfl h)
        (fun _ => Or.inl (by simp))
      unfold densify.GetInsight
      simp only [hlook, hent, hattr]
    | none =>
      by_cases hv : v = "Not Approved"
      · subst hv
        refine hfail "Not Approved" (Or.inl rfl) ?_ (fun h => absurd rfl h)
          (fun _ => Or.inr rfl)
        unfold densify.GetInsight
        simp only [hlook, hent, hattr]
      · refine hfail v (Or.inr ⟨rfl, rfl⟩) ?_ (fun _ => ⟨rfl, hv⟩) (fun h => absurd h hv)
        unfold densify.GetInsight
        simp only [hlook, hent, hattr]
  · intro insight s1 hlook
    refine ⟨?_, ?_⟩
    · intro hno
      unfold densify.GetInsight
      simp only [hlook]
    · intro entityId s2 hent hattr
      unfold densify.GetInsight
      simp only [hlook, hent, hattr]

/-- Witness for C3: a successful call (attribute "Not Approved", current
quadruple 400/384/200/192); a record with a zero recommended cpu limit and
no current field, for which the validation error is returned; and the record
with a null recommended memory limit, on which the run aborts. -/
theorem densify_GetInsight_validation_witness :
    (∃ insight s1,
      densify.lookupInsight (demoDensify "Not Approved" demoCurrent)
          "prod" "payments" "Deployment" "api" "web" demoDensifyState
        = .ret (insight, none) s1 ∧
      (SpecFromFields (demoDensify "Not Approved" demoCurrent) insight
          "recommendedCpuLimit" "recommendedMemLimit" "recommendedCpuRequest"
          "recommendedMemRequest"
          (some [("limits", some [("cpu", "400m"), ("memory", "384Mi")]),
                 ("requests", some [("cpu", "200m"), ("memory", "192Mi")])]) ∨
       SpecFromFields (demoDensify "Not Approved" demoCurrent) insight
          "currentCpuLimit" "currentMemLimit" "currentCpuRequest" "currentMemRequest"
          (some [("limits", some [("cpu", "400m"), ("memory", "384Mi")]),
                 ("requests", some [("cpu", "200m"), ("memory", "192Mi")])]))) ∧
    densify.GetInsight (demoDensify "Approved" demoZeroLimit)
        "prod" "payments" "Deployment" "api" "web" demoDensifyState =
      .ret (none, "", some "invalid resource specs received from repository")
        demoDensifyState2 ∧
    mapLookup (("entityId", JVal.str "e1") :: demoNullLimit) "recommendedMemLimit"
      = some .null ∧
    densify.GetInsight (demoDensify "Approved" demoNullLimit)
        "prod" "payments" "Deployment" "api" "web" demoDensifyState =
      .panic demoDensifyState2 :=
  ⟨(densify_GetInsight_validation (demoDensify "Not Approved" demoCurrent)
      "prod" "payments" "Deployment" "api" "web" demoDensifyState).1 _ _ demoDensifyState2 rfl,
   ((densify_GetInsight_validation (demoDensify "Approved" demoZeroLimit)
      "prod" "payments" "Deployment" "api" "web" demoDensifyState).2.1
      (("entityId", .str "e1") :: demoZeroLimit) demoDensifyState1 "e1" ("Approved", none)
      demoDensifyState2 rfl rfl rfl
      (fun h => by
        obtain ⟨x, hx, hp⟩ := h "recommendedCpuLimit" (by simp [recommendedKeys])
        have hx0 : x = 0 := by
          have h0 : mapLookup (("entityId", JVal.str "e1") :: demoZeroLimit) "recommendedCpuLimit"
              = some (JVal.num (0 : Int)) := rfl
          rw [h0] at hx
          injection hx with hx
          injection hx with hx
          exact hx.symm
        subst hx0
        exact absurd hp (by decide))
      (fun h => by
        obtain ⟨x, hx, -⟩ := h "currentCpuLimit" (by simp [currentKeys])
        exact absurd hx (by simp [demoZeroLimit, mapLookup]))).1
      (fun k hk => by
        simp only [recommendedKeys, List.mem_cons, List.mem_singleton, List.not_mem_nil,
          or_false] at hk
        rcases hk with rfl | rfl | rfl | rfl
        · exact Or.inr ⟨0, rfl⟩
        · exact Or.inr ⟨512, rfl⟩
        · exact Or.inr ⟨250, rfl⟩
        · exact Or.inr ⟨256, rfl⟩)
      (fun k hk => Or.inl (by
        simp only [currentKeys, List.mem_cons, List.mem_singleton, List.not_mem_nil,
          or_false] at hk
        rcases hk with rfl | rfl | rfl | rfl <;> rfl)),
   rfl,
   ((densify_GetInsight_validation (demoDensify "Approved" demoNullLimit)
      "prod" "payments" "Deployment" "api" "web" demoDensifyState).2.1
      (("entityId", .str "e1") :: demoNullLimit) demoDensifyState1 "e1" ("Approved", none)
      demoDensifyState2 rfl rfl rfl
      (fun h => by
        obtain ⟨x, hx, -⟩ := h "recommendedMemLimit" (by simp [recommendedKeys])
        exact absurd hx (by simp [demoNullLimit, mapLookup]))
      (fun h => by
        obtain ⟨x, hx, -⟩ := h "currentCpuLimit" (by simp [currentKeys])
        exact absurd hx (by simp [demoNullLimit, mapLookup]))).2.2.mpr
      (Or.inl ⟨rfl, by decide,
        fun k hk => by
          simp only [recommendedKeys, List.mem_cons, List.mem_singleton, List.not_mem_nil,
            or_false] at hk
          rcases hk with rfl | rfl | rfl | rfl
          · exact ⟨_, rfl⟩
          · exact ⟨_, rfl⟩
          · exact ⟨_, rfl⟩
          · exact ⟨_, rfl⟩,
        ["recommendedCpuLimit"], "recommendedMemLimit",
        ["recommendedCpuRequest", "recommendedMemRequest"], rfl,
        fun b hb => by
          rw [List.mem_singleton] at hb
          subst hb
          exact ⟨500, rfl, rfl⟩,
        fun x hx => by simp [demoNullLimit, mapLookup] at hx⟩)⟩

/-- C4: validation in `ssm.GetInsight`.  For every stored parameter value,
if one of the four leaves is absent, is not the text of a decimal integer,
or denotes an integer below 1, `GetInsight` returns a nil spec and the error
"invalid resource specs received from repository"; and whenever it succeeds,
each of the four leaves of the stored value parses with `strconv.Atoi` to an
integer `≥ 1`. -/
theorem ssm_GetInsight_validation (w : World F)
    (cluster nspace objType objName containerName : String) (s : State) :
    (∀ insight version s1,
      ssm.getParameterValue w
          (parameterName s.ssmPrefix cluster nspace objType objName containerName) s
        = .ret (insight, version, none) s1 →
      (∃ p ∈ leafPaths,
        LeafAbsent (decodeSpec (w.jsonParse insight)) p.1 p.2 ∨
        ¬ IsDecimalInteger (specLeaf (decodeSpec (w.jsonParse insight)) p.1 p.2) ∨
        ∃ n, strconv.Atoi (specLeaf (decodeSpec (w.jsonParse insight)) p.1 p.2) = some n
          ∧ n < 1) →
      ssm.GetInsight w cluster nspace objType objName containerName s
        = .ret (none, "", some "invalid resource specs received from repository") s1) ∧
    (∀ spec st s2,
      ssm.GetInsight w cluster nspace objType objName containerName s
        = .ret (spec, st, none) s2 →
      ∃ insight version s1,
        ssm.getParameterValue w
            (parameterName s.ssmPrefix cluster nspace objType objName containerName) s
          = .ret (insight, version, none) s1 ∧
        ∀ p ∈ leafPaths, ∃ n,
          strconv.Atoi (specLeaf (decodeSpec (w.jsonParse insight)) p.1 p.2) = some n
            ∧ 1 ≤ n) := by
  constructor
  · intro insight version s1 hval hbad
    apply ssm_GetInsight_invalid w cluster nspace objType objName containerName s s1
      insight version hval
    obtain ⟨p, hp, hcase⟩ := hbad
    refine ⟨p, hp, ?_⟩
    rcases hcase with habs | hnot | ⟨n, hn, hlt⟩
    · rw [specLeaf_of_absent _ _ _ habs]
      rfl
    · cases hA : strconv.Atoi (specLeaf (decodeSpec (w.jsonParse insight)) p.1 p.2) with
      | none => simp [ssm.leafInvalid, hA]
      | some n => exact absurd (Atoi_some_isDecimalInteger _ n hA) hnot
    · simp [ssm.leafInvalid, hn, hlt]
  · intro spec st s2 h
    obtain ⟨insight, version, s1, hval, hleaves, -, -⟩ :=
      ssm_GetInsight_success w cluster nspace objType objName containerName s s2 spec st h
    exact ⟨insight, version, s1, hval, fun p hp =>
      (leafInvalid_false_iff _).mp (hleaves p hp)⟩

/-- Witness for C4: the stored value whose `requests.cpu` is `0` is rejected,
and the successful call on 500/512/250/256 has four leaves parsing to
integers `≥ 1`. -/
theorem ssm_GetInsight_validation_witness :
    ssm.GetInsight (demoSsm (some demoStoredZero) [.str "Approved"])
        "prod" "payments" "Deployment" "api" "web" demoSsmState
      = .ret (none, "", some "invalid resource specs received from repository") demoSsmState1 ∧
    (∃ insight version s1,
      ssm.getParameterValue (demoSsm (some demoStored) [.str "Approved"])
          (parameterName demoSsmState.ssmPrefix "prod" "payments" "Deployment" "api" "web")
          demoSsmState
        = .ret (insight, version, none) s1 ∧
      ∀ p ∈ leafPaths, ∃ n,
        strconv.Atoi (specLeaf (decodeSpec
          ((demoSsm (some demoStored) [.str "Approved"]).jsonParse insight)) p.1 p.2) = some n
          ∧ 1 ≤ n) :=
  ⟨(ssm_GetInsight_validation (demoSsm (some demoStoredZero) [.str "Approved"])
      "prod" "payments" "Deployment" "api" "web" demoSsmState).1 "value" "3" demoSsmState1 rfl
      ⟨("requests", "cpu"), by simp [leafPaths], Or.inr (Or.inr ⟨0, by decide, by decide⟩)⟩,
   (ssm_GetInsight_validation (demoSsm (some demoStored) [.str "Approved"])
      "prod" "payments" "Deployment" "api" "web" demoSsmState).2
      (some [("limits", some [("cpu", "500m"), ("memory", "512Mi")]),
             ("requests", some [("cpu", "250m"), ("memory", "256Mi")])])
      "Approved" demoSsmState2 rfl⟩

/-- C5, counterexample: the stored parameter value has a fifth leaf
`limits.ephemeral-storage`; `ssm.GetInsight` succeeds and returns a spec that
still holds this key, unsuffixed, so the spec is not of the produced shape. -/
theorem GetInsight_shape_counterexample :
    ssm.GetInsight (demoSsm (some demoStoredExtra) [.str "Approved"])
        "prod" "payments" "Deployment" "api" "web" demoSsmState =
      .ret (some [("limits", some [("cpu", "500m"), ("memory", "512Mi"),
                                   ("ephemeral-storage", "2Gi")]),
                  ("requests", some [("cpu", "250m"), ("memory", "256Mi")])],
            "Approved", none) demoSsmState2 ∧
    ¬ ProducedShape (demoSsm (some demoStoredExtra) [.str "Approved"])
        (some [("limits", some [("cpu", "500m"), ("memory", "512Mi"),
                                ("ephemeral-storage", "2Gi")]),
               ("requests", some [("cpu", "250m"), ("memory", "256Mi")])]) := by
  refine ⟨rfl, ?_⟩
  rintro ⟨m, limits, requests, hm, -, hl, -, hk, -⟩
  injection hm with hm
  subst hm
  have hl' : limits = [("cpu", "500m"), ("memory", "512Mi"), ("ephemeral-storage", "2Gi")] := by
    simp [mapLookup] at hl
    exact hl.symm
  subst hl'
  have h := (hk "ephemeral-storage").mp (by decide)
  simp at h

/-- C5, amended: every spec returned by a successful `densify.GetInsight` has
exactly the produced shape.  Every spec returned by a successful
`ssm.GetInsight` comes from a stored value that is an object in which
`limits.cpu`, `limits.memory`, `requests.cpu` and `requests.memory` are texts
that parse to an integer `≥ 1`; the spec holds these four leaves, each the
stored text followed by `m` (cpu) or `Mi` (memory), and besides them whatever
else the stored value holds, without suffix: every other leaf is the stored
text, or the empty text when what is stored there is not a text, and every
top-level key of the stored value is a section of the spec, nil when its
stored value is not an object and with the keys of the stored section
otherwise. -/
theorem GetInsight_shape (w : World F)
    (cluster nspace objType objName containerName : String) (s : State) :
    (∀ spec st s2,
      densify.GetInsight w cluster nspace objType objName containerName s
        = .ret (spec, st, none) s2 → ProducedShape w spec) ∧
    (∀ spec st s2,
      ssm.GetInsight w cluster nspace objType objName containerName s
        = .ret (spec, st, none) s2 →
      ∃ insight version s1 stored,
        ssm.getParameterValue w
            (parameterName s.ssmPrefix cluster nspace objType objName containerName) s
          = .ret (insight, version, none) s1 ∧
        w.jsonParse insight = some (.obj stored) ∧
        (∀ p ∈ leafPaths, ∃ sect t n,
          mapLookup stored p.1 = some (.obj sect) ∧ mapLookup sect p.2 = some (.str t) ∧
          strconv.Atoi t = some n ∧ 1 ≤ n ∧
          leafLookup spec p.1 p.2 = some (t ++ leafSuffix p.2)) ∧
        (∀ k1 k2, (k1, k2) ∉ leafPaths →
          leafLookup spec k1 k2 = blockLeaf (.obj stored) k1 k2) ∧
        (∀ k1, sectionKeys spec k1 = blockSection (.obj stored) k1)) := by
  constructor
  · intro spec st s2 h
    obtain ⟨insight, s1, appr, -, hsel⟩ :=
      densify_GetInsight_success w cluster nspace objType objName containerName s s2 spec st h
    obtain ⟨-, hcase⟩ := GetInsight_select_success w insight appr s2 s2 spec st hsel
    rcases hcase with ⟨-, -, hs⟩ | ⟨-, -, hs⟩
    · exact ProducedShape_of_fields w insight _ _ _ _ spec hs
    · exact ProducedShape_of_fields w insight _ _ _ _ spec hs
  · intro spec st s2 h
    exact ssm_GetInsight_stored w cluster nspace objType objName containerName s s2 spec st h

/-- Witness for C5 (amended): the Densify record 500/512/250/256 gives a spec
of the produced shape.  The stored value with a numeric fifth leaf
`limits.ephemeral-storage` and a text under `note` gives the four suffixed
leaves, the fifth leaf as the empty text and a nil section `note`. -/
theorem GetInsight_shape_witness :
    ProducedShape (demoDensify "Approve Specific Change" demoRecommended)
      (some [("limits", some [("cpu", "500m"), ("memory", "512Mi")]),
             ("requests", some [("cpu", "250m"), ("memory", "256Mi")])]) ∧
    ssm.GetInsight (demoSsm (some demoStoredMixed) [.str "Approved"])
        "prod" "payments" "Deployment" "api" "web" demoSsmState =
      .ret (some [("limits", some [("cpu", "500m"), ("memory", "512Mi"),
                                   ("ephemeral-storage", "")]),
                  ("requests", some [("cpu", "250m"), ("memory", "256Mi")]),
                  ("note", none)],
            "Approved", none) demoSsmState2 ∧
    (∃ insight version s1 stored,
      ssm.getParameterValue (demoSsm (some demoStoredMixed) [.str "Approved"])
          (parameterName demoSsmState.ssmPrefix "prod" "payments" "Deployment" "api" "web")
          demoSsmState
        = .ret (insight, version, none) s1 ∧
      (demoSsm (some demoStoredMixed) [.str "Approved"]).jsonParse insight
        = some (.obj stored) ∧
      (∀ p ∈ leafPaths, ∃ sect t n,
        mapLookup stored p.1 = some (.obj sect) ∧ mapLookup sect p.2 = some (.str t) ∧
        strconv.Atoi t = some n ∧ 1 ≤ n ∧
        leafLookup (some [("limits", some [("cpu", "500m"), ("memory", "512Mi"),
                                           ("ephemeral-storage", "")]),
                          ("requests", some [("cpu", "250m"), ("memory", "256Mi")]),
                          ("note", none)]) p.1 p.2
          = some (t ++ leafSuffix p.2)) ∧
      (∀ k1 k2, (k1, k2) ∉ leafPaths →
        leafLookup (some [("limits", some [("cpu", "500m"), ("memory", "512Mi"),
                                           ("ephemeral-storage", "")]),
                          ("requests", some [("cpu", "250m"), ("memory", "256Mi")]),
                          ("note", none)]) k1 k2
          = blockLeaf (.obj stored) k1 k2) ∧
      (∀ k1, sectionKeys (some [("limits", some [("cpu", "500m"), ("memory", "512Mi"),
                                           ("ephemeral-storage", "")]),
                          ("requests", some [("cpu", "250m"), ("memory", "256Mi")]),
                          ("note", none)]) k1
          = blockSection (.obj stored) k1)) :=
  ⟨(GetInsight_shape (demoDensify "Approve Specific Change" demoRecommended)
      "prod" "payments" "Deployment" "api" "web" demoDensifyState).1 _ "Approved"
      demoDensifyState2 rfl,
   rfl,
   (GetInsight_shape (demoSsm (some demoStoredMixed) [.str "Approved"])
      "prod" "payments" "Deployment" "api" "web" demoSsmState).2 _ "Approved"
      demoSsmState2 rfl⟩

/-- C6: Parameter Store key layout.  For every prefix and key, every command
issued by `ssm.GetInsight`, `ssm.GetApprovalSetting` and
`ssm.UpdateApprovalSetting` addresses the same parameter name,
prefix/cluster/namespace/objectType/objectName/containerName/resourceSpec,
and each of the three issues at least one such command. -/
theorem ssm_parameter_name_layout (w : World F) (approved : Bool)
    (cluster nspace objType objName containerName : String) (s : State) :
    parameterName s.ssmPrefix cluster nspace objType objName containerName =
      s.ssmPrefix ++ "/" ++ cluster ++ "/" ++ nspace ++ "/" ++ objType ++ "/" ++ objName ++ "/"
        ++ containerName ++ "/resourceSpec" ∧
    (newCalls s (ssm.GetInsight w cluster nspace objType objName containerName s).final ≠ [] ∧
      AddressOnly (parameterName s.ssmPrefix cluster nspace objType objName containerName)
        (newCalls s (ssm.GetInsight w cluster nspace objType objName containerName s).final)) ∧
    (newCalls s (ssm.GetApprovalSetting w cluster nspace objType objName containerName s).final
        ≠ [] ∧
      AddressOnly (parameterName s.ssmPrefix cluster nspace objType objName containerName)
        (newCalls s
          (ssm.GetApprovalSetting w cluster nspace objType objName containerName s).final)) ∧
    (newCalls s
        (ssm.UpdateApprovalSetting w approved cluster nspace objType objName containerName
          s).final ≠ [] ∧
      AddressOnly (parameterName s.ssmPrefix cluster nspace objType objName containerName)
        (newCalls s
          (ssm.UpdateApprovalSetting w approved cluster nspace objType objName containerName
            s).final)) :=
  ⟨rfl,
   ssm_GetInsight_calls w cluster nspace objType objName containerName s,
   ssm_GetApprovalSetting_calls w cluster nspace objType objName containerName s,
   ssm_UpdateApprovalSetting_calls w approved cluster nspace objType objName containerName s⟩

/-- C7: resolution order, backend first.  In the container loop of
`processTemplates`, for a named container for which `getInsight` succeeds,
the iteration sets the container's `resources` to the backend spec, whatever
the chart held there; it ends in the state in which `getInsight` returned,
and none of the calls made is a query of the live cluster; the loop goes on
with the next container from that state. -/
theorem processTemplates_backend_first (w : World F) (objNamespace objType objName : String)
    (pre post : List (JVal F)) (c : GoMap (JVal F)) (containerName : String)
    (s s1 s2 : State) (pre1 : List (JVal F)) (insight : Option ResourceSpec) (approval : String)
    (hpre : processTemplates_containers w objNamespace objType objName pre s = .ret pre1 s1)
    (hname : support.CheckMap c ["name"] = some containerName) (hne : containerName ≠ "")
    (hins : getInsight w s1.remoteCluster objNamespace objType objName containerName s1
      = .ret (insight, approval, none) s2) :
    processTemplates_container w objNamespace objType objName (.obj c) s1 =
      .ret (.obj (mapSet c "resources" (specToJVal insight))) s2 ∧
    mapLookup (mapSet c "resources" (specToJVal insight : JVal F)) "resources"
      = some (specToJVal insight) ∧
    (∀ call ∈ newCalls s1 s2, IsBackendCall call ∧ ¬ IsClusterQuery call) ∧
    processTemplates_containers w objNamespace objType objName (pre ++ .obj c :: post) s =
      (processTemplates_containers w objNamespace objType objName post s2).map
        (fun post1 => pre1 ++ .obj (mapSet c "resources" (specToJVal insight)) :: post1) := by
  have hstep : processTemplates_container w objNamespace objType objName (.obj c) s1 =
      .ret (.obj (mapSet c "resources" (specToJVal insight))) s2 := by
    simp [processTemplates_container, hname, hne, hins]
  refine ⟨hstep, mapLookup_mapSet_self _ _ _, ?_,
    processTemplates_containers_at w objNamespace objType objName pre post _ _ s s1 s2 pre1
      hpre hstep⟩
  have hext := getInsight_extends w s1.remoteCluster objNamespace objType objName containerName s1
  rw [hins] at hext
  intro call hcall
  have hb := hext.newCalls call hcall
  exact ⟨hb, not_clusterQuery_of_backendCall call hb⟩

/-- Witness for C7: the chart container `web`, which has its own resources
block, after an unnamed container; the Densify backend recommends
500/512/250/256. -/
theorem processTemplates_backend_first_witness :
    processTemplates_container (demoDensify "Approve Specific Change" demoRecommended)
        "payments" "Deployment" "api" (.obj demoContainer) demoDensifyState =
      .ret (.obj [("name", .str "web"), ("image", .str "nginx"),
        ("resources", .obj [("limits", .obj [("cpu", .str "500m"), ("memory", .str "512Mi")]),
                            ("requests", .obj [("cpu", .str "250m"), ("memory", .str "256Mi")])])])
        demoDensifyState2 ∧
    processTemplates_containers (demoDensify "Approve Specific Change" demoRecommended)
        "payments" "Deployment" "api" [demoUnnamed, .obj demoContainer] demoDensifyState =
      .ret [demoUnnamed, .obj [("name", .str "web"), ("image", .str "nginx"),
        ("resources", .obj [("limits", .obj [("cpu", .str "500m"), ("memory", .str "512Mi")]),
                            ("requests", .obj [("cpu", .str "250m"), ("memory", .str "256Mi")])])]]
        demoDensifyState2 :=
  have h := processTemplates_backend_first (demoDensify "Approve Specific Change" demoRecommended)
    "payments" "Deployment" "api" [demoUnnamed] [] demoContainer "web"
    demoDensifyState demoDensifyState demoDensifyState2 [demoUnnamed]
    (some [("limits", some [("cpu", "500m"), ("memory", "512Mi")]),
           ("requests", some [("cpu", "250m"), ("memory", "256Mi")])])
    "Approved" rfl rfl (by decide) rfl
  ⟨h.1, h.2.2.2⟩

/-- C8: resolution order, live cluster second.  For a named container for
which `getInsight` fails and `extractResourceSpecFromK8S` succeeds, the
iteration sets the container's `resources` to the value read from the
cluster, whatever the chart held there, and the loop goes on with the next
container. -/
theorem processTemplates_cluster_second (w : World F) (objNamespace objType objName : String)
    (pre post : List (JVal F)) (c : GoMap (JVal F)) (containerName : String)
    (s s1 s2 s3 : State) (pre1 : List (JVal F)) (failed insight : Option ResourceSpec)
    (approval e : String)
    (hpre : processTemplates_containers w objNamespace objType objName pre s = .ret pre1 s1)
    (hname : support.CheckMap c ["name"] = some containerName) (hne : containerName ≠ "")
    (hins : getInsight w s1.remoteCluster objNamespace objType objName containerName s1
      = .ret (failed, approval, some e) s2)
    (hk8s : extractResourceSpecFromK8S w s2.remoteCluster objNamespace objType objName
      containerName s2 = .ret (insight, none) s3) :
    processTemplates_container w objNamespace objType objName (.obj c) s1 =
      .ret (.obj (mapSet c "resources" (specToJVal insight))) s3 ∧
    mapLookup (mapSet c "resources" (specToJVal insight : JVal F)) "resources"
      = some (specToJVal insight) ∧
    processTemplates_containers w objNamespace objType objName (pre ++ .obj c :: post) s =
      (processTemplates_containers w objNamespace objType objName post s3).map
        (fun post1 => pre1 ++ .obj (mapSet c "resources" (specToJVal insight)) :: post1) := by
  have hstep : processTemplates_container w objNamespace objType objName (.obj c) s1 =
      .ret (.obj (mapSet c "resources" (specToJVal insight))) s3 := by
    simp [processTemplates_container, hname, hne, hins, hk8s]
  exact ⟨hstep, mapLookup_mapSet_self _ _ _,
    processTemplates_containers_at w objNamespace objType objName pre post _ _ s s1 s3 pre1
      hpre hstep⟩

/-- Witness for C8: the backend is unreachable and the cluster holds a
complete resources block for the container `web`; the chart's own block is
replaced by it. -/
theorem processTemplates_cluster_second_witness :
    processTemplates_container (demoCluster demoClusterResources)
        "payments" "Deployment" "api" (.obj demoContainer) demoDensifyState =
      .ret (.obj [("name", .str "web"), ("image", .str "nginx"),
        ("resources", .obj [("limits", .obj [("cpu", .str "200m"), ("memory", .str "128Mi")]),
                            ("requests", .obj [("cpu", .str "100m"), ("memory", .str "64Mi")])])])
        demoUnreachable2 :=
  (processTemplates_cluster_second (demoCluster demoClusterResources)
    "payments" "Deployment" "api" [] [] demoContainer "web"
    demoDensifyState demoDensifyState demoUnreachable1 demoUnreachable2 [] none
    (some [("limits", some [("cpu", "200m"), ("memory", "128Mi")]),
           ("requests", some [("cpu", "100m"), ("memory", "64Mi")])])
    "Not Approved" "unable to locate resource spec" rfl rfl (by decide) rfl rfl).1

/-- C9: resolution order, chart default last.  For a named container for
which both `getInsight` and `extractResourceSpecFromK8S` fail, the iteration
leaves the container entry unchanged: its `resources` key, present or not,
is as in the chart, and nothing is written. -/
theorem processTemplates_chart_default (w : World F) (objNamespace objType objName : String)
    (pre post : List (JVal F)) (c : GoMap (JVal F)) (containerName : String)
    (s s1 s2 s3 : State) (pre1 : List (JVal F)) (failed failed2 : Option ResourceSpec)
    (approval e e2 : String)
    (hpre : processTemplates_containers w objNamespace objType objName pre s = .ret pre1 s1)
    (hname : support.CheckMap c ["name"] = some containerName) (hne : containerName ≠ "")
    (hins : getInsight w s1.remoteCluster objNamespace objType objName containerName s1
      = .ret (failed, approval, some e) s2)
    (hk8s : extractResourceSpecFromK8S w s2.remoteCluster objNamespace objType objName
      containerName s2 = .ret (failed2, some e2) s3) :
    processTemplates_container w objNamespace objType objName (.obj c) s1 = .ret (.obj c) s3 ∧
    processTemplates_containers w objNamespace objType objName (pre ++ .obj c :: post) s =
      (processTemplates_containers w objNamespace objType objName post s3).map
        (fun post1 => pre1 ++ .obj c :: post1) := by
  have hstep : processTemplates_container w objNamespace objType objName (.obj c) s1 =
      .ret (.obj c) s3 := by
    simp [processTemplates_container, hname, hne, hins, hk8s]
  exact ⟨hstep,
    processTemplates_containers_at w objNamespace objType objName pre post _ _ s s1 s3 pre1
      hpre hstep⟩

/-- Witness for C9: the backend is unreachable and the cluster has no
Deployment `worker`; the chart container, with its resources block, and a
container without resources are both returned as they were. -/
theorem processTemplates_chart_default_witness :
    processTemplates_container (demoCluster demoClusterResources)
        "payments" "Deployment" "worker" (.obj demoContainer) demoDensifyState =
      .ret (.obj demoContainer) demoUnreachable3 ∧
    processTemplates_container (demoCluster demoClusterResources)
        "payments" "Deployment" "worker" (.obj [("name", .str "web")]) demoDensifyState =
      .ret (.obj [("name", .str "web")]) demoUnreachable3 :=
  ⟨(processTemplates_chart_default (demoCluster demoClusterResources)
      "payments" "Deployment" "worker" [] [] demoContainer "web"
      demoDensifyState demoDensifyState demoUnreachable1 demoUnreachable3 [] none none
      "Not Approved" "unable to locate resource spec" "Error from server (NotFound)"
      rfl rfl (by decide) rfl rfl).1,
   (processTemplates_chart_default (demoCluster demoClusterResources)
      "payments" "Deployment" "worker" [] [] [("name", .str "web")] "web"
      demoDensifyState demoDensifyState demoUnreachable1 demoUnreachable3 [] none none
      "Not Approved" "unable to locate resource spec" "Error from server (NotFound)"
      rfl rfl (by decide) rfl rfl).1⟩

/-- C10, counterexample: the backend is unreachable and the cluster's
resources block for the container only limits the cpu; `processTemplates`
assigns this block, in which three of the four leaves are absent.  And with
an adapter name other than the two supported ones, `getInsight` succeeds with
a nil spec, which is assigned as `null`. -/
theorem processTemplates_written_spec_counterexample :
    extractResourceSpecFromK8S (demoCluster demoClusterPartial)
        "prod" "payments" "Deployment" "api" "web" demoUnreachable1 =
      .ret (some [("limits", some [("cpu", "200m")])], none) demoUnreachable2 ∧
    processTemplates_container (demoCluster demoClusterPartial)
        "payments" "Deployment" "api" (.obj demoContainer) demoDensifyState =
      .ret (.obj [("name", .str "web"), ("image", .str "nginx"),
        ("resources", .obj [("limits", .obj [("cpu", .str "200m")])])]) demoUnreachable2 ∧
    ¬ FourLeaves (demoCluster demoClusterPartial) (some [("limits", some [("cpu", "200m")])]) ∧
    processTemplates_container (demoCluster demoClusterPartial)
        "payments" "Deployment" "api" (.obj demoContainer) demoOtherAdapterState =
      .ret (.obj [("name", .str "web"), ("image", .str "nginx"), ("resources", .null)])
        demoOtherAdapterState ∧
    ¬ FourLeaves (demoCluster demoClusterPartial) none := by
  refine ⟨rfl, rfl, ?_, rfl, ?_⟩
  · intro h
    obtain ⟨leaf, hleaf, -⟩ := h ("requests", "cpu") (by simp [leafPaths])
    simp [leafLookup, specGet, mapLookup] at hleaf
  · intro h
    obtain ⟨leaf, hleaf, -⟩ := h ("requests", "cpu") (by simp [leafPaths])
    simp [leafLookup, specGet] at hleaf

/-- C10, amended: in an iteration of the container loop of `processTemplates`
on a named container, the value assigned under `resources` from the backend
adapter (Densify or Parameter Store) has all four leaves present, each a
positive number followed by its suffix.  A value assigned from the live
cluster is the `resources` value of the first container of that name in the
output of the cluster query, decoded as a map of maps of text: each leaf of
the assigned value is the text stored at that place (the empty text when
what is stored there is not a text), and the assigned value is null exactly
when the cluster's value is not an object.  That value is only known to be
present and not the empty object. -/
theorem processTemplates_written_spec (w : World F) (objNamespace objType objName : String)
    (c : GoMap (JVal F)) (containerName : String) (s : State)
    (hname : support.CheckMap c ["name"] = some containerName) (hne : containerName ≠ "") :
    (∀ insight approval s1,
      getInsight w s.remoteCluster objNamespace objType objName containerName s
        = .ret (insight, approval, none) s1 →
      (s.adapter = "Densify" ∨ s.adapter = "Parameter Store") →
      ∃ c1 written,
        processTemplates_container w objNamespace objType objName (.obj c) s
          = .ret (.obj c1) s1 ∧
        mapLookup c1 "resources" = some written ∧
        (∀ key, key ≠ "resources" → mapLookup c1 key = mapLookup c key) ∧
        written = specToJVal insight ∧
        (∀ k1 k2, blockLeaf written k1 k2 = leafLookup insight k1 k2) ∧
        FourLeaves w insight) ∧
    (∀ failed approval e s1 insight s2,
      getInsight w s.remoteCluster objNamespace objType objName containerName s
        = .ret (failed, approval, some e) s1 →
      extractResourceSpecFromK8S w s1.remoteCluster objNamespace objType objName
        containerName s1 = .ret (insight, none) s2 →
      ∃ c1 written out err d resources,
        processTemplates_container w objNamespace objType objName (.obj c) s
          = .ret (.obj c1) s2 ∧
        mapLookup c1 "resources" = some written ∧
        (∀ key, key ≠ "resources" → mapLookup c1 key = mapLookup c key) ∧
        written = specToJVal insight ∧
        w.execRun s1.trace (clusterQuery s1 s1.remoteCluster objNamespace objType objName)
          = (out, err, none) ∧
        FirstContainer (decodeSliceOfMaps (w.jsonParse out)) containerName d ∧
        mapLookup d "resources" = some resources ∧ resources ≠ .obj [] ∧
        insight = decodeSpec (some resources) ∧
        (∀ k1 k2, blockLeaf written k1 k2 = blockLeaf resources k1 k2) ∧
        (written = .null ↔ ∀ m, resources ≠ .obj m)) := by
  constructor
  · intro insight approval s1 hins hadapter
    refine ⟨mapSet c "resources" (specToJVal insight), specToJVal insight,
      by simp [processTemplates_container, hname, hne, hins],
      mapLookup_mapSet_self c "resources" _,
      fun key hkey => mapLookup_mapSet_ne c "resources" key _ (Ne.symm hkey), rfl,
      fun k1 k2 => blockLeaf_specToJVal insight k1 k2, ?_⟩
    obtain ⟨hd, hp⟩ := getInsight_success w _ _ _ _ _ s s1 insight approval hins
    rcases hadapter with ha | ha
    · exact FourLeaves_of_densify w _ _ _ _ _ s s1 insight approval (hd ha)
    · exact FourLeaves_of_ssm w _ _ _ _ _ s s1 insight approval (hp ha)
  · intro failed approval e s1 insight s2 hins hk8s
    obtain ⟨out, err, d, resources, hrun, hfirst, hres, hnonempty, hspec⟩ :=
      extractResourceSpecFromK8S_success_first w _ _ _ _ _ s1 s2 insight hk8s
    refine ⟨mapSet c "resources" (specToJVal insight), specToJVal insight, out, err, d,
      resources, by simp [processTemplates_container, hname, hne, hins, hk8s],
      mapLookup_mapSet_self c "resources" _,
      fun key hkey => mapLookup_mapSet_ne c "resources" key _ (Ne.symm hkey), rfl,
      hrun, hfirst, hres, hnonempty, hspec, ?_, ?_⟩
    · intro k1 k2
      rw [blockLeaf_specToJVal, hspec]
      exact leafLookup_decodeSpec resources k1 k2
    · rw [← decodeSpec_eq_none_iff, ← hspec]
      cases insight <;> simp [specToJVal]

/-- Witness for C10 (amended): the value assigned from the Densify backend,
500m/512Mi/250m/256Mi, has its four leaves; the value assigned from the
cluster is the block of the cluster container `web`, which only limits the
cpu. -/
theorem processTemplates_written_spec_witness :
    (∃ c1 written,
      processTemplates_container (demoDensify "Approve Specific Change" demoRecommended)
        "payments" "Deployment" "api" (.obj demoContainer) demoDensifyState
        = .ret (.obj c1) demoDensifyState2 ∧
      mapLookup c1 "resources" = some written ∧
      (∀ key, key ≠ "resources" → mapLookup c1 key = mapLookup demoContainer key) ∧
      written = .obj [("limits", .obj [("cpu", .str "500m"), ("memory", .str "512Mi")]),
                      ("requests", .obj [("cpu", .str "250m"), ("memory", .str "256Mi")])] ∧
      (∀ k1 k2, blockLeaf written k1 k2
        = leafLookup (some [("limits", some [("cpu", "500m"), ("memory", "512Mi")]),
                            ("requests", some [("cpu", "250m"), ("memory", "256Mi")])]) k1 k2) ∧
      FourLeaves (demoDensify "Approve Specific Change" demoRecommended)
        (some [("limits", some [("cpu", "500m"), ("memory", "512Mi")]),
               ("requests", some [("cpu", "250m"), ("memory", "256Mi")])])) ∧
    (∃ c1 written out err d resources,
      processTemplates_container (demoCluster demoClusterPartial)
        "payments" "Deployment" "api" (.obj demoContainer) demoDensifyState
        = .ret (.obj c1) demoUnreachable2 ∧
      mapLookup c1 "resources" = some written ∧
      (∀ key, key ≠ "resources" → mapLookup c1 key = mapLookup demoContainer key) ∧
      written = .obj [("limits", .obj [("cpu", .str "200m")])] ∧
      (demoCluster demoClusterPartial).execRun demoUnreachable1.trace
          ["kubectl", "get", "Deployment", "api",
            "-o=jsonpath={.spec.template.spec.containers}", "--cluster=prod",
            "--namespace=payments"]
        = (out, err, none) ∧
      FirstContainer (decodeSliceOfMaps ((demoCluster demoClusterPartial).jsonParse out))
        "web" d ∧
      mapLookup d "resources" = some resources ∧ resources ≠ .obj [] ∧
      some [("limits", some [("cpu", "200m")])] = decodeSpec (some resources) ∧
      (∀ k1 k2, blockLeaf written k1 k2 = blockLeaf resources k1 k2) ∧
      (written = .null ↔ ∀ m, resources ≠ .obj m)) :=
  ⟨(processTemplates_written_spec (demoDensify "Approve Specific Change" demoRecommended)
      "payments" "Deployment" "api" demoContainer "web" demoDensifyState rfl (by decide)).1
      _ "Approved" demoDensifyState2 rfl (Or.inl rfl),
   (processTemplates_written_spec (demoCluster demoClusterPartial)
      "payments" "Deployment" "api" demoContainer "web" demoDensifyState rfl (by decide)).2
      none "Not Approved" "unable to locate resource spec" demoUnreachable1 _ demoUnreachable2
      rfl rfl⟩

/-- C11, counterexample: a Deployment named `api` without hook annotation,
whose `spec` has no `template`.  Its kind is supported, its name is non-empty
and it has no hook annotation, yet `validateManifest` does not accept it: the
chain of type assertions that reads the container list aborts. -/
theorem validateManifest_accepts_counterexample :
    decodeManifest ((demoChart (some (.obj demoNoTemplate))).yamlParse "deployment.yaml")
      = some demoNoTemplate ∧
    mapLookup demoNoTemplate "kind" = some (.str "Deployment") ∧
    "Deployment" ∈ supportedKinds ∧
    mapLookup demoNoTemplate "metadata" = some (.obj [("name", .str "api")]) ∧
    validateManifest (demoChart (some (.obj demoNoTemplate))) "deployment.yaml" demoDensifyState
      = none ∧
    ¬ ∃ cl, validateManifest (demoChart (some (.obj demoNoTemplate))) "deployment.yaml"
      demoDensifyState = some (.ok cl) := by
  refine ⟨rfl, rfl, by simp [supportedKinds], rfl, rfl, ?_⟩
  rintro ⟨cl, h⟩
  have h0 : validateManifest (demoChart (some (.obj demoNoTemplate))) "deployment.yaml"
      demoDensifyState = none := rfl
  rw [h0] at h
  exact absurd h (by simp)

/-- C11, amended: for every document that parses, `validateManifest` accepts
it if and only if its `kind` is a text naming one of the eight supported
kinds, its `metadata` is a mapping whose `name` is a non-empty text, whose
`namespace` is absent or a text and whose `annotations` are absent or a
mapping in which `helm.sh/hook` is absent or a text that does not start with
`test`, and the container path of its kind leads through mappings to a list;
the classification returned is then the kind, the name, the namespace (the
caller-resolved one when `metadata.namespace` is absent or empty), that list
and the document.  And a document whose `kind` is absent or a text, whose
`metadata` is a mapping with `name` and `namespace` absent or texts and with
`annotations` a mapping whose `helm.sh/hook` is a text starting with `test`,
is rejected with an error, whatever its kind. -/
theorem validateManifest_accepts_iff (w : World F) (manifest : String) (s : State)
    (m : GoMap (JVal F)) (hparse : decodeManifest (w.yamlParse manifest) = some m) :
    ((∃ cl, validateManifest w manifest s = some (.ok cl)) ↔
      ∃ kind metadata name containers,
        mapLookup m "kind" = some (.str kind) ∧ kind ∈ supportedKinds ∧
        mapLookup m "metadata" = some (.obj metadata) ∧
        mapLookup metadata "name" = some (.str name) ∧ name ≠ "" ∧
        AbsentOrText metadata "namespace" ∧ HookAllows metadata ∧
        ContainersOf m kind containers) ∧
    (∀ cl, validateManifest w manifest s = some (.ok cl) ↔ AcceptedAs m s.nspace cl) ∧
    (∀ metadata annotations hook,
      AbsentOrText m "kind" →
      mapLookup m "metadata" = some (.obj metadata) →
      AbsentOrText metadata "name" → AbsentOrText metadata "namespace" →
      mapLookup metadata "annotations" = some (.obj annotations) →
      mapLookup annotations "helm.sh/hook" = some (.str hook) →
      StartsWithTest hook →
      ∃ msg, validateManifest w manifest s = some (.error msg)) := by
  refine ⟨?_, fun cl => validateManifest_accepted_iff w manifest s m hparse cl, ?_⟩
  · constructor
    · rintro ⟨cl, h⟩
      obtain ⟨hkind, hsup, ⟨metadata, hmeta, hname, hn, hns, hhook⟩, hcont, -⟩ :=
        (validateManifest_accepted_iff w manifest s m hparse cl).mp h
      refine ⟨cl.objType, metadata, cl.objName, cl.containers, hkind, hsup, hmeta, hname, hn,
        ?_, hhook, hcont⟩
      rcases hns with ⟨ns, h1, -, -⟩ | ⟨h1 | h1, -⟩
      · exact Or.inr ⟨ns, h1⟩
      · exact Or.inl h1
      · exact Or.inr ⟨"", h1⟩
    · rintro ⟨kind, metadata, name, containers, hkind, hsup, hmeta, hname, hn, hns, hhook,
        hcont⟩
      have hnsof : ∃ objNamespace, NamespaceOf metadata s.nspace objNamespace := by
        rcases hns with h1 | ⟨t, h1⟩
        · exact ⟨s.nspace, Or.inr ⟨Or.inl h1, rfl⟩⟩
        · by_cases ht : t = ""
          · subst ht
            exact ⟨s.nspace, Or.inr ⟨Or.inr h1, rfl⟩⟩
          · exact ⟨t, Or.inl ⟨t, h1, ht, rfl⟩⟩
      obtain ⟨objNamespace, hnsof⟩ := hnsof
      exact ⟨{ objType := kind, objName := name, objNamespace := objNamespace,
               containers := containers, manifestMap := m },
        (validateManifest_accepted_iff w manifest s m hparse _).mpr
          ⟨hkind, hsup, ⟨metadata, hmeta, hname, hn, hnsof, hhook⟩, hcont, rfl⟩⟩
  · intro metadata annotations hook hkind hmeta hname hns hann hhook htest
    obtain ⟨kind, hkindv⟩ : ∃ kind, support.CheckMap m ["kind"] = some kind := by
      rcases hkind with h | ⟨t, h⟩
      · exact ⟨"", (CheckMap_one_iff _ _ _).mpr (Or.inl ⟨h, rfl⟩)⟩
      · exact ⟨t, (CheckMap_one_iff _ _ _).mpr (Or.inr h)⟩
    obtain ⟨name, hnamev⟩ : ∃ name, support.CheckMap m ["metadata", "name"] = some name := by
      rcases hname with h | ⟨t, h⟩
      · exact ⟨"", (CheckMap_cons_iff m _ _ _ _).mpr (Or.inr ⟨metadata, hmeta,
          (CheckMap_one_iff _ _ _).mpr (Or.inl ⟨h, rfl⟩)⟩)⟩
      · exact ⟨t, (CheckMap_cons_iff m _ _ _ _).mpr (Or.inr ⟨metadata, hmeta,
          (CheckMap_one_iff _ _ _).mpr (Or.inr h)⟩)⟩
    obtain ⟨found, hfoundv⟩ : ∃ found,
        support.CheckMap m ["metadata", "namespace"] = some found := by
      rcases hns with h | ⟨t, h⟩
      · exact ⟨"", (CheckMap_cons_iff m _ _ _ _).mpr (Or.inr ⟨metadata, hmeta,
          (CheckMap_one_iff _ _ _).mpr (Or.inl ⟨h, rfl⟩)⟩)⟩
      · exact ⟨t, (CheckMap_cons_iff m _ _ _ _).mpr (Or.inr ⟨metadata, hmeta,
          (CheckMap_one_iff _ _ _).mpr (Or.inr h)⟩)⟩
    have hhookv : support.CheckMap m ["metadata", "annotations", "helm.sh/hook"] = some hook :=
      (CheckMap_cons_iff m _ _ _ _).mpr (Or.inr ⟨metadata, hmeta,
        (CheckMap_cons_iff _ _ _ _ _).mpr (Or.inr ⟨annotations, hann,
          (CheckMap_one_iff _ _ _).mpr (Or.inr hhook)⟩)⟩)
    have htest1 : "test".data.isPrefixOf hook.data = true := htest
    unfold validateManifest
    simp only [hparse, hkindv, hnamev, hfoundv, hhookv, htest1, if_true]
    by_cases hk : kind = ""
    · simp [hk]
    by_cases hn : name = ""
    · simp [hk, hn]
    simp only [hk, hn, if_false]
    split
    · exact ⟨_, rfl⟩
    · exact ⟨_, rfl⟩

/-- Witness for C11 (amended): the Pod `api` with containers at
`spec.containers` is accepted with the classification spelled out, and the
Deployment whose hook annotation is `test-success` is rejected with an
error; the Pod whose `metadata.annotations` is null is outside the accepted
documents and `validateManifest` does not return on it. -/
theorem validateManifest_accepts_iff_witness :
    validateManifest (demoChart (some (.obj demoPod))) "pod.yaml" demoDensifyState
      = some (.ok { objType := "Pod", objName := "api", objNamespace := "payments",
                    containers := [.obj [("name", .str "web"), ("image", .str "nginx"),
                      ("resources", .obj [("limits", .obj [("cpu", .str "1"),
                        ("memory", .str "1Gi")])])]],
                    manifestMap := demoPod }) ∧
    (∃ msg, validateManifest (demoChart (some (.obj demoTestHook))) "hook.yaml" demoDensifyState
      = some (.error msg)) ∧
    validateManifest (demoChart (some (.obj demoAnnotationsNull))) "pod.yaml" demoDensifyState
      = none :=
  ⟨((validateManifest_accepts_iff (demoChart (some (.obj demoPod))) "pod.yaml" demoDensifyState
      demoPod rfl).2.1 _).mpr
      ⟨rfl, by simp [supportedKinds],
        ⟨[("name", .str "api")], rfl, rfl, by decide, Or.inr ⟨Or.inl rfl, rfl⟩, Or.inl rfl⟩,
        ⟨[("containers", .arr [.obj demoContainer])], rfl, rfl⟩, rfl⟩,
   (validateManifest_accepts_iff (demoChart (some (.obj demoTestHook))) "hook.yaml"
      demoDensifyState demoTestHook rfl).2.2
      [("name", .str "api"), ("namespace", .str "shop"),
        ("annotations", .obj [("helm.sh/hook", .str "test-success")])]
      [("helm.sh/hook", .str "test-success")] "test-success"
      (Or.inr ⟨"Deployment", rfl⟩) rfl (Or.inr ⟨"api", rfl⟩) (Or.inr ⟨"shop", rfl⟩) rfl rfl
      (by simp [StartsWithTest]),
   rfl⟩

/-- C12: container-list location.  For every document accepted by
`validateManifest`, the returned container list is the list at
`spec.jobTemplate.spec.template.spec.containers` when the kind is CronJob, at
`spec.containers` when it is Pod, and at `spec.template.spec.containers` for
every other kind, each key before the last holding a mapping; the kind that
selects the path is the text under `kind` of the document and is one of the
eight; and the returned namespace is `metadata.namespace` when it is present
and non-empty, otherwise the caller-resolved namespace. -/
theorem validateManifest_container_list (w : World F) (manifest : String) (s : State)
    (m : GoMap (JVal F)) (cl : Classified F)
    (hparse : decodeManifest (w.yamlParse manifest) = some m)
    (hok : validateManifest w manifest s = some (.ok cl)) :
    (cl.objType = "CronJob" →
      ∃ spec jobTemplate jobSpec template podSpec,
        mapLookup m "spec" = some (.obj spec) ∧
        mapLookup spec "jobTemplate" = some (.obj jobTemplate) ∧
        mapLookup jobTemplate "spec" = some (.obj jobSpec) ∧
        mapLookup jobSpec "template" = some (.obj template) ∧
        mapLookup template "spec" = some (.obj podSpec) ∧
        mapLookup podSpec "containers" = some (.arr cl.containers)) ∧
    (cl.objType = "Pod" →
      ∃ spec, mapLookup m "spec" = some (.obj spec) ∧
        mapLookup spec "containers" = some (.arr cl.containers)) ∧
    (cl.objType ≠ "CronJob" → cl.objType ≠ "Pod" →
      ∃ spec template podSpec,
        mapLookup m "spec" = some (.obj spec) ∧
        mapLookup spec "template" = some (.obj template) ∧
        mapLookup template "spec" = some (.obj podSpec) ∧
        mapLookup podSpec "containers" = some (.arr cl.containers)) ∧
    mapLookup m "kind" = some (.str cl.objType) ∧
    cl.objType ∈ supportedKinds ∧
    ∃ metadata, mapLookup m "metadata" = some (.obj metadata) ∧
      ((∃ ns, mapLookup metadata "namespace" = some (.str ns) ∧ ns ≠ "" ∧
          cl.objNamespace = ns) ∨
       ((mapLookup metadata "namespace" = none ∨
          mapLookup metadata "namespace" = some (.str "")) ∧
          cl.objNamespace = s.nspace)) := by
  obtain ⟨hkind, hsup, ⟨metadata, hmeta, -, -, hns, -⟩, hcont, -⟩ :=
    (validateManifest_accepted_iff w manifest s m hparse cl).mp hok
  unfold ContainersOf at hcont
  refine ⟨?_, ?_, ?_, hkind, hsup, metadata, hmeta, hns⟩
  · intro h
    have hne : ¬ "CronJob" = "Pod" := by decide
    simpa [h, hne] using hcont
  · intro h
    simpa [h] using hcont
  · intro h1 h2
    simpa [h1, h2] using hcont

/-- Witness for C12: the CronJob `nightly` yields the list at
`spec.jobTemplate.spec.template.spec.containers` and its own namespace
`batch`; the Pod `api` yields the list at `spec.containers` and the
caller-resolved namespace `payments`; the Deployment `api` yields the list at
`spec.template.spec.containers`, not its init containers. -/
theorem validateManifest_container_list_witness :
    (∃ spec jobTemplate jobSpec template podSpec,
      mapLookup demoCronJob "spec" = some (.obj spec) ∧
      mapLookup spec "jobTemplate" = some (.obj jobTemplate) ∧
      mapLookup jobTemplate "spec" = some (.obj jobSpec) ∧
      mapLookup jobSpec "template" = some (.obj template) ∧
      mapLookup template "spec" = some (.obj podSpec) ∧
      mapLookup podSpec "containers"
        = some (.arr [JVal.obj [("name", .str "job"), ("image", .str "busybox")]])) ∧
    (∃ metadata, mapLookup demoCronJob "metadata" = some (.obj metadata) ∧
      ((∃ ns, mapLookup metadata "namespace" = some (.str ns) ∧ ns ≠ "" ∧ "batch" = ns) ∨
       ((mapLookup metadata "namespace" = none ∨
          mapLookup metadata "namespace" = some (.str "")) ∧
          "batch" = demoDensifyState.nspace))) ∧
    (∃ spec, mapLookup demoPod "spec" = some (.obj spec) ∧
      mapLookup spec "containers" = some (.arr [JVal.obj demoContainer])) ∧
    (∃ metadata, mapLookup demoPod "metadata" = some (.obj metadata) ∧
      ((∃ ns, mapLookup metadata "namespace" = some (.str ns) ∧ ns ≠ "" ∧ "payments" = ns) ∨
       ((mapLookup metadata "namespace" = none ∨
          mapLookup metadata "namespace" = some (.str "")) ∧
          "payments" = demoDensifyState.nspace))) ∧
    (∃ spec template podSpec,
      mapLookup demoDeployment "spec" = some (.obj spec) ∧
      mapLookup spec "template" = some (.obj template) ∧
      mapLookup template "spec" = some (.obj podSpec) ∧
      mapLookup podSpec "containers" = some (.arr [JVal.obj demoContainer, demoUnnamed])) :=
  have hcron := validateManifest_container_list (demoChart (some (.obj demoCronJob)))
    "cronjob.yaml" demoDensifyState demoCronJob
    { objType := "CronJob", objName := "nightly", objNamespace := "batch",
      containers := [.obj [("name", .str "job"), ("image", .str "busybox")]],
      manifestMap := demoCronJob } rfl rfl
  have hpod := validateManifest_container_list (demoChart (some (.obj demoPod))) "pod.yaml"
    demoDensifyState demoPod
    { objType := "Pod", objName := "api", objNamespace := "payments",
      containers := [.obj demoContainer], manifestMap := demoPod } rfl rfl
  have hdep := validateManifest_container_list (demoChart (some (.obj demoDeployment)))
    "deployment.yaml" demoDensifyState demoDeployment
    { objType := "Deployment", objName := "api", objNamespace := "payments",
      containers := [.obj demoContainer, demoUnnamed], manifestMap := demoDeployment } rfl rfl
  ⟨hcron.1 rfl, hcron.2.2.2.2.2, hpod.2.1 rfl, hpod.2.2.2.2.2,
    hdep.2.2.1 (by decide) (by decide)⟩

/-- C13, failing inputs: on a Deployment without `spec.template`, on a
document whose `kind` is a number and on a document whose `metadata` is a
text, `validateManifest` returns neither a classification nor an error: a
type assertion fails and the run of `processTemplates` aborts. -/
theorem validateManifest_aborts :
    validateManifest (demoChart (some (.obj demoNoTemplate))) "deployment.yaml" demoDensifyState
      = none ∧
    validateManifest (demoChart (some (.obj demoKindNumber))) "kind.yaml" demoDensifyState
      = none ∧
    validateManifest (demoChart (some (.obj demoMetadataText))) "metadata.yaml" demoDensifyState
      = none ∧
    processTemplates_manifest (demoChart (some (.obj demoNoTemplate))) "deployment.yaml"
      demoDensifyState = .panic demoDensifyState :=
  ⟨rfl, rfl, rfl, rfl⟩

/-- C14: mutation frame.  For every accepted document on which the container
loop returns, the document handed to `yaml.Marshal` holds the new container
list at the container path of its kind; putting the original list back at
that path gives the original document, so nothing outside that list differs;
and each entry of the new list is the original entry, or the original entry
of a named container with its `resources` key assigned, every other key
keeping its value. -/
theorem processTemplates_mutation_frame (w : World F) (manifest : String) (s s1 : State)
    (cl : Classified F) (containers1 : List (JVal F))
    (hok : validateManifest w manifest s = some (.ok cl))
    (hloop : processTemplates_containers w cl.objNamespace cl.objType cl.objName
      cl.containers s = .ret containers1 s1) :
    processTemplates_manifest w manifest s =
      .ret (some (setContainers cl.manifestMap (containerPath cl.objType) containers1)) s1 ∧
    containersAt (setContainers cl.manifestMap (containerPath cl.objType) containers1)
      (containerPath cl.objType) = some containers1 ∧
    setContainers (setContainers cl.manifestMap (containerPath cl.objType) containers1)
      (containerPath cl.objType) cl.containers = cl.manifestMap ∧
    List.Forall₂ (fun c c1 => ResourcesOnly c c1 ∧
      ∀ k, k ≠ "resources" → fieldOf c1 k = fieldOf c k) cl.containers containers1 := by
  have hcont : containersAt cl.manifestMap (containerPath cl.objType) = some cl.containers := by
    cases hd : decodeManifest (w.yamlParse manifest) with
    | none => simp [validateManifest, hd] at hok
    | some m =>
      obtain ⟨found, hook, -, -, -, -, -, -, -, -, hc, hm⟩ :=
        (validateManifest_ok_iff w manifest s m hd cl).mp hok
      rw [hm]
      exact hc
  obtain ⟨h1, h2⟩ := setContainers_frame (containerPath cl.objType) cl.manifestMap
    cl.containers containers1 hcont
  refine ⟨?_, h1, h2,
    processTemplates_containers_frame w _ _ _ cl.containers containers1 s s1 hloop⟩
  simp [processTemplates_manifest, hok, hloop]

set_option maxRecDepth 8000 in
/-- Witness for C14: the Deployment `api` with an init container, the
container `web` and an unnamed container; only the `resources` of `web`
changes. -/
theorem processTemplates_mutation_frame_witness :
    processTemplates_manifest (demoChart (some (.obj demoDeployment))) "deployment.yaml"
      demoDensifyState = .ret (some demoDeploymentResolved) demoDensifyState2 ∧
    setContainers demoDeploymentResolved ["spec", "template", "spec", "containers"]
      [.obj demoContainer, demoUnnamed] = demoDeployment :=
  have h := processTemplates_mutation_frame (demoChart (some (.obj demoDeployment)))
    "deployment.yaml" demoDensifyState demoDensifyState2
    { objType := "Deployment", objName := "api", objNamespace := "payments",
      containers := [.obj demoContainer, demoUnnamed], manifestMap := demoDeployment }
    [.obj [("name", .str "web"), ("image", .str "nginx"),
       ("resources", .obj [("limits", .obj [("cpu", .str "500m"), ("memory", .str "512Mi")]),
         ("requests", .obj [("cpu", .str "250m"), ("memory", .str "256Mi")])])],
     demoUnnamed] rfl rfl
  ⟨h.1, h.2.2.1⟩

/-- C15: value and label chosen by `ssm.UpdateApprovalSetting`.  When the tag
listing succeeds, the first command after it overwrites the parameter with
the encoding of the object whose leaves are the tags `recommendedCpuLimit`,
`recommendedMemLimit`, `recommendedCpuRequest`, `recommendedMemRequest` when
`approved` is true, and the four `current*` tags when it is false; no other
tag enters the object; and the only command that may follow labels the
version, with exactly `Approved` when `approved` is true and exactly
`NotApproved` when it is false. -/
theorem ssm_UpdateApprovalSetting_value (w : World F) (approved : Bool)
    (cluster nspace objType objName containerName : String) (s : State)
    (resp errOut : String)
    (hlist : listResult w (parameterName s.ssmPrefix cluster nspace objType objName
      containerName) s = (resp, errOut, none)) :
    ∃ cur rec,
      ssm.UpdateApprovalSetting_tags (ssm.decodeSliceOfStrMaps (w.jsonParse resp))
        (freshSettings, freshSettings) = some (cur, rec) ∧
      HasSections cur ∧ HasSections rec ∧
      (∀ k1 k2, leafLookup rec k1 k2 =
        leafFromTags (ssm.decodeSliceOfStrMaps (w.jsonParse resp)) "recommendedCpuLimit"
          "recommendedMemLimit" "recommendedCpuRequest" "recommendedMemRequest" k1 k2) ∧
      (∀ k1 k2, leafLookup cur k1 k2 =
        leafFromTags (ssm.decodeSliceOfStrMaps (w.jsonParse resp)) "currentCpuLimit"
          "currentMemLimit" "currentCpuRequest" "currentMemRequest" k1 k2) ∧
      (∀ key, tagValue ((ssm.decodeSliceOfStrMaps (w.jsonParse resp)).filter
          fun tag => decide (strGet tag "Key" = key)) key
        = tagValue (ssm.decodeSliceOfStrMaps (w.jsonParse resp)) key) ∧
      ∃ rest,
        newCalls s (ssm.UpdateApprovalSetting w approved cluster nspace objType objName
          containerName s).final =
          .exec (listTagsCommand (parameterName s.ssmPrefix cluster nspace objType objName
            containerName) s) ::
          .exec (putParameterCommand (parameterName s.ssmPrefix cluster nspace objType objName
            containerName) (w.marshalSpec (if approved = true then rec else cur)) s) :: rest ∧
        (rest = [] ∨
          rest = [.exec (labelCommand (parameterName s.ssmPrefix cluster nspace objType objName
            containerName) (if approved = true then "Approved" else "NotApproved") s)]) := by
  obtain ⟨cur, rec, hfold, hc, hr, lc, lr⟩ :=
    UpdateApprovalSetting_tags_fresh (ssm.decodeSliceOfStrMaps (w.jsonParse resp))
  refine ⟨cur, rec, hfold, hc, hr, lr, lc, fun key => tagValue_filter _ key, ?_⟩
  rw [UpdateApprovalSetting_run]
  unfold listResult at hlist
  simp only [hlist, hfold]
  rw [UpdateApprovalSetting_put_run]
  rcases hput : putResult w (parameterName s.ssmPrefix cluster nspace objType objName
    containerName) (w.marshalSpec (if approved = true then rec else cur)) s with ⟨out, err, e⟩
  cases e with
  | some e =>
    refine ⟨[], ?_, Or.inl rfl⟩
    simp [Exec.final, newCalls, State.pushCall]
  | none =>
    refine ⟨_, ?_, Or.inr rfl⟩
    simp only
    cases (labelResult w (parameterName s.ssmPrefix cluster nspace objType objName
      containerName) (w.marshalSpec (if approved = true then rec else cur))
      (if approved = true then "Approved" else "NotApproved") s).2.2 <;>
      simp [Exec.final, newCalls, State.pushCall]
/-- Witness for C15: with the eight tags and a tag `owner`, approving writes
the object built from the four recommended tags, 500/512/250/256, and then
the label `Approved`. -/
theorem ssm_UpdateApprovalSetting_value_witness :
    newCalls demoSsmState (ssm.UpdateApprovalSetting (demoTagged demoTags none) true
        "prod" "payments" "Deployment" "api" "web" demoSsmState).final =
      [.exec ["aws", "ssm", "list-tags-for-resource", "--resource-type", "Parameter",
         "--resource-id", "/opt/prod/payments/Deployment/api/web/resourceSpec",
         "--profile", "default", "--region", "us-east-1", "--query", "TagList"],
       .exec ["aws", "ssm", "put-parameter", "--name",
         "/opt/prod/payments/Deployment/api/web/resourceSpec", "--type", "String", "--value",
         "limits.cpu=500;limits.memory=512;requests.cpu=250;requests.memory=256;",
         "--overwrite", "--profile", "default", "--region", "us-east-1"],
       .exec ["aws", "ssm", "label-parameter-version", "--name",
         "/opt/prod/payments/Deployment/api/web/resourceSpec", "--labels", "Approved",
         "--profile", "default", "--region", "us-east-1"]] ∧
    ∃ rec : Option ResourceSpec,
      leafLookup rec "limits" "cpu" = some "500" ∧
      leafLookup rec "limits" "memory" = some "512" ∧
      leafLookup rec "requests" "cpu" = some "250" ∧
      leafLookup rec "requests" "memory" = some "256" ∧
      leafLookup rec "limits" "owner" = none := by
  obtain ⟨cur, rec, -, -, -, lr, -, -, -⟩ :=
    ssm_UpdateApprovalSetting_value (demoTagged demoTags none) true
      "prod" "payments" "Deployment" "api" "web" demoSsmState "tags" "" rfl
  exact ⟨rfl, rec, (lr _ _).trans rfl, (lr _ _).trans rfl, (lr _ _).trans rfl,
    (lr _ _).trans rfl, (lr _ _).trans rfl⟩

/-- C16: error reporting of `ssm.UpdateApprovalSetting`.  It always returns;
it returns nil exactly when the tag listing, the parameter overwrite and the
labelling all succeed, and otherwise the one error
"unable to update approval setting"; and when the listing or the overwrite
fails, no labelling command is issued. -/
theorem ssm_UpdateApprovalSetting_errors (w : World F) (approved : Bool)
    (cluster nspace objType objName containerName : String) (s : State) :
    ∃ cur rec result final,
      ssm.UpdateApprovalSetting_tags (ssm.decodeSliceOfStrMaps (w.jsonParse
        (listResult w (parameterName s.ssmPrefix cluster nspace objType objName
          containerName) s).1)) (freshSettings, freshSettings) = some (cur, rec) ∧
      ssm.UpdateApprovalSetting w approved cluster nspace objType objName containerName s
        = .ret result final ∧
      (result = none ↔
        (listResult w (parameterName s.ssmPrefix cluster nspace objType objName
          containerName) s).2.2 = none ∧
        (putResult w (parameterName s.ssmPrefix cluster nspace objType objName containerName)
          (w.marshalSpec (if approved = true then rec else cur)) s).2.2 = none ∧
        (labelResult w (parameterName s.ssmPrefix cluster nspace objType objName containerName)
          (w.marshalSpec (if approved = true then rec else cur))
          (if approved = true then "Approved" else "NotApproved") s).2.2 = none) ∧
      (result = none ∨ result = some "unable to update approval setting") ∧
      ((listResult w (parameterName s.ssmPrefix cluster nspace objType objName
          containerName) s).2.2 ≠ none ∨
        (putResult w (parameterName s.ssmPrefix cluster nspace objType objName containerName)
          (w.marshalSpec (if approved = true then rec else cur)) s).2.2 ≠ none →
        ∀ c ∈ newCalls s final, ¬ IsLabelCall c) := by
  obtain ⟨cur, rec, hfold, -, -, -, -⟩ :=
    UpdateApprovalSetting_tags_fresh (ssm.decodeSliceOfStrMaps (w.jsonParse
      (listResult w (parameterName s.ssmPrefix cluster nspace objType objName
        containerName) s).1))
  refine ⟨cur, rec, ?_⟩
  rw [UpdateApprovalSetting_run]
  rcases hl : listResult w (parameterName s.ssmPrefix cluster nspace objType objName
    containerName) s with ⟨resp, err, e⟩
  rw [hl] at hfold
  simp only at hfold
  unfold listResult at hl
  simp only [hl]
  cases e with
  | some e =>
    refine ⟨_, _, hfold, rfl, by simp, Or.inr rfl, ?_⟩
    intro _ c hc
    simp only [newCalls, State.pushCall, List.drop_left, List.mem_singleton] at hc
    subst hc
    rintro ⟨rest, h⟩
    simp [listTagsCommand] at h
  | none =>
    simp only [hfold]
    rw [UpdateApprovalSetting_put_run]
    rcases hp : putResult w (parameterName s.ssmPrefix cluster nspace objType objName
      containerName) (w.marshalSpec (if approved = true then rec else cur)) s
      with ⟨out, err2, e1⟩
    cases e1 with
    | some e1 =>
      refine ⟨_, _, trivial, rfl, by simp, Or.inr rfl, ?_⟩
      intro _ c hc
      simp only [newCalls, State.pushCall, List.append_assoc, List.drop_left,
        List.singleton_append, List.mem_cons, List.mem_singleton, List.not_mem_nil,
        or_false] at hc
      rcases hc with rfl | rfl
      · rintro ⟨rest, h⟩
        simp [listTagsCommand] at h
      · rintro ⟨rest, h⟩
        simp [putParameterCommand] at h
    | none =>
      simp only
      cases hlab : (labelResult w (parameterName s.ssmPrefix cluster nspace objType objName
        containerName) (w.marshalSpec (if approved = true then rec else cur))
        (if approved = true then "Approved" else "NotApproved") s).2.2 with
      | none => exact ⟨_, _, trivial, rfl, by simp, Or.inl rfl, by simp⟩
      | some e2 => exact ⟨_, _, trivial, rfl, by simp, Or.inr rfl, by simp⟩

/-- C17: `densify.UpdateApprovalSetting`.  When the insight is found (and
the request is well formed), the calls it makes are the `GET` requests of the
lookup followed by exactly one `PUT` to
`densifyURL + "/CIRBA/api/v2/systems/" + entityId + "/attributes"`, whose body
is the array with the single object of name "Approval Setting" and value
"Approve Specific Change" when `approved` is true, "Not Approved" when it is
false.  When the lookup fails, only its `GET` requests are made and the error
"unable to update approval setting" is returned. -/
theorem densify_UpdateApprovalSetting_put (w : World F) (approved : Bool)
    (cluster nspace objType objName containerName : String) (s : State) :
    (∀ insight s1 entityId,
      densify.lookupInsight w cluster nspace objType objName containerName s
        = .ret (insight, none) s1 →
      mapLookup insight "entityId" = some (.str entityId) →
      w.httpDo s1.trace "PUT"
        (s1.densifyURL ++ "/CIRBA/api/v2/systems/" ++ entityId ++ "/attributes")
        (s1.densifyUser ++ ":" ++ s1.densifyPass)
        (some (if approved = true then densify.approveBody else densify.notApprovedBody))
        ≠ .badRequest →
      ∃ result s2 gets,
        densify.UpdateApprovalSetting w approved cluster nspace objType objName containerName s
          = .ret result s2 ∧
        newCalls s s2 = gets ++
          [.http "PUT" (s1.densifyURL ++ "/CIRBA/api/v2/systems/" ++ entityId ++ "/attributes")
            (s1.densifyUser ++ ":" ++ s1.densifyPass)
            (some (if approved = true then densify.approveBody else densify.notApprovedBody))] ∧
        (∀ c ∈ gets, IsGet c)) ∧
    (∀ failed e s1,
      densify.lookupInsight w cluster nspace objType objName containerName s
        = .ret (failed, some e) s1 →
      densify.UpdateApprovalSetting w approved cluster nspace objType objName containerName s
        = .ret (some "unable to update approval setting") s1 ∧
      ∀ c ∈ newCalls s s1, IsGet c) ∧
    densify.approveBody =
      "[\x7b\"name\": \"Approval Setting\", \"value\": \"Approve Specific Change\"\x7d]" ∧
    densify.notApprovedBody =
      "[\x7b\"name\": \"Approval Setting\", \"value\": \"Not Approved\"\x7d]" := by
  have hget := lookupInsight_get w cluster nspace objType objName containerName s
  refine ⟨?_, ?_, rfl, rfl⟩
  · intro insight s1 entityId hfound hentity hreq
    rw [hfound] at hget
    obtain ⟨gets, htrace, hgets⟩ := hget
    simp only [Exec.final] at htrace
    unfold densify.UpdateApprovalSetting
    simp only [hfound, hentity]
    unfold support.HTTPRequest densify.systemsEP
    simp only
    have hurl : s1.densifyURL ++ "/CIRBA/api/v2/systems" ++ "/" ++ entityId ++ "/attributes"
        = s1.densifyURL ++ "/CIRBA/api/v2/systems/" ++ entityId ++ "/attributes" := by
      simp [String.append_assoc]
    rw [hurl]
    cases hans : w.httpDo s1.trace "PUT"
      (s1.densifyURL ++ "/CIRBA/api/v2/systems/" ++ entityId ++ "/attributes")
      (s1.densifyUser ++ ":" ++ s1.densifyPass)
      (some (if approved = true then densify.approveBody else densify.notApprovedBody)) with
    | ok body =>
      exact ⟨_, _, gets, rfl, by simp [newCalls, htrace], hgets⟩
    | failed msg =>
      exact ⟨_, _, gets, rfl, by simp [newCalls, htrace], hgets⟩
    | badRequest => exact absurd hans hreq
  · intro failed e s1 hfail
    rw [hfail] at hget
    refine ⟨by simp [densify.UpdateApprovalSetting, hfail], ?_⟩
    exact hget.newCalls

/-- Witness for C17: approving the insight of entity `e1`; the lookup makes
two `GET` requests and one `PUT` follows. -/
theorem densify_UpdateApprovalSetting_put_witness :
    ∃ result s2 gets,
      densify.UpdateApprovalSetting (demoDensify "Not Approved" demoRecommended) true
        "prod" "payments" "Deployment" "api" "web" demoDensifyState = .ret result s2 ∧
      newCalls demoDensifyState s2 = gets ++
        [.http "PUT" (demoDensifyState1.densifyURL ++ "/CIRBA/api/v2/systems/" ++ "e1"
            ++ "/attributes")
          (demoDensifyState1.densifyUser ++ ":" ++ demoDensifyState1.densifyPass)
          (some (if true = true then densify.approveBody else densify.notApprovedBody))] ∧
      (∀ c ∈ gets, IsGet c) :=
  (densify_UpdateApprovalSetting_put (demoDensify "Not Approved" demoRecommended) true
    "prod" "payments" "Deployment" "api" "web" demoDensifyState).1
    (("entityId", .str "e1") :: demoRecommended) demoDensifyState1 "e1" rfl rfl (by decide)

set_option maxRecDepth 8000 in
/-- C18, counterexample: in a backend whose listing names `prod` (analysis
`a1`) and `staging` (analysis `a2`), a call of `lookupInsight` for `prod`
stores `a1`; the following call for `staging` in the same run requests no
listing, sends the insight request to analysis `a1`, not to `a2`, and fails
with the error of that request, although the listing holds an analysis named
`staging`. -/
theorem lookupInsight_analysis_per_cluster_counterexample :
    densify.lookupInsight demoTwoClusters "prod" "payments" "Deployment" "api" "web"
        demoDensifyState
      = .ret ([("entityId", .str "e1")], none) demoDensifyState1 ∧
    demoDensifyState1.analysisId = "a1" ∧
    decodeSlice (demoTwoClusters.jsonParse "analyses") = demoTwoAnalyses ∧
    FirstNamed demoTwoAnalyses "staging" "a2" ∧
    densify.lookupInsight demoTwoClusters "staging" "payments" "Deployment" "api" "web"
        demoDensifyState1
      = .ret ([], some "not found")
          (demoDensifyState1.pushCall (.http "GET" "https://d.example/CIRBA/api/v2/analysis/containers/kubernetes/a1/results?cluster=staging&namespace=payments&container=web&podService=api&controllerType=Deployment" "user:pass" none)) :=
  ⟨rfl, rfl, rfl,
   ⟨[.obj [("analysisName", .str "prod"), ("analysisId", .str "a1")]],
     [("analysisName", .str "staging"), ("analysisId", .str "a2")], [], rfl,
     by
       intro a ha
       rw [List.mem_singleton] at ha
       exact ⟨_, "prod", ha, rfl, by decide⟩,
     rfl, rfl⟩,
   rfl⟩

/-- C18, amended: the analysis identifier of `densify.lookupInsight` is
resolved once per run.  While the global `analysisId` is empty, the listing
is requested, the identifier of the first analysis whose name equals
`cluster` is stored in `analysisId` and the insight request goes to that
analysis; the call fails with "unable to load analysis", and nothing is
stored, when no analysis has that name.  Once `analysisId` is set, no listing
is requested, the only request goes to the stored identifier, whatever
`cluster` is, and the stored identifier stays as it is. -/
theorem lookupInsight_analysis_per_cluster (w : World F)
    (cluster nspace objType objName containerName : String) (s : State) :
    (s.analysisId = "" → ∀ resp,
      w.httpDo s.trace "GET" (s.densifyURL ++ densify.analysisEP)
        (s.densifyUser ++ ":" ++ s.densifyPass) none = .ok resp →
      (∀ id, FirstNamed (decodeSlice (w.jsonParse resp)) cluster id →
        w.httpDo (s.trace ++ [listingRequest s]) "GET"
          (insightURL s id cluster nspace objType objName containerName)
          (s.densifyUser ++ ":" ++ s.densifyPass) none ≠ .badRequest →
        newCalls s (densify.lookupInsight w cluster nspace objType objName containerName s).final
          = [listingRequest s,
             insightRequest s id cluster nspace objType objName containerName] ∧
        (densify.lookupInsight w cluster nspace objType objName containerName s).final.analysisId
          = id) ∧
      ((∀ a ∈ decodeSlice (w.jsonParse resp), NamedOtherwise cluster a) →
        densify.lookupInsight w cluster nspace objType objName containerName s
          = .ret ([], some "unable to load analysis")
              { s with trace := s.trace ++ [listingRequest s] })) ∧
    (s.analysisId ≠ "" →
      w.httpDo s.trace "GET"
        (insightURL s s.analysisId cluster nspace objType objName containerName)
        (s.densifyUser ++ ":" ++ s.densifyPass) none ≠ .badRequest →
      newCalls s (densify.lookupInsight w cluster nspace objType objName containerName s).final
        = [insightRequest s s.analysisId cluster nspace objType objName containerName] ∧
      (densify.lookupInsight w cluster nspace objType objName containerName s).final.analysisId
        = s.analysisId) := by
  refine ⟨?_, ?_⟩
  · intro hempty resp hlist
    have hlocate : ∀ r, densify.lookupInsight_find (decodeSlice (w.jsonParse resp)) cluster = r →
        densify.lookupInsight_locate w cluster s =
          match r with
          | none => .panic { s with trace := s.trace ++ [listingRequest s] }
          | some none => .ret (some "unable to load analysis")
              { s with trace := s.trace ++ [listingRequest s] }
          | some (some id) => .ret none
              { s with trace := s.trace ++ [listingRequest s], analysisId := id } := by
      intro r hr
      unfold densify.lookupInsight_locate support.HTTPRequest
      simp only [hempty, if_true, hlist, hr]
      rcases r with _ | _ | id <;> rfl
    refine ⟨?_, ?_⟩
    · intro id hfirst hreq
      have h1 := hlocate _ (lookupInsight_find_first _ _ _ hfirst)
      simp only at h1
      rw [lookupInsight_after_locate w cluster nspace objType objName containerName s _ h1 hreq]
      exact ⟨by simp [newCalls, insightRequest, insightURL], rfl⟩
    · intro hnone
      have h1 := hlocate _ (lookupInsight_find_none _ _ hnone)
      simp only at h1
      unfold densify.lookupInsight
      simp only [h1]
  · intro hset hreq
    have h1 : densify.lookupInsight_locate w cluster s = .ret none s := by
      unfold densify.lookupInsight_locate
      simp only [hset, if_false]
    rw [lookupInsight_after_locate w cluster nspace objType objName containerName s s h1 hreq]
    exact ⟨by simp [newCalls], rfl⟩

set_option maxRecDepth 8000 in
/-- Witness for C18 (amended): the first call, for `prod`, requests the
listing and then the insight of analysis `a1`, and stores `a1`; the next
call, for `staging`, makes one request, to analysis `a1`, and `a1` stays
stored. -/
theorem lookupInsight_analysis_per_cluster_witness :
    (newCalls demoDensifyState
        (densify.lookupInsight demoTwoClusters "prod" "payments" "Deployment" "api" "web"
          demoDensifyState).final
      = [.http "GET" "https://d.example/CIRBA/api/v2/analysis/containers/kubernetes"
           "user:pass" none,
         .http "GET" "https://d.example/CIRBA/api/v2/analysis/containers/kubernetes/a1/results?cluster=prod&namespace=payments&container=web&podService=api&controllerType=Deployment" "user:pass" none] ∧
      (densify.lookupInsight demoTwoClusters "prod" "payments" "Deployment" "api" "web"
          demoDensifyState).final.analysisId = "a1") ∧
    (newCalls demoDensifyState1
        (densify.lookupInsight demoTwoClusters "staging" "payments" "Deployment" "api" "web"
          demoDensifyState1).final
      = [.http "GET" "https://d.example/CIRBA/api/v2/analysis/containers/kubernetes/a1/results?cluster=staging&namespace=payments&container=web&podService=api&controllerType=Deployment" "user:pass" none] ∧
      (densify.lookupInsight demoTwoClusters "staging" "payments" "Deployment" "api" "web"
          demoDensifyState1).final.analysisId = "a1") :=
  ⟨((lookupInsight_analysis_per_cluster demoTwoClusters "prod" "payments" "Deployment" "api"
      "web" demoDensifyState).1 rfl "analyses" rfl).1 "a1"
      ⟨[], [("analysisName", .str "prod"), ("analysisId", .str "a1")],
        [.obj [("analysisName", .str "staging"), ("analysisId", .str "a2")]], rfl,
        by simp, rfl, rfl⟩
      (by decide),
   (lookupInsight_analysis_per_cluster demoTwoClusters "staging" "payments" "Deployment" "api"
     "web" demoDensifyState1).2 (by decide) (by decide)⟩

/-- C19 (counterexample): the keys (eks/prod, payments, Deployment, api, web)
and (eks, prod/payments, Deployment, api, web) differ in cluster and
namespace and have the same parameter name, so `ssm.UpdateApprovalSetting`
for the first key addresses the parameter of the second. -/
theorem ssm_parameter_name_collision :
    ("eks/prod", "payments") ≠ ("eks", "prod/payments") ∧
    parameterName "/opt" "eks/prod" "payments" "Deployment" "api" "web" =
      parameterName "/opt" "eks" "prod/payments" "Deployment" "api" "web" ∧
    newCalls demoSsmState
      (ssm.UpdateApprovalSetting (demoTagged demoTags none) true
        "eks/prod" "payments" "Deployment" "api" "web" demoSsmState).final ≠ [] ∧
    AddressOnly (parameterName "/opt" "eks" "prod/payments" "Deployment" "api" "web")
      (newCalls demoSsmState
        (ssm.UpdateApprovalSetting (demoTagged demoTags none) true
          "eks/prod" "payments" "Deployment" "api" "web" demoSsmState).final) := by
  have hname : parameterName "/opt" "eks/prod" "payments" "Deployment" "api" "web" =
      parameterName "/opt" "eks" "prod/payments" "Deployment" "api" "web" := by decide
  have hcalls := ssm_UpdateApprovalSetting_calls (demoTagged demoTags none) true
    "eks/prod" "payments" "Deployment" "api" "web" demoSsmState
  refine ⟨by decide, hname, hcalls.1, ?_⟩
  rw [← hname]
  exact hcalls.2

/-- C19: key uniqueness in the Parameter Store.  For a fixed prefix, two keys
whose namespace, object type, object name and container name hold no "/"
(the cluster name is arbitrary) and that differ in any component have
different parameter names, and no command of `ssm.UpdateApprovalSetting` for
the first key addresses the parameter of the second. -/
theorem ssm_parameter_name_injective (w : World F) (approved : Bool) (s : State)
    (c n t o k c1 n1 t1 o1 k1 : String)
    (hn : NoSlash n) (ht : NoSlash t) (ho : NoSlash o) (hk : NoSlash k)
    (hn1 : NoSlash n1) (ht1 : NoSlash t1) (ho1 : NoSlash o1) (hk1 : NoSlash k1)
    (hdiff : (c, n, t, o, k) ≠ (c1, n1, t1, o1, k1)) :
    parameterName s.ssmPrefix c n t o k ≠ parameterName s.ssmPrefix c1 n1 t1 o1 k1 ∧
    ∀ call ∈ newCalls s (ssm.UpdateApprovalSetting w approved c n t o k s).final,
      ∃ command, call = Call.exec command ∧
        addressedParameter command = some (parameterName s.ssmPrefix c n t o k) ∧
        addressedParameter command ≠ some (parameterName s.ssmPrefix c1 n1 t1 o1 k1) := by
  have hne : parameterName s.ssmPrefix c n t o k ≠ parameterName s.ssmPrefix c1 n1 t1 o1 k1 := by
    intro h
    obtain ⟨e1, e2, e3, e4, e5⟩ :=
      parameterName_injective s.ssmPrefix c n t o k c1 n1 t1 o1 k1 hn ht ho hk hn1 ht1 ho1 hk1 h
    exact hdiff (by rw [e1, e2, e3, e4, e5])
  refine ⟨hne, ?_⟩
  intro call hcall
  obtain ⟨command, hc, haddr⟩ :=
    (ssm_UpdateApprovalSetting_calls w approved c n t o k s).2 call hcall
  refine ⟨command, hc, haddr, ?_⟩
  rw [haddr]
  intro h
  exact hne (Option.some.inj h)

/-- Witness for C19: the keys of the containers `web` and `sidecar` of the
same Deployment. -/
theorem ssm_parameter_name_injective_witness :
    parameterName demoSsmState.ssmPrefix "eks/prod" "payments" "Deployment" "api" "web" ≠
      parameterName demoSsmState.ssmPrefix "eks/prod" "payments" "Deployment" "api" "sidecar" ∧
    ∀ call ∈ newCalls demoSsmState
        (ssm.UpdateApprovalSetting (demoTagged demoTags none) true
          "eks/prod" "payments" "Deployment" "api" "web" demoSsmState).final,
      ∃ command, call = Call.exec command ∧
        addressedParameter command =
          some (parameterName demoSsmState.ssmPrefix "eks/prod" "payments" "Deployment" "api"
            "web") ∧
        addressedParameter command ≠
          some (parameterName demoSsmState.ssmPrefix "eks/prod" "payments" "Deployment" "api"
            "sidecar") :=
  ssm_parameter_name_injective (demoTagged demoTags none) true demoSsmState
    "eks/prod" "payments" "Deployment" "api" "web"
    "eks/prod" "payments" "Deployment" "api" "sidecar"
    (by simp [NoSlash]) (by simp [NoSlash]) (by simp [NoSlash]) (by simp [NoSlash])
    (by simp [NoSlash]) (by simp [NoSlash]) (by simp [NoSlash]) (by simp [NoSlash])
    (by decide)

/-- C20: Parameter Store approval state.  When the parameter is fetched at
version `v0` and the history is read, the state returned by
`ssm.GetApprovalSetting`, and by `ssm.GetInsight` on a valid stored spec, is
"Approved" when the history entry of version `v0` carries the single label
`Approved`, "Not Approved" when it carries the single label `NotApproved`, and
the call fails with "unable to read approval setting" otherwise (no entry of
that version, no label, several labels, another label).  The entries of other
versions are arbitrary: their labels do not enter the result. -/
theorem ssm_approval_of_fetched_version (w : World F)
    (cluster nspace objType objName containerName : String) (s s1 : State)
    (value : String) (v0 : F) (out err : String) (found : Option (List String))
    (hval : ssm.getParameterValue w
        (parameterName s.ssmPrefix cluster nspace objType objName containerName) s
      = .ret (value, w.formatFloatE v0, none) s1)
    (hhist : w.execRun s1.trace
        (historyCommand (parameterName s.ssmPrefix cluster nspace objType objName containerName)
          s1) = (out, err, none))
    (hfound : VersionLabels w v0 (decodeSliceOfMaps (w.jsonParse out)) found) :
    ssm.GetApprovalSetting w cluster nspace objType objName containerName s =
      .ret (match approvalOfLabels found with
            | some st => (st, none)
            | none => ("", some "unable to read approval setting"))
        (s1.pushCall (.exec (historyCommand
          (parameterName s.ssmPrefix cluster nspace objType objName containerName) s1))) ∧
    ((∀ p ∈ leafPaths,
        ssm.leafInvalid (specLeaf (decodeSpec (w.jsonParse value)) p.1 p.2) = false) →
      ∃ spec, ssm.GetInsight_suffix (decodeSpec (w.jsonParse value)) = some spec ∧
        ssm.GetInsight w cluster nspace objType objName containerName s =
          .ret (match approvalOfLabels found with
                | some st => (spec, st, none)
                | none => (none, "", some "unable to read approval setting"))
            (s1.pushCall (.exec (historyCommand
              (parameterName s.ssmPrefix cluster nspace objType objName containerName) s1)))) := by
  have hlabel := getParameterLabel_labels w _ v0 s1 out err found hhist hfound
  unfold parameterName at hval hlabel
  refine ⟨?_, ?_⟩
  · unfold ssm.GetApprovalSetting parameterName
    simp only [hval, hlabel]
    cases approvalOfLabels found <;> rfl
  · intro hvalid
    obtain ⟨spec, hspec⟩ := GetInsight_suffix_of_valid _ hvalid
    refine ⟨spec, hspec, ?_⟩
    have e1 := hvalid ("limits", "cpu") (by simp [leafPaths])
    have e2 := hvalid ("limits", "memory") (by simp [leafPaths])
    have e3 := hvalid ("requests", "cpu") (by simp [leafPaths])
    have e4 := hvalid ("requests", "memory") (by simp [leafPaths])
    simp only at e1 e2 e3 e4
    unfold ssm.GetInsight parameterName
    simp only [hval, e1, e2, e3, e4, Bool.false_eq_true, if_false, hspec, hlabel]
    cases approvalOfLabels found <;> rfl

set_option maxRecDepth 8000 in
/-- Witness for C20: version 3 is fetched and carries the single label
`NotApproved`, while versions 2 and 4 of the history are labelled `Approved`:
both functions return "Not Approved". -/
theorem ssm_approval_of_fetched_version_witness :
    ssm.GetApprovalSetting (demoHistory ["NotApproved"])
        "prod" "payments" "Deployment" "api" "web" demoSsmState
      = .ret ("Not Approved", none) demoSsmState2 ∧
    ∃ spec, ssm.GetInsight_suffix
        (decodeSpec ((demoHistory ["NotApproved"]).jsonParse "value")) = some spec ∧
      ssm.GetInsight (demoHistory ["NotApproved"])
          "prod" "payments" "Deployment" "api" "web" demoSsmState
        = .ret (spec, "Not Approved", none) demoSsmState2 :=
  (fun h => ⟨h.1, h.2 (by
      intro p hp
      simp only [leafPaths, List.mem_cons, List.mem_singleton, List.not_mem_nil, or_false] at hp
      rcases hp with rfl | rfl | rfl | rfl <;> rfl)⟩)
  (ssm_approval_of_fetched_version (demoHistory ["NotApproved"])
    "prod" "payments" "Deployment" "api" "web" demoSsmState demoSsmState1
    "value" 3 "history" "" (some ["NotApproved"]) rfl rfl
    ⟨[[("Version", .num 2), ("Labels", .arr [.str "Approved"])]],
      [("Version", .num 3), ("Labels", .arr [.str "NotApproved"])],
      [[("Version", .num 4), ("Labels", .arr [.str "Approved"])]], rfl,
      by
        intro val hval
        rw [List.mem_singleton] at hval
        exact ⟨2, by rw [hval]; rfl, by decide⟩,
      by
        intro val hval
        rw [List.mem_singleton] at hval
        exact ⟨4, by rw [hval]; rfl, by decide⟩,
      rfl, rfl⟩)

/-- C21, counterexample: the cluster query succeeds and the container `web`
has the key `resources` with the value null, which is neither a non-empty
block nor the empty object.  `extractResourceSpecFromK8S` succeeds: it
returns a nil spec and no error.  The same holds for a `resources` value
that is a list. -/
theorem extractResourceSpecFromK8S_live_source_counterexample :
    decodeSliceOfMaps ((demoCluster .null).jsonParse "containers")
      = [[("name", .str "web"), ("image", .str "nginx"), ("resources", .null)]] ∧
    extractResourceSpecFromK8S (demoCluster .null) "prod" "payments" "Deployment" "api" "web"
        demoUnreachable1
      = .ret (none, none) demoUnreachable2 ∧
    extractResourceSpecFromK8S (demoCluster (.arr [])) "prod" "payments" "Deployment" "api"
        "web" demoUnreachable1
      = .ret (none, none) demoUnreachable2 :=
  ⟨rfl, rfl, rfl⟩

/-- C21, amended: live cluster source, `extractResourceSpecFromK8S`.  When
the query fails it returns a nil spec and the error output of the query.
When the query succeeds and no container has the requested name, or the first
container with that name has no `resources` key or has the empty object as
`resources`, it returns a nil spec and the error "could not locate resource
spec".  When the first container with that name has any other `resources`
value, it succeeds and returns that value decoded as a map of maps of text:
every leaf is the text stored at that place of the value (the empty text
when what is stored there is not a text), every section is nil when the
value stored under it is not an object and has the keys of the stored
section otherwise, and the spec is nil exactly when the value is not an
object.  Conversely a success comes from a successful query and is the
decoded `resources` value, other than the empty object, of the first
container with that name.  And when a container whose `name` is not a text
comes before any container with the requested name, the run aborts at the
type assertion on the name. -/
theorem extractResourceSpecFromK8S_live_source (w : World F)
    (cluster objNamespace objType objName containerName : String) (s : State) :
    (∀ out err e,
      w.execRun s.trace (clusterQuery s cluster objNamespace objType objName)
        = (out, err, some e) →
      extractResourceSpecFromK8S w cluster objNamespace objType objName containerName s
        = .ret (none, some err)
            (s.pushCall (.exec (clusterQuery s cluster objNamespace objType objName)))) ∧
    (∀ out err,
      w.execRun s.trace (clusterQuery s cluster objNamespace objType objName)
        = (out, err, none) →
      ((∀ d ∈ decodeSliceOfMaps (w.jsonParse out), NamedOther containerName d) →
        extractResourceSpecFromK8S w cluster objNamespace objType objName containerName s
          = .ret (none, some "could not locate resource spec")
              (s.pushCall (.exec (clusterQuery s cluster objNamespace objType objName)))) ∧
      (∀ d, FirstContainer (decodeSliceOfMaps (w.jsonParse out)) containerName d →
        (mapLookup d "resources" = none ∨ mapLookup d "resources" = some (.obj []) →
          extractResourceSpecFromK8S w cluster objNamespace objType objName containerName s
            = .ret (none, some "could not locate resource spec")
                (s.pushCall (.exec (clusterQuery s cluster objNamespace objType objName)))) ∧
        (∀ resources, mapLookup d "resources" = some resources → resources ≠ .obj [] →
          ∃ spec,
            extractResourceSpecFromK8S w cluster objNamespace objType objName containerName s
              = .ret (spec, none)
                  (s.pushCall (.exec (clusterQuery s cluster objNamespace objType objName))) ∧
            spec = decodeSpec (some resources) ∧
            (∀ k1 k2, leafLookup spec k1 k2 = blockLeaf resources k1 k2) ∧
            (∀ k1, sectionKeys spec k1 = blockSection resources k1) ∧
            (spec = none ↔ ∀ m, resources ≠ .obj m)))) ∧
    (∀ spec s1,
      extractResourceSpecFromK8S w cluster objNamespace objType objName containerName s
        = .ret (spec, none) s1 →
      ∃ out err d resources,
        w.execRun s.trace (clusterQuery s cluster objNamespace objType objName)
          = (out, err, none) ∧
        FirstContainer (decodeSliceOfMaps (w.jsonParse out)) containerName d ∧
        mapLookup d "resources" = some resources ∧ resources ≠ .obj [] ∧
        spec = decodeSpec (some resources) ∧
        (∀ k1 k2, leafLookup spec k1 k2 = blockLeaf resources k1 k2) ∧
        (∀ k1, sectionKeys spec k1 = blockSection resources k1) ∧
        (spec = none ↔ ∀ m, resources ≠ .obj m)) ∧
    (∀ out err before d after,
      w.execRun s.trace (clusterQuery s cluster objNamespace objType objName)
        = (out, err, none) →
      decodeSliceOfMaps (w.jsonParse out) = before ++ d :: after →
      (∀ b ∈ before, NamedOther containerName b) →
      (∀ t, mapLookup d "name" ≠ some (.str t)) →
      extractResourceSpecFromK8S w cluster objNamespace objType objName containerName s
        = .panic (s.pushCall (.exec (clusterQuery s cluster objNamespace objType objName)))) := by
  refine ⟨?_, ?_, ?_, ?_⟩
  · intro out err e hrun
    unfold clusterQuery at hrun ⊢
    unfold extractResourceSpecFromK8S support.ExecuteSingleCommand
    simp only [hrun]
    rfl
  · intro out err hrun
    unfold clusterQuery at hrun
    refine ⟨?_, ?_⟩
    · intro hother
      unfold clusterQuery
      unfold extractResourceSpecFromK8S support.ExecuteSingleCommand
      simp only [hrun, extractResourceSpecFromK8S_find_other _ _ hother]
      rfl
    · intro d hfirst
      have hfind := extractResourceSpecFromK8S_find_first _ _ d hfirst
      refine ⟨?_, ?_⟩
      · intro hres
        unfold clusterQuery
        unfold extractResourceSpecFromK8S support.ExecuteSingleCommand
        rcases hres with hres | hres
        · rw [hres] at hfind
          simp only [hrun, hfind]
          rfl
        · rw [hres] at hfind
          simp only [hrun, hfind]
          rfl
      · intro resources hres hne
        rw [hres] at hfind
        have hfind1 : extractResourceSpecFromK8S_find (decodeSliceOfMaps (w.jsonParse out))
            containerName = some (some (decodeSpec (some resources))) := by
          rw [hfind]
          split
          · rename_i heq
            simp at heq
          · rename_i heq
            exact absurd (Option.some.inj heq) hne
          · rename_i heq
            rw [Option.some.inj heq]
        refine ⟨decodeSpec (some resources), ?_, rfl,
          fun k1 k2 => leafLookup_decodeSpec resources k1 k2,
          fun k1 => sectionKeys_decodeSpec resources k1,
          decodeSpec_eq_none_iff resources⟩
        unfold clusterQuery
        unfold extractResourceSpecFromK8S support.ExecuteSingleCommand
        simp only [hrun, hfind1]
        rfl
  · intro spec s1 h
    obtain ⟨out, err, d, resources, hrun, hfirst, hres, hne, hspec⟩ :=
      extractResourceSpecFromK8S_success_first w _ _ _ _ _ s s1 spec h
    refine ⟨out, err, d, resources, hrun, hfirst, hres, hne, hspec, ?_, ?_, ?_⟩
    · intro k1 k2
      rw [hspec]
      exact leafLookup_decodeSpec resources k1 k2
    · intro k1
      rw [hspec]
      exact sectionKeys_decodeSpec resources k1
    · rw [hspec]
      exact decodeSpec_eq_none_iff resources
  · intro out err before d after hrun hsplit hbefore hname
    unfold clusterQuery at hrun ⊢
    unfold extractResourceSpecFromK8S support.ExecuteSingleCommand
    simp only [hrun, hsplit,
      extractResourceSpecFromK8S_find_abort before d after containerName hbefore hname]
    rfl

/-- Witness for C21 (amended): the query for the Deployment `worker` fails
and its error output is returned; the query for the Deployment `api`
succeeds and the block of the first container named `web`,
200m/128Mi/100m/64Mi, is returned, not the block of the second one. -/
theorem extractResourceSpecFromK8S_live_source_witness :
    extractResourceSpecFromK8S demoLiveCluster "prod" "payments" "Deployment" "worker" "web"
        demoDensifyState
      = .ret (none, some "Error from server (NotFound)")
          (demoDensifyState.pushCall
            (.exec ["kubectl", "get", "Deployment", "worker",
              "-o=jsonpath={.spec.template.spec.containers}", "--cluster=prod",
              "--namespace=payments"])) ∧
    (∃ spec,
      extractResourceSpecFromK8S demoLiveCluster "prod" "payments" "Deployment" "api" "web"
          demoDensifyState
        = .ret (spec, none)
            (demoDensifyState.pushCall
              (.exec ["kubectl", "get", "Deployment", "api",
                "-o=jsonpath={.spec.template.spec.containers}", "--cluster=prod",
                "--namespace=payments"])) ∧
      spec = some [("limits", some [("cpu", "200m"), ("memory", "128Mi")]),
                   ("requests", some [("cpu", "100m"), ("memory", "64Mi")])] ∧
      (∀ k1 k2, leafLookup spec k1 k2
        = blockLeaf (JVal.obj [("limits", .obj [("cpu", .str "200m"), ("memory", .str "128Mi")]),
            ("requests", .obj [("cpu", .str "100m"), ("memory", .str "64Mi")])] : JVal Int)
            k1 k2) ∧
      (∀ k1, sectionKeys spec k1
        = blockSection (JVal.obj [("limits", .obj [("cpu", .str "200m"),
              ("memory", .str "128Mi")]),
            ("requests", .obj [("cpu", .str "100m"), ("memory", .str "64Mi")])] : JVal Int)
            k1) ∧
      (spec = none ↔ ∀ m, (JVal.obj [("limits", .obj [("cpu", .str "200m"),
              ("memory", .str "128Mi")]),
            ("requests", .obj [("cpu", .str "100m"), ("memory", .str "64Mi")])] : JVal Int)
          ≠ .obj m)) :=
  ⟨(extractResourceSpecFromK8S_live_source demoLiveCluster "prod" "payments" "Deployment"
      "worker" "web" demoDensifyState).1 "" "Error from server (NotFound)" "exit status 1" rfl,
   (((extractResourceSpecFromK8S_live_source demoLiveCluster "prod" "payments" "Deployment"
      "api" "web" demoDensifyState).2.1 "containers" "" rfl).2
      [("name", .str "web"), ("resources", demoClusterResources)]
      ⟨[[("name", .str "sidecar"), ("resources", .obj [])]],
       [[("name", .str "web"), ("resources", demoClusterPartial)]], rfl,
       by
         intro b hb
         rw [List.mem_singleton] at hb
         exact ⟨"sidecar", by rw [hb]; rfl, by decide⟩,
       rfl⟩).2 demoClusterResources rfl (by simp [demoClusterResources])⟩

/-- C22: approval transitions only on confirmation.  In the approval flow of
`processPluginSwitches`, the iteration for a named container reads the state,
and, when the state was read, reads the reply of the user and then calls
`updateApprovalSetting` exactly when the reply is "y" or empty, with
`approved` true exactly when the state just read is "Not Approved"; any other
reply, or a state that could not be read, ends the iteration without an
update.  Over the whole flow every write (a call that is neither a read nor a
prompt, in particular every update call of the adapters) comes after a prompt
whose reply, the last one before the write, is "y" or empty.  The resolution
flow (`processTemplates`, `getInsight`, `getApprovalSetting` and the adapters'
`GetInsight` and `GetApprovalSetting`) makes read calls only. -/
theorem approval_only_on_confirmation (w : World F) :
    (∀ (objNamespace objType objName : String) (c : GoMap (JVal F)) (containerName : String)
        (s : State),
      mapLookup c "name" = some (.str containerName) →
      processPluginSwitches_container w objNamespace objType objName (.obj c) s =
        match getApprovalSetting w s.remoteCluster objNamespace objType objName containerName
            s with
        | .panic s1 => .panic s1
        | .ret (_, some _) s1 => .ret () s1
        | .ret (approvalSetting, none) s1 =>
          if w.readLine s1.trace = "y" ∨ w.readLine s1.trace = "" then
            (updateApprovalSetting w (decide (approvalSetting = "Not Approved")) s1.remoteCluster
              objNamespace objType objName containerName (s1.pushCall Call.scanln)).map
              (fun _ => ())
          else .ret () (s1.pushCall Call.scanln)) ∧
    (∀ (manifests : List String) (s : State),
      ConfirmedWrites w s.trace
        (newCalls s (processPluginSwitches_manifests w manifests s).final)) ∧
    (∀ c, IsUpdate c → IsWrite c) ∧
    (∀ (manifest cluster nspace objType objName containerName : String) (s : State),
      (∀ c ∈ newCalls s (processTemplates_manifest w manifest s).final, IsRead c) ∧
      (∀ c ∈ newCalls s (getInsight w cluster nspace objType objName containerName s).final,
        IsRead c) ∧
      (∀ c ∈ newCalls s
          (getApprovalSetting w cluster nspace objType objName containerName s).final,
        IsRead c) ∧
      (∀ c ∈ newCalls s
          (densify.GetInsight w cluster nspace objType objName containerName s).final,
        IsRead c) ∧
      (∀ c ∈ newCalls s
          (densify.GetApprovalSetting w cluster nspace objType objName containerName s).final,
        IsRead c) ∧
      (∀ c ∈ newCalls s (ssm.GetInsight w cluster nspace objType objName containerName s).final,
        IsRead c) ∧
      (∀ c ∈ newCalls s
          (ssm.GetApprovalSetting w cluster nspace objType objName containerName s).final,
        IsRead c)) := by
  refine ⟨?_, ?_, IsUpdate.isWrite, ?_⟩
  · intro objNamespace objType objName c containerName s hname
    exact processPluginSwitches_container_run w objNamespace objType objName c containerName s
      hname
  · intro manifests s
    obtain ⟨calls, e, p⟩ := processPluginSwitches_manifests_confirmed w manifests s
    unfold newCalls
    rw [e, List.drop_left]
    exact p
  · intro manifest cluster nspace objType objName containerName s
    exact ⟨(processTemplates_manifest_read w manifest s).newCalls,
      (getInsight_read w cluster nspace objType objName containerName s).newCalls,
      (getApprovalSetting_read w cluster nspace objType objName containerName s).newCalls,
      ((densify_GetInsight_get w cluster nspace objType objName containerName s).mono
        IsGet.isRead).newCalls,
      ((densify_GetApprovalSetting_get w cluster nspace objType objName containerName s).mono
        IsGet.isRead).newCalls,
      (ssm_read_extends w _ s _
        (ssm_GetInsight_final_cases w cluster nspace objType objName containerName s)).newCalls,
      (ssm_read_extends w _ s _
        (ssm_GetApprovalSetting_final_cases w cluster nspace objType objName containerName
          s)).newCalls⟩

set_option maxRecDepth 8000 in
/-- Witness for C22: the state of the container `web` is read as "Approved"
and the user answers "y": the `PUT` that withdraws the approval comes after
the prompt.  With the answer "n" the flow ends after the prompt. -/
theorem approval_only_on_confirmation_witness :
    (∃ pre1 pre2,
      [Call.http "GET" "https://d.example/CIRBA/api/v2/analysis/containers/kubernetes"
          "user:pass" none,
        Call.http "GET" "https://d.example/CIRBA/api/v2/analysis/containers/kubernetes/a1/results?cluster=prod&namespace=payments&container=web&podService=api&controllerType=Deployment"
          "user:pass" none,
        Call.http "GET" "https://d.example/CIRBA/api/v2/systems/e1" "user:pass" none,
        Call.scanln,
        Call.http "GET" "https://d.example/CIRBA/api/v2/analysis/containers/kubernetes/a1/results?cluster=prod&namespace=payments&container=web&podService=api&controllerType=Deployment"
          "user:pass" none]
        = pre1 ++ Call.scanln :: pre2 ∧
      ((demoReply "y").readLine (demoDensifyState.trace ++ pre1) = "y" ∨
        (demoReply "y").readLine (demoDensifyState.trace ++ pre1) = "") ∧
      ∀ x ∈ pre2, x ≠ Call.scanln) ∧
    newCalls demoDensifyState
        (processPluginSwitches_manifests (demoReply "n") ["manifest"] demoDensifyState).final
      = [Call.http "GET" "https://d.example/CIRBA/api/v2/analysis/containers/kubernetes"
          "user:pass" none,
        Call.http "GET" "https://d.example/CIRBA/api/v2/analysis/containers/kubernetes/a1/results?cluster=prod&namespace=payments&container=web&podService=api&controllerType=Deployment"
          "user:pass" none,
        Call.http "GET" "https://d.example/CIRBA/api/v2/systems/e1" "user:pass" none,
        Call.scanln] :=
  ⟨(approval_only_on_confirmation (demoReply "y")).2.1 ["manifest"] demoDensifyState _
      (Call.http "PUT" "https://d.example/CIRBA/api/v2/systems/e1/attributes" "user:pass"
        (some densify.notApprovedBody)) [] rfl
      ((approval_only_on_confirmation (demoReply "y")).2.2.1 _ (Or.inl ⟨_, _, _, rfl⟩)),
   rfl⟩

/-- C23, failing input: the insight is found, and the backend answers the
attribute request of the entity with a body that holds no `attributes` list
(an empty object, or a body that is not JSON), or lists the attribute
`attr_ApprovalSetting` with a value that is not a text.  The attribute cannot
be read, yet `densify.GetApprovalSetting` does not return "Not Approved": the
unchecked type assertions of `getAttribute` abort the run.

In general, for a key whose insight is found with a text `entityId`:
`GetApprovalSetting` returns "Not Approved" when the attribute is read with
exactly the value "Not Approved" and when `getAttribute` returns an error
(failed request, attribute not listed), and "Approved" for every other value
that is read; it aborts when `getAttribute` aborts, which happens when the
answer holds no `attributes` list and when the list cannot be read for the
attribute.  It also aborts when `entityId` is not a text.  Whenever it
returns without an error the state is one of the two strings, and it returns
an error only when the insight lookup failed. -/
theorem densify_GetApprovalSetting_collapse (w : World F)
    (cluster nspace objType objName containerName : String) (s : State) :
    (∀ insight s1 entityId,
      densify.lookupInsight w cluster nspace objType objName containerName s
        = .ret (insight, none) s1 →
      mapLookup insight "entityId" = some (.str entityId) →
      (∀ v s2, densify.getAttribute w entityId "attr_ApprovalSetting" s1 = .ret (v, none) s2 →
        densify.GetApprovalSetting w cluster nspace objType objName containerName s
          = .ret (if v = "Not Approved" then "Not Approved" else "Approved", none) s2) ∧
      (∀ v e s2, densify.getAttribute w entityId "attr_ApprovalSetting" s1
          = .ret (v, some e) s2 →
        densify.GetApprovalSetting w cluster nspace objType objName containerName s
          = .ret ("Not Approved", none) s2) ∧
      (∀ s2, densify.getAttribute w entityId "attr_ApprovalSetting" s1 = .panic s2 →
        densify.GetApprovalSetting w cluster nspace objType objName containerName s
          = .panic s2) ∧
      (∀ resp,
        w.httpDo s1.trace "GET" (s1.densifyURL ++ densify.systemsEP ++ "/" ++ entityId)
          (s1.densifyUser ++ ":" ++ s1.densifyPass) none = .ok resp →
        ((∀ vals, mapLookup (decodeMap (w.jsonParse resp)) "attributes" ≠ some (.arr vals)) →
          densify.GetApprovalSetting w cluster nspace objType objName containerName s
            = .panic (s1.pushCall (attributeRequest s1 entityId))) ∧
        (∀ vals, mapLookup (decodeMap (w.jsonParse resp)) "attributes" = some (.arr vals) →
          AttributeUnreadable vals "attr_ApprovalSetting" →
          densify.GetApprovalSetting w cluster nspace objType objName containerName s
            = .panic (s1.pushCall (attributeRequest s1 entityId))))) ∧
    (∀ insight s1,
      densify.lookupInsight w cluster nspace objType objName containerName s
        = .ret (insight, none) s1 →
      (∀ t, mapLookup insight "entityId" ≠ some (.str t)) →
      densify.GetApprovalSetting w cluster nspace objType objName containerName s
        = .panic s1) ∧
    (∀ st e s2,
      densify.GetApprovalSetting w cluster nspace objType objName containerName s
        = .ret (st, e) s2 →
      (e = none → st = "Approved" ∨ st = "Not Approved") ∧
      (e ≠ none → st = "" ∧ e = some "unable to get approval setting" ∧
        ∃ failed e1, densify.lookupInsight w cluster nspace objType objName containerName s
          = .ret (failed, some e1) s2)) := by
  refine ⟨?_, ?_, ?_⟩
  · intro insight s1 entityId hfound hentity
    have hpanic : ∀ s2, densify.getAttribute w entityId "attr_ApprovalSetting" s1 = .panic s2 →
        densify.GetApprovalSetting w cluster nspace objType objName containerName s
          = .panic s2 := by
      intro s2 hattr
      unfold densify.GetApprovalSetting
      simp only [hfound, hentity, hattr]
    refine ⟨?_, ?_, hpanic, ?_⟩
    · intro v s2 hattr
      unfold densify.GetApprovalSetting
      simp only [hfound, hentity, hattr]
      by_cases hv : v = "Not Approved"
      · simp [hv]
      · simp [hv]
    · intro v e s2 hattr
      unfold densify.GetApprovalSetting
      simp only [hfound, hentity, hattr]
    · intro resp hresp
      obtain ⟨h1, h2⟩ := getAttribute_panic w entityId "attr_ApprovalSetting" resp s1 hresp
      exact ⟨fun hno => hpanic _ (h1 hno), fun vals hvals hun => hpanic _ (h2 vals hvals hun)⟩
  · intro insight s1 hfound hno
    unfold densify.GetApprovalSetting
    simp only [hfound]
  · intro st e s2 h
    unfold densify.GetApprovalSetting at h
    cases hl : densify.lookupInsight w cluster nspace objType objName containerName s with
    | panic s1 => simp [hl] at h
    | ret a s1 =>
      obtain ⟨insight, e1⟩ := a
      cases e1 with
      | some e1 =>
        simp only [hl, Exec.ret.injEq, Prod.mk.injEq] at h
        obtain ⟨⟨hst, he⟩, hs⟩ := h
        subst hst he hs
        exact ⟨fun h0 => by simp at h0, fun _ => ⟨rfl, rfl, insight, e1, rfl⟩⟩
      | none =>
        simp only [hl] at h
        split at h
        · rename_i entityId hentity
          cases ha : densify.getAttribute w entityId "attr_ApprovalSetting" s1 with
          | panic s3 => simp [ha] at h
          | ret b s3 =>
            obtain ⟨v, e2⟩ := b
            cases e2 with
            | some e2 =>
              simp only [ha, Exec.ret.injEq, Prod.mk.injEq] at h
              obtain ⟨⟨hst, he⟩, hs⟩ := h
              subst hst he
              exact ⟨fun _ => Or.inr rfl, fun h0 => absurd rfl h0⟩
            | none =>
              simp only [ha, Exec.ret.injEq, Prod.mk.injEq] at h
              obtain ⟨⟨hst, he⟩, hs⟩ := h
              subst hst he
              refine ⟨fun _ => ?_, fun h0 => absurd rfl h0⟩
              by_cases hv : v = "Not Approved"
              · simp [hv]
              · simp [hv]
        · simp at h

/-- Witness for C23: the attribute of entity `e1` holds "Approve Specific
Change" and is returned as "Approved"; it holds "Not Approved" and is
returned as such; the answer is an empty object, or not JSON, or lists the
attribute with a null value, and the run aborts. -/
theorem densify_GetApprovalSetting_collapse_witness :
    densify.GetApprovalSetting (demoDensify "Approve Specific Change" demoRecommended)
        "prod" "payments" "Deployment" "api" "web" demoDensifyState
      = .ret ("Approved", none) demoDensifyState2 ∧
    densify.GetApprovalSetting (demoDensify "Not Approved" demoRecommended)
        "prod" "payments" "Deployment" "api" "web" demoDensifyState
      = .ret ("Not Approved", none) demoDensifyState2 ∧
    densify.GetApprovalSetting (demoSystemAnswer (some (.obj [])))
        "prod" "payments" "Deployment" "api" "web" demoDensifyState
      = .panic demoDensifyState2 ∧
    densify.GetApprovalSetting (demoSystemAnswer none)
        "prod" "payments" "Deployment" "api" "web" demoDensifyState
      = .panic demoDensifyState2 ∧
    densify.GetApprovalSetting
        (demoSystemAnswer (some (.obj [("attributes", .arr [.obj
          [("id", .str "attr_ApprovalSetting"), ("value", .null)]])])))
        "prod" "payments" "Deployment" "api" "web" demoDensifyState
      = .panic demoDensifyState2 :=
  ⟨((densify_GetApprovalSetting_collapse (demoDensify "Approve Specific Change" demoRecommended)
      "prod" "payments" "Deployment" "api" "web" demoDensifyState).1
      (("entityId", .str "e1") :: demoRecommended) demoDensifyState1 "e1" rfl rfl).1
      "Approve Specific Change" demoDensifyState2 rfl,
   ((densify_GetApprovalSetting_collapse (demoDensify "Not Approved" demoRecommended)
      "prod" "payments" "Deployment" "api" "web" demoDensifyState).1
      (("entityId", .str "e1") :: demoRecommended) demoDensifyState1 "e1" rfl rfl).1
      "Not Approved" demoDensifyState2 rfl,
   (((densify_GetApprovalSetting_collapse (demoSystemAnswer (some (.obj [])))
      "prod" "payments" "Deployment" "api" "web" demoDensifyState).1
      (("entityId", .str "e1") :: demoRecommended) demoDensifyState1 "e1" rfl rfl).2.2.2
      "system" rfl).1 (fun vals h => by simp [demoSystemAnswer, decodeMap, mapLookup] at h),
   (((densify_GetApprovalSetting_collapse (demoSystemAnswer none)
      "prod" "payments" "Deployment" "api" "web" demoDensifyState).1
      (("entityId", .str "e1") :: demoRecommended) demoDensifyState1 "e1" rfl rfl).2.2.2
      "system" rfl).1 (fun vals h => by simp [demoSystemAnswer, decodeMap, mapLookup] at h),
   (((densify_GetApprovalSetting_collapse
        (demoSystemAnswer (some (.obj [("attributes", .arr [.obj
          [("id", .str "attr_ApprovalSetting"), ("value", .null)]])])))
      "prod" "payments" "Deployment" "api" "web" demoDensifyState).1
      (("entityId", .str "e1") :: demoRecommended) demoDensifyState1 "e1" rfl rfl).2.2.2
      "system" rfl).2
      [.obj [("id", .str "attr_ApprovalSetting"), ("value", .null)]] rfl
      ⟨[], .obj [("id", .str "attr_ApprovalSetting"), ("value", .null)], [], rfl,
        by simp,
        Or.inr ⟨[("id", .str "attr_ApprovalSetting"), ("value", .null)], rfl, rfl,
          fun t h => by simp [mapLookup] at h⟩⟩⟩

/-- C24: the analysis cache of the cached `GetInsight` (`support/densify`).
A call for a cluster that has a cache entry makes no request and leaves every
variable, the cache included, unchanged.  In every run the cache at the end is
the cache at the start, or the cluster had no entry and the cache at the end
is the one at the start with an entry assigned for this cluster.  A failed
lookup (failed listing request, no analysis with that name, failed results
request) returns an error and leaves the cache unchanged. -/
theorem insightCache_populated_once (w : World F)
    (unmarshal : String → List support.densify.Insight)
    (cluster nspace objType objName containerName : String) (g : support.densify.Globals) :
    (∀ entry, mapLookup g.insightCache cluster = some entry →
      (support.densify.GetInsight w unmarshal cluster nspace objType objName containerName
        g).final = g) ∧
    ((support.densify.GetInsight w unmarshal cluster nspace objType objName containerName
        g).final.insightCache = g.insightCache ∨
      (mapLookup g.insightCache cluster = none ∧ ∃ insights,
        (support.densify.GetInsight w unmarshal cluster nspace objType objName containerName
          g).final.insightCache = mapSet g.insightCache cluster insights)) ∧
    (mapLookup g.insightCache cluster = none →
      (∀ msg,
        w.httpDo g.trace "GET" (g.densifyURL ++ support.densify.analysisEP)
          (g.densifyUser ++ ":" ++ g.densifyPass) none = .failed msg →
        support.densify.GetInsight w unmarshal cluster nspace objType objName containerName g
          = .ret ("", some msg)
              { g with trace := g.trace ++ [cachedRequest g support.densify.analysisEP] }) ∧
      (∀ resp,
        w.httpDo g.trace "GET" (g.densifyURL ++ support.densify.analysisEP)
          (g.densifyUser ++ ":" ++ g.densifyPass) none = .ok resp →
        ((∀ a ∈ decodeSlice (w.jsonParse resp), NamedOtherwise cluster a) →
          support.densify.GetInsight w unmarshal cluster nspace objType objName containerName g
            = .ret ("", some "unable to locate insight")
                { g with trace := g.trace ++ [cachedRequest g support.densify.analysisEP] }) ∧
        (∀ id msg, FirstNamed (decodeSlice (w.jsonParse resp)) cluster id →
          w.httpDo (g.trace ++ [cachedRequest g support.densify.analysisEP]) "GET"
            (g.densifyURL ++ (support.densify.analysisEP ++ "/" ++ id ++ "/results"))
            (g.densifyUser ++ ":" ++ g.densifyPass) none = .failed msg →
          support.densify.GetInsight w unmarshal cluster nspace objType objName containerName g
            = .ret ("", some msg)
                { g with trace := g.trace ++ [cachedRequest g support.densify.analysisEP,
                  cachedRequest g (support.densify.analysisEP ++ "/" ++ id ++ "/results")] }))) := by
  refine ⟨?_, ?_, ?_⟩
  · intro entry hentry
    rw [GetInsight_final]
    unfold support.densify.GetInsight_populate
    simp only [hentry]
    rfl
  · rw [GetInsight_final]
    exact GetInsight_populate_cache w unmarshal cluster g
  · intro hnone
    refine ⟨?_, ?_⟩
    · intro msg hfail
      unfold support.densify.GetInsight support.densify.GetInsight_populate
        support.densify.getRequest
      simp only [hnone, hfail]
      rfl
    · intro resp hok
      refine ⟨?_, ?_⟩
      · intro hother
        unfold support.densify.GetInsight support.densify.GetInsight_populate
          support.densify.getRequest
        simp only [hnone, hok, GetInsight_analyses_other w unmarshal _ cluster _ hother]
        rfl
      · intro id msg hfirst hfail
        unfold support.densify.GetInsight support.densify.GetInsight_populate
        simp only [hnone]
        have hlist : support.densify.getRequest w support.densify.analysisEP g
            = .ret (resp, none)
                { g with trace := g.trace ++ [cachedRequest g support.densify.analysisEP] } := by
          unfold support.densify.getRequest
          simp only [hok]
          rfl
        simp only [hlist, GetInsight_analyses_first w unmarshal _ cluster id _ hfirst]
        unfold support.densify.getRequest
        unfold cachedRequest at hfail ⊢
        simp only [hfail]
        simp

/-- Witness for C24: after the first call for `prod` the cache holds the
insights of `prod`; a second call for `prod` changes nothing; a call for
`staging`, whose results request fails, returns the error and leaves the
cache as it was. -/
theorem insightCache_populated_once_witness :
    (support.densify.GetInsight demoCached demoUnmarshal "prod" "payments" "Deployment" "api"
        "web" demoCachedGlobals).final = demoCachedGlobals1 ∧
    (support.densify.GetInsight demoCached demoUnmarshal "prod" "payments" "Deployment" "api"
        "web" demoCachedGlobals1).final = demoCachedGlobals1 ∧
    support.densify.GetInsight demoCached demoUnmarshal "staging" "payments" "Deployment" "api"
        "web" demoCachedGlobals1
      = .ret ("", some "timeout")
          { demoCachedGlobals1 with trace := demoCachedGlobals1.trace ++
            [cachedRequest demoCachedGlobals1 support.densify.analysisEP,
             cachedRequest demoCachedGlobals1
               (support.densify.analysisEP ++ "/" ++ "a2" ++ "/results")] } :=
  ⟨rfl,
   (insightCache_populated_once demoCached demoUnmarshal "prod" "payments" "Deployment" "api"
      "web" demoCachedGlobals1).1 [demoInsight] rfl,
   (((insightCache_populated_once demoCached demoUnmarshal "staging" "payments" "Deployment"
      "api" "web" demoCachedGlobals1).2.2 rfl).2 "analyses" rfl).2 "a2" "timeout"
      ⟨[.obj [("analysisName", .str "prod"), ("analysisId", .str "a1")]],
        [("analysisName", .str "staging"), ("analysisId", .str "a2")], [], rfl,
        by
          intro a ha
          rw [List.mem_singleton] at ha
          exact ⟨_, "prod", ha, rfl, by decide⟩,
        rfl, rfl⟩
      rfl⟩

/-- C25 (counterexample): the `aws` command is missing, so `ssm.Initialize`
fails each time, and the user answers "y", "y", "n".  `initializeAdapter`
initializes three times and prompts three times before it returns the error. -/
theorem initializeAdapter_retries_counterexample :
    initializeAdapter demoRetry demoSetup 3 demoSsmState =
      some (.ret (some "aws-cli is not available - please install before trying again")
        { demoSsmState with trace :=
          [.exec ["aws", "--version"], .scanln,
           .exec ["aws", "--version"], .scanln,
           .exec ["aws", "--version"], .scanln] }) := by
  rfl

/-- C25: retry on configuration failure.  With the adapter selected, one
round of `initializeAdapter` initializes the adapter; when that fails it reads
one reply, starts the next round on the reply "y" and returns the error on
any other reply.  The rounds are not bounded: while `ssm.Initialize` fails
(the `aws` command is missing) and the user replies "y", `initializeAdapter`
does not return, whatever the number of rounds. -/
theorem initializeAdapter_retries (w : World F) (env : Setup) :
    (∀ fuel s, s.adapter ≠ "" →
      initializeAdapter w env (fuel + 1) s =
        match (if s.adapter = "Densify" then env.densifyInitialize s
            else if s.adapter = "Parameter Store" then ssm.Initialize w env fuel s
            else some (.ret none s)) with
        | none => none
        | some (.panic s2) => some (.panic s2)
        | some (.ret none s2) => some (.ret none s2)
        | some (.ret (some e) s2) =>
          if w.readLine s2.trace = "y" then
            initializeAdapter w env fuel (s2.pushCall Call.scanln)
          else some (.ret (some e) (s2.pushCall Call.scanln))) ∧
    ((∀ trace, (w.execRun trace ["aws", "--version"]).2.2 ≠ none) →
      (∀ trace, w.readLine trace = "y") →
      ∀ fuel s, s.adapter = "Parameter Store" → initializeAdapter w env fuel s = none) :=
  ⟨fun fuel s h => initializeAdapter_step w env fuel s h,
   fun haws hyes fuel s h => initializeAdapter_never_returns w env haws hyes fuel s h⟩

/-- Witness for C25: the `aws` command is missing and the user answers "y"
every time; a hundred rounds do not end the initialization. -/
theorem initializeAdapter_retries_witness :
    initializeAdapter (demoTyping "y") demoSetup 100 demoSsmState = none :=
  (initializeAdapter_retries (demoTyping "y") demoSetup).2
    (fun _ => by simp [demoTyping]) (fun _ => rfl) 100 demoSsmState rfl
/-- C26: prefix check of `ssm.Initialize`.  The check rejects every non-empty
prefix that goes on, after at most one leading "/", with `aws` or `ssm` in
lower case.  It compares letters exactly: the prefixes "/AWS/x" and "/Ssm"
begin with `aws` and `ssm` in another letter case, pass both checks and are
accepted by the prefix loop, although the message of the check says
case-insensitive. -/
theorem ssm_Initialize_prefix_case (w : World F) (fuel : Nat) (s : State) :
    (∀ pfx, pfx ≠ "" → ssm.matchesReserved pfx = true → ssm.Initialize_accepts pfx = false) ∧
    (reservedAnyCase "/aws/x" = true ∧ ssm.Initialize_accepts "/aws/x" = false) ∧
    (reservedAnyCase "/AWS/x" = true ∧ ssm.Initialize_accepts "/AWS/x" = true) ∧
    (reservedAnyCase "/Ssm" = true ∧ ssm.Initialize_accepts "/Ssm" = true) ∧
    (∀ pfx, (pfx = "/AWS/x" ∨ pfx = "/Ssm") → w.readLine s.trace = pfx →
      ssm.Initialize_prefix w (fuel + 1) s
        = some { s with trace := s.trace ++ [Call.scanln], ssmPrefix := pfx }) := by
  refine ⟨?_, ⟨by decide, by decide⟩, ⟨by decide, by decide⟩, ⟨by decide, by decide⟩, ?_⟩
  · intro pfx hne hres
    simp [ssm.Initialize_accepts, hne, hres]
  · intro pfx hpfx hline
    have hacc : ssm.Initialize_accepts pfx = true := by
      rcases hpfx with rfl | rfl <;> decide
    have hne : pfx ≠ "" := by
      rcases hpfx with rfl | rfl <;> decide
    unfold ssm.Initialize_prefix
    simp only [hline, hne, if_false, hacc, if_true]

/-- Witness for C26: the user types "/AWS/x" at the prefix prompt and the
loop ends with this prefix. -/
theorem ssm_Initialize_prefix_case_witness :
    ssm.Initialize_prefix (demoTyping "/AWS/x") (0 + 1) demoSsmState
      = some { demoSsmState with trace := demoSsmState.trace ++ [Call.scanln],
                                 ssmPrefix := "/AWS/x" } :=
  (ssm_Initialize_prefix_case (demoTyping "/AWS/x") 0 demoSsmState).2.2.2.2 "/AWS/x"
    (Or.inl rfl) rfl

/-- C27: write/read agreement of the approval values.  Densify: the `PUT` of
`UpdateApprovalSetting` for `approved = b` carries the attribute value
"Approve Specific Change" for true and "Not Approved" for false, and
`GetApprovalSetting` reads this value as "Approved" and "Not Approved"
respectively.  Parameter Store: when the listing and the overwrite succeed,
`UpdateApprovalSetting` for `approved = b` labels the version `Approved` for
true and `NotApproved` for false, and `getParameterLabel` reads a fetched
version that carries this single label as "Approved" and "Not Approved"
respectively. -/
theorem approval_write_read_agree (w : World F) (approved : Bool)
    (cluster nspace objType objName containerName : String) (s : State) :
    (∀ insight s1 entityId,
      densify.lookupInsight w cluster nspace objType objName containerName s
        = .ret (insight, none) s1 →
      mapLookup insight "entityId" = some (.str entityId) →
      (w.httpDo s1.trace "PUT"
          (s1.densifyURL ++ densify.systemsEP ++ "/" ++ entityId ++ "/attributes")
          (s1.densifyUser ++ ":" ++ s1.densifyPass)
          (some (if approved = true then densify.approveBody else densify.notApprovedBody))
          ≠ .badRequest →
        (densify.UpdateApprovalSetting w approved cluster nspace objType objName containerName
          s).final =
          s1.pushCall (.http "PUT"
            (s1.densifyURL ++ densify.systemsEP ++ "/" ++ entityId ++ "/attributes")
            (s1.densifyUser ++ ":" ++ s1.densifyPass)
            (some (attributeBody (writtenValue approved))))) ∧
      (∀ s2, densify.getAttribute w entityId "attr_ApprovalSetting" s1
          = .ret (writtenValue approved, none) s2 →
        densify.GetApprovalSetting w cluster nspace objType objName containerName s
          = .ret (stateOf approved, none) s2)) ∧
    (∀ resp errOut cur rec out err,
      listResult w (parameterName s.ssmPrefix cluster nspace objType objName containerName) s
        = (resp, errOut, none) →
      ssm.UpdateApprovalSetting_tags (ssm.decodeSliceOfStrMaps (w.jsonParse resp))
        (freshSettings, freshSettings) = some (cur, rec) →
      putResult w (parameterName s.ssmPrefix cluster nspace objType objName containerName)
        (w.marshalSpec (if approved = true then rec else cur)) s = (out, err, none) →
      newCalls s (ssm.UpdateApprovalSetting w approved cluster nspace objType objName
          containerName s).final =
        [.exec (listTagsCommand (parameterName s.ssmPrefix cluster nspace objType objName
            containerName) s),
         .exec (putParameterCommand (parameterName s.ssmPrefix cluster nspace objType objName
            containerName) (w.marshalSpec (if approved = true then rec else cur)) s),
         .exec (labelCommand (parameterName s.ssmPrefix cluster nspace objType objName
            containerName) (writtenLabel approved) s)]) ∧
    (∀ ssmKey v0 out err,
      w.execRun s.trace (historyCommand ssmKey s) = (out, err, none) →
      VersionLabels w v0 (decodeSliceOfMaps (w.jsonParse out)) (some [writtenLabel approved]) →
      ssm.getParameterLabel w ssmKey (w.formatFloatE v0) s =
        .ret (stateOf approved, none) (s.pushCall (.exec (historyCommand ssmKey s)))) := by
  refine ⟨?_, ?_, ?_⟩
  · intro insight s1 entityId hfound hentity
    refine ⟨?_, ?_⟩
    · intro hreq
      rw [← attributeBody_written]
      exact densify_UpdateApprovalSetting_final w approved cluster nspace objType objName
        containerName s s1 insight entityId hfound hentity hreq
    · intro s2 hattr
      unfold densify.GetApprovalSetting
      simp only [hfound, hentity, hattr]
      cases approved <;> simp [writtenValue, stateOf]
  · intro resp errOut cur rec out err hlist hfold hput
    rw [UpdateApprovalSetting_run]
    unfold listResult at hlist
    simp only [hlist, hfold]
    rw [UpdateApprovalSetting_put_run]
    simp only [hput]
    have hlabel : (if approved = true then "Approved" else "NotApproved")
        = writtenLabel approved := rfl
    rw [hlabel]
    cases (labelResult w (parameterName s.ssmPrefix cluster nspace objType objName
      containerName) (w.marshalSpec (if approved = true then rec else cur))
      (writtenLabel approved) s).2.2 <;>
      simp [Exec.final, newCalls, State.pushCall]
  · intro ssmKey v0 out err hhist hfound
    rw [getParameterLabel_labels w ssmKey v0 s out err _ hhist hfound,
      approvalOfLabels_written]

set_option maxRecDepth 8000 in
/-- Witness for C27: withdrawing the approval of the container `web` writes
the attribute value "Not Approved", which `GetApprovalSetting` reads as "Not
Approved"; a fetched version labelled `NotApproved` is read as "Not
Approved". -/
theorem approval_write_read_agree_witness :
    (densify.UpdateApprovalSetting (demoDensify "Not Approved" demoRecommended) false
        "prod" "payments" "Deployment" "api" "web" demoDensifyState).final =
      demoDensifyState1.pushCall (.http "PUT"
        (demoDensifyState1.densifyURL ++ densify.systemsEP ++ "/" ++ "e1" ++ "/attributes")
        (demoDensifyState1.densifyUser ++ ":" ++ demoDensifyState1.densifyPass)
        (some (attributeBody (writtenValue false)))) ∧
    densify.GetApprovalSetting (demoDensify "Not Approved" demoRecommended)
        "prod" "payments" "Deployment" "api" "web" demoDensifyState
      = .ret (stateOf false, none) demoDensifyState2 ∧
    ssm.getParameterLabel (demoHistory ["NotApproved"])
        "/opt/prod/payments/Deployment/api/web/resourceSpec"
        ((demoHistory ["NotApproved"]).formatFloatE 3) demoSsmState1 =
      .ret (stateOf false, none)
        (demoSsmState1.pushCall (.exec (historyCommand
          "/opt/prod/payments/Deployment/api/web/resourceSpec" demoSsmState1))) :=
  ⟨(((approval_write_read_agree (demoDensify "Not Approved" demoRecommended) false
      "prod" "payments" "Deployment" "api" "web" demoDensifyState).1
      (("entityId", .str "e1") :: demoRecommended) demoDensifyState1 "e1" rfl rfl).1
      (by decide)),
   (((approval_write_read_agree (demoDensify "Not Approved" demoRecommended) false
      "prod" "payments" "Deployment" "api" "web" demoDensifyState).1
      (("entityId", .str "e1") :: demoRecommended) demoDensifyState1 "e1" rfl rfl).2
      demoDensifyState2 rfl),
   (approval_write_read_agree (demoHistory ["NotApproved"]) false
      "prod" "payments" "Deployment" "api" "web" demoSsmState1).2.2
      "/opt/prod/payments/Deployment/api/web/resourceSpec" 3 "history" "" rfl
      ⟨[[("Version", .num 2), ("Labels", .arr [.str "Approved"])]],
        [("Version", .num 3), ("Labels", .arr [.str "NotApproved"])],
        [[("Version", .num 4), ("Labels", .arr [.str "Approved"])]], rfl,
        by
          intro val hval
          rw [List.mem_singleton] at hval
          exact ⟨2, by rw [hval]; rfl, by decide⟩,
        by
          intro val hval
          rw [List.mem_singleton] at hval
          exact ⟨4, by rw [hval]; rfl, by decide⟩,
        rfl, rfl⟩⟩
/-- C28: unsupported adapter name.  For an adapter name other than "Densify"
and "Parameter Store": when no adapter is selected and the stored secret
holds this name, `initializeAdapter` selects it and returns no error without
initializing anything; `getInsight` returns a nil spec, an empty approval
state and no error for every key, without any call; and the container loop of
`processTemplates` assigns this nil spec to the `resources` of every named
container without querying the live cluster: after the iteration the entry
holds null under `resources`, whatever the chart had there, and every other
key of the entry is as before. -/
theorem unsupported_adapter (w : World F) (env : Setup) (name : String)
    (hDensify : name ≠ "Densify") (hStore : name ≠ "Parameter Store") :
    (∀ fuel s, s.adapter = "" →
      ((support.RetrieveSecrets w env "helm-optimize-plugin" s).1.bind
        fun m => mapLookup m "adapter") = some name →
      initializeAdapter w env (fuel + 1) s =
        some (.ret none
          { (support.RetrieveSecrets w env "helm-optimize-plugin" s).2 with adapter := name })) ∧
    (∀ cluster nspace objType objName containerName s, s.adapter = name →
      getInsight w cluster nspace objType objName containerName s = .ret (none, "", none) s) ∧
    (∀ objNamespace objType objName c containerName s, s.adapter = name →
      support.CheckMap c ["name"] = some containerName → containerName ≠ "" →
      processTemplates_container w objNamespace objType objName (.obj c) s
        = .ret (.obj (mapSet c "resources" .null)) s ∧
      mapLookup (mapSet c "resources" (JVal.null : JVal F)) "resources" = some .null ∧
      (∀ key, key ≠ "resources" →
        mapLookup (mapSet c "resources" (JVal.null : JVal F)) key = mapLookup c key) ∧
      newCalls s s = []) := by
  have hget : ∀ cluster nspace objType objName containerName (s : State), s.adapter = name →
      getInsight w cluster nspace objType objName containerName s = .ret (none, "", none) s := by
    intro cluster nspace objType objName containerName s hs
    unfold getInsight
    simp only [hs, hDensify, hStore, if_false]
  refine ⟨?_, hget, ?_⟩
  · intro fuel s hempty hsecret
    rw [initializeAdapter]
    simp only [hempty, if_true]
    rcases hr : support.RetrieveSecrets w env "helm-optimize-plugin" s with ⟨secrets, s0⟩
    rw [hr] at hsecret
    simp only at hsecret
    simp only [hsecret, hDensify, hStore, if_false]
  · intro objNamespace objType objName c containerName s hs hname hne
    refine ⟨?_, mapLookup_mapSet_self c "resources" .null,
      fun key hkey => mapLookup_mapSet_ne c "resources" key .null (Ne.symm hkey), ?_⟩
    · unfold processTemplates_container
      simp only [hname, hne, if_false, hget _ _ _ _ _ s hs]
      rfl
    · simp [newCalls]

/-- Witness for C28: the stored secret names the adapter `Other`; the chart
container `web`, which came with limits of 1 cpu and 1Gi, leaves the
iteration with `resources` null, its name and image as before, and no call
is made. -/
theorem unsupported_adapter_witness :
    initializeAdapter demoSecret demoSetup (0 + 1) demoFreshState =
      some (.ret none
        { (support.RetrieveSecrets demoSecret demoSetup "helm-optimize-plugin"
            demoFreshState).2 with adapter := "Other" }) ∧
    getInsight demoSecret "prod" "payments" "Deployment" "api" "web" demoOtherAdapterState
      = .ret (none, "", none) demoOtherAdapterState ∧
    mapLookup demoContainer "resources"
      = some (.obj [("limits", .obj [("cpu", .str "1"), ("memory", .str "1Gi")])]) ∧
    (processTemplates_container demoSecret "payments" "Deployment" "api" (.obj demoContainer)
        demoOtherAdapterState
      = .ret (.obj [("name", .str "web"), ("image", .str "nginx"), ("resources", .null)])
          demoOtherAdapterState ∧
     mapLookup (mapSet demoContainer "resources" (JVal.null : JVal Int)) "resources"
      = some .null ∧
     (∀ key, key ≠ "resources" →
        mapLookup (mapSet demoContainer "resources" (JVal.null : JVal Int)) key
          = mapLookup demoContainer key) ∧
     newCalls demoOtherAdapterState demoOtherAdapterState = []) :=
  ⟨(unsupported_adapter demoSecret demoSetup "Other" (by decide) (by decide)).1 0
      demoFreshState rfl rfl,
   (unsupported_adapter demoSecret demoSetup "Other" (by decide) (by decide)).2.1
      "prod" "payments" "Deployment" "api" "web" demoOtherAdapterState rfl,
   rfl,
   (unsupported_adapter demoSecret demoSetup "Other" (by decide) (by decide)).2.2
      "payments" "Deployment" "api" demoContainer "web" demoOtherAdapterState rfl rfl
      (by decide)⟩

/-- C29: the manifest path and the cluster path agree.  The keys of
`objTypeContainerPath` are the eight supported kinds; `validateManifest`
accepts documents of these kinds only and accepts a document of each of them,
taking the container list from the path of the kind; and for each of the
eight kinds the JSONPath of the live cluster query of
`extractResourceSpecFromK8S` is that path, dotted, between "{." and "}". -/
theorem manifest_and_cluster_paths_agree (w : World F) (s : State) :
    objTypeContainerPath.map Prod.fst = supportedKinds ∧
    (∀ manifest m cl, decodeManifest (w.yamlParse manifest) = some m →
      validateManifest w manifest s = some (.ok cl) →
      cl.objType ∈ supportedKinds ∧
      containersAt m (containerPath cl.objType) = some cl.containers) ∧
    (∀ kind, kind ∈ supportedKinds →
      (∀ manifest containers,
        w.yamlParse manifest
          = some (.obj (documentOf kind "app" (containerPath kind) containers)) →
        ∃ cl, validateManifest w manifest s = some (.ok cl) ∧ cl.objType = kind ∧
          cl.containers = containers) ∧
      mapLookup objTypeContainerPath kind = some (jsonPathOf (containerPath kind)) ∧
      (∀ cluster objNamespace objName containerName,
        (extractResourceSpecFromK8S w cluster objNamespace kind objName containerName s).final
          = s.pushCall (.exec [s.KubectlBin, "get", kind, objName,
              "-o=jsonpath=" ++ jsonPathOf (containerPath kind),
              "--cluster=" ++ cluster, "--namespace=" ++ objNamespace]))) := by
  refine ⟨rfl, ?_, ?_⟩
  · intro manifest m cl hparse hok
    obtain ⟨found, hook, _, hkind, _, _, _, _, _, _, hcont, _⟩ :=
      (validateManifest_ok_iff w manifest s m hparse cl).mp hok
    exact ⟨hkind, hcont⟩
  · intro kind hkind
    refine ⟨?_, objTypeContainerPath_eq kind hkind, ?_⟩
    · intro manifest containers hparse
      exact ⟨_, validateManifest_documentOf w manifest s kind containers hkind hparse, rfl, rfl⟩
    · intro cluster objNamespace objName containerName
      rw [extractResourceSpecFromK8S_final]
      unfold clusterQuery
      rw [objTypeContainerPath_eq kind hkind]
      rfl

/-- Witness for C29: for a CronJob the query uses
`{.spec.jobTemplate.spec.template.spec.containers}`. -/
theorem manifest_and_cluster_paths_agree_witness :
    mapLookup objTypeContainerPath "CronJob"
      = some "{.spec.jobTemplate.spec.template.spec.containers}" ∧
    jsonPathOf (containerPath "CronJob") = "{.spec.jobTemplate.spec.template.spec.containers}" :=
  ⟨((manifest_and_cluster_paths_agree demoLiveCluster demoDensifyState).2.2 "CronJob"
      (by simp [supportedKinds])).2.1,
   by decide⟩
/-- C30: `ssm.GetInsight` never writes into an absent map.  For every parsed
parameter value, nil included, when the four validation checks pass the
`limits` and `requests` maps exist and the four suffixing assignments
succeed, so that `GetInsight` goes on to read the label; and when one of the
checks fails `GetInsight` returns the error "invalid resource specs received
from repository" before any assignment. -/
theorem ssm_GetInsight_no_nil_write (w : World F)
    (cluster nspace objType objName containerName : String) (s : State) :
    (∀ parsed : Option ResourceSpec,
      (∀ p ∈ leafPaths, ssm.leafInvalid (specLeaf parsed p.1 p.2) = false) →
      HasSections parsed ∧ ∃ spec, ssm.GetInsight_suffix parsed = some spec) ∧
    (∀ insight version s1,
      ssm.getParameterValue w
          (parameterName s.ssmPrefix cluster nspace objType objName containerName) s
        = .ret (insight, version, none) s1 →
      ((∃ p ∈ leafPaths,
          ssm.leafInvalid (specLeaf (decodeSpec (w.jsonParse insight)) p.1 p.2) = true) →
        ssm.GetInsight w cluster nspace objType objName containerName s
          = .ret (none, "", some "invalid resource specs received from repository") s1) ∧
      ((∀ p ∈ leafPaths,
          ssm.leafInvalid (specLeaf (decodeSpec (w.jsonParse insight)) p.1 p.2) = false) →
        ∃ spec, ssm.GetInsight_suffix (decodeSpec (w.jsonParse insight)) = some spec ∧
          ssm.GetInsight w cluster nspace objType objName containerName s =
            match ssm.getParameterLabel w
                (parameterName s.ssmPrefix cluster nspace objType objName containerName)
                version s1 with
            | .panic s2 => .panic s2
            | .ret (_, some _) s2 => .ret (none, "", some "unable to read approval setting") s2
            | .ret (approvalSetting, none) s2 => .ret (spec, approvalSetting, none) s2)) := by
  refine ⟨?_, ?_⟩
  · intro parsed hvalid
    exact ⟨HasSections_of_valid parsed hvalid, GetInsight_suffix_of_valid parsed hvalid⟩
  · intro insight version s1 hval
    refine ⟨?_, ?_⟩
    · intro hbad
      exact ssm_GetInsight_invalid w cluster nspace objType objName containerName s s1 insight
        version hval hbad
    · intro hvalid
      obtain ⟨spec, hspec⟩ := GetInsight_suffix_of_valid _ hvalid
      refine ⟨spec, hspec, ?_⟩
      have e1 := hvalid ("limits", "cpu") (by simp [leafPaths])
      have e2 := hvalid ("limits", "memory") (by simp [leafPaths])
      have e3 := hvalid ("requests", "cpu") (by simp [leafPaths])
      have e4 := hvalid ("requests", "memory") (by simp [leafPaths])
      simp only at e1 e2 e3 e4
      unfold parameterName at hval
      unfold ssm.GetInsight parameterName
      simp only [hval, e1, e2, e3, e4, Bool.false_eq_true, if_false, hspec]

/-- Witness for C30: the stored value is not JSON, so the parsed value is the
nil map; the first check fails and `GetInsight` returns the error.  The
stored value 500/512/250/256 passes the checks and has both maps. -/
theorem ssm_GetInsight_no_nil_write_witness :
    ssm.GetInsight (demoSsm none [.str "Approved"])
        "prod" "payments" "Deployment" "api" "web" demoSsmState
      = .ret (none, "", some "invalid resource specs received from repository") demoSsmState1 ∧
    (HasSections (decodeSpec (some demoStored)) ∧
      ∃ spec, ssm.GetInsight_suffix (decodeSpec (some demoStored)) = some spec) :=
  ⟨((ssm_GetInsight_no_nil_write (demoSsm none [.str "Approved"])
      "prod" "payments" "Deployment" "api" "web" demoSsmState).2 "value" "3" demoSsmState1
      rfl).1 ⟨("limits", "cpu"), by simp [leafPaths], by decide⟩,
   (ssm_GetInsight_no_nil_write (demoSsm none [.str "Approved"])
      "prod" "payments" "Deployment" "api" "web" demoSsmState).1 (decodeSpec (some demoStored))
      (by
        intro p hp
        simp only [leafPaths, List.mem_cons, List.mem_singleton, List.not_mem_nil, or_false]
          at hp
        rcases hp with rfl | rfl | rfl | rfl <;> rfl)⟩

end HelmOptimize
